import Mathlib

/-! # Thomson TO8/TO8D machine core (`src/to8demulator.c`)

A shallow embedding of the machine core of the emulator: the banked memory
map, the bus decoder (`Mputto8d`, `Mgetto8d`), the bank resolvers, the
palette sequencer, the keyboard and joystick surface, the body of the `Run`
loop and the snapshot functions.

Conventions of the embedding.

* A C `char` is held as its bit pattern, a natural number in `0..255`.  The
  source only ever combines a `char` with masks below `0x100`, for which the
  result does not depend on the signedness of `char`; the single place where
  the promotion to `int` is used as an index (`Palettecolor`) goes through
  `charToInt` (signed `char`, as on the targets the emulator is built for).
* A C `int` is an `Int`.  The bitwise operators on `int` are computed on the
  32-bit two's complement pattern (`toU32`, `ofU32`).
* A C pointer into one of the byte arrays is a `Ptr`: the array it points
  into and a (possibly negative) offset.  An access `p[a]` outside the array
  is undefined in C; the embedding returns `none` for it.
* The 6809 CPU, the video renderer and the clock are collaborators outside
  the file.  One CPU instruction is given by the bus accesses it performs and
  the cycle count `Run6809` returns (`CpuStep`); the renderer is a call log.
-/

namespace Theodore

/-! ## Machine integers -/

/-- Bit pattern of a C `int` (32-bit two's complement). -/
def toU32 (x : Int) : Nat := (x % 4294967296).toNat

/-- The C `int` with the given 32-bit pattern. -/
def ofU32 (n : Nat) : Int :=
  if n % 4294967296 < 2147483648 then ((n % 4294967296 : Nat) : Int)
  else ((n % 4294967296 : Nat) : Int) - 4294967296

/-- The C operator `&` on `int`. -/
def iand (x y : Int) : Int := ofU32 (toU32 x &&& toU32 y)

/-- The C operator `|` on `int`. -/
def ior (x y : Int) : Int := ofU32 (toU32 x ||| toU32 y)

/-- The C operator `~` on `int`. -/
def inot (x : Int) : Int := ofU32 (toU32 x ^^^ 4294967295)

/-- The C operator `<<` on `int` (no overflow occurs at any use in the file). -/
def shl (x : Int) (k : Nat) : Int := x * 2 ^ k

/-- The C operator `>>` on `int` (arithmetic shift). -/
def shr (x : Int) (k : Nat) : Int := x / 2 ^ k

/-- Conversion of an `int` to `char`: the low eight bits. -/
def toChar (x : Int) : Nat := (x % 256).toNat

/-- Promotion of a (signed) `char` to `int`. -/
def charToInt (b : Nat) : Int := if b % 256 < 128 then ((b % 256 : Nat) : Int) else ((b % 256 : Nat) : Int) - 256

/-- Array update `f[i] = v`. -/
def setAt {α : Type} (f : Nat → α) (i : Nat) (v : α) : Nat → α :=
  fun j => if j = i then v else f j

/-! ## Data model -/

/-- Modelled from the spec: the enumeration `ThomsonFlavor` of `to8demulator.h`
("Flavor — enumeration {TO8, TO8D}"). -/
inductive ThomsonFlavor where
  | TO8
  | TO8D
  deriving DecidableEq, Repr

/-- The byte arrays a pointer of the file can point into. -/
inductive Region where
  | ram
  | car
  | to8dbasic
  | to8moniteur
  | to8dmoniteur
  deriving DecidableEq, Repr

/-- The patch tables of the ROM headers. -/
inductive PatchTable where
  | to8dbasicpatch
  | to8moniteurpatch
  | to8dmoniteurpatch
  deriving DecidableEq, Repr

/-- Modelled from the spec: `RAM_SIZE` of `to8demulator.h` (`ram[524288]`). -/
def RAM_SIZE : Nat := 524288

/-- Modelled from the spec: `CARTRIDGE_MEM_SIZE` of `to8demulator.h` (`cart[65536]`). -/
def CARTRIDGE_MEM_SIZE : Nat := 65536

/-- Modelled from the spec: `IO_MEM_SIZE` of `to8demulator.h` (`port[64]`). -/
def IO_MEM_SIZE : Nat := 64

/-- Modelled from the spec: size of the BASIC ROM image of `rom/to8dbasic.h`
(four banks of 16 KiB selected by `carflags & 3`). -/
def BASIC_SIZE : Nat := 65536

/-- Modelled from the spec: size of a monitor ROM image of `rom/to8moniteur.h`
and `rom/to8dmoniteur.h` ("two 8 KiB monitor banks"). -/
def MONITOR_SIZE : Nat := 16384

def VBL_NUMBER_MAX : Int := 2

def KEYBOARDKEY_MAX : Nat := 84

def PALETTE_SIZE : Nat := 32

def MAX_SOUND_LEVEL : Nat := 0x3f

/-- Number of bytes of the array behind a region. -/
def Region.size : Region → Nat
  | .ram => RAM_SIZE
  | .car => CARTRIDGE_MEM_SIZE
  | .to8dbasic => BASIC_SIZE
  | .to8moniteur => MONITOR_SIZE
  | .to8dmoniteur => MONITOR_SIZE

/-- A `char *`: an array and an offset into it. -/
structure Ptr where
  base : Region
  off : Int
  deriving DecidableEq, Repr

/-- Modelled from the spec: the video modes of `video.h` selected by `E7DC`. -/
inductive VideoMode where
  | VIDEO_320X16
  | VIDEO_320X4
  | VIDEO_640X2
  | VIDEO_320X4_SPECIAL
  | VIDEO_160X16
  deriving DecidableEq, Repr

/-- A call into the video renderer (`video.h`), which the core treats as a sink. -/
inductive VideoCall where
  | SetVideoMode (m : VideoMode)
  | Palette (i : Int) (r g b : Nat)
  | Displaysegment
  | Nextline
  deriving DecidableEq, Repr

/-- The module-level variables of `to8demulator.c`, the three ROM arrays,
the IRQ input line of the CPU and the log of renderer calls. -/
structure State where
  currentFlavor : ThomsonFlavor
  basic : Region
  basicpatch : PatchTable
  moniteur : Region
  moniteurpatch : PatchTable
  car : Nat → Nat
  ram : Nat → Nat
  port : Nat → Nat
  x7da : Nat → Nat
  to8dbasic : Nat → Nat
  to8moniteur : Nat → Nat
  to8dmoniteur : Nat → Nat
  pagevideo : Option Ptr
  ramvideo : Option Ptr
  ramuser : Option Ptr
  rambank : Option Ptr
  romsys : Option Ptr
  rombank : Option Ptr
  nvideopage : Int
  nvideobank : Int
  nrambank : Int
  nrombank : Int
  nsystbank : Int
  nctrlbank : Int
  cartype : Int
  carflags : Int
  touche : Nat → Int
  capslock : Int
  joysposition : Int
  joysaction : Int
  xpen : Int
  ypen : Int
  penbutton : Int
  videolinecycle : Int
  videolinenumber : Int
  vblnumber : Int
  displayflag : Int
  bordercolor : Int
  sound : Int
  mute : Int
  timer6846 : Int
  latch6846 : Int
  keyb_irqcount : Int
  timer_irqcount : Int
  dc6809_irq : Int
  video : List VideoCall

/-- Contents of the array behind a region. -/
def State.mem (s : State) : Region → Nat → Nat
  | .ram => s.ram
  | .car => s.car
  | .to8dbasic => s.to8dbasic
  | .to8moniteur => s.to8moniteur
  | .to8dmoniteur => s.to8dmoniteur

/-- Assignment `r[i] = c` to the array behind a region. -/
def State.setMem (s : State) (r : Region) (i : Nat) (c : Nat) : State :=
  match r with
  | .ram => { s with ram := setAt s.ram i c }
  | .car => { s with car := setAt s.car i c }
  | .to8dbasic => { s with to8dbasic := setAt s.to8dbasic i c }
  | .to8moniteur => { s with to8moniteur := setAt s.to8moniteur i c }
  | .to8dmoniteur => { s with to8dmoniteur := setAt s.to8dmoniteur i c }

/-- Index into the backing array selected by `p[a]`, when it lies inside it. -/
def index (p : Option Ptr) (a : Int) : Option (Region × Nat) :=
  match p with
  | none => none
  | some q =>
    if 0 ≤ q.off + a ∧ q.off + a < (q.base.size : Int) then some (q.base, (q.off + a).toNat)
    else none

/-- Read `p[a]`. -/
def load (s : State) (p : Option Ptr) (a : Int) : Option Nat :=
  match index p a with
  | none => none
  | some (r, i) => some (s.mem r i)

/-- Write `p[a] = c`. -/
def store (s : State) (p : Option Ptr) (a : Int) (c : Nat) : Option State :=
  match index p a with
  | none => none
  | some (r, i) => some (s.setMem r i c)

/-- Pointer arithmetic `r + k` from the start of an array. -/
def ptr (r : Region) (k : Int) : Option Ptr := some ⟨r, k⟩

/-! ## Sound -/

/-- Conversion of an `int` to `int16_t`: the low sixteen bits, read as a signed
number. -/
def toInt16 (x : Int) : Int := (x + 32768) % 65536 - 32768

/-- The expression returned by `GetAudioSample`, of type `int`, before its
conversion to `int16_t`; the division of C truncates. -/
def GetAudioSampleInt (s : State) : Int :=
  Int.tdiv (s.sound * 65535) (MAX_SOUND_LEVEL : Int) - Int.tdiv 65536 2

def GetAudioSample (s : State) : Int := toInt16 (GetAudioSampleInt s)

/-! ## Bank resolvers -/

def TO8videoram (s : State) : State :=
  let nvideopage : Int := ((s.port 0x03 &&& 1 : Nat) : Int)
  let nsystbank : Int := (((s.port 0x03 &&& 0x10) >>> 4 : Nat) : Int)
  { s with
    nvideopage := nvideopage
    ramvideo := ptr .ram (-0x4000 + shl nvideopage 13)
    nsystbank := nsystbank
    romsys := ptr s.moniteur (-0xe000 + shl nsystbank 13) }

/-- The `switch` of `TO8rambank` on `port[0x09] & 0xf8`; `none` is its `default: return`. -/
def TO8rambankSwitch (v : Nat) : Option Int :=
  if v = 0x08 then some 0
  else if v = 0x10 then some 1
  else if v = 0xe0 then some 2
  else if v = 0xa0 then some 3
  else if v = 0x60 then some 4
  else if v = 0x20 then some 5
  else none

def TO8rambank (s : State) : State :=
  if s.port 0x27 &&& 0x10 ≠ 0 then
    let nrambank : Int := ((s.port 0x25 &&& 0x1f : Nat) : Int)
    { s with nrambank := nrambank, rambank := ptr .ram (-0xa000 + shl nrambank 14) }
  else
    match TO8rambankSwitch (s.port 0x09 &&& 0xf8) with
    | none => s
    | some nrambank =>
      { s with nrambank := nrambank, rambank := ptr .ram (-0x2000 + shl nrambank 14) }

def TO8rombank (s : State) : State :=
  if s.port 0x26 &&& 0x20 ≠ 0 then
    { s with rombank := ptr .ram (shl ((s.port 0x26 &&& 0x1f : Nat) : Int) 14) }
  else if s.port 0x03 &&& 0x04 ≠ 0 then
    let nrombank : Int := iand s.carflags 3
    { s with nrombank := nrombank, rombank := ptr s.basic (shl nrombank 14) }
  else
    { s with nrombank := -1, rombank := ptr .car (shl (iand s.carflags 3) 14) }

def Videopage_bordercolor (c : Nat) (s : State) : State :=
  { s with
    port := setAt s.port 0x1d c
    pagevideo := ptr .ram (shl ((c &&& 0xc0 : Nat) : Int) 8)
    bordercolor := ((c &&& 0x0f : Nat) : Int) }

/-! ## Video mode and palette -/

def SetVideoMode (m : VideoMode) (s : State) : State :=
  { s with video := s.video ++ [VideoCall.SetVideoMode m] }

/-- The `switch(c)` of `TO8videomode`. -/
def TO8videomodeSwitch (c : Nat) : VideoMode :=
  if c = 0x21 then .VIDEO_320X4
  else if c = 0x2a then .VIDEO_640X2
  else if c = 0x41 then .VIDEO_320X4_SPECIAL
  else if c = 0x7b then .VIDEO_160X16
  else .VIDEO_320X16

def TO8videomode (c : Nat) (s : State) : State :=
  SetVideoMode (TO8videomodeSwitch c) { s with port := setAt s.port 0x1c c }

/-- The renderer's palette-entry setter `Palette(n, r, g, b)`. -/
def Palette (n : Int) (r g b : Nat) (s : State) : State :=
  { s with video := s.video ++ [VideoCall.Palette n r g b] }

/-- The first two assignments of `Palettecolor`, for an index `i` inside `x7da`. -/
def PalettecolorLatch (c : Nat) (s : State) : State :=
  { s with x7da := setAt s.x7da (charToInt (s.port 0x1b)).toNat c
           port := setAt s.port 0x1b ((s.port 0x1b + 1) &&& 0x1f) }

/-- The call of `Palette` that commits an entry, for the index `i` the write found. -/
def PalettecolorCommit (i : Int) (c : Nat) (s : State) : State :=
  Palette (shr i 1) (s.x7da (iand i 0x1e).toNat &&& 0x0f)
    ((s.x7da (iand i 0x1e).toNat &&& 0xf0) >>> 4) (c &&& 0x0f) s

/-- Palette write: `none` when `x7da[i]` is indexed outside `0..PALETTE_SIZE-1`. -/
def Palettecolor (c : Nat) (s : State) : Option State :=
  if 0 ≤ charToInt (s.port 0x1b) ∧ charToInt (s.port 0x1b) < (PALETTE_SIZE : Int) then
    if iand (charToInt (s.port 0x1b)) 1 ≠ 0 then
      some (PalettecolorCommit (charToInt (s.port 0x1b)) c (PalettecolorLatch c s))
    else some (PalettecolorLatch c s)
  else none

/-! ## Line and frame synchronisation signals -/

def Iniln (s : State) : Int :=
  if s.videolinecycle < 11 then 0
  else if s.videolinecycle > 51 then 0
  else 0x20

def Initn (s : State) : Int :=
  if s.videolinenumber < 56 then 0
  else if s.videolinenumber > 255 then 0
  else if s.videolinenumber = 56 ∧ s.videolinecycle < 12 then 0
  else if s.videolinenumber = 255 ∧ s.videolinecycle > 50 then 0
  else 0x80

/-! ## Keyboard and joysticks -/

/-- The capslock `switch` of `TO8key`: the scancodes whose case sets `i = 0x80`. -/
def capslockCase (scancode : Int) : Bool :=
  [0x02, 0x03, 0x07, 0x0a, 0x0b, 0x0f, 0x12, 0x13, 0x17, 0x1a, 0x1b, 0x1f, 0x22, 0x23,
   0x27, 0x2a, 0x2b, 0x2f, 0x32, 0x33, 0x3a, 0x3b, 0x42, 0x43, 0x4a, 0x4b].contains scancode

/-- The release branch of `TO8key`, after `touche[scancode] = 0x80`. -/
def TO8keyRelease (s : State) : State :=
  if (List.range 0x50).any (fun i => s.touche i == 0) then s
  else { s with port := setAt s.port 0x08 0x00, keyb_irqcount := 0 }

/-- The shift indicator `i` computed by `TO8key`. -/
def TO8keyShift (scancode : Int) (s : State) : Int :=
  let i : Int := 0
  let i : Int := if s.touche 0x51 = 0 then 0x80 else i
  let i : Int := if s.touche 0x52 = 0 then 0x80 else i
  if s.capslock ≠ 0 ∧ capslockCase scancode then 0x80 else i

/-- The last four assignments of `TO8key`. -/
def TO8keyIrq (s : State) : State :=
  { s with port := setAt (setAt s.port 0x08 (s.port 0x08 ||| 0x01)) 0x00
                     (setAt s.port 0x08 (s.port 0x08 ||| 0x01) 0x00 ||| 0x82)
           keyb_irqcount := 500000
           dc6809_irq := 1 }

/-- The two stores of `TO8key` into the monitor ROM, and the assignments that follow. -/
def TO8keyCode (scancode : Int) (s : State) : Option State :=
  match store s (ptr s.moniteur 0) 0x30f8 (toChar (ior scancode (TO8keyShift scancode s))) with
  | none => none
  | some s1 =>
    match store s1 (ptr s1.moniteur 0) 0x3125 (if s1.touche 0x53 ≠ 0 then 0 else 1) with
    | none => none
    | some s2 => some (TO8keyIrq s2)

/-- The statement `if(scancode == 0x50) capslock = 1 - capslock;` of `TO8key`. -/
def TO8keyCapslock (scancode : Int) (s : State) : State :=
  { s with capslock := if scancode = 0x50 then 1 - s.capslock else s.capslock }

/-- The press branch of `TO8key`, after `touche[scancode] = 0x00`. -/
def TO8keyPress (scancode : Int) (s : State) : Option State :=
  if scancode > 0x4f then some (TO8keyCapslock scancode s)
  else TO8keyCode scancode (TO8keyCapslock scancode s)

/-- The statement `touche[scancode] = down ? 0x00 : 0x80;` of `TO8key`. -/
def TO8keyTouche (scancode : Int) (down : Bool) (s : State) : State :=
  { s with touche := setAt s.touche scancode.toNat (if down then 0x00 else 0x80) }

/-- Key event: `none` when `touche[scancode]` or `moniteur[...]` is indexed
outside its array. -/
def TO8key (scancode : Int) (down : Bool) (s : State) : Option State :=
  if 0 ≤ scancode ∧ scancode < (KEYBOARDKEY_MAX : Int) then
    if (TO8keyTouche scancode down s).touche scancode.toNat ≠ 0 then
      some (TO8keyRelease (TO8keyTouche scancode down s))
    else TO8keyPress scancode (TO8keyTouche scancode down s)
  else none

/-- The direction bit `n` that `Joysemul` selects for an axis below 8: the bit
of the axis, unless the opposite direction is engaged. -/
def JoysemulBit (axis : Nat) (s : State) : Int :=
  if axis = 0 then (if iand s.joysposition 0x02 ≠ 0 then 0x01 else 0)
  else if axis = 1 then (if iand s.joysposition 0x01 ≠ 0 then 0x02 else 0)
  else if axis = 2 then (if iand s.joysposition 0x08 ≠ 0 then 0x04 else 0)
  else if axis = 3 then (if iand s.joysposition 0x04 ≠ 0 then 0x08 else 0)
  else if axis = 4 then (if iand s.joysposition 0x20 ≠ 0 then 0x10 else 0)
  else if axis = 5 then (if iand s.joysposition 0x10 ≠ 0 then 0x20 else 0)
  else if axis = 6 then (if iand s.joysposition 0x80 ≠ 0 then 0x40 else 0)
  else if axis = 7 then (if iand s.joysposition 0x40 ≠ 0 then 0x80 else 0)
  else 0

/-- Modelled from the spec: `JoystickAxis` of `to8demulator.h` is the axis
number ("10 logical axes"); `axis` is that number. -/
def Joysemul (axis : Nat) (isOn : Bool) (s : State) : State :=
  if axis = 8 then
    if !isOn then { s with joysaction := ior s.joysaction 0x40 }
    else { s with joysaction := iand s.joysaction 0xbf }
  else if axis = 9 then
    if !isOn then { s with joysaction := ior s.joysaction 0x80 }
    else { s with joysaction := iand s.joysaction 0x7f }
  else if JoysemulBit axis s > 0 then
    if !isOn then { s with joysposition := ior s.joysposition (JoysemulBit axis s) }
    else { s with joysposition := iand s.joysposition (inot (JoysemulBit axis s)) }
  else s

/-! ## Timer control -/

def Timercontrol (s : State) : State :=
  if s.port 0x05 &&& 0x01 ≠ 0 then { s with timer6846 := shl s.latch6846 3 } else s

/-! ## ROM patching, program initialisation and hard reset -/

/-- The patch tables of the ROM headers (`rom/to8dbasic.h`, `rom/to8moniteur.h`,
`rom/to8dmoniteur.h`), which are data of the build. -/
structure RomHeaders where
  to8dbasicpatch : List Int
  to8moniteurpatch : List Int
  to8dmoniteurpatch : List Int

/-- The `int` array a patch-table pointer points to. -/
def RomHeaders.table (h : RomHeaders) : PatchTable → List Int
  | .to8dbasicpatch => h.to8dbasicpatch
  | .to8moniteurpatch => h.to8moniteurpatch
  | .to8dmoniteurpatch => h.to8dmoniteurpatch

/-- The inner loop `for(j = 0; j < n; j++) rom[a++] = patch[i++]` of `TO8dpatch`:
returns the state and the unread rest of the table. -/
def TO8dpatchBytes (rom : Option Ptr) : Nat → Int → State → List Int → Option (State × List Int)
  | 0, _, s, rest => some (s, rest)
  | _ + 1, _, _, [] => none
  | n + 1, a, s, b :: rest =>
    match store s rom a (toChar b) with
    | none => none
    | some s1 => TO8dpatchBytes rom n (a + 1) s1 rest

/-- The outer loop `while((n = patch[i++]))` of `TO8dpatch`, one record per unit of fuel. -/
def TO8dpatchLoop (rom : Option Ptr) : Nat → State → List Int → Option State
  | 0, _, _ => none
  | _ + 1, _, [] => none
  | fuel + 1, s, n :: rest =>
    if n = 0 then some s
    else
      match rest with
      | a0 :: a1 :: rest2 =>
        match TO8dpatchBytes rom n.toNat (a0 + a1) s rest2 with
        | none => none
        | some (s1, rest3) => TO8dpatchLoop rom fuel s1 rest3
      | _ => none

/-- Patch of a ROM: `none` when the table is read past its end or a byte is
written outside the ROM array.  Every record takes at least one entry of the
table, so the length of the table is enough fuel. -/
def TO8dpatch (rom : Option Ptr) (patch : List Int) (s : State) : Option State :=
  TO8dpatchLoop rom patch.length s patch

/-- The CPU collaborator's `Reset6809()`: it acts on the registers of the CPU,
which are not part of the state of this file. -/
def Reset6809 (s : State) : State := s

/-- The assignments of `Initprog` before the calls of the resolvers. -/
def InitprogVars (s : State) : State :=
  { s with touche := fun i => if i < KEYBOARDKEY_MAX then 0x80 else s.touche i
           joysposition := 0xff
           joysaction := 0xc0
           carflags := iand s.carflags 0xec
           video := s.video ++ [VideoCall.SetVideoMode .VIDEO_320X16]
           ramuser := ptr .ram (-0x2000) }

def Initprog (s : State) : State :=
  Reset6809 (TO8rombank (TO8rambank (TO8videoram
    (Videopage_bordercolor ((InitprogVars s).port 0x1d) (InitprogVars s)))))

/-- The three clearing loops at the head of `Hardreset`, and `port[0x09] = 0x0f`. -/
def HardresetMemory (s : State) : State :=
  { s with
    ram := fun i =>
      if i < RAM_SIZE then toChar (-(((i &&& 0x80) >>> 7 : Nat) : Int)) else s.ram i
    port := setAt (fun i => if i < IO_MEM_SIZE then 0 else s.port i) 0x09 0x0f
    car := fun i => if i < CARTRIDGE_MEM_SIZE then 0 else s.car i }

/-- Successive stores `p[a] = c` for a list of `(a, c)`. -/
def storeAll (p : Option Ptr) : List (Int × Nat) → State → Option State
  | [], s => some s
  | (a, c) :: rest, s =>
    match store s p a c with
    | none => none
    | some s1 => storeAll p rest s1

/-- The date and boot patches of `Hardreset` in the BASIC ROM.  `date` is the
text `strftime` produces for `"%d-%m-%y"` (eight characters), which it writes at
`basic + 0xeb90` followed by the terminating zero. -/
def HardresetDate (date : Nat → Nat) (s : State) : Option State :=
  match storeAll (ptr s.basic 0xeb90)
      [(0, date 0), (1, date 1), (2, date 2), (3, date 3), (4, date 4), (5, date 5),
       (6, date 6), (7, date 7), (8, 0)] s with
  | none => none
  | some s =>
    storeAll (ptr s.basic 0)
      [(0xeb98, 0x1f), (0xe4e2, 0x8e), (0xe4e3, 0x2b), (0xe4e4, 0x90), (0xe4e5, 0xbd),
       (0xe4e6, 0x29), (0xe4e7, 0xc8)] s

/-- The assignments of `Hardreset` before the call of `Initprog`. -/
def HardresetCounters (s : State) : State :=
  { s with nvideobank := 0, nrambank := 0, nsystbank := 0, nctrlbank := 0,
           keyb_irqcount := 0, timer_irqcount := 0,
           videolinecycle := 0, videolinenumber := 0, vblnumber := 0 }

/-- The assignments of `Hardreset` after the call of `Initprog`. -/
def HardresetTail (s : State) : State :=
  { s with latch6846 := 65535, timer6846 := 65535, sound := 0, mute := 0,
           penbutton := 0, capslock := 1 }

/-- Hard reset: `none` when a ROM patch leaves its table or the ROM array. -/
def Hardreset (roms : RomHeaders) (date : Nat → Nat) (s : State) : Option State :=
  let s := HardresetMemory s
  match TO8dpatch (ptr s.basic 0) (roms.table s.basicpatch) s with
  | none => none
  | some s =>
    match TO8dpatch (ptr s.moniteur (-0xe000)) (roms.table s.moniteurpatch) s with
    | none => none
    | some s =>
      match HardresetDate date s with
      | none => none
      | some s => some (HardresetTail (Initprog (HardresetCounters s)))

def SetThomsonFlavor (roms : RomHeaders) (date : Nat → Nat) (flavor : ThomsonFlavor)
    (s : State) : Option State :=
  if flavor ≠ s.currentFlavor then
    let s :=
      match flavor with
      | .TO8D =>
        { s with basic := .to8dbasic, basicpatch := .to8dbasicpatch,
                 moniteur := .to8dmoniteur, moniteurpatch := .to8dmoniteurpatch }
      | .TO8 =>
        { s with basic := .to8dbasic, basicpatch := .to8dbasicpatch,
                 moniteur := .to8moniteur, moniteurpatch := .to8moniteurpatch }
    Hardreset roms date { s with currentFlavor := flavor }
  else some s

/-- The module-level variables at program start: zero-initialised, except the
flavor and ROM pointers, which have initialisers. -/
def programStart (basic moniteurTO8 moniteurTO8D : Nat → Nat) : State :=
  { currentFlavor := .TO8, basic := .to8dbasic, basicpatch := .to8dbasicpatch,
    moniteur := .to8moniteur, moniteurpatch := .to8moniteurpatch,
    car := fun _ => 0, ram := fun _ => 0, port := fun _ => 0, x7da := fun _ => 0,
    to8dbasic := basic, to8moniteur := moniteurTO8, to8dmoniteur := moniteurTO8D,
    pagevideo := none, ramvideo := none, ramuser := none, rambank := none,
    romsys := none, rombank := none,
    nvideopage := 0, nvideobank := 0, nrambank := 0, nrombank := 0, nsystbank := 0,
    nctrlbank := 0, cartype := 0, carflags := 0, touche := fun _ => 0, capslock := 0,
    joysposition := 0, joysaction := 0, xpen := 0, ypen := 0, penbutton := 0,
    videolinecycle := 0, videolinenumber := 0, vblnumber := 0, displayflag := 0,
    bordercolor := 0, sound := 0, mute := 0, timer6846 := 0, latch6846 := 0,
    keyb_irqcount := 0, timer_irqcount := 0, dc6809_irq := 0, video := [] }

/-! ## The bus -/

/-- Case `0xe7c0` of `Mputto8d`. -/
def MputE7C0 (c : Nat) (s : State) : State := { s with port := setAt s.port 0x00 c }

/-- Case `0xe7c1` of `Mputto8d`. -/
def MputE7C1 (c : Nat) (s : State) : State :=
  { s with port := setAt s.port 0x01 c, mute := ((c &&& 8 : Nat) : Int) }

/-- Case `0xe7c3` of `Mputto8d`. -/
def MputE7C3 (c : Nat) (s : State) : State :=
  TO8rombank (TO8videoram
    { s with port := setAt s.port 0x03 (c &&& 0x3d)
             keyb_irqcount := if c &&& 0x20 = 0 then 0 else s.keyb_irqcount })

/-- Case `0xe7c5` of `Mputto8d`. -/
def MputE7C5 (c : Nat) (s : State) : State :=
  Timercontrol { s with port := setAt s.port 0x05 c }

/-- Case `0xe7c6` of `Mputto8d`. -/
def MputE7C6 (c : Nat) (s : State) : State :=
  { s with latch6846 := ior (iand s.latch6846 0xff) (shl ((c &&& 0xff : Nat) : Int) 8) }

/-- Case `0xe7c7` of `Mputto8d`. -/
def MputE7C7 (c : Nat) (s : State) : State :=
  { s with latch6846 := ior (iand s.latch6846 0xff00) ((c &&& 0xff : Nat) : Int) }

/-- Case `0xe7c9` of `Mputto8d`. -/
def MputE7C9 (c : Nat) (s : State) : State :=
  TO8rambank { s with port := setAt s.port 0x09 c }

/-- Case `0xe7cc` of `Mputto8d`. -/
def MputE7CC (c : Nat) (s : State) : State := { s with port := setAt s.port 0x0c c }

/-- Case `0xe7cd` of `Mputto8d`. -/
def MputE7CD (c : Nat) (s : State) : State :=
  if s.port 0x0f &&& 4 ≠ 0 then { s with sound := ((c &&& MAX_SOUND_LEVEL : Nat) : Int) }
  else { s with port := setAt s.port 0x0d c }

/-- Case `0xe7ce` of `Mputto8d`. -/
def MputE7CE (c : Nat) (s : State) : State := { s with port := setAt s.port 0x0e c }

/-- Case `0xe7cf` of `Mputto8d`. -/
def MputE7CF (c : Nat) (s : State) : State := { s with port := setAt s.port 0x0f c }

/-- Case `0xe7db` of `Mputto8d`. -/
def MputE7DB (c : Nat) (s : State) : State := { s with port := setAt s.port 0x1b c }

/-- Case `0xe7e4` of `Mputto8d`. -/
def MputE7E4 (c : Nat) (s : State) : State := { s with port := setAt s.port 0x24 c }

/-- Case `0xe7e5` of `Mputto8d`. -/
def MputE7E5 (c : Nat) (s : State) : State :=
  TO8rambank { s with port := setAt s.port 0x25 c }

/-- Case `0xe7e6` of `Mputto8d`. -/
def MputE7E6 (c : Nat) (s : State) : State :=
  TO8rombank { s with port := setAt s.port 0x26 c }

/-- Case `0xe7e7` of `Mputto8d`. -/
def MputE7E7 (c : Nat) (s : State) : State :=
  TO8rambank { s with port := setAt s.port 0x27 c }

/-- The `switch(a)` of `Mputto8d` for the page `0xe000..0xefff`. -/
def MputPage (a c : Nat) (s : State) : Option State :=
  if a = 0xe7c0 then some (MputE7C0 c s)
  else if a = 0xe7c1 then some (MputE7C1 c s)
  else if a = 0xe7c3 then some (MputE7C3 c s)
  else if a = 0xe7c5 then some (MputE7C5 c s)
  else if a = 0xe7c6 then some (MputE7C6 c s)
  else if a = 0xe7c7 then some (MputE7C7 c s)
  else if a = 0xe7c9 then some (MputE7C9 c s)
  else if a = 0xe7cc then some (MputE7CC c s)
  else if a = 0xe7cd then some (MputE7CD c s)
  else if a = 0xe7ce then some (MputE7CE c s)
  else if a = 0xe7cf then some (MputE7CF c s)
  else if a = 0xe7d8 then some s
  else if a = 0xe7da then Palettecolor c s
  else if a = 0xe7db then some (MputE7DB c s)
  else if a = 0xe7dc then some (TO8videomode c s)
  else if a = 0xe7dd then some (Videopage_bordercolor c s)
  else if a = 0xe7e4 then some (MputE7E4 c s)
  else if a = 0xe7e5 then some (MputE7E5 c s)
  else if a = 0xe7e6 then some (MputE7E6 c s)
  else if a = 0xe7e7 then some (MputE7E7 c s)
  else some s

/-- The bank switch by write address of `Mputto8d`, cases `0x0` and `0x1`:
`carflags = (carflags & 0xfc) | (a & 3); TO8rombank();`. -/
def MputBankSwitch (a : Nat) (s : State) : State :=
  TO8rombank { s with carflags := ior (iand s.carflags 0xfc) ((a &&& 3 : Nat) : Int) }

/-- Bus write of the `char` `c` at the 16-bit address `a`. -/
def Mputto8d (a c : Nat) (s : State) : Option State :=
  let n := a >>> 12
  if n = 0x0 ∨ n = 0x1 then
    let s := if ¬ (s.port 0x26 &&& 0x20 ≠ 0) then MputBankSwitch a s else s
    if s.port 0x26 &&& 0x60 ≠ 0x60 then some s
    else if s.port 0x26 &&& 0x20 ≠ 0 then store s s.rombank ((a : Int) + 0x2000) c
    else store s s.rombank (a : Int) c
  else if n = 0x2 ∨ n = 0x3 then
    if s.port 0x26 &&& 0x60 ≠ 0x60 then some s
    else if s.port 0x26 &&& 0x20 ≠ 0 then store s s.rombank ((a : Int) - 0x2000) c
    else store s s.rombank (a : Int) c
  else if n = 0x4 ∨ n = 0x5 then store s s.ramvideo (a : Int) c
  else if n = 0x6 ∨ n = 0x7 ∨ n = 0x8 ∨ n = 0x9 then store s s.ramuser (a : Int) c
  else if n = 0xa ∨ n = 0xb ∨ n = 0xc ∨ n = 0xd then store s s.rambank (a : Int) c
  else if n = 0xe then MputPage a c s
  else some s

/-- The increment `port[0x1b]++` of case `0xe7da` of `Mgetto8d`. -/
def MgetE7DA (s : State) : State :=
  { s with port := setAt s.port 0x1b ((s.port 0x1b + 1) % 256) }

/-- The assignment `port[0x1e] = 0` of case `0xe7df` of `Mgetto8d`. -/
def MgetE7DF (s : State) : State := { s with port := setAt s.port 0x1e 0 }

/-- The `switch(a)` of `Mgetto8d` for the page `0xe000..0xefff`: the byte read
and the state after the read. -/
def MgetPage (a : Nat) (s : State) : Option (Nat × State) :=
  if a = 0xe7c0 then some (if s.port 0 ≠ 0 then s.port 0 ||| 0x80 else 0, s)
  else if a = 0xe7c3 then
    some (toChar (ior (ior (s.port 0x03 : Int) 0x80) (shl s.penbutton 1)), s)
  else if a = 0xe7c6 then some (toChar (iand (shr s.timer6846 11) 0xff), s)
  else if a = 0xe7c7 then some (toChar (iand (shr s.timer6846 3) 0xff), s)
  else if a = 0xe7ca then some (if s.videolinenumber < 200 then 0 else 2, s)
  else if a = 0xe7cc then
    some (if s.port 0x0e &&& 4 ≠ 0 then toChar s.joysposition else s.port 0x0c, s)
  else if a = 0xe7cd then
    some (if s.port 0x0f &&& 4 ≠ 0 then toChar (ior s.joysaction s.sound) else s.port 0x0d, s)
  else if a = 0xe7ce then some (0x04, s)
  else if a = 0xe7da then some (s.x7da (s.port 0x1b &&& 0x1f), MgetE7DA s)
  else if a = 0xe7df then some (s.port 0x1f, MgetE7DF s)
  else if a = 0xe7e4 then some (s.port 0x1d &&& 0xf0, s)
  else if a = 0xe7e5 then some (s.port 0x25 &&& 0x1f, s)
  else if a = 0xe7e6 then some (s.port 0x26 &&& 0x7f, s)
  else if a = 0xe7e7 then
    some (toChar (ior (ior ((s.port 0x24 &&& 0x01 : Nat) : Int) (Initn s)) (Iniln s)), s)
  else if a < 0xe7c0 then (load s s.romsys (a : Int)).map (fun v => (v, s))
  else if a < 0xe800 then some (s.port (a &&& 0x3f), s)
  else (load s s.romsys (a : Int)).map (fun v => (v, s))

/-- Bus read at the 16-bit address `a`: the byte read and the state after the read. -/
def Mgetto8d (a : Nat) (s : State) : Option (Nat × State) :=
  let n := a >>> 12
  if n = 0x0 ∨ n = 0x1 then
    (if s.port 0x26 &&& 0x20 ≠ 0 then load s s.rombank ((a : Int) + 0x2000)
     else load s s.rombank (a : Int)).map (fun v => (v, s))
  else if n = 0x2 ∨ n = 0x3 then
    (if s.port 0x26 &&& 0x20 ≠ 0 then load s s.rombank ((a : Int) - 0x2000)
     else load s s.rombank (a : Int)).map (fun v => (v, s))
  else if n = 0x4 ∨ n = 0x5 then (load s s.ramvideo (a : Int)).map (fun v => (v, s))
  else if n = 0x6 ∨ n = 0x7 ∨ n = 0x8 ∨ n = 0x9 then
    (load s s.ramuser (a : Int)).map (fun v => (v, s))
  else if n = 0xa ∨ n = 0xb ∨ n = 0xc ∨ n = 0xd then
    (load s s.rambank (a : Int)).map (fun v => (v, s))
  else if n = 0xe then MgetPage a s
  else (load s s.romsys (a : Int)).map (fun v => (v, s))

/-! ## The run loop -/

/-- A bus access issued by the CPU (or by the host handler of a special opcode). -/
inductive BusOp where
  | get (a : Nat)
  | put (a c : Nat)
  deriving DecidableEq, Repr

/-- A bus access is well formed when its address is 16-bit and its datum a byte. -/
def BusOp.wf : BusOp → Prop
  | .get a => a < 65536
  | .put a c => a < 65536 ∧ c < 256

instance (op : BusOp) : Decidable op.wf := by
  cases op <;> unfold BusOp.wf <;> infer_instance

/-- The effect of one bus access on the machine. -/
def busOp (op : BusOp) (s : State) : Option State :=
  match op with
  | .get a => (Mgetto8d a s).map Prod.snd
  | .put a c => Mputto8d a c s

/-- The effect of a sequence of bus accesses. -/
def busOps : List BusOp → State → Option State
  | [], s => some s
  | op :: rest, s =>
    match busOp op s with
    | none => none
    | some s1 => busOps rest s1

/-- One call of `Run6809()` (followed by `RunIoOpcode` for a special opcode), as
seen from this file: the bus accesses performed and the value returned. -/
structure CpuStep where
  ops : List BusOp
  cycles : Int

/-- The cycle count `opcycles` the loop of `Run` uses for a step. -/
def CpuStep.opcycles (st : CpuStep) : Int := if st.cycles < 0 then 64 else st.cycles

/-- Lines 432-433 of `Run`: `videolinecycle += opcycles; if(displayflag) Displaysegment();`. -/
def RunVideoCycle (opcycles : Int) (s : State) : State :=
  { s with videolinecycle := s.videolinecycle + opcycles
           video := if s.displayflag ≠ 0 then s.video ++ [VideoCall.Displaysegment] else s.video }

/-- Lines 436-437 of `Run`: `videolinecycle -= 64; if(displayflag) Nextline();`. -/
def RunVideoEndLine (s : State) : State :=
  { s with videolinecycle := s.videolinecycle - 64
           video := if s.displayflag ≠ 0 then s.video ++ [VideoCall.Nextline] else s.video }

/-- Lines 438-446 of `Run`: the line counter, its wrap-around and the frame counter. -/
def RunVideoNextLine (s : State) : State :=
  if s.videolinenumber + 1 > 311 then
    { s with videolinenumber := s.videolinenumber + 1 - 312
             vblnumber := if s.vblnumber + 1 ≥ VBL_NUMBER_MAX then 0 else s.vblnumber + 1 }
  else { s with videolinenumber := s.videolinenumber + 1 }

/-- Lines 447-451 of `Run`: the display flag of the new line. -/
def RunVideoFlag (s : State) : State :=
  { s with displayflag :=
      if s.vblnumber = 0 ∧ s.videolinenumber > 47 ∧ s.videolinenumber < 264 then 1 else 0 }

/-- Lines 432-452 of `Run`: the video counters. -/
def RunVideo (opcycles : Int) (s : State) : State :=
  if (RunVideoCycle opcycles s).videolinecycle ≥ 64 then
    RunVideoFlag (RunVideoNextLine (RunVideoEndLine (RunVideoCycle opcycles s)))
  else RunVideoCycle opcycles s

/-- Line 454 of `Run`. -/
def RunTimerIrqCount (opcycles : Int) (s : State) : State :=
  if s.timer_irqcount > 0 then { s with timer_irqcount := s.timer_irqcount - opcycles } else s

/-- Line 455 of `Run`. -/
def RunTimerIrqClear (s : State) : State :=
  if s.timer_irqcount ≤ 0 then { s with port := setAt s.port 0x00 (s.port 0x00 &&& 0xfe) } else s

/-- Line 457 of `Run`. -/
def RunKeybIrqCount (opcycles : Int) (s : State) : State :=
  if s.keyb_irqcount > 0 then { s with keyb_irqcount := s.keyb_irqcount - opcycles } else s

/-- Line 458 of `Run`. -/
def RunKeybIrqClear (s : State) : State :=
  if s.keyb_irqcount ≤ 0 then { s with port := setAt s.port 0x00 (s.port 0x00 &&& 0xfd) } else s

/-- Line 460 of `Run`. -/
def RunIrqComposite (s : State) : State :=
  if s.port 0x00 &&& 0x07 = 0 then
    { s with port := setAt s.port 0x00 (s.port 0x00 &&& 0x7f), dc6809_irq := 0 }
  else s

/-- Lines 453-460 of `Run`: decay of the two IRQ sources and the composite bit. -/
def RunIrq (opcycles : Int) (s : State) : State :=
  RunIrqComposite (RunKeybIrqClear (RunKeybIrqCount opcycles
    (RunTimerIrqClear (RunTimerIrqCount opcycles s))))

/-- Lines 461-463 of `Run`: countdown of the 6846 timer. -/
def RunCountdown (opcycles : Int) (s : State) : State :=
  if s.port 0x05 &&& 0x01 = 0 then
    { s with timer6846 :=
        s.timer6846 - (if s.port 0x05 &&& 0x04 ≠ 0 then opcycles else shl opcycles 3) }
  else s

/-- Lines 464-471 of `Run`: the timer fires. -/
def RunTimeout (s : State) : State :=
  if s.timer6846 ≤ 5 then
    { s with timer_irqcount := 100
             timer6846 := shl s.latch6846 3
             port := setAt s.port 0x00 (s.port 0x00 ||| 0x81)
             dc6809_irq := 1 }
  else s

/-- The part of the loop body of `Run` after the CPU step returned `opcycles`. -/
def RunAfterStep (opcycles : Int) (s : State) : State :=
  RunTimeout (RunCountdown opcycles (RunIrq opcycles (RunVideo opcycles s)))

/-- Whether the iteration of `Run` that starts after the CPU step in `s` takes
the branch `timer6846 <= 5` (the timer fires). -/
def RunFires (opcycles : Int) (s : State) : Bool :=
  decide ((RunCountdown opcycles (RunIrq opcycles (RunVideo opcycles s))).timer6846 ≤ 5)

/-- One iteration of the loop of `Run`: `none` when a bus access of the CPU step
leaves an array. -/
def RunIteration (st : CpuStep) (s : State) : Option State :=
  match busOps st.ops s with
  | none => none
  | some s1 => some (RunAfterStep st.opcycles s1)

/-- Successive iterations of the loop of `Run`, one per CPU step. -/
def RunIterations : List CpuStep → State → Option State
  | [], s => some s
  | st :: rest, s =>
    match RunIteration st s with
    | none => none
    | some s1 => RunIterations rest s1

/-- Iterations of the loop of `Run` up to and including the first one in which
the timer fires.  `ncycles` is the running cycle count of `Run`; the result is
the cycle count at the end of the firing iteration, the cycle count of that
iteration's instruction and the state.  `none` when a bus access faults or the
steps run out before the timer fires. -/
def RunUntilFire : List CpuStep → Int → State → Option (Int × Int × State)
  | [], _, _ => none
  | st :: rest, ncycles, s =>
    match busOps st.ops s with
    | none => none
    | some s1 =>
      if RunFires st.opcycles s1 then
        some (ncycles + st.opcycles, st.opcycles, RunAfterStep st.opcycles s1)
      else RunUntilFire rest (ncycles + st.opcycles) (RunAfterStep st.opcycles s1)

/-- The loop of `Run` from the running count `ncycles`: the result is the value
returned, the state and the steps the CPU has not executed.  `none` when a bus
access faults or the steps run out while `ncycles < ncyclesmax`. -/
def RunLoop (ncyclesmax : Int) : List CpuStep → Int → State →
    Option (Int × State × List CpuStep)
  | [], ncycles, s =>
    if ncycles < ncyclesmax then none else some (ncycles - ncyclesmax, s, [])
  | st :: rest, ncycles, s =>
    if ncycles < ncyclesmax then
      match RunIteration st s with
      | none => none
      | some s1 => RunLoop ncyclesmax rest (ncycles + st.opcycles) s1
    else some (ncycles - ncyclesmax, s, st :: rest)

/-- The function `Run(ncyclesmax)`, the CPU executing the steps of the list in order. -/
def Run (steps : List CpuStep) (ncyclesmax : Int) (s : State) :
    Option (Int × State × List CpuStep) :=
  RunLoop ncyclesmax steps 0 s

/-! ## Snapshot -/

/-- The buffer of `to8d_serialize`, field by field in the order of the `memcpy`
calls.  An array field holds the bytes copied (`sizeof` of the array); an `int`
field holds the value copied.  The blocks written by `cpu_serialize` and
`video_serialize` belong to the collaborators. -/
structure Snapshot where
  currentFlavor : ThomsonFlavor
  cpu : List Nat
  videoBlock : List Nat
  ram : Nat → Nat
  port : Nat → Nat
  x7da : Nat → Nat
  nvideopage : Int
  nvideobank : Int
  nrambank : Int
  nrombank : Int
  nsystbank : Int
  nctrlbank : Int
  carflags : Int
  touche : Nat → Int
  capslock : Int
  joysposition : Int
  joysaction : Int
  xpen : Int
  ypen : Int
  penbutton : Int
  videolinecycle : Int
  videolinenumber : Int
  vblnumber : Int
  displayflag : Int
  bordercolor : Int
  sound : Int
  mute : Int
  timer6846 : Int
  latch6846 : Int
  keyb_irqcount : Int
  timer_irqcount : Int

/-- The call `memcpy(buffer, arr, n)` out of an array of `n` elements. -/
def copyOut {α : Type} (n : Nat) (arr : Nat → α) (zero : α) : Nat → α :=
  fun i => if i < n then arr i else zero

/-- The call `memcpy(arr, buffer, n)` into an array of `n` elements. -/
def copyIn {α : Type} (n : Nat) (buf : Nat → α) (arr : Nat → α) : Nat → α :=
  fun i => if i < n then buf i else arr i

/-- Snapshot of the machine; `cpu` and `videoBlock` are the blocks the CPU and
the renderer write for their own state. -/
def to8d_serialize (cpu videoBlock : List Nat) (s : State) : Snapshot :=
  { currentFlavor := s.currentFlavor, cpu := cpu, videoBlock := videoBlock,
    ram := copyOut RAM_SIZE s.ram 0, port := copyOut IO_MEM_SIZE s.port 0,
    x7da := copyOut PALETTE_SIZE s.x7da 0,
    nvideopage := s.nvideopage, nvideobank := s.nvideobank, nrambank := s.nrambank,
    nrombank := s.nrombank, nsystbank := s.nsystbank, nctrlbank := s.nctrlbank,
    carflags := s.carflags, touche := copyOut KEYBOARDKEY_MAX s.touche 0,
    capslock := s.capslock, joysposition := s.joysposition, joysaction := s.joysaction,
    xpen := s.xpen, ypen := s.ypen, penbutton := s.penbutton,
    videolinecycle := s.videolinecycle, videolinenumber := s.videolinenumber,
    vblnumber := s.vblnumber, displayflag := s.displayflag, bordercolor := s.bordercolor,
    sound := s.sound, mute := s.mute, timer6846 := s.timer6846, latch6846 := s.latch6846,
    keyb_irqcount := s.keyb_irqcount, timer_irqcount := s.timer_irqcount }

/-- The `memcpy` calls of `to8d_unserialize` that follow `SetThomsonFlavor`. -/
def unserializeFields (b : Snapshot) (s : State) : State :=
  { s with
    ram := copyIn RAM_SIZE b.ram s.ram, port := copyIn IO_MEM_SIZE b.port s.port,
    x7da := copyIn PALETTE_SIZE b.x7da s.x7da,
    nvideopage := b.nvideopage, nvideobank := b.nvideobank, nrambank := b.nrambank,
    nrombank := b.nrombank, nsystbank := b.nsystbank, nctrlbank := b.nctrlbank,
    carflags := b.carflags, touche := copyIn KEYBOARDKEY_MAX b.touche s.touche,
    capslock := b.capslock, joysposition := b.joysposition, joysaction := b.joysaction,
    xpen := b.xpen, ypen := b.ypen, penbutton := b.penbutton,
    videolinecycle := b.videolinecycle, videolinenumber := b.videolinenumber,
    vblnumber := b.vblnumber, displayflag := b.displayflag, bordercolor := b.bordercolor,
    sound := b.sound, mute := b.mute, timer6846 := b.timer6846, latch6846 := b.latch6846,
    keyb_irqcount := b.keyb_irqcount, timer_irqcount := b.timer_irqcount }

/-- The four calls that end `to8d_unserialize`. -/
def unserializeResolve (s : State) : State :=
  TO8rombank (TO8rambank (TO8videoram (Videopage_bordercolor (s.port 0x1d) s)))

/-- Restore of a snapshot into the machine: `none` when the hard reset of a
flavor change faults. -/
def to8d_unserialize (roms : RomHeaders) (date : Nat → Nat) (b : Snapshot) (s : State) :
    Option State :=
  match SetThomsonFlavor roms date b.currentFlavor s with
  | none => none
  | some s1 => some (unserializeResolve (unserializeFields b s1))

/-! ## Reachable states -/

/-- One public operation of the core, or one bus access of the CPU.  The
predicate `ok` restricts the bus accesses that are allowed. -/
inductive Step (roms : RomHeaders) (ok : BusOp → Prop) : State → State → Prop where
  | put {s s1 : State} (a c : Nat) : a < 65536 → c < 256 → ok (.put a c) →
      Mputto8d a c s = some s1 → Step roms ok s s1
  | get {s s1 : State} (a v : Nat) : a < 65536 → ok (.get a) →
      Mgetto8d a s = some (v, s1) → Step roms ok s s1
  | run {s s1 : State} (st : CpuStep) : (∀ op ∈ st.ops, op.wf ∧ ok op) →
      RunIteration st s = some s1 → Step roms ok s s1
  | key {s s1 : State} (scancode : Int) (down : Bool) :
      TO8key scancode down s = some s1 → Step roms ok s s1
  | joy {s : State} (axis : Nat) (isOn : Bool) : axis < 10 →
      Step roms ok s (Joysemul axis isOn s)
  | reset {s s1 : State} (date : Nat → Nat) :
      Hardreset roms date s = some s1 → Step roms ok s s1
  | flavor {s s1 : State} (date : Nat → Nat) (f : ThomsonFlavor) :
      SetThomsonFlavor roms date f s = some s1 → Step roms ok s s1

/-- States reachable from the hard reset that follows program start, by public
operations and bus accesses allowed by `ok`. -/
inductive ReachableBy (roms : RomHeaders) (ok : BusOp → Prop) : State → Prop where
  | start {s : State} (basic moniteurTO8 moniteurTO8D date : Nat → Nat) :
      Hardreset roms date (programStart basic moniteurTO8 moniteurTO8D) = some s →
      ReachableBy roms ok s
  | step {s s1 : State} : ReachableBy roms ok s → Step roms ok s s1 → ReachableBy roms ok s1

/-- States reachable from hard reset, with no restriction on the bus accesses. -/
def Reachable (roms : RomHeaders) (s : State) : Prop := ReachableBy roms (fun _ => True) s

/-! ## Invariants of the reachable states -/

/-- The active windows are what the resolvers compute from the current ports
(`TO8videoram`, the TO8 branch of `TO8rambank`, `TO8rombank`). -/
structure Windows (s : State) : Prop where
  nvideopage : s.nvideopage = ((s.port 0x03 &&& 1 : Nat) : Int)
  ramvideo : s.ramvideo = ptr .ram (-0x4000 + shl s.nvideopage 13)
  nsystbank : s.nsystbank = (((s.port 0x03 >>> 4) &&& 1 : Nat) : Int)
  romsys : s.romsys = ptr s.moniteur (-0xe000 + shl s.nsystbank 13)
  rambank : s.port 0x27 &&& 0x10 ≠ 0 →
    s.nrambank = ((s.port 0x25 &&& 0x1f : Nat) : Int) ∧
    s.rambank = ptr .ram (-0xa000 + shl s.nrambank 14)
  rombank : s.rombank =
    if s.port 0x26 &&& 0x20 ≠ 0 then ptr .ram (shl ((s.port 0x26 &&& 0x1f : Nat) : Int) 14)
    else if s.port 0x03 &&& 0x04 ≠ 0 then ptr s.basic (shl (iand s.carflags 3) 14)
    else ptr .car (shl (iand s.carflags 3) 14)

/-- The video and system windows agree with `port[0x03]`. -/
def VideoOK (s : State) : Prop :=
  s.nvideopage = ((s.port 0x03 &&& 1 : Nat) : Int) ∧
  s.ramvideo = ptr .ram (-0x4000 + shl s.nvideopage 13) ∧
  s.nsystbank = (((s.port 0x03 >>> 4) &&& 1 : Nat) : Int) ∧
  s.romsys = ptr s.moniteur (-0xe000 + shl s.nsystbank 13)

/-- The RAM bank window lies in `ram`, and agrees with the ports whenever the
ports select a bank. -/
def RamOK (s : State) : Prop :=
  (s.port 0x27 &&& 0x10 ≠ 0 →
    s.nrambank = ((s.port 0x25 &&& 0x1f : Nat) : Int) ∧
    s.rambank = ptr .ram (-0xa000 + shl s.nrambank 14)) ∧
  (∃ n : Int, 0 ≤ n ∧ n < 32 ∧
    (s.rambank = ptr .ram (-0xa000 + shl n 14) ∨
      (n < 6 ∧ s.rambank = ptr .ram (-0x2000 + shl n 14)))) ∧
  (s.port 0x27 &&& 0x10 = 0 → ∀ n : Int,
    TO8rambankSwitch (s.port 0x09 &&& 0xf8) = some n →
      s.nrambank = n ∧ s.rambank = ptr .ram (-0x2000 + shl n 14))

/-- The ROM window agrees with the ports and `carflags`. -/
def RomOK (s : State) : Prop :=
  (s.rombank =
    if s.port 0x26 &&& 0x20 ≠ 0 then ptr .ram (shl ((s.port 0x26 &&& 0x1f : Nat) : Int) 14)
    else if s.port 0x03 &&& 0x04 ≠ 0 then ptr s.basic (shl (iand s.carflags 3) 14)
    else ptr .car (shl (iand s.carflags 3) 14)) ∧
  (s.port 0x26 &&& 0x20 = 0 →
    s.nrombank = (if s.port 0x03 &&& 0x04 ≠ 0 then iand s.carflags 3 else -1))

/-- The ROM pointers and patch tables are those of the current flavor. -/
def FlavorOK (s : State) : Prop :=
  s.basic = .to8dbasic ∧ s.basicpatch = .to8dbasicpatch ∧
  s.moniteur = (if s.currentFlavor = .TO8 then .to8moniteur else .to8dmoniteur) ∧
  s.moniteurpatch =
    (if s.currentFlavor = .TO8 then .to8moniteurpatch else .to8dmoniteurpatch)

/-- The displayed page and the border colour agree with `port[0x1d]`. -/
def PageOK (s : State) : Prop :=
  s.bordercolor = ((s.port 0x1d &&& 0x0f : Nat) : Int) ∧
  s.pagevideo = ptr .ram (shl ((s.port 0x1d &&& 0xc0 : Nat) : Int) 8)

/-- Relations between the module variables that hold after a hard reset and are
kept by every operation. -/
structure Inv (s : State) : Prop where
  video : VideoOK s
  ram : RamOK s
  rom : RomOK s
  flavor : FlavorOK s
  carflags : 0 ≤ s.carflags ∧ s.carflags < 256
  ramuser : s.ramuser = ptr .ram (-0x2000)
  page : PageOK s

/-- The state with the five byte arrays blanked: what remains are the module
variables that no memory store can change. -/
def State.regs (s : State) : State :=
  { s with ram := fun _ => 0, car := fun _ => 0, to8dbasic := fun _ => 0,
           to8moniteur := fun _ => 0, to8dmoniteur := fun _ => 0 }

/-- The contents of the five byte arrays. -/
def State.memory (s : State) :
    (Nat → Nat) × (Nat → Nat) × (Nat → Nat) × (Nat → Nat) × (Nat → Nat) :=
  (s.ram, s.car, s.to8dbasic, s.to8moniteur, s.to8dmoniteur)

/-- The three bank resolvers, run in the order of `Initprog` and `to8d_unserialize`. -/
def resolve (s : State) : State := TO8rombank (TO8rambank (TO8videoram s))

/-- The relation of the composite flag: bit 7 of `port[0x00]` is set iff one of
its three low bits is. -/
def CsrOK (s : State) : Prop := s.port 0x00 &&& 0x80 ≠ 0 ↔ s.port 0x00 &&& 0x07 ≠ 0

/-- The bus accesses other than a write to `E7C0`. -/
def notCsrWrite (op : BusOp) : Prop := ∀ c, op ≠ .put 0xe7c0 c

/-- The value of `port[0x00]` after lines 455 and 458 of `Run`, when the timer
flag is cleared iff `c1` and the keyboard flag iff `c2`. -/
def irqClear (p : Nat) (c1 c2 : Bool) : Nat :=
  if c2 then (if c1 then p &&& 0xfe else p) &&& 0xfd else (if c1 then p &&& 0xfe else p)

/-- The bus accesses other than a write to a register of the 6846 timer
(`E7C5`, `E7C6`, `E7C7`). -/
def notTimerWrite (op : BusOp) : Prop :=
  ∀ c, op ≠ .put 0xe7c5 c ∧ op ≠ .put 0xe7c6 c ∧ op ≠ .put 0xe7c7 c

/-- The bank indices and the border colour are those the resolvers and
`Videopage_bordercolor` compute from the ports and `carflags`. -/
structure Resolved (s : State) : Prop where
  bordercolor : s.bordercolor = ((s.port 0x1d &&& 0x0f : Nat) : Int)
  nvideopage : s.nvideopage = ((s.port 0x03 &&& 1 : Nat) : Int)
  nsystbank : s.nsystbank = (((s.port 0x03 &&& 0x10) >>> 4 : Nat) : Int)
  nrambank : (TO8rambank s).nrambank = s.nrambank
  nrombank : (TO8rombank s).nrombank = s.nrombank

/-- The bus accesses other than a write to `E7C0` or to `E7C3`. -/
def notKeybWrite (op : BusOp) : Prop := ∀ c, op ≠ .put 0xe7c0 c ∧ op ≠ .put 0xe7c3 c

/-- In each of the four pairs of opposite direction bits of `joysposition`, at
least one bit is set. -/
def JoyPairs (s : State) : Prop :=
  (iand s.joysposition 0x01 ≠ 0 ∨ iand s.joysposition 0x02 ≠ 0) ∧
  (iand s.joysposition 0x04 ≠ 0 ∨ iand s.joysposition 0x08 ≠ 0) ∧
  (iand s.joysposition 0x10 ≠ 0 ∨ iand s.joysposition 0x20 ≠ 0) ∧
  (iand s.joysposition 0x40 ≠ 0 ∨ iand s.joysposition 0x80 ≠ 0)

/-- The joystick position is a byte in which no two opposite directions are
engaged. -/
def JoyOK (s : State) : Prop :=
  (0 ≤ s.joysposition ∧ s.joysposition < 256) ∧ JoyPairs s

/-- The test of `JoyPairs` on the bits of a byte. -/
def joyPairsByte (p : Nat) : Bool :=
  (p &&& 0x01 != 0 || p &&& 0x02 != 0) && (p &&& 0x04 != 0 || p &&& 0x08 != 0) &&
  (p &&& 0x10 != 0 || p &&& 0x20 != 0) && (p &&& 0x40 != 0 || p &&& 0x80 != 0)

/-- A sequence of `Joysemul` calls, each given by its axis and its `isOn`
argument, run in order. -/
def Joysemuls (calls : List (Nat × Bool)) (s : State) : State :=
  calls.foldl (fun t c => Joysemul c.1 c.2 t) s

/-! ## Layout of a patch table -/

/-- One record of a patch table as `TO8dpatch` reads it: the start of the bank
(`a = patch[i++]`), the address in the bank (`a += patch[i++]`) and the bytes
copied by the inner loop.  The count `n` that opens the record is the number of
bytes. -/
structure PatchRecord where
  base : Int
  offset : Int
  bytes : List Int
  deriving DecidableEq, Repr

/-- The table made of the given records, each written `n, base, offset,
b0, ..., b(n-1)`, followed by the terminator `0` and by whatever the array
holds after it. -/
def patchTable : List PatchRecord → List Int → List Int
  | [], tail => 0 :: tail
  | q :: rest, tail =>
    (q.bytes.length : Int) :: q.base :: q.offset :: (q.bytes ++ patchTable rest tail)

/-- The target range of a record, as positions of the array behind `rom = r + k`:
`rom[base + offset + j]` for `j < n` is the byte `k + base + offset + j` of the
array. -/
def PatchRecord.covers (k : Int) (q : PatchRecord) (x : Nat) : Prop :=
  k + q.base + q.offset ≤ (x : Int) ∧ (x : Int) < k + q.base + q.offset + (q.bytes.length : Int)

instance (k : Int) (q : PatchRecord) (x : Nat) : Decidable (q.covers k x) := by
  unfold PatchRecord.covers
  exact inferInstance

/-! ## Concrete machines used as witnesses -/

/-- Patch tables with one record each. -/
def exRoms : RomHeaders :=
  { to8dbasicpatch := [2, 0x4000, 0x10, 0xaa, 0xbb, 0]
    to8moniteurpatch := [1, 0xe000, 0x05, 0x39, 0]
    to8dmoniteurpatch := [1, 0xe000, 0x05, 0x39, 0] }

/-- The text `15-01-24`. -/
def exDate : Nat → Nat := fun j => [0x31, 0x35, 0x2d, 0x30, 0x31, 0x2d, 0x32, 0x34].getD j 0

/-- Program start with blank ROM images. -/
def exStart : State := programStart (fun _ => 0) (fun _ => 0) (fun _ => 0)

/-- The machine after the first hard reset. -/
def exReset : State := (Hardreset exRoms exDate exStart).getD exStart

/-- The machine after the reset and a write of `0x60` to `E7E6`: RAM bank 0
overlays the ROM space and is writable. -/
def exOverlay : State := (Mputto8d 0xe7e6 0x60 exReset).getD exReset

/-- The machine after the reset and a write of `0x04` to `E7C3`: the internal
BASIC ROM is selected. -/
def exBasic : State := (Mputto8d 0xe7c3 0x04 exReset).getD exReset

/-- The machine `exBasic` with the cartridge flags `0x1d` in `carflags`: bank 1,
cartridge enabled, write enabled, bit 4 set. -/
def exCarFlags : State := { exBasic with carflags := 0x1d }

/-- The machine after the reset and a bus write at `0x0001`: `carflags` is 1. -/
def exBank1 : State := (Mputto8d 0x0001 0x00 exReset).getD exReset

/-- The machine after the reset and a write of `0x00` to `E7C9`: TO7/70 mode,
with no bank selected by `port[0x09]`. -/
def exTo7A : State := (Mputto8d 0xe7c9 0x00 exReset).getD exReset

/-- Writes that leave the ports of `exTo7A` after a passage through the TO8 mode. -/
def exTo7BOps : List BusOp :=
  [.put 0xe7c9 0x00, .put 0xe7e5 0x03, .put 0xe7e7 0x10, .put 0xe7e5 0x00, .put 0xe7e7 0x00]

/-- The machine after the reset and the writes `exTo7BOps`. -/
def exTo7B : State := (busOps exTo7BOps exReset).getD exReset

/-- An instruction of 5 cycles that writes `0x04` to `E7C0`. -/
def exCsrStep : CpuStep := { ops := [.put 0xe7c0 0x04], cycles := 5 }

/-- The machine after the reset and one iteration of `Run` executing `exCsrStep`. -/
def exCsr : State := (RunIteration exCsrStep exReset).getD exReset

/-- The machine after the reset and a press of the key of scancode `0x10`. -/
def exKey : State := (TO8key 0x10 true exReset).getD exReset

/-- An instruction of 5 cycles that reads `E7C0`. -/
def exKeyStep : CpuStep := { ops := [.get 0xe7c0], cycles := 5 }

/-- The machine after the key press and one iteration of `Run` executing `exKeyStep`. -/
def exKeyRun : State := (RunIteration exKeyStep exKey).getD exKey

/-- Writes that program the 6846 timer: latch 100, counter reloaded, control 0. -/
def exTimerOps : List BusOp :=
  [.put 0xe7c6 0x00, .put 0xe7c7 100, .put 0xe7c5 0x01, .put 0xe7c5 0x00]

/-- The machine after the reset and the writes `exTimerOps`. -/
def exTimer : State := (busOps exTimerOps exReset).getD exReset

/-- An instruction of 4 cycles that reads `E7C7`. -/
def exTimerStep : CpuStep := { ops := [.get 0xe7c7], cycles := 4 }

/-- Thirty instructions `exTimerStep`. -/
def exTimerSteps : List CpuStep := List.replicate 30 exTimerStep

/-- The machine `exTimer` run until the timer fires. -/
def exTimerFired : State :=
  ((RunUntilFire exTimerSteps 0 exTimer).map (fun r => r.2.2)).getD exTimer

/-- The machine after the reset and a change of flavor to TO8D. -/
def exTO8D : State := (SetThomsonFlavor exRoms exDate .TO8D exReset).getD exReset

/-- The snapshot of `exKeyRun`, with sample blocks for the CPU and the renderer. -/
def exSnapshot : Snapshot := to8d_serialize [1, 2, 3] [4, 5] exKeyRun

/-- The machine `exTO8D` after the restore of `exSnapshot`. -/
def exRestored : State := (to8d_unserialize exRoms exDate exSnapshot exTO8D).getD exTO8D

/-- Writes that leave the TO7/70 mode with no bank selected by `port[0x09]`,
then store `0x55` at CPU address `0xA000`. -/
def exSavedOps : List BusOp := [.put 0xe7c9 0x00, .put 0xa000 0x55]

/-- The machine after the reset and the writes `exSavedOps`. -/
def exSaved : State := (busOps exSavedOps exReset).getD exReset

/-- Writes that select RAM bank 3 in TO8 mode. -/
def exBank3Ops : List BusOp := [.put 0xe7e5 0x03, .put 0xe7e7 0x10]

/-- The machine after the reset and the writes `exBank3Ops`. -/
def exBank3 : State := (busOps exBank3Ops exReset).getD exReset

/-- The machine `exBank3` after the restore of the snapshot of `exSaved`. -/
def exSavedRestored : State :=
  (to8d_unserialize exRoms exDate (to8d_serialize [] [] exSaved) exBank3).getD exBank3

/-- The machine after the reset and a write of `0x02` to `E7DB`: the palette
index points at the low byte of entry 1. -/
def exPalette : State := (Mputto8d 0xe7db 0x02 exReset).getD exReset

/-- An instruction of 64 cycles without bus access: one video line. -/
def exLineStep : CpuStep := { ops := [], cycles := 64 }

/-- The machine after the reset and 48 instructions `exLineStep`: the raster is
on line 48, the first displayed line. -/
def exLine48 : State := (RunIterations (List.replicate 48 exLineStep) exReset).getD exReset

/-- The machine `exLine48` after a second hard reset. -/
def exLine48Reset : State := (Hardreset exRoms exDate exLine48).getD exLine48

/-- The machine after the reset and one instruction `exLineStep`. -/
def exLine1 : State := (RunIteration exLineStep exReset).getD exReset

/-- The machine after the reset with the joystick pushed south (axis 1 on). -/
def exJoySouth : State := Joysemul 1 true exReset

/-- Writes that select the sound register behind `E7CD` and set the level from `0xff`. -/
def exSoundOps : List BusOp := [.put 0xe7cf 0x04, .put 0xe7cd 0xff]

/-- The machine after the reset and the writes `exSoundOps`: `sound` is 63. -/
def exSound : State := (busOps exSoundOps exReset).getD exReset

/-- The machine after the reset and a write of `0x20` to `E7DB`. -/
def exPalIdx : State := (Mputto8d 0xe7db 0x20 exReset).getD exReset

/-- A write of `0x1f` to `E7DB` followed by a read of `E7DA`. -/
def exPalReadOps : List BusOp := [.put 0xe7db 0x1f, .get 0xe7da]

/-- The machine after the reset and the accesses `exPalReadOps`. -/
def exPalRead : State := (busOps exPalReadOps exReset).getD exReset

/-- Two patch records whose target ranges overlap in the byte `0x4011`. -/
def exPatchRecords : List PatchRecord :=
  [{ base := 0x4000, offset := 0x10, bytes := [0xaa, 0xbb] },
   { base := 0x4000, offset := 0x11, bytes := [0xcc] }]

/-! # Theorems -/

/-! ## Bytes and machine integers -/

theorem and_mask_mod (x m : Nat) (hm : m < 256) : x &&& m = (x % 256) &&& m := by
  apply Nat.eq_of_testBit_eq
  intro i
  rw [Nat.testBit_and, Nat.testBit_and]
  by_cases hi : i < 8
  · have : (x % 256).testBit i = x.testBit i := by
      have := Nat.testBit_mod_two_pow x 8 i
      simp [hi] at this
      exact this
    rw [this]
  · have : m.testBit i = false := by
      apply Nat.testBit_lt_two_pow
      calc m < 256 := hm
        _ = 2 ^ 8 := by norm_num
        _ ≤ 2 ^ i := Nat.pow_le_pow_right (by norm_num) (by omega)
    simp [this]

@[simp] theorem setAt_same {α : Type} (f : Nat → α) (i : Nat) (v : α) : setAt f i v i = v := by
  simp [setAt]

theorem setAt_ne {α : Type} (f : Nat → α) (i j : Nat) (v : α) (h : j ≠ i) :
    setAt f i v j = f j := by
  simp [setAt, h]

theorem setAt_self {α : Type} (f : Nat → α) (i : Nat) : setAt f i (f i) = f := by
  funext j
  by_cases h : j = i
  · subst h; simp
  · simp [setAt, h]

set_option maxRecDepth 100000 in
theorem byte_shr4_and : ∀ b < 256, (b &&& 0x10) >>> 4 = (b >>> 4) &&& 1 := by decide

theorem and10_shr4 (x : Nat) : (x &&& 0x10) >>> 4 = (x >>> 4) &&& 1 := by
  rw [and_mask_mod x 0x10 (by norm_num), byte_shr4_and _ (Nat.mod_lt _ (by norm_num))]
  rw [Nat.and_one_is_mod, Nat.and_one_is_mod, Nat.shiftRight_eq_div_pow,
    Nat.shiftRight_eq_div_pow]
  omega

theorem toU32_natCast (n : Nat) (h : n < 4294967296) : toU32 (n : Int) = n := by
  unfold toU32
  have : ((n : Int) % 4294967296) = (n : Int) := Int.emod_eq_of_lt (by omega) (by omega)
  rw [this]; simp

theorem toU32_lt (x : Int) : toU32 x < 4294967296 := by
  unfold toU32
  have h1 : 0 ≤ x % 4294967296 := Int.emod_nonneg _ (by decide)
  have h2 : x % 4294967296 < 4294967296 := Int.emod_lt_of_pos _ (by decide)
  omega

theorem ofU32_of_lt (n : Nat) (h : n < 2147483648) : ofU32 n = (n : Int) := by
  unfold ofU32
  have : n % 4294967296 = n := Nat.mod_eq_of_lt (by omega)
  rw [this]; simp [h]

/-- The operator `&` with a non-negative mask below `2^31`. -/
theorem iand_mask (x : Int) (m : Nat) (hm : m < 2147483648) :
    iand x (m : Int) = ((toU32 x &&& m : Nat) : Int) := by
  unfold iand
  rw [toU32_natCast m (by omega), ofU32_of_lt]
  exact lt_of_le_of_lt Nat.and_le_right hm

theorem ior_natCast (a b : Nat) (ha : a < 2147483648) (hb : b < 2147483648) :
    ior (a : Int) (b : Int) = ((a ||| b : Nat) : Int) := by
  unfold ior
  rw [toU32_natCast a (by omega), toU32_natCast b (by omega), ofU32_of_lt]
  exact Nat.or_lt_two_pow (n := 31) ha hb

theorem iand_nonneg_lt (x : Int) (m : Nat) (hm : m < 2147483648) :
    0 ≤ iand x (m : Int) ∧ iand x (m : Int) ≤ (m : Int) := by
  rw [iand_mask x m hm]
  have : toU32 x &&& m ≤ m := Nat.and_le_right
  omega

/-! ## The invariant is kept by every operation -/

theorem TO8videoram_frame (s : State) : TO8videoram s =
    { s with nvideopage := (TO8videoram s).nvideopage, ramvideo := (TO8videoram s).ramvideo,
             nsystbank := (TO8videoram s).nsystbank, romsys := (TO8videoram s).romsys } := rfl

theorem TO8videoram_ok (s : State) : VideoOK (TO8videoram s) := by
  refine ⟨rfl, rfl, ?_, rfl⟩
  show (((s.port 0x03 &&& 0x10) >>> 4 : Nat) : Int) = (((s.port 0x03 >>> 4) &&& 1 : Nat) : Int)
  rw [and10_shr4]

theorem TO8rambank_frame (s : State) : TO8rambank s =
    { s with nrambank := (TO8rambank s).nrambank, rambank := (TO8rambank s).rambank } := by
  unfold TO8rambank
  split_ifs
  · rfl
  · split <;> rfl

theorem TO8rambank_to8 (s : State) (h : s.port 0x27 &&& 0x10 ≠ 0) :
    (TO8rambank s).nrambank = ((s.port 0x25 &&& 0x1f : Nat) : Int) ∧
    (TO8rambank s).rambank = ptr .ram (-0xa000 + shl ((s.port 0x25 &&& 0x1f : Nat) : Int) 14) := by
  unfold TO8rambank
  rw [if_pos h]
  exact ⟨rfl, rfl⟩

theorem TO8rambank_to7 (s : State) (h : s.port 0x27 &&& 0x10 = 0) (n : Int)
    (hn : TO8rambankSwitch (s.port 0x09 &&& 0xf8) = some n) :
    (TO8rambank s).nrambank = n ∧ (TO8rambank s).rambank = ptr .ram (-0x2000 + shl n 14) := by
  unfold TO8rambank
  rw [if_neg (by simpa using h), hn]
  exact ⟨rfl, rfl⟩

theorem TO8rambank_default (s : State) (h : s.port 0x27 &&& 0x10 = 0)
    (hn : TO8rambankSwitch (s.port 0x09 &&& 0xf8) = none) : TO8rambank s = s := by
  unfold TO8rambank
  rw [if_neg (by simpa using h), hn]

theorem TO8rambankSwitch_range (v : Nat) (n : Int) (h : TO8rambankSwitch v = some n) :
    0 ≤ n ∧ n < 6 := by
  unfold TO8rambankSwitch at h
  split_ifs at h <;> simp at h <;> omega

/-- The resolver `TO8rambank` re-establishes the relations of the RAM bank
window; beforehand the window only has to lie in `ram`. -/
theorem TO8rambank_ok (s : State)
    (hb : ∃ n : Int, 0 ≤ n ∧ n < 32 ∧
        (s.rambank = ptr .ram (-0xa000 + shl n 14) ∨
          (n < 6 ∧ s.rambank = ptr .ram (-0x2000 + shl n 14)))) :
    RamOK (TO8rambank s) := by
  rw [TO8rambank_frame]
  refine ⟨?_, ?_, ?_⟩
  · intro h
    have := TO8rambank_to8 s h
    exact ⟨this.1, by rw [this.2]; exact congrArg _ (by rw [this.1])⟩
  · by_cases h : s.port 0x27 &&& 0x10 = 0
    · cases hsw : TO8rambankSwitch (s.port 0x09 &&& 0xf8) with
      | none => rw [TO8rambank_default s h hsw]; exact hb
      | some n =>
        have hn := TO8rambankSwitch_range _ _ hsw
        exact ⟨n, hn.1, by omega, Or.inr ⟨hn.2, (TO8rambank_to7 s h n hsw).2⟩⟩
    · have := TO8rambank_to8 s h
      refine ⟨((s.port 0x25 &&& 0x1f : Nat) : Int), by omega, ?_, Or.inl this.2⟩
      have : s.port 0x25 &&& 0x1f ≤ 0x1f := Nat.and_le_right
      omega
  · intro h n hn
    exact TO8rambank_to7 s h n hn

theorem TO8rombank_frame (s : State) : TO8rombank s =
    { s with nrombank := (TO8rombank s).nrombank, rombank := (TO8rombank s).rombank } := by
  unfold TO8rombank
  split_ifs <;> rfl

theorem TO8rombank_rombank (s : State) : (TO8rombank s).rombank =
    if s.port 0x26 &&& 0x20 ≠ 0 then ptr .ram (shl ((s.port 0x26 &&& 0x1f : Nat) : Int) 14)
    else if s.port 0x03 &&& 0x04 ≠ 0 then ptr s.basic (shl (iand s.carflags 3) 14)
    else ptr .car (shl (iand s.carflags 3) 14) := by
  unfold TO8rombank
  split_ifs <;> rfl

theorem TO8rombank_nrombank (s : State) : (TO8rombank s).nrombank =
    if s.port 0x26 &&& 0x20 ≠ 0 then s.nrombank
    else if s.port 0x03 &&& 0x04 ≠ 0 then iand s.carflags 3
    else -1 := by
  unfold TO8rombank
  split_ifs <;> rfl

/-- The resolver `TO8rombank` establishes the relations of the ROM window. -/
theorem TO8rombank_ok (s : State) : RomOK (TO8rombank s) := by
  rw [TO8rombank_frame]
  refine ⟨TO8rombank_rombank s, ?_⟩
  intro h
  have h' : ¬ (s.port 0x26 &&& 0x20 ≠ 0) := by simpa using h
  rw [TO8rombank_nrombank, if_neg h']

theorem inv_TO8videoram (s : State) (h : Inv s) : Inv (TO8videoram s) :=
  ⟨TO8videoram_ok s, h.ram, h.rom, h.flavor, h.carflags, h.ramuser, h.page⟩

theorem inv_TO8rambank (s : State) (h : Inv s) : Inv (TO8rambank s) := by
  have hr := TO8rambank_ok s h.ram.2.1
  rw [TO8rambank_frame] at hr ⊢
  exact ⟨h.video, hr, h.rom, h.flavor, h.carflags, h.ramuser, h.page⟩

theorem inv_TO8rombank (s : State) (h : Inv s) : Inv (TO8rombank s) := by
  have hr := TO8rombank_ok s
  rw [TO8rombank_frame] at hr ⊢
  exact ⟨h.video, h.ram, hr, h.flavor, h.carflags, h.ramuser, h.page⟩

theorem Videopage_bordercolor_ok (c : Nat) (s : State) : PageOK (Videopage_bordercolor c s) :=
  ⟨rfl, rfl⟩

theorem inv_Videopage_bordercolor (c : Nat) (s : State) (h : Inv s) :
    Inv (Videopage_bordercolor c s) :=
  ⟨h.video, h.ram, h.rom, h.flavor, h.carflags, h.ramuser, Videopage_bordercolor_ok c s⟩

theorem inv_windows (s : State) (h : Inv s) : Windows s :=
  ⟨h.video.1, h.video.2.1, h.video.2.2.1, h.video.2.2.2, h.ram.1, h.rom.1⟩

theorem inv_setMem (s : State) (r : Region) (i c : Nat) (h : Inv s) : Inv (s.setMem r i c) := by
  cases r <;> exact ⟨h.video, h.ram, h.rom, h.flavor, h.carflags, h.ramuser, h.page⟩

theorem store_eq (s s1 : State) (p : Option Ptr) (a : Int) (c : Nat)
    (h : store s p a c = some s1) : ∃ r i, index p a = some (r, i) ∧ s1 = s.setMem r i c := by
  unfold store at h
  cases hi : index p a with
  | none => rw [hi] at h; cases h
  | some ri =>
    obtain ⟨r, i⟩ := ri
    rw [hi] at h
    exact ⟨r, i, rfl, by cases h; rfl⟩

theorem inv_store (s s1 : State) (p : Option Ptr) (a : Int) (c : Nat) (h : Inv s)
    (hs : store s p a c = some s1) : Inv s1 := by
  obtain ⟨r, i, _, e⟩ := store_eq s s1 p a c hs
  rw [e]; exact inv_setMem s r i c h

/-- After `TO8videoram` and `TO8rombank` the invariant holds when the relations
they do not touch hold. -/
theorem inv_video_rom (t : State) (hram : RamOK t) (hf : FlavorOK t)
    (hc : 0 ≤ t.carflags ∧ t.carflags < 256) (hu : t.ramuser = ptr .ram (-0x2000))
    (hp : PageOK t) : Inv (TO8rombank (TO8videoram t)) := by
  have hr := TO8rombank_ok (TO8videoram t)
  rw [TO8rombank_frame] at hr ⊢
  exact ⟨TO8videoram_ok t, hram, hr, hf, hc, hu, hp⟩

/-- After `TO8rombank` the invariant holds when the relations it does not touch hold. -/
theorem inv_rom (t : State) (hv : VideoOK t) (hram : RamOK t) (hf : FlavorOK t)
    (hc : 0 ≤ t.carflags ∧ t.carflags < 256) (hu : t.ramuser = ptr .ram (-0x2000))
    (hp : PageOK t) : Inv (TO8rombank t) := by
  have hr := TO8rombank_ok t
  rw [TO8rombank_frame] at hr ⊢
  exact ⟨hv, hram, hr, hf, hc, hu, hp⟩

/-- After `TO8rambank` the invariant holds when the relations it does not touch hold. -/
theorem inv_ram (t : State) (hv : VideoOK t)
    (hb : ∃ n : Int, 0 ≤ n ∧ n < 32 ∧
        (t.rambank = ptr .ram (-0xa000 + shl n 14) ∨
          (n < 6 ∧ t.rambank = ptr .ram (-0x2000 + shl n 14))))
    (hrom : RomOK t) (hf : FlavorOK t)
    (hc : 0 ≤ t.carflags ∧ t.carflags < 256) (hu : t.ramuser = ptr .ram (-0x2000))
    (hp : PageOK t) : Inv (TO8rambank t) := by
  have hr := TO8rambank_ok t hb
  rw [TO8rambank_frame] at hr ⊢
  exact ⟨hv, hr, hrom, hf, hc, hu, hp⟩

theorem inv_Palettecolor (c : Nat) (s s1 : State) (h : Inv s)
    (hm : Palettecolor c s = some s1) : Inv s1 := by
  unfold Palettecolor at hm
  by_cases hr : 0 ≤ charToInt (s.port 0x1b) ∧ charToInt (s.port 0x1b) < (PALETTE_SIZE : Int)
  · rw [if_pos hr] at hm
    by_cases ho : iand (charToInt (s.port 0x1b)) 1 ≠ 0
    · rw [if_pos ho] at hm
      cases hm
      exact ⟨h.video, h.ram, h.rom, h.flavor, h.carflags, h.ramuser, h.page⟩
    · rw [if_neg ho] at hm
      cases hm
      exact ⟨h.video, h.ram, h.rom, h.flavor, h.carflags, h.ramuser, h.page⟩
  · rw [if_neg hr] at hm
    cases hm

theorem inv_TO8videomode (c : Nat) (s : State) (h : Inv s) : Inv (TO8videomode c s) :=
  ⟨h.video, h.ram, h.rom, h.flavor, h.carflags, h.ramuser, h.page⟩

theorem inv_Timercontrol (s : State) (h : Inv s) : Inv (Timercontrol s) := by
  unfold Timercontrol
  by_cases c : s.port 0x05 &&& 0x01 ≠ 0
  · rw [if_pos c]
    exact ⟨h.video, h.ram, h.rom, h.flavor, h.carflags, h.ramuser, h.page⟩
  · rw [if_neg c]
    exact h

theorem inv_MputE7C3 (c : Nat) (s : State) (h : Inv s) : Inv (MputE7C3 c s) :=
  inv_video_rom _ h.ram h.flavor h.carflags h.ramuser h.page

theorem inv_MputE7CD (c : Nat) (s : State) (h : Inv s) : Inv (MputE7CD c s) := by
  unfold MputE7CD
  by_cases c4 : s.port 0x0f &&& 4 ≠ 0
  · rw [if_pos c4]
    exact ⟨h.video, h.ram, h.rom, h.flavor, h.carflags, h.ramuser, h.page⟩
  · rw [if_neg c4]
    exact ⟨h.video, h.ram, h.rom, h.flavor, h.carflags, h.ramuser, h.page⟩

/-- Case analysis of the `switch(a)` of `Mputto8d` on the I/O page. -/
theorem MputPage_cases (a c : Nat) (s : State) (P : Option State → Prop)
    (h0 : a = 0xe7c0 → P (some (MputE7C0 c s)))
    (h1 : a = 0xe7c1 → P (some (MputE7C1 c s)))
    (h2 : a = 0xe7c3 → P (some (MputE7C3 c s)))
    (h3 : a = 0xe7c5 → P (some (MputE7C5 c s)))
    (h4 : a = 0xe7c6 → P (some (MputE7C6 c s)))
    (h5 : a = 0xe7c7 → P (some (MputE7C7 c s)))
    (h6 : a = 0xe7c9 → P (some (MputE7C9 c s)))
    (h7 : a = 0xe7cc → P (some (MputE7CC c s)))
    (h8 : a = 0xe7cd → P (some (MputE7CD c s)))
    (h9 : a = 0xe7ce → P (some (MputE7CE c s)))
    (h10 : a = 0xe7cf → P (some (MputE7CF c s)))
    (h11 : a = 0xe7d8 → P (some (s)))
    (h12 : a = 0xe7da → P (Palettecolor c s))
    (h13 : a = 0xe7db → P (some (MputE7DB c s)))
    (h14 : a = 0xe7dc → P (some (TO8videomode c s)))
    (h15 : a = 0xe7dd → P (some (Videopage_bordercolor c s)))
    (h16 : a = 0xe7e4 → P (some (MputE7E4 c s)))
    (h17 : a = 0xe7e5 → P (some (MputE7E5 c s)))
    (h18 : a = 0xe7e6 → P (some (MputE7E6 c s)))
    (h19 : a = 0xe7e7 → P (some (MputE7E7 c s)))
    (hd : a ≠ 0xe7c0 → a ≠ 0xe7c1 → a ≠ 0xe7c3 → a ≠ 0xe7c5 → a ≠ 0xe7c6 → a ≠ 0xe7c7 → a ≠ 0xe7c9 → a ≠ 0xe7cc → a ≠ 0xe7cd → a ≠ 0xe7ce → a ≠ 0xe7cf → a ≠ 0xe7d8 → a ≠ 0xe7da → a ≠ 0xe7db → a ≠ 0xe7dc → a ≠ 0xe7dd → a ≠ 0xe7e4 → a ≠ 0xe7e5 → a ≠ 0xe7e6 → a ≠ 0xe7e7 → P (some s)) :
    P (MputPage a c s) := by
  unfold MputPage
  by_cases e0 : a = 0xe7c0
  · rw [if_pos e0]; exact h0 e0
  rw [if_neg e0]
  by_cases e1 : a = 0xe7c1
  · rw [if_pos e1]; exact h1 e1
  rw [if_neg e1]
  by_cases e2 : a = 0xe7c3
  · rw [if_pos e2]; exact h2 e2
  rw [if_neg e2]
  by_cases e3 : a = 0xe7c5
  · rw [if_pos e3]; exact h3 e3
  rw [if_neg e3]
  by_cases e4 : a = 0xe7c6
  · rw [if_pos e4]; exact h4 e4
  rw [if_neg e4]
  by_cases e5 : a = 0xe7c7
  · rw [if_pos e5]; exact h5 e5
  rw [if_neg e5]
  by_cases e6 : a = 0xe7c9
  · rw [if_pos e6]; exact h6 e6
  rw [if_neg e6]
  by_cases e7 : a = 0xe7cc
  · rw [if_pos e7]; exact h7 e7
  rw [if_neg e7]
  by_cases e8 : a = 0xe7cd
  · rw [if_pos e8]; exact h8 e8
  rw [if_neg e8]
  by_cases e9 : a = 0xe7ce
  · rw [if_pos e9]; exact h9 e9
  rw [if_neg e9]
  by_cases e10 : a = 0xe7cf
  · rw [if_pos e10]; exact h10 e10
  rw [if_neg e10]
  by_cases e11 : a = 0xe7d8
  · rw [if_pos e11]; exact h11 e11
  rw [if_neg e11]
  by_cases e12 : a = 0xe7da
  · rw [if_pos e12]; exact h12 e12
  rw [if_neg e12]
  by_cases e13 : a = 0xe7db
  · rw [if_pos e13]; exact h13 e13
  rw [if_neg e13]
  by_cases e14 : a = 0xe7dc
  · rw [if_pos e14]; exact h14 e14
  rw [if_neg e14]
  by_cases e15 : a = 0xe7dd
  · rw [if_pos e15]; exact h15 e15
  rw [if_neg e15]
  by_cases e16 : a = 0xe7e4
  · rw [if_pos e16]; exact h16 e16
  rw [if_neg e16]
  by_cases e17 : a = 0xe7e5
  · rw [if_pos e17]; exact h17 e17
  rw [if_neg e17]
  by_cases e18 : a = 0xe7e6
  · rw [if_pos e18]; exact h18 e18
  rw [if_neg e18]
  by_cases e19 : a = 0xe7e7
  · rw [if_pos e19]; exact h19 e19
  rw [if_neg e19]
  exact hd e0 e1 e2 e3 e4 e5 e6 e7 e8 e9 e10 e11 e12 e13 e14 e15 e16 e17 e18 e19

theorem inv_MputPage (a c : Nat) (s s1 : State) (h : Inv s) (hm : MputPage a c s = some s1) :
    Inv s1 := by
  revert hm
  apply MputPage_cases a c s (fun r => r = some s1 → Inv s1)
  case h12 => intro _ hm; exact inv_Palettecolor c s s1 h hm
  case h2 => intro _ hm; cases hm; exact inv_MputE7C3 c s h
  case h3 =>
    intro _ hm; cases hm
    exact inv_Timercontrol _ ⟨h.video, h.ram, h.rom, h.flavor, h.carflags, h.ramuser, h.page⟩
  case h8 => intro _ hm; cases hm; exact inv_MputE7CD c s h
  case h14 => intro _ hm; cases hm; exact inv_TO8videomode c s h
  case h15 => intro _ hm; cases hm; exact inv_Videopage_bordercolor c s h
  case h6 =>
    intro _ hm; cases hm
    exact inv_ram _ h.video h.ram.2.1 h.rom h.flavor h.carflags h.ramuser h.page
  case h17 =>
    intro _ hm; cases hm
    exact inv_ram _ h.video h.ram.2.1 h.rom h.flavor h.carflags h.ramuser h.page
  case h19 =>
    intro _ hm; cases hm
    exact inv_ram _ h.video h.ram.2.1 h.rom h.flavor h.carflags h.ramuser h.page
  case h18 =>
    intro _ hm; cases hm
    exact inv_rom _ h.video h.ram h.flavor h.carflags h.ramuser h.page
  case h11 => intro _ hm; cases hm; exact h
  case hd => intros; rename_i hm; cases hm; exact h
  all_goals
    intro _ hm; cases hm
    exact ⟨h.video, h.ram, h.rom, h.flavor, h.carflags, h.ramuser, h.page⟩

theorem inv_MputBankSwitch (a : Nat) (s : State) (h : Inv s) : Inv (MputBankSwitch a s) := by
  unfold MputBankSwitch
  refine inv_rom { s with carflags := ior (iand s.carflags 0xfc) ((a &&& 3 : Nat) : Int) }
    h.video h.ram h.flavor ?_ h.ramuser h.page
  show 0 ≤ ior (iand s.carflags 0xfc) ((a &&& 3 : Nat) : Int) ∧
    ior (iand s.carflags 0xfc) ((a &&& 3 : Nat) : Int) < 256
  have h1 := iand_mask s.carflags 0xfc (by norm_num)
  have e : ((0xfc : Nat) : Int) = 0xfc := by norm_num
  rw [e] at h1
  rw [h1]
  have ha : toU32 s.carflags &&& 0xfc ≤ 0xfc := Nat.and_le_right
  have hb : a &&& 3 ≤ 3 := Nat.and_le_right
  rw [ior_natCast _ _ (by omega) (by omega)]
  have : (toU32 s.carflags &&& 0xfc) ||| (a &&& 3) < 2 ^ 8 :=
    Nat.or_lt_two_pow (by omega) (by omega)
  omega

/-- The shape of the state after a bus write: either the I/O dispatch, or the
bank switch by write address and at most one stored byte. -/
theorem Mputto8d_shape (a c : Nat) (s s1 : State) (h : Mputto8d a c s = some s1) :
    (a >>> 12 = 0xe ∧ MputPage a c s = some s1) ∨
    (a >>> 12 ≠ 0xe ∧ ∃ t, (t = s ∨ t = MputBankSwitch a s) ∧
      (s1 = t ∨ ∃ r i, s1 = t.setMem r i c)) := by
  unfold Mputto8d at h
  simp only [] at h
  by_cases h01 : a >>> 12 = 0x0 ∨ a >>> 12 = 0x1
  · rw [if_pos h01] at h
    right
    refine ⟨by omega, ?_⟩
    by_cases hov : ¬ (s.port 0x26 &&& 0x20 ≠ 0)
    · rw [if_pos hov] at h
      refine ⟨MputBankSwitch a s, Or.inr rfl, ?_⟩
      split_ifs at h
      · cases h; exact Or.inl rfl
      · obtain ⟨r, i, _, e⟩ := store_eq _ _ _ _ _ h
        exact Or.inr ⟨r, i, e⟩
      · obtain ⟨r, i, _, e⟩ := store_eq _ _ _ _ _ h
        exact Or.inr ⟨r, i, e⟩
    · rw [if_neg hov] at h
      refine ⟨s, Or.inl rfl, ?_⟩
      split_ifs at h
      · cases h; exact Or.inl rfl
      · obtain ⟨r, i, _, e⟩ := store_eq _ _ _ _ _ h
        exact Or.inr ⟨r, i, e⟩
      · obtain ⟨r, i, _, e⟩ := store_eq _ _ _ _ _ h
        exact Or.inr ⟨r, i, e⟩
  rw [if_neg h01] at h
  by_cases he : a >>> 12 = 0xe
  · left
    refine ⟨he, ?_⟩
    rw [if_neg (by omega), if_neg (by omega), if_neg (by omega), if_neg (by omega), if_pos he] at h
    exact h
  · right
    refine ⟨he, s, Or.inl rfl, ?_⟩
    split_ifs at h
    all_goals first
      | (cases h; exact Or.inl rfl)
      | (obtain ⟨r, i, _, e⟩ := store_eq _ _ _ _ _ h; exact Or.inr ⟨r, i, e⟩)

theorem inv_Mputto8d (a c : Nat) (s s1 : State) (h : Inv s) (hm : Mputto8d a c s = some s1) :
    Inv s1 := by
  rcases Mputto8d_shape a c s s1 hm with ⟨_, hio⟩ | ⟨_, t, ht, hs⟩
  · exact inv_MputPage a c s s1 h hio
  · have hI : Inv t := by
      rcases ht with rfl | rfl
      · exact h
      · exact inv_MputBankSwitch a s h
    rcases hs with rfl | ⟨r, i, rfl⟩
    · exact hI
    · exact inv_setMem _ r i c hI

/-- The state after a read on the I/O page: unchanged, except for the palette
index increment of `E7DA` and the clearing of `port[0x1e]` by `E7DF`. -/
theorem MgetPage_state (a v : Nat) (s s1 : State) (h : MgetPage a s = some (v, s1)) :
    s1 = s ∨ (a = 0xe7da ∧ s1 = MgetE7DA s) ∨ (a = 0xe7df ∧ s1 = MgetE7DF s) := by
  unfold MgetPage at h
  by_cases e0 : a = 0xe7c0
  · rw [if_pos e0] at h
    cases h; exact Or.inl rfl
  rw [if_neg e0] at h
  by_cases e1 : a = 0xe7c3
  · rw [if_pos e1] at h
    cases h; exact Or.inl rfl
  rw [if_neg e1] at h
  by_cases e2 : a = 0xe7c6
  · rw [if_pos e2] at h
    cases h; exact Or.inl rfl
  rw [if_neg e2] at h
  by_cases e3 : a = 0xe7c7
  · rw [if_pos e3] at h
    cases h; exact Or.inl rfl
  rw [if_neg e3] at h
  by_cases e4 : a = 0xe7ca
  · rw [if_pos e4] at h
    cases h; exact Or.inl rfl
  rw [if_neg e4] at h
  by_cases e5 : a = 0xe7cc
  · rw [if_pos e5] at h
    cases h; exact Or.inl rfl
  rw [if_neg e5] at h
  by_cases e6 : a = 0xe7cd
  · rw [if_pos e6] at h
    cases h; exact Or.inl rfl
  rw [if_neg e6] at h
  by_cases e7 : a = 0xe7ce
  · rw [if_pos e7] at h
    cases h; exact Or.inl rfl
  rw [if_neg e7] at h
  by_cases e8 : a = 0xe7da
  · rw [if_pos e8] at h
    cases h; exact Or.inr (Or.inl ⟨e8, rfl⟩)
  rw [if_neg e8] at h
  by_cases e9 : a = 0xe7df
  · rw [if_pos e9] at h
    cases h; exact Or.inr (Or.inr ⟨e9, rfl⟩)
  rw [if_neg e9] at h
  by_cases e10 : a = 0xe7e4
  · rw [if_pos e10] at h
    cases h; exact Or.inl rfl
  rw [if_neg e10] at h
  by_cases e11 : a = 0xe7e5
  · rw [if_pos e11] at h
    cases h; exact Or.inl rfl
  rw [if_neg e11] at h
  by_cases e12 : a = 0xe7e6
  · rw [if_pos e12] at h
    cases h; exact Or.inl rfl
  rw [if_neg e12] at h
  by_cases e13 : a = 0xe7e7
  · rw [if_pos e13] at h
    cases h; exact Or.inl rfl
  rw [if_neg e13] at h
  have key : ∀ o : Option Nat, o.map (fun v => (v, s)) = some (v, s1) → s1 = s := by
    intro o ho
    cases o with
    | none => cases ho
    | some w => cases ho; rfl
  split_ifs at h
  · exact Or.inl (key _ h)
  · cases h; exact Or.inl rfl
  · exact Or.inl (key _ h)

theorem Mgetto8d_state (a v : Nat) (s s1 : State) (h : Mgetto8d a s = some (v, s1)) :
    s1 = s ∨ (a = 0xe7da ∧ s1 = MgetE7DA s) ∨ (a = 0xe7df ∧ s1 = MgetE7DF s) := by
  have key : ∀ o : Option Nat, o.map (fun v => (v, s)) = some (v, s1) → s1 = s := by
    intro o ho
    cases o with
    | none => cases ho
    | some w => cases ho; rfl
  unfold Mgetto8d at h
  simp only [] at h
  by_cases he : a >>> 12 = 0xe
  · rw [if_neg (by omega), if_neg (by omega), if_neg (by omega), if_neg (by omega),
      if_neg (by omega), if_pos he] at h
    exact MgetPage_state a v s s1 h
  · left
    split_ifs at h <;> exact key _ h

theorem inv_Mgetto8d (a v : Nat) (s s1 : State) (h : Inv s) (hm : Mgetto8d a s = some (v, s1)) :
    Inv s1 := by
  rcases Mgetto8d_state a v s s1 hm with rfl | ⟨_, rfl⟩ | ⟨_, rfl⟩
  · exact h
  · exact ⟨h.video, h.ram, h.rom, h.flavor, h.carflags, h.ramuser, h.page⟩
  · exact ⟨h.video, h.ram, h.rom, h.flavor, h.carflags, h.ramuser, h.page⟩

theorem inv_busOp (op : BusOp) (s s1 : State) (h : Inv s) (hm : busOp op s = some s1) :
    Inv s1 := by
  cases op with
  | get a =>
    have hm : (Mgetto8d a s).map Prod.snd = some s1 := hm
    cases hg : Mgetto8d a s with
    | none => rw [hg] at hm; cases hm
    | some r =>
      obtain ⟨v, s2⟩ := r
      rw [hg] at hm
      simp only [Option.map_some'] at hm
      cases hm
      exact inv_Mgetto8d a v s _ h hg
  | put a c => exact inv_Mputto8d a c s s1 h hm

theorem inv_busOps (ops : List BusOp) (s s1 : State) (h : Inv s) (hm : busOps ops s = some s1) :
    Inv s1 := by
  induction ops generalizing s with
  | nil => cases hm; exact h
  | cons op rest ih =>
    unfold busOps at hm
    cases ho : busOp op s with
    | none => rw [ho] at hm; cases hm
    | some s2 =>
      rw [ho] at hm
      exact ih s2 (inv_busOp op s s2 h ho) hm

theorem inv_RunVideoNextLine (s : State) (h : Inv s) : Inv (RunVideoNextLine s) := by
  unfold RunVideoNextLine
  by_cases c : s.videolinenumber + 1 > 311
  · rw [if_pos c]
    exact ⟨h.video, h.ram, h.rom, h.flavor, h.carflags, h.ramuser, h.page⟩
  · rw [if_neg c]
    exact ⟨h.video, h.ram, h.rom, h.flavor, h.carflags, h.ramuser, h.page⟩

theorem inv_RunVideo (o : Int) (s : State) (h : Inv s) : Inv (RunVideo o s) := by
  have h1 : Inv (RunVideoCycle o s) :=
    ⟨h.video, h.ram, h.rom, h.flavor, h.carflags, h.ramuser, h.page⟩
  unfold RunVideo
  by_cases c : (RunVideoCycle o s).videolinecycle ≥ 64
  · rw [if_pos c]
    have h2 : Inv (RunVideoEndLine (RunVideoCycle o s)) :=
      ⟨h1.video, h1.ram, h1.rom, h1.flavor, h1.carflags, h1.ramuser, h1.page⟩
    have h3 := inv_RunVideoNextLine _ h2
    exact ⟨h3.video, h3.ram, h3.rom, h3.flavor, h3.carflags, h3.ramuser, h3.page⟩
  · rw [if_neg c]
    exact h1

theorem inv_RunTimerIrqCount (o : Int) (s : State) (h : Inv s) : Inv (RunTimerIrqCount o s) := by
  unfold RunTimerIrqCount
  by_cases c : s.timer_irqcount > 0
  · rw [if_pos c]
    exact ⟨h.video, h.ram, h.rom, h.flavor, h.carflags, h.ramuser, h.page⟩
  · rw [if_neg c]
    exact h

theorem inv_RunTimerIrqClear (s : State) (h : Inv s) : Inv (RunTimerIrqClear s) := by
  unfold RunTimerIrqClear
  by_cases c : s.timer_irqcount ≤ 0
  · rw [if_pos c]
    exact ⟨h.video, h.ram, h.rom, h.flavor, h.carflags, h.ramuser, h.page⟩
  · rw [if_neg c]
    exact h

theorem inv_RunKeybIrqCount (o : Int) (s : State) (h : Inv s) : Inv (RunKeybIrqCount o s) := by
  unfold RunKeybIrqCount
  by_cases c : s.keyb_irqcount > 0
  · rw [if_pos c]
    exact ⟨h.video, h.ram, h.rom, h.flavor, h.carflags, h.ramuser, h.page⟩
  · rw [if_neg c]
    exact h

theorem inv_RunKeybIrqClear (s : State) (h : Inv s) : Inv (RunKeybIrqClear s) := by
  unfold RunKeybIrqClear
  by_cases c : s.keyb_irqcount ≤ 0
  · rw [if_pos c]
    exact ⟨h.video, h.ram, h.rom, h.flavor, h.carflags, h.ramuser, h.page⟩
  · rw [if_neg c]
    exact h

theorem inv_RunIrqComposite (s : State) (h : Inv s) : Inv (RunIrqComposite s) := by
  unfold RunIrqComposite
  by_cases c : s.port 0x00 &&& 0x07 = 0
  · rw [if_pos c]
    exact ⟨h.video, h.ram, h.rom, h.flavor, h.carflags, h.ramuser, h.page⟩
  · rw [if_neg c]
    exact h

theorem inv_RunIrq (o : Int) (s : State) (h : Inv s) : Inv (RunIrq o s) :=
  inv_RunIrqComposite _ (inv_RunKeybIrqClear _ (inv_RunKeybIrqCount o _
    (inv_RunTimerIrqClear _ (inv_RunTimerIrqCount o s h))))

theorem inv_RunCountdown (o : Int) (s : State) (h : Inv s) : Inv (RunCountdown o s) := by
  unfold RunCountdown
  by_cases c : s.port 0x05 &&& 0x01 = 0
  · rw [if_pos c]
    exact ⟨h.video, h.ram, h.rom, h.flavor, h.carflags, h.ramuser, h.page⟩
  · rw [if_neg c]
    exact h

theorem inv_RunTimeout (s : State) (h : Inv s) : Inv (RunTimeout s) := by
  unfold RunTimeout
  by_cases c : s.timer6846 ≤ 5
  · rw [if_pos c]
    exact ⟨h.video, h.ram, h.rom, h.flavor, h.carflags, h.ramuser, h.page⟩
  · rw [if_neg c]
    exact h

theorem inv_RunAfterStep (o : Int) (s : State) (h : Inv s) : Inv (RunAfterStep o s) :=
  inv_RunTimeout _ (inv_RunCountdown o _ (inv_RunIrq o _ (inv_RunVideo o s h)))

theorem inv_RunIteration (st : CpuStep) (s s1 : State) (h : Inv s)
    (hm : RunIteration st s = some s1) : Inv s1 := by
  unfold RunIteration at hm
  cases hb : busOps st.ops s with
  | none => rw [hb] at hm; cases hm
  | some s2 =>
    rw [hb] at hm
    cases hm
    exact inv_RunAfterStep _ s2 (inv_busOps st.ops s s2 h hb)

theorem inv_Joysemul (axis : Nat) (isOn : Bool) (s : State) (h : Inv s) :
    Inv (Joysemul axis isOn s) := by
  unfold Joysemul
  by_cases c8 : axis = 8
  · rw [if_pos c8]
    cases isOn <;> exact ⟨h.video, h.ram, h.rom, h.flavor, h.carflags, h.ramuser, h.page⟩
  rw [if_neg c8]
  by_cases c9 : axis = 9
  · rw [if_pos c9]
    cases isOn <;> exact ⟨h.video, h.ram, h.rom, h.flavor, h.carflags, h.ramuser, h.page⟩
  rw [if_neg c9]
  by_cases cn : JoysemulBit axis s > 0
  · rw [if_pos cn]
    cases isOn <;> exact ⟨h.video, h.ram, h.rom, h.flavor, h.carflags, h.ramuser, h.page⟩
  · rw [if_neg cn]
    exact h

theorem inv_TO8keyRelease (s : State) (h : Inv s) : Inv (TO8keyRelease s) := by
  unfold TO8keyRelease
  by_cases c : (List.range 0x50).any (fun i => s.touche i == 0) = true
  · rw [if_pos c]
    exact h
  · rw [if_neg c]
    exact ⟨h.video, h.ram, h.rom, h.flavor, h.carflags, h.ramuser, h.page⟩

theorem inv_TO8keyCode (scancode : Int) (s s1 : State) (h : Inv s)
    (hm : TO8keyCode scancode s = some s1) : Inv s1 := by
  unfold TO8keyCode at hm
  cases h1 : store s (ptr s.moniteur 0) 0x30f8 (toChar (ior scancode (TO8keyShift scancode s))) with
  | none => rw [h1] at hm; cases hm
  | some t1 =>
    rw [h1] at hm
    have i1 := inv_store _ _ _ _ _ h h1
    cases h2 : store t1 (ptr t1.moniteur 0) 0x3125 (if t1.touche 0x53 ≠ 0 then 0 else 1) with
    | none =>
      have hm' : (match store t1 (ptr t1.moniteur 0) 0x3125 (if t1.touche 0x53 ≠ 0 then 0 else 1) with
        | none => none
        | some s2 => some (TO8keyIrq s2)) = some s1 := hm
      rw [h2] at hm'; cases hm'
    | some t2 =>
      have hm' : (match store t1 (ptr t1.moniteur 0) 0x3125 (if t1.touche 0x53 ≠ 0 then 0 else 1) with
        | none => none
        | some s2 => some (TO8keyIrq s2)) = some s1 := hm
      rw [h2] at hm'
      have i2 := inv_store _ _ _ _ _ i1 h2
      cases hm'
      exact ⟨i2.video, i2.ram, i2.rom, i2.flavor, i2.carflags, i2.ramuser, i2.page⟩

theorem inv_TO8keyPress (scancode : Int) (s s1 : State) (h : Inv s)
    (hm : TO8keyPress scancode s = some s1) : Inv s1 := by
  have hc : Inv (TO8keyCapslock scancode s) :=
    ⟨h.video, h.ram, h.rom, h.flavor, h.carflags, h.ramuser, h.page⟩
  unfold TO8keyPress at hm
  by_cases c : scancode > 0x4f
  · rw [if_pos c] at hm
    cases hm
    exact hc
  · rw [if_neg c] at hm
    exact inv_TO8keyCode scancode _ s1 hc hm

theorem inv_TO8key (scancode : Int) (down : Bool) (s s1 : State) (h : Inv s)
    (hm : TO8key scancode down s = some s1) : Inv s1 := by
  have ht : Inv (TO8keyTouche scancode down s) :=
    ⟨h.video, h.ram, h.rom, h.flavor, h.carflags, h.ramuser, h.page⟩
  unfold TO8key at hm
  by_cases c : 0 ≤ scancode ∧ scancode < (KEYBOARDKEY_MAX : Int)
  · rw [if_pos c] at hm
    by_cases c2 : (TO8keyTouche scancode down s).touche scancode.toNat ≠ 0
    · rw [if_pos c2] at hm
      cases hm
      exact inv_TO8keyRelease _ ht
    · rw [if_neg c2] at hm
      exact inv_TO8keyPress scancode _ s1 ht hm
  · rw [if_neg c] at hm
    cases hm

/-! ## Hard reset establishes the invariant -/

theorem inv_regs (s : State) : Inv s.regs ↔ Inv s :=
  ⟨fun h => ⟨h.video, h.ram, h.rom, h.flavor, h.carflags, h.ramuser, h.page⟩,
   fun h => ⟨h.video, h.ram, h.rom, h.flavor, h.carflags, h.ramuser, h.page⟩⟩

theorem regs_setMem (s : State) (r : Region) (i c : Nat) : (s.setMem r i c).regs = s.regs := by
  cases r <;> rfl

theorem regs_store (s s1 : State) (p : Option Ptr) (a : Int) (c : Nat)
    (h : store s p a c = some s1) : s1.regs = s.regs := by
  obtain ⟨r, i, _, e⟩ := store_eq s s1 p a c h
  rw [e, regs_setMem]

theorem regs_storeAll (p : Option Ptr) (l : List (Int × Nat)) (s s1 : State)
    (h : storeAll p l s = some s1) : s1.regs = s.regs := by
  induction l generalizing s with
  | nil => cases h; rfl
  | cons ac rest ih =>
    obtain ⟨a, c⟩ := ac
    unfold storeAll at h
    cases hs : store s p a c with
    | none => rw [hs] at h; cases h
    | some s2 =>
      rw [hs] at h
      rw [ih s2 h, regs_store s s2 p a c hs]

theorem regs_TO8dpatchBytes (rom : Option Ptr) (n : Nat) (a : Int) (s : State) (l : List Int)
    (s1 : State) (l1 : List Int) (h : TO8dpatchBytes rom n a s l = some (s1, l1)) :
    s1.regs = s.regs := by
  induction n generalizing a s l with
  | zero =>
    unfold TO8dpatchBytes at h
    cases h; rfl
  | succ n ih =>
    cases l with
    | nil => unfold TO8dpatchBytes at h; cases h
    | cons b rest =>
      unfold TO8dpatchBytes at h
      cases hs : store s rom a (toChar b) with
      | none => rw [hs] at h; cases h
      | some s2 =>
        rw [hs] at h
        rw [ih (a + 1) s2 rest h, regs_store s s2 rom a _ hs]

theorem regs_TO8dpatchLoop (rom : Option Ptr) (fuel : Nat) (s : State) (l : List Int)
    (s1 : State) (h : TO8dpatchLoop rom fuel s l = some s1) : s1.regs = s.regs := by
  induction fuel generalizing s l with
  | zero => unfold TO8dpatchLoop at h; cases h
  | succ fuel ih =>
    cases l with
    | nil => unfold TO8dpatchLoop at h; cases h
    | cons n rest =>
      unfold TO8dpatchLoop at h
      by_cases hn : n = 0
      · rw [if_pos hn] at h; cases h; rfl
      · rw [if_neg hn] at h
        match rest, h with
        | a0 :: a1 :: rest2, h =>
          simp only [] at h
          cases hb : TO8dpatchBytes rom n.toNat (a0 + a1) s rest2 with
          | none => rw [hb] at h; cases h
          | some r =>
            obtain ⟨s2, rest3⟩ := r
            rw [hb] at h
            rw [ih s2 rest3 h, regs_TO8dpatchBytes rom _ _ s rest2 s2 rest3 hb]
        | [], h => cases h
        | [_], h => cases h

theorem regs_TO8dpatch (rom : Option Ptr) (patch : List Int) (s s1 : State)
    (h : TO8dpatch rom patch s = some s1) : s1.regs = s.regs :=
  regs_TO8dpatchLoop rom _ s patch s1 h

theorem regs_HardresetDate (date : Nat → Nat) (s s1 : State)
    (h : HardresetDate date s = some s1) : s1.regs = s.regs := by
  unfold HardresetDate at h
  cases h1 : storeAll (ptr s.basic 0xeb90)
      [(0, date 0), (1, date 1), (2, date 2), (3, date 3), (4, date 4), (5, date 5),
       (6, date 6), (7, date 7), (8, 0)] s with
  | none => rw [h1] at h; cases h
  | some s2 =>
    rw [h1] at h
    rw [regs_storeAll _ _ s2 s1 h, regs_storeAll _ _ s s2 h1]

/-- The state in which `Hardreset` calls `Initprog` has the registers of the
state left by the clearing loops. -/
theorem Hardreset_eq (roms : RomHeaders) (date : Nat → Nat) (s s1 : State)
    (h : Hardreset roms date s = some s1) :
    ∃ m, m.regs = (HardresetMemory s).regs ∧
      s1 = HardresetTail (Initprog (HardresetCounters m)) := by
  unfold Hardreset at h
  simp only [] at h
  cases h1 : TO8dpatch (ptr (HardresetMemory s).basic 0)
      (roms.table (HardresetMemory s).basicpatch) (HardresetMemory s) with
  | none => rw [h1] at h; cases h
  | some s2 =>
    rw [h1] at h
    simp only [] at h
    cases h2 : TO8dpatch (ptr s2.moniteur (-0xe000)) (roms.table s2.moniteurpatch) s2 with
    | none => rw [h2] at h; cases h
    | some s3 =>
      rw [h2] at h
      simp only [] at h
      cases h3 : HardresetDate date s3 with
      | none => rw [h3] at h; cases h
      | some s4 =>
        rw [h3] at h
        cases h
        refine ⟨s4, ?_, rfl⟩
        rw [regs_HardresetDate date s3 s4 h3, regs_TO8dpatch _ _ s2 s3 h2,
          regs_TO8dpatch _ _ _ s2 h1]

/-- The three resolvers in a row establish the invariant, once the RAM bank
window they leave is consistent. -/
theorem inv_resolved (x : State) (hf : FlavorOK x)
    (hc : 0 ≤ x.carflags ∧ x.carflags < 256) (hu : x.ramuser = ptr .ram (-0x2000))
    (hp : PageOK x) (hr : RamOK (TO8rambank (TO8videoram x))) :
    Inv (TO8rombank (TO8rambank (TO8videoram x))) := by
  have hv : VideoOK (TO8rambank (TO8videoram x)) := by
    rw [TO8rambank_frame]; exact TO8videoram_ok x
  have hf1 : FlavorOK (TO8rambank (TO8videoram x)) := by
    rw [TO8rambank_frame]; exact hf
  have hc1 : 0 ≤ (TO8rambank (TO8videoram x)).carflags ∧
      (TO8rambank (TO8videoram x)).carflags < 256 := by
    rw [TO8rambank_frame]; exact hc
  have hu1 : (TO8rambank (TO8videoram x)).ramuser = ptr .ram (-0x2000) := by
    rw [TO8rambank_frame]; exact hu
  have hp1 : PageOK (TO8rambank (TO8videoram x)) := by
    rw [TO8rambank_frame]; exact hp
  exact inv_rom _ hv hr hf1 hc1 hu1 hp1

theorem TO8rambank_ok_to7 (s : State) (h : s.port 0x27 &&& 0x10 = 0) (n : Int)
    (hn : TO8rambankSwitch (s.port 0x09 &&& 0xf8) = some n) : RamOK (TO8rambank s) := by
  have hs := TO8rambank_to7 s h n hn
  have hr := TO8rambankSwitch_range _ _ hn
  rw [TO8rambank_frame]
  refine ⟨?_, ?_, ?_⟩
  · intro h0; exact absurd h h0
  · exact ⟨n, hr.1, by omega, Or.inr ⟨hr.2, hs.2⟩⟩
  · intro _ k hk
    have hk' : TO8rambankSwitch (s.port 0x09 &&& 0xf8) = some k := hk
    rw [hn] at hk'
    cases hk'
    exact hs

theorem inv_Hardreset (roms : RomHeaders) (date : Nat → Nat) (s s1 : State)
    (hf : FlavorOK s) (h : Hardreset roms date s = some s1) : Inv s1 := by
  obtain ⟨m, hm, rfl⟩ := Hardreset_eq roms date s s1 h
  have hport : m.port = (HardresetMemory s).port :=
    (congrArg State.port hm : m.regs.port = (HardresetMemory s).regs.port)
  have hcar : m.carflags = s.carflags :=
    (congrArg State.carflags hm : m.regs.carflags = (HardresetMemory s).regs.carflags)
  have hbasic : m.basic = s.basic :=
    (congrArg State.basic hm : m.regs.basic = (HardresetMemory s).regs.basic)
  have hbp : m.basicpatch = s.basicpatch :=
    (congrArg State.basicpatch hm : m.regs.basicpatch = (HardresetMemory s).regs.basicpatch)
  have hmon : m.moniteur = s.moniteur :=
    (congrArg State.moniteur hm : m.regs.moniteur = (HardresetMemory s).regs.moniteur)
  have hmp : m.moniteurpatch = s.moniteurpatch :=
    (congrArg State.moniteurpatch hm :
      m.regs.moniteurpatch = (HardresetMemory s).regs.moniteurpatch)
  have hfl : m.currentFlavor = s.currentFlavor :=
    (congrArg State.currentFlavor hm :
      m.regs.currentFlavor = (HardresetMemory s).regs.currentFlavor)
  have h27 : m.port 0x27 = 0 := by rw [hport]; rfl
  have h9 : m.port 0x09 = 0x0f := by rw [hport]; rfl
  have hI : Inv (Initprog (HardresetCounters m)) := by
    unfold Initprog Reset6809
    apply inv_resolved
    · show m.basic = _ ∧ m.basicpatch = _ ∧ m.moniteur = _ ∧ m.moniteurpatch = _
      rw [hbasic, hbp, hmon, hmp]
      show s.basic = _ ∧ s.basicpatch = _ ∧ s.moniteur = (if m.currentFlavor = _ then _ else _) ∧
        s.moniteurpatch = (if m.currentFlavor = _ then _ else _)
      rw [hfl]
      exact hf
    · show 0 ≤ iand m.carflags 0xec ∧ iand m.carflags 0xec < 256
      have := iand_nonneg_lt m.carflags 0xec (by norm_num)
      have e : ((0xec : Nat) : Int) = 0xec := by norm_num
      rw [e] at this
      omega
    · rfl
    · exact Videopage_bordercolor_ok _ _
    · apply TO8rambank_ok_to7 _ _ 0
      · show TO8rambankSwitch (m.port 0x09 &&& 0xf8) = some 0
        rw [h9]; rfl
      · show m.port 0x27 &&& 0x10 = 0
        rw [h27]; rfl
  exact ⟨hI.video, hI.ram, hI.rom, hI.flavor, hI.carflags, hI.ramuser, hI.page⟩

theorem inv_SetThomsonFlavor (roms : RomHeaders) (date : Nat → Nat) (f : ThomsonFlavor)
    (s s1 : State) (hi : Inv s) (h : SetThomsonFlavor roms date f s = some s1) : Inv s1 := by
  unfold SetThomsonFlavor at h
  by_cases c : f ≠ s.currentFlavor
  · rw [if_pos c] at h
    refine inv_Hardreset roms date _ s1 ?_ h
    cases f <;> exact ⟨rfl, rfl, rfl, rfl⟩
  · rw [if_neg c] at h
    cases h
    exact hi

theorem inv_step (roms : RomHeaders) (ok : BusOp → Prop) (s s1 : State) (hi : Inv s)
    (h : Step roms ok s s1) : Inv s1 := by
  cases h with
  | put a c _ _ _ hm => exact inv_Mputto8d a c s s1 hi hm
  | get a v _ _ hm => exact inv_Mgetto8d a v s s1 hi hm
  | run st _ hm => exact inv_RunIteration st s s1 hi hm
  | key sc down hm => exact inv_TO8key sc down s s1 hi hm
  | joy axis isOn _ => exact inv_Joysemul axis isOn s hi
  | reset date hm => exact inv_Hardreset roms date s s1 hi.flavor hm
  | flavor date f hm => exact inv_SetThomsonFlavor roms date f s s1 hi hm

/-- Every reachable state satisfies the invariant. -/
theorem inv_reachable (roms : RomHeaders) (ok : BusOp → Prop) (s : State)
    (h : ReachableBy roms ok s) : Inv s := by
  induction h with
  | start basic m8 m8d date hm =>
    exact inv_Hardreset roms date _ _ ⟨rfl, rfl, rfl, rfl⟩ hm
  | step _ hs ih => exact inv_step roms ok _ _ ih hs

/-! ## Concrete machines -/

theorem exReset_eq : Hardreset exRoms exDate exStart = some exReset := rfl

theorem exOverlay_eq : Mputto8d 0xe7e6 0x60 exReset = some exOverlay := rfl

theorem exReset_reachable : Reachable exRoms exReset :=
  ReachableBy.start _ _ _ _ exReset_eq

theorem exOverlay_reachable : Reachable exRoms exOverlay :=
  ReachableBy.step exReset_reachable
    (Step.put 0xe7e6 0x60 (by decide) (by decide) trivial exOverlay_eq)

/-! ## The bus on the ROM space (`0x0000..0x3fff`) -/

set_option maxRecDepth 100000 in
theorem byte_and_60 : ∀ b < 256, b &&& 0x60 = 0x60 → b &&& 0x20 ≠ 0 := by decide

theorem and_60_20 (x : Nat) (h : x &&& 0x60 = 0x60) : x &&& 0x20 ≠ 0 := by
  rw [and_mask_mod x 0x60 (by norm_num)] at h
  rw [and_mask_mod x 0x20 (by norm_num)]
  exact byte_and_60 (x % 256) (Nat.mod_lt _ (by norm_num)) h

set_option maxRecDepth 100000 in
theorem byte_and_20 : ∀ b < 256, b &&& 0x20 = 0 → b &&& 0x60 ≠ 0x60 := by decide

theorem and_20_60 (x : Nat) (h : x &&& 0x20 = 0) : x &&& 0x60 ≠ 0x60 := by
  rw [and_mask_mod x 0x20 (by norm_num)] at h
  rw [and_mask_mod x 0x60 (by norm_num)]
  exact byte_and_20 (x % 256) (Nat.mod_lt _ (by norm_num)) h

theorem shr12 (a : Nat) : a >>> 12 = a / 4096 := by
  rw [Nat.shiftRight_eq_div_pow]

/-- Bus write below `0x2000` while the overlay is enabled and writable. -/
theorem Mputto8d_overlay_lo (a c : Nat) (s : State) (ha : a < 0x2000)
    (ho : s.port 0x26 &&& 0x60 = 0x60) :
    Mputto8d a c s = store s s.rombank ((a : Int) + 0x2000) c := by
  have h20 := and_60_20 _ ho
  have hn : a >>> 12 = 0x0 ∨ a >>> 12 = 0x1 := by rw [shr12]; omega
  unfold Mputto8d
  simp only []
  rw [if_pos hn, if_neg (not_not.mpr h20), if_neg (not_not.mpr ho), if_pos h20]

/-- Bus write in `0x2000..0x3fff` while the overlay is enabled and writable. -/
theorem Mputto8d_overlay_hi (a c : Nat) (s : State) (ha : 0x2000 ≤ a) (hb : a < 0x4000)
    (ho : s.port 0x26 &&& 0x60 = 0x60) :
    Mputto8d a c s = store s s.rombank ((a : Int) - 0x2000) c := by
  have h20 := and_60_20 _ ho
  have hn : ¬ (a >>> 12 = 0x0 ∨ a >>> 12 = 0x1) := by rw [shr12]; omega
  have hn2 : a >>> 12 = 0x2 ∨ a >>> 12 = 0x3 := by rw [shr12]; omega
  unfold Mputto8d
  simp only []
  rw [if_neg hn, if_pos hn2, if_neg (not_not.mpr ho), if_pos h20]

/-- Bus read below `0x2000` while the overlay is enabled. -/
theorem Mgetto8d_overlay_lo (a : Nat) (s : State) (ha : a < 0x2000)
    (ho : s.port 0x26 &&& 0x20 ≠ 0) :
    Mgetto8d a s = (load s s.rombank ((a : Int) + 0x2000)).map (fun v => (v, s)) := by
  have hn : a >>> 12 = 0x0 ∨ a >>> 12 = 0x1 := by rw [shr12]; omega
  unfold Mgetto8d
  simp only []
  rw [if_pos hn, if_pos ho]

/-- Bus read in `0x2000..0x3fff` while the overlay is enabled. -/
theorem Mgetto8d_overlay_hi (a : Nat) (s : State) (ha : 0x2000 ≤ a) (hb : a < 0x4000)
    (ho : s.port 0x26 &&& 0x20 ≠ 0) :
    Mgetto8d a s = (load s s.rombank ((a : Int) - 0x2000)).map (fun v => (v, s)) := by
  have hn : ¬ (a >>> 12 = 0x0 ∨ a >>> 12 = 0x1) := by rw [shr12]; omega
  have hn2 : a >>> 12 = 0x2 ∨ a >>> 12 = 0x3 := by rw [shr12]; omega
  unfold Mgetto8d
  simp only []
  rw [if_neg hn, if_pos hn2, if_pos ho]

/-- The overlay window of a state that satisfies the invariant. -/
theorem overlay_rombank (s : State) (hi : Inv s) (ho : s.port 0x26 &&& 0x20 ≠ 0) :
    s.rombank = ptr .ram (shl ((s.port 0x26 &&& 0x1f : Nat) : Int) 14) := by
  have := hi.rom.1
  rw [if_pos ho] at this
  exact this

/-- Index selected in the overlay bank, for an offset inside the bank. -/
theorem index_overlay (k x : Nat) (hx : x < 0x4000) :
    index (ptr .ram (shl ((k &&& 0x1f : Nat) : Int) 14)) (x : Int) =
      some (.ram, (k &&& 0x1f) * 0x4000 + x) := by
  have hk : k &&& 0x1f ≤ 0x1f := Nat.and_le_right
  unfold index ptr shl
  simp only []
  have e : ((k &&& 0x1f : Nat) : Int) * 2 ^ 14 + (x : Int) =
      (((k &&& 0x1f) * 0x4000 + x : Nat) : Int) := by
    push_cast
    omega
  rw [e]
  have hlt : (((k &&& 0x1f) * 0x4000 + x : Nat) : Int) < ((Region.ram.size : Nat) : Int) := by
    show _ < ((524288 : Nat) : Int)
    omega
  rw [if_pos ⟨by omega, hlt⟩, Int.toNat_ofNat]

theorem load_of_index (s : State) (p : Option Ptr) (a : Int) (r : Region) (i : Nat)
    (h : index p a = some (r, i)) : load s p a = some (s.mem r i) := by
  unfold load
  rw [h]

theorem store_of_index (s : State) (p : Option Ptr) (a : Int) (c : Nat) (r : Region) (i : Nat)
    (h : index p a = some (r, i)) : store s p a c = some (s.setMem r i c) := by
  unfold store
  rw [h]

/-- C1, as stated, fails: on the machine in which RAM bank 0 overlays the ROM
space and is writable, the byte `0x55` written at CPU address `0x0000` is not
what a read of CPU address `0x2000` returns (it returns `0x00`). -/
theorem overlay_write_0000_read_2000_counterexample :
    Reachable exRoms exOverlay ∧ exOverlay.port 0x26 &&& 0x60 = 0x60 ∧
    ∃ s1, Mputto8d 0x0000 0x55 exOverlay = some s1 ∧
      (Mgetto8d 0x2000 s1).map Prod.fst = some 0x00 ∧
      (Mgetto8d 0x2000 s1).map Prod.fst ≠ some 0x55 :=
  ⟨exOverlay_reachable, by decide, _, rfl, by decide, by decide⟩

/-- C1, amended: in every reachable state in which the RAM overlay is enabled
and writable (`(port[0x26] & 0x60) == 0x60`), a bus write of `v` to CPU address
`0x0000` stores `v` at offset `0x2000` of the overlay bank; a following bus read
of CPU address `0x0000` returns `v`, and a bus read of CPU address `0x2000`
returns the byte at offset 0 of the bank, which the write has not changed. -/
theorem overlay_write_0000_read_0000 (roms : RomHeaders) (s : State) (v : Nat)
    (hr : Reachable roms s) (ho : s.port 0x26 &&& 0x60 = 0x60) :
    ∃ s1, Mputto8d 0x0000 v s = some s1 ∧
      s1.ram = setAt s.ram ((s.port 0x26 &&& 0x1f) * 0x4000 + 0x2000) v ∧
      (Mgetto8d 0x0000 s1).map Prod.fst = some v ∧
      (Mgetto8d 0x2000 s1).map Prod.fst = some (s.ram ((s.port 0x26 &&& 0x1f) * 0x4000)) ∧
      (Mgetto8d 0x2000 s).map Prod.fst = some (s.ram ((s.port 0x26 &&& 0x1f) * 0x4000)) := by
  have hi := inv_reachable roms _ s hr
  have h20 := and_60_20 _ ho
  have hrb := overlay_rombank s hi h20
  have e1 : ((0 : Nat) : Int) + 0x2000 = ((0x2000 : Nat) : Int) := by norm_num
  have e2 : ((0x2000 : Nat) : Int) - 0x2000 = ((0 : Nat) : Int) := by norm_num
  have hput : Mputto8d 0x0000 v s =
      some (s.setMem .ram ((s.port 0x26 &&& 0x1f) * 0x4000 + 0x2000) v) := by
    rw [Mputto8d_overlay_lo 0 v s (by norm_num) ho, hrb, e1,
      store_of_index _ _ _ _ _ _ (index_overlay _ _ (by norm_num))]
  have h20a : (s.setMem .ram ((s.port 0x26 &&& 0x1f) * 0x4000 + 0x2000) v).port 0x26 &&& 0x20
      ≠ 0 := h20
  have hrba : (s.setMem .ram ((s.port 0x26 &&& 0x1f) * 0x4000 + 0x2000) v).rombank =
      ptr .ram (shl ((s.port 0x26 &&& 0x1f : Nat) : Int) 14) := hrb
  refine ⟨_, hput, rfl, ?_, ?_, ?_⟩
  · rw [Mgetto8d_overlay_lo 0 _ (by norm_num) h20a, hrba, e1,
      load_of_index _ _ _ _ _ (index_overlay _ _ (by norm_num))]
    simp [State.mem, State.setMem]
  · rw [Mgetto8d_overlay_hi 0x2000 _ (by norm_num) (by norm_num) h20a, hrba, e2,
      load_of_index _ _ _ _ _ (index_overlay _ _ (by norm_num))]
    simp [State.mem, State.setMem, setAt]
  · rw [Mgetto8d_overlay_hi 0x2000 _ (by norm_num) (by norm_num) h20, hrb, e2,
      load_of_index _ _ _ _ _ (index_overlay _ _ (by norm_num))]
    simp [State.mem]

theorem overlay_write_0000_read_0000_witness :
    ∃ s1, Mputto8d 0x0000 0x55 exOverlay = some s1 ∧
      s1.ram = setAt exOverlay.ram ((exOverlay.port 0x26 &&& 0x1f) * 0x4000 + 0x2000) 0x55 ∧
      (Mgetto8d 0x0000 s1).map Prod.fst = some 0x55 ∧
      (Mgetto8d 0x2000 s1).map Prod.fst =
        some (exOverlay.ram ((exOverlay.port 0x26 &&& 0x1f) * 0x4000)) ∧
      (Mgetto8d 0x2000 exOverlay).map Prod.fst =
        some (exOverlay.ram ((exOverlay.port 0x26 &&& 0x1f) * 0x4000)) :=
  overlay_write_0000_read_0000 exRoms exOverlay 0x55 exOverlay_reachable (by decide)

/-! ## Bank switch by write address -/

theorem iand_natCast (a b : Nat) (ha : a < 2147483648) (hb : b < 2147483648) :
    iand (a : Int) (b : Int) = ((a &&& b : Nat) : Int) := by
  rw [iand_mask _ b hb, toU32_natCast a (by omega)]

theorem inot_three : inot 3 = -4 := by decide

theorem toU32_neg_four : toU32 (-4) = 4294967292 := by decide

set_option maxRecDepth 100000 in
theorem byte_and_not3 : ∀ b < 256, b &&& 4294967292 = b &&& 0xfc := by decide

set_option maxRecDepth 100000 in
theorem byte_fc_or : ∀ b < 256, ∀ k < 4,
    ((b &&& 0xfc) ||| k) &&& 3 = k ∧ ((b &&& 0xfc) ||| k) &&& 0xfc = b &&& 0xfc := by decide

/-- For `carflags` in `0..255` the masks `~3` and `0xfc` select the same bits. -/
theorem iand_not3 (n : Nat) (hn : n < 256) : iand (n : Int) (inot 3) = ((n &&& 0xfc : Nat) : Int) := by
  unfold iand
  rw [inot_three, toU32_neg_four, toU32_natCast n (by omega), byte_and_not3 n hn, ofU32_of_lt]
  have : n &&& 0xfc ≤ 0xfc := Nat.and_le_right
  omega

theorem TO8rombank_carflags (s : State) : (TO8rombank s).carflags = s.carflags := by
  rw [TO8rombank_frame]

theorem TO8rombank_port (s : State) : (TO8rombank s).port = s.port := by
  rw [TO8rombank_frame]

/-- Bus write below `0x2000` while the overlay is disabled: the bank switch, and
no store. -/
theorem Mputto8d_bankswitch (a c : Nat) (s : State) (ha : a < 0x2000)
    (ho : s.port 0x26 &&& 0x20 = 0) : Mputto8d a c s = some (MputBankSwitch a s) := by
  have hn : a >>> 12 = 0x0 ∨ a >>> 12 = 0x1 := by rw [shr12]; omega
  have h1 : ¬ (s.port 0x26 &&& 0x20 ≠ 0) := not_not.mpr ho
  have h2 : (MputBankSwitch a s).port 0x26 &&& 0x60 ≠ 0x60 := by
    unfold MputBankSwitch
    rw [TO8rombank_port]
    exact and_20_60 _ ho
  unfold Mputto8d
  simp only []
  rw [if_pos hn, if_pos h1, if_pos h2]

/-- The assignment of `carflags` by a bus write below `0x2000`, for every state:
the expression `(carflags & 0xfc) | (a & 3)` of the source. -/
theorem MputBankSwitch_carflags (a : Nat) (s : State) :
    (MputBankSwitch a s).carflags = ior (iand s.carflags 0xfc) ((a &&& 3 : Nat) : Int) := by
  unfold MputBankSwitch
  rw [TO8rombank_carflags]

/-- C2: in every machine state whose `carflags` is a byte (its flag bits are bits
0 to 4) and in which the overlay is disabled, a bus write at an address `a` in
`0x0000..0x1fff` succeeds, sets `carflags` to `(carflags & ~3) | (a & 3)` (its
bits above the low two are unchanged, the low two are `a & 3`) and re-resolves
`rombank`: to `basic + ((a & 3) << 14)` with `nrombank = a & 3` when
`port[0x03] & 0x04` is set, to `car + ((a & 3) << 14)` with `nrombank = -1`
otherwise.  Nothing else is assumed of the state. -/
theorem bank_switch_by_write (s : State) (a c : Nat)
    (hc : 0 ≤ s.carflags ∧ s.carflags < 256) (ho : s.port 0x26 &&& 0x20 = 0)
    (ha : a < 0x2000) :
    ∃ s1, Mputto8d a c s = some s1 ∧
      s1.carflags = ior (iand s.carflags (inot 3)) ((a &&& 3 : Nat) : Int) ∧
      iand s1.carflags (inot 3) = iand s.carflags (inot 3) ∧
      iand s1.carflags 3 = ((a &&& 3 : Nat) : Int) ∧
      (s.port 0x03 &&& 0x04 ≠ 0 →
        s1.rombank = ptr s.basic (shl ((a &&& 3 : Nat) : Int) 14) ∧
        s1.nrombank = ((a &&& 3 : Nat) : Int)) ∧
      (s.port 0x03 &&& 0x04 = 0 →
        s1.rombank = ptr .car (shl ((a &&& 3 : Nat) : Int) 14) ∧ s1.nrombank = -1) := by
  obtain ⟨hc0, hc1⟩ := hc
  obtain ⟨n, hn⟩ : ∃ n : Nat, s.carflags = (n : Int) := ⟨s.carflags.toNat, by omega⟩
  have hn256 : n < 256 := by omega
  have hk : a &&& 3 < 4 := by
    have : a &&& 3 ≤ 3 := Nat.and_le_right
    omega
  have hm : n &&& 0xfc ≤ 0xfc := Nat.and_le_right
  have hbits := byte_fc_or n hn256 (a &&& 3) hk
  have hor : (n &&& 0xfc) ||| (a &&& 3) < 256 :=
    Nat.or_lt_two_pow (n := 8) (by omega) (by omega)
  -- the new value of `carflags`
  have hcf : (MputBankSwitch a s).carflags = (((n &&& 0xfc) ||| (a &&& 3) : Nat) : Int) := by
    unfold MputBankSwitch
    rw [TO8rombank_carflags]
    show ior (iand s.carflags 0xfc) ((a &&& 3 : Nat) : Int) = _
    have e : (0xfc : Int) = ((0xfc : Nat) : Int) := by norm_num
    rw [hn, e, iand_natCast n 0xfc (by omega) (by norm_num), ior_natCast _ _ (by omega) (by omega)]
  have h3 : iand (MputBankSwitch a s).carflags 3 = ((a &&& 3 : Nat) : Int) := by
    have e : (3 : Int) = ((3 : Nat) : Int) := by norm_num
    rw [hcf, e, iand_natCast _ 3 (by omega) (by norm_num), hbits.1]
  have hov : ¬ ((s.port 0x26 &&& 0x20) ≠ 0) := not_not.mpr ho
  refine ⟨MputBankSwitch a s, Mputto8d_bankswitch a c s ha ho, ?_, ?_, h3, ?_, ?_⟩
  · rw [hcf, hn, iand_not3 n hn256, ior_natCast _ _ (by omega) (by omega)]
  · rw [hcf, hn, iand_not3 n hn256, iand_not3 _ hor, hbits.2]
  · intro hb
    have hr1 : (MputBankSwitch a s).rombank =
        ptr s.basic (shl (iand (MputBankSwitch a s).carflags 3) 14) := by
      have := TO8rombank_rombank
        { s with carflags := ior (iand s.carflags 0xfc) ((a &&& 3 : Nat) : Int) }
      rw [if_neg hov, if_pos hb] at this
      unfold MputBankSwitch
      rw [TO8rombank_carflags]
      exact this
    have hr2 : (MputBankSwitch a s).nrombank = iand (MputBankSwitch a s).carflags 3 := by
      have := TO8rombank_nrombank
        { s with carflags := ior (iand s.carflags 0xfc) ((a &&& 3 : Nat) : Int) }
      rw [if_neg hov, if_pos hb] at this
      unfold MputBankSwitch
      rw [TO8rombank_carflags]
      exact this
    rw [h3] at hr1 hr2
    exact ⟨hr1, hr2⟩
  · intro hb
    have hb' : ¬ (s.port 0x03 &&& 0x04 ≠ 0) := not_not.mpr hb
    have hr1 : (MputBankSwitch a s).rombank =
        ptr .car (shl (iand (MputBankSwitch a s).carflags 3) 14) := by
      have := TO8rombank_rombank
        { s with carflags := ior (iand s.carflags 0xfc) ((a &&& 3 : Nat) : Int) }
      rw [if_neg hov, if_neg hb'] at this
      unfold MputBankSwitch
      rw [TO8rombank_carflags]
      exact this
    have hr2 : (MputBankSwitch a s).nrombank = -1 := by
      have := TO8rombank_nrombank
        { s with carflags := ior (iand s.carflags 0xfc) ((a &&& 3 : Nat) : Int) }
      rw [if_neg hov, if_neg hb'] at this
      unfold MputBankSwitch
      exact this
    rw [h3] at hr1
    exact ⟨hr1, hr2⟩

theorem exBasic_eq : Mputto8d 0xe7c3 0x04 exReset = some exBasic := rfl

theorem exBasic_reachable : Reachable exRoms exBasic :=
  ReachableBy.step exReset_reachable
    (Step.put 0xe7c3 0x04 (by decide) (by decide) trivial exBasic_eq)

theorem bank_switch_by_write_witness :
    (0 ≤ exCarFlags.carflags ∧ exCarFlags.carflags < 256) ∧
    exCarFlags.port 0x26 &&& 0x20 = 0 ∧ 0x0002 < 0x2000 ∧
    (∃ s1, Mputto8d 0x0002 0x00 exCarFlags = some s1 ∧
      s1.carflags = ior (iand exCarFlags.carflags (inot 3)) ((0x0002 &&& 3 : Nat) : Int) ∧
      iand s1.carflags (inot 3) = iand exCarFlags.carflags (inot 3) ∧
      iand s1.carflags 3 = ((0x0002 &&& 3 : Nat) : Int) ∧
      (exCarFlags.port 0x03 &&& 0x04 ≠ 0 →
        s1.rombank = ptr exCarFlags.basic (shl ((0x0002 &&& 3 : Nat) : Int) 14) ∧
        s1.nrombank = ((0x0002 &&& 3 : Nat) : Int)) ∧
      (exCarFlags.port 0x03 &&& 0x04 = 0 →
        s1.rombank = ptr .car (shl ((0x0002 &&& 3 : Nat) : Int) 14) ∧ s1.nrombank = -1)) ∧
    exCarFlags.carflags = 0x1d ∧ iand exCarFlags.carflags (inot 3) = 0x1c ∧
    exCarFlags.port 0x03 &&& 0x04 ≠ 0 ∧
    (Mputto8d 0x0002 0x00 exCarFlags).map (fun t => (t.carflags, t.rombank, t.nrombank)) =
      some (0x1e, ptr .to8dbasic 0x8000, 2) :=
  ⟨by decide, by decide, by decide,
    bank_switch_by_write exCarFlags 0x0002 0x00 (by decide) (by decide) (by decide),
    by decide, by decide, by decide, by decide⟩

/-! ## Bus writes and the byte arrays -/

theorem TO8rombank_memory (s : State) : (TO8rombank s).memory = s.memory := by
  rw [TO8rombank_frame]; rfl

theorem TO8rambank_memory (s : State) : (TO8rambank s).memory = s.memory := by
  rw [TO8rambank_frame]; rfl

theorem Timercontrol_memory (s : State) : (Timercontrol s).memory = s.memory := by
  unfold Timercontrol
  by_cases c : s.port 0x05 &&& 0x01 ≠ 0
  · rw [if_pos c]; rfl
  · rw [if_neg c]

theorem MputE7CD_memory (c : Nat) (s : State) : (MputE7CD c s).memory = s.memory := by
  unfold MputE7CD
  by_cases c4 : s.port 0x0f &&& 4 ≠ 0
  · rw [if_pos c4]; rfl
  · rw [if_neg c4]; rfl

theorem Palettecolor_memory (c : Nat) (s s1 : State) (h : Palettecolor c s = some s1) :
    s1.memory = s.memory := by
  unfold Palettecolor at h
  by_cases hr : 0 ≤ charToInt (s.port 0x1b) ∧ charToInt (s.port 0x1b) < (PALETTE_SIZE : Int)
  · rw [if_pos hr] at h
    by_cases ho : iand (charToInt (s.port 0x1b)) 1 ≠ 0
    · rw [if_pos ho] at h; cases h; rfl
    · rw [if_neg ho] at h; cases h; rfl
  · rw [if_neg hr] at h; cases h

/-- No write on the I/O page changes a byte array. -/
theorem MputPage_memory (a c : Nat) (s s1 : State) (h : MputPage a c s = some s1) :
    s1.memory = s.memory := by
  revert h
  apply MputPage_cases a c s (fun r => r = some s1 → s1.memory = s.memory)
  case h12 => intro _ h; exact Palettecolor_memory c s s1 h
  case h2 =>
    intro _ h; cases h
    unfold MputE7C3
    rw [TO8rombank_memory]; rfl
  case h3 =>
    intro _ h; cases h
    unfold MputE7C5
    rw [Timercontrol_memory]; rfl
  case h8 => intro _ h; cases h; exact MputE7CD_memory c s
  case h6 =>
    intro _ h; cases h
    unfold MputE7C9
    rw [TO8rambank_memory]; rfl
  case h17 =>
    intro _ h; cases h
    unfold MputE7E5
    rw [TO8rambank_memory]; rfl
  case h19 =>
    intro _ h; cases h
    unfold MputE7E7
    rw [TO8rambank_memory]; rfl
  case h18 =>
    intro _ h; cases h
    unfold MputE7E6
    rw [TO8rombank_memory]; rfl
  case hd => intros; rename_i h; cases h; rfl
  all_goals
    intro _ h; cases h; rfl

theorem index_base (r r1 : Region) (k a : Int) (i : Nat)
    (h : index (ptr r k) a = some (r1, i)) : r1 = r := by
  unfold index ptr at h
  simp only [] at h
  by_cases c : 0 ≤ k + a ∧ k + a < (r.size : Int)
  · rw [if_pos c] at h
    cases h; rfl
  · rw [if_neg c] at h
    cases h

/-- A store through a pointer into `ram` changes `ram` only. -/
theorem store_ram (s s1 : State) (k a : Int) (c : Nat)
    (h : store s (ptr .ram k) a c = some s1) : ∃ i, s1 = s.setMem .ram i c := by
  obtain ⟨r, i, hi, e⟩ := store_eq s s1 _ a c h
  have := index_base _ _ _ _ _ hi
  subst this
  exact ⟨i, e⟩

theorem Mputto8d_readonly_lo (a c : Nat) (s : State) (ha : a < 0x2000)
    (h20 : s.port 0x26 &&& 0x20 ≠ 0) (ho : s.port 0x26 &&& 0x60 ≠ 0x60) :
    Mputto8d a c s = some s := by
  have hn : a >>> 12 = 0x0 ∨ a >>> 12 = 0x1 := by rw [shr12]; omega
  unfold Mputto8d
  simp only []
  rw [if_pos hn, if_neg (not_not.mpr h20), if_pos ho]

theorem Mputto8d_readonly_hi (a c : Nat) (s : State) (ha : 0x2000 ≤ a) (hb : a < 0x4000)
    (ho : s.port 0x26 &&& 0x60 ≠ 0x60) : Mputto8d a c s = some s := by
  have hn : ¬ (a >>> 12 = 0x0 ∨ a >>> 12 = 0x1) := by rw [shr12]; omega
  have hn2 : a >>> 12 = 0x2 ∨ a >>> 12 = 0x3 := by rw [shr12]; omega
  unfold Mputto8d
  simp only []
  rw [if_neg hn, if_pos hn2, if_pos ho]

theorem Mputto8d_ramvideo (a c : Nat) (s : State) (ha : 0x4000 ≤ a) (hb : a < 0x6000) :
    Mputto8d a c s = store s s.ramvideo (a : Int) c := by
  have h1 : ¬ (a >>> 12 = 0x0 ∨ a >>> 12 = 0x1) := by rw [shr12]; omega
  have h2 : ¬ (a >>> 12 = 0x2 ∨ a >>> 12 = 0x3) := by rw [shr12]; omega
  have h3 : a >>> 12 = 0x4 ∨ a >>> 12 = 0x5 := by rw [shr12]; omega
  unfold Mputto8d
  simp only []
  rw [if_neg h1, if_neg h2, if_pos h3]

theorem Mputto8d_ramuser (a c : Nat) (s : State) (ha : 0x6000 ≤ a) (hb : a < 0xa000) :
    Mputto8d a c s = store s s.ramuser (a : Int) c := by
  have h1 : ¬ (a >>> 12 = 0x0 ∨ a >>> 12 = 0x1) := by rw [shr12]; omega
  have h2 : ¬ (a >>> 12 = 0x2 ∨ a >>> 12 = 0x3) := by rw [shr12]; omega
  have h3 : ¬ (a >>> 12 = 0x4 ∨ a >>> 12 = 0x5) := by rw [shr12]; omega
  have h4 : a >>> 12 = 0x6 ∨ a >>> 12 = 0x7 ∨ a >>> 12 = 0x8 ∨ a >>> 12 = 0x9 := by
    rw [shr12]; omega
  unfold Mputto8d
  simp only []
  rw [if_neg h1, if_neg h2, if_neg h3, if_pos h4]

theorem Mputto8d_rambank (a c : Nat) (s : State) (ha : 0xa000 ≤ a) (hb : a < 0xe000) :
    Mputto8d a c s = store s s.rambank (a : Int) c := by
  have h1 : ¬ (a >>> 12 = 0x0 ∨ a >>> 12 = 0x1) := by rw [shr12]; omega
  have h2 : ¬ (a >>> 12 = 0x2 ∨ a >>> 12 = 0x3) := by rw [shr12]; omega
  have h3 : ¬ (a >>> 12 = 0x4 ∨ a >>> 12 = 0x5) := by rw [shr12]; omega
  have h4 : ¬ (a >>> 12 = 0x6 ∨ a >>> 12 = 0x7 ∨ a >>> 12 = 0x8 ∨ a >>> 12 = 0x9) := by
    rw [shr12]; omega
  have h5 : a >>> 12 = 0xa ∨ a >>> 12 = 0xb ∨ a >>> 12 = 0xc ∨ a >>> 12 = 0xd := by
    rw [shr12]; omega
  unfold Mputto8d
  simp only []
  rw [if_neg h1, if_neg h2, if_neg h3, if_neg h4, if_pos h5]

theorem Mputto8d_io (a c : Nat) (s : State) (ha : 0xe000 ≤ a) (hb : a < 0xf000) :
    Mputto8d a c s = MputPage a c s := by
  have h1 : ¬ (a >>> 12 = 0x0 ∨ a >>> 12 = 0x1) := by rw [shr12]; omega
  have h2 : ¬ (a >>> 12 = 0x2 ∨ a >>> 12 = 0x3) := by rw [shr12]; omega
  have h3 : ¬ (a >>> 12 = 0x4 ∨ a >>> 12 = 0x5) := by rw [shr12]; omega
  have h4 : ¬ (a >>> 12 = 0x6 ∨ a >>> 12 = 0x7 ∨ a >>> 12 = 0x8 ∨ a >>> 12 = 0x9) := by
    rw [shr12]; omega
  have h5 : ¬ (a >>> 12 = 0xa ∨ a >>> 12 = 0xb ∨ a >>> 12 = 0xc ∨ a >>> 12 = 0xd) := by
    rw [shr12]; omega
  have h6 : a >>> 12 = 0xe := by rw [shr12]; omega
  unfold Mputto8d
  simp only []
  rw [if_neg h1, if_neg h2, if_neg h3, if_neg h4, if_neg h5, if_pos h6]

theorem Mputto8d_top (a c : Nat) (s : State) (ha : 0xf000 ≤ a) :
    Mputto8d a c s = some s := by
  have h1 : ¬ (a >>> 12 = 0x0 ∨ a >>> 12 = 0x1) := by rw [shr12]; omega
  have h2 : ¬ (a >>> 12 = 0x2 ∨ a >>> 12 = 0x3) := by rw [shr12]; omega
  have h3 : ¬ (a >>> 12 = 0x4 ∨ a >>> 12 = 0x5) := by rw [shr12]; omega
  have h4 : ¬ (a >>> 12 = 0x6 ∨ a >>> 12 = 0x7 ∨ a >>> 12 = 0x8 ∨ a >>> 12 = 0x9) := by
    rw [shr12]; omega
  have h5 : ¬ (a >>> 12 = 0xa ∨ a >>> 12 = 0xb ∨ a >>> 12 = 0xc ∨ a >>> 12 = 0xd) := by
    rw [shr12]; omega
  have h6 : ¬ (a >>> 12 = 0xe) := by rw [shr12]; omega
  unfold Mputto8d
  simp only []
  rw [if_neg h1, if_neg h2, if_neg h3, if_neg h4, if_neg h5, if_neg h6]

theorem MputBankSwitch_memory (a : Nat) (s : State) : (MputBankSwitch a s).memory = s.memory := by
  unfold MputBankSwitch
  rw [TO8rombank_memory]; rfl

/-- A bus write in a reachable state changes no byte array except `ram`. -/
theorem Mputto8d_roms (roms : RomHeaders) (s s1 : State) (a c : Nat)
    (hr : Reachable roms s) (h : Mputto8d a c s = some s1) :
    s1.car = s.car ∧ s1.to8dbasic = s.to8dbasic ∧ s1.to8moniteur = s.to8moniteur ∧
      s1.to8dmoniteur = s.to8dmoniteur := by
  have hi := inv_reachable roms _ s hr
  have key : ∀ t : State, t.memory = s.memory →
      t.car = s.car ∧ t.to8dbasic = s.to8dbasic ∧ t.to8moniteur = s.to8moniteur ∧
      t.to8dmoniteur = s.to8dmoniteur := by
    intro t ht
    exact ⟨congrArg (fun m => m.2.1) ht, congrArg (fun m => m.2.2.1) ht,
      congrArg (fun m => m.2.2.2.1) ht, congrArg (fun m => m.2.2.2.2) ht⟩
  have viaRam : ∀ k : Int, ∀ x : Int, store s (ptr .ram k) x c = some s1 →
      s1.car = s.car ∧ s1.to8dbasic = s.to8dbasic ∧ s1.to8moniteur = s.to8moniteur ∧
      s1.to8dmoniteur = s.to8dmoniteur := by
    intro k x hs
    obtain ⟨i, rfl⟩ := store_ram s s1 k x c hs
    exact ⟨rfl, rfl, rfl, rfl⟩
  by_cases h4 : a < 0x4000
  · by_cases ho : s.port 0x26 &&& 0x60 = 0x60
    · have h20 := and_60_20 _ ho
      have hrb := overlay_rombank s hi h20
      by_cases h2 : a < 0x2000
      · rw [Mputto8d_overlay_lo a c s h2 ho, hrb] at h
        exact viaRam _ _ h
      · rw [Mputto8d_overlay_hi a c s (by omega) h4 ho, hrb] at h
        exact viaRam _ _ h
    · by_cases h2 : a < 0x2000
      · by_cases h20 : s.port 0x26 &&& 0x20 = 0
        · rw [Mputto8d_bankswitch a c s h2 h20] at h
          cases h
          exact key _ (MputBankSwitch_memory a s)
        · rw [Mputto8d_readonly_lo a c s h2 h20 ho] at h
          cases h
          exact ⟨rfl, rfl, rfl, rfl⟩
      · rw [Mputto8d_readonly_hi a c s (by omega) h4 ho] at h
        cases h
        exact ⟨rfl, rfl, rfl, rfl⟩
  by_cases h6 : a < 0x6000
  · rw [Mputto8d_ramvideo a c s (by omega) h6, hi.video.2.1] at h
    exact viaRam _ _ h
  by_cases ha : a < 0xa000
  · rw [Mputto8d_ramuser a c s (by omega) ha, hi.ramuser] at h
    exact viaRam _ _ h
  by_cases he : a < 0xe000
  · rw [Mputto8d_rambank a c s (by omega) he] at h
    obtain ⟨n, _, _, hb | ⟨_, hb⟩⟩ := hi.ram.2.1
    · rw [hb] at h; exact viaRam _ _ h
    · rw [hb] at h; exact viaRam _ _ h
  by_cases hf : a < 0xf000
  · rw [Mputto8d_io a c s (by omega) hf] at h
    exact key _ (MputPage_memory a c s s1 h)
  · rw [Mputto8d_top a c s (by omega)] at h
    cases h
    exact ⟨rfl, rfl, rfl, rfl⟩

/-- C3: in every reachable state, a bus write of a byte `c` at an address `a`
in `0x0000..0x3fff` succeeds; if `(port[0x26] & 0x60) == 0x60` it stores `c` in
one byte of `ram`, inside the 16 KiB bank `port[0x26] & 0x1f` (at the offset of
`a` with the two 8 KiB halves swapped), and changes no other byte of `ram`,
`car`, the BASIC ROM or the monitor ROMs; otherwise it changes no byte of any
of these arrays.  No bus write at any address changes the BASIC ROM or the
cartridge image. -/
theorem rom_space_write_stores_iff_overlay_writable (roms : RomHeaders) (s : State)
    (a c : Nat) (hr : Reachable roms s) (ha : a < 0x4000) (_hc : c < 256) :
    (∃ s1, Mputto8d a c s = some s1 ∧
      (s.port 0x26 &&& 0x60 = 0x60 →
        ∃ i, (s.port 0x26 &&& 0x1f) * 0x4000 ≤ i ∧ i < (s.port 0x26 &&& 0x1f) * 0x4000 + 0x4000 ∧
          i = (s.port 0x26 &&& 0x1f) * 0x4000 + (if a < 0x2000 then a + 0x2000 else a - 0x2000) ∧
          s1.ram = setAt s.ram i c ∧ s1.car = s.car ∧ s1.to8dbasic = s.to8dbasic ∧
          s1.to8moniteur = s.to8moniteur ∧ s1.to8dmoniteur = s.to8dmoniteur) ∧
      (s.port 0x26 &&& 0x60 ≠ 0x60 →
        s1.ram = s.ram ∧ s1.car = s.car ∧ s1.to8dbasic = s.to8dbasic ∧
        s1.to8moniteur = s.to8moniteur ∧ s1.to8dmoniteur = s.to8dmoniteur)) ∧
    (∀ a1 c1 s1, a1 < 65536 → c1 < 256 → Mputto8d a1 c1 s = some s1 →
      s1.to8dbasic = s.to8dbasic ∧ s1.car = s.car) := by
  have hi := inv_reachable roms _ s hr
  refine ⟨?_, ?_⟩
  · by_cases ho : s.port 0x26 &&& 0x60 = 0x60
    · have h20 := and_60_20 _ ho
      have hrb := overlay_rombank s hi h20
      by_cases h2 : a < 0x2000
      · have e : (a : Int) + 0x2000 = ((a + 0x2000 : Nat) : Int) := by push_cast; rfl
        refine ⟨s.setMem .ram ((s.port 0x26 &&& 0x1f) * 0x4000 + (a + 0x2000)) c, ?_, ?_,
          fun hne => absurd ho hne⟩
        · rw [Mputto8d_overlay_lo a c s h2 ho, hrb, e,
            store_of_index _ _ _ _ _ _ (index_overlay _ _ (by omega))]
        · intro _
          refine ⟨(s.port 0x26 &&& 0x1f) * 0x4000 + (a + 0x2000), ?_, ?_, ?_,
            rfl, rfl, rfl, rfl, rfl⟩
          · omega
          · omega
          · rw [if_pos h2]
      · have e : (a : Int) - 0x2000 = ((a - 0x2000 : Nat) : Int) := by omega
        refine ⟨s.setMem .ram ((s.port 0x26 &&& 0x1f) * 0x4000 + (a - 0x2000)) c, ?_, ?_,
          fun hne => absurd ho hne⟩
        · rw [Mputto8d_overlay_hi a c s (by omega) ha ho, hrb, e,
            store_of_index _ _ _ _ _ _ (index_overlay _ _ (by omega))]
        · intro _
          refine ⟨(s.port 0x26 &&& 0x1f) * 0x4000 + (a - 0x2000), ?_, ?_, ?_,
            rfl, rfl, rfl, rfl, rfl⟩
          · omega
          · omega
          · rw [if_neg h2]
    · by_cases h2 : a < 0x2000
      · by_cases h20 : s.port 0x26 &&& 0x20 = 0
        · refine ⟨_, Mputto8d_bankswitch a c s h2 h20, fun h => absurd h ho, fun _ => ?_⟩
          have hm := MputBankSwitch_memory a s
          exact ⟨congrArg (fun m => m.1) hm, congrArg (fun m => m.2.1) hm,
            congrArg (fun m => m.2.2.1) hm, congrArg (fun m => m.2.2.2.1) hm,
            congrArg (fun m => m.2.2.2.2) hm⟩
        · exact ⟨_, Mputto8d_readonly_lo a c s h2 h20 ho, fun h => absurd h ho,
            fun _ => ⟨rfl, rfl, rfl, rfl, rfl⟩⟩
      · exact ⟨_, Mputto8d_readonly_hi a c s (by omega) ha ho, fun h => absurd h ho,
          fun _ => ⟨rfl, rfl, rfl, rfl, rfl⟩⟩
  · intro a1 c1 s1 _ _ h
    have := Mputto8d_roms roms s s1 a1 c1 hr h
    exact ⟨this.2.1, this.1⟩

theorem rom_space_write_stores_iff_overlay_writable_witness :
    Reachable exRoms exOverlay ∧ 0x1234 < 0x4000 ∧ 0x55 < 256 ∧
    ((∃ s1, Mputto8d 0x1234 0x55 exOverlay = some s1 ∧
      (exOverlay.port 0x26 &&& 0x60 = 0x60 →
        ∃ i, (exOverlay.port 0x26 &&& 0x1f) * 0x4000 ≤ i ∧ i < (exOverlay.port 0x26 &&& 0x1f) * 0x4000 + 0x4000 ∧
          i = (exOverlay.port 0x26 &&& 0x1f) * 0x4000 + (if 0x1234 < 0x2000 then 0x1234 + 0x2000 else 0x1234 - 0x2000) ∧
          s1.ram = setAt exOverlay.ram i 0x55 ∧ s1.car = exOverlay.car ∧ s1.to8dbasic = exOverlay.to8dbasic ∧
          s1.to8moniteur = exOverlay.to8moniteur ∧ s1.to8dmoniteur = exOverlay.to8dmoniteur) ∧
      (exOverlay.port 0x26 &&& 0x60 ≠ 0x60 →
        s1.ram = exOverlay.ram ∧ s1.car = exOverlay.car ∧ s1.to8dbasic = exOverlay.to8dbasic ∧
        s1.to8moniteur = exOverlay.to8moniteur ∧ s1.to8dmoniteur = exOverlay.to8dmoniteur)) ∧
    (∀ a1 c1 s1, a1 < 65536 → c1 < 256 → Mputto8d a1 c1 exOverlay = some s1 →
      s1.to8dbasic = exOverlay.to8dbasic ∧ s1.car = exOverlay.car)) :=
  ⟨exOverlay_reachable, by decide, by decide,
    rom_space_write_stores_iff_overlay_writable exRoms exOverlay 0x1234 0x55
      exOverlay_reachable (by decide) (by decide)⟩

/-! ## The windows follow the ports -/

/-- C4: in every reachable state the active windows are what the resolvers
compute from the current ports and `carflags` (`Windows`); and a bus write to
`E7C3`, `E7C9`, `E7E5`, `E7E6` or `E7E7` succeeds and leaves a state in which
the windows are what the resolvers compute from the updated ports. -/
theorem windows_follow_ports (roms : RomHeaders) (s : State) (hr : Reachable roms s) :
    Windows s ∧
    ∀ a ∈ [0xe7c3, 0xe7c9, 0xe7e5, 0xe7e6, 0xe7e7], ∀ c < 256,
      ∃ s1, Mputto8d a c s = some s1 ∧ Windows s1 := by
  refine ⟨inv_windows s (inv_reachable roms _ s hr), ?_⟩
  intro a ha c hc
  have hex : ∃ s1, Mputto8d a c s = some s1 := by
    simp only [List.mem_cons, List.mem_singleton, List.not_mem_nil, or_false] at ha
    rcases ha with rfl | rfl | rfl | rfl | rfl
    · exact ⟨MputE7C3 c s, by rw [Mputto8d_io _ _ _ (by norm_num) (by norm_num)]; rfl⟩
    · exact ⟨MputE7C9 c s, by rw [Mputto8d_io _ _ _ (by norm_num) (by norm_num)]; rfl⟩
    · exact ⟨MputE7E5 c s, by rw [Mputto8d_io _ _ _ (by norm_num) (by norm_num)]; rfl⟩
    · exact ⟨MputE7E6 c s, by rw [Mputto8d_io _ _ _ (by norm_num) (by norm_num)]; rfl⟩
    · exact ⟨MputE7E7 c s, by rw [Mputto8d_io _ _ _ (by norm_num) (by norm_num)]; rfl⟩
  obtain ⟨s1, h1⟩ := hex
  have ha16 : a < 65536 := by
    simp only [List.mem_cons, List.mem_singleton, List.not_mem_nil, or_false] at ha
    rcases ha with rfl | rfl | rfl | rfl | rfl <;> norm_num
  have hr1 : Reachable roms s1 := ReachableBy.step hr (Step.put a c ha16 hc trivial h1)
  exact ⟨s1, h1, inv_windows s1 (inv_reachable roms _ s1 hr1)⟩

theorem windows_follow_ports_witness :
    Reachable exRoms exReset ∧
    (Windows exReset ∧
    ∀ a ∈ [0xe7c3, 0xe7c9, 0xe7e5, 0xe7e6, 0xe7e7], ∀ c < 256,
      ∃ s1, Mputto8d a c exReset = some s1 ∧ Windows s1) :=
  ⟨exReset_reachable, windows_follow_ports exRoms exReset exReset_reachable⟩

/-! ## Bank resolution as a function of the ports -/

theorem reachable_busOps (roms : RomHeaders) (ops : List BusOp) (s s1 : State)
    (hr : Reachable roms s) (hw : ∀ op ∈ ops, op.wf) (h : busOps ops s = some s1) :
    Reachable roms s1 := by
  induction ops generalizing s with
  | nil => cases h; exact hr
  | cons op rest ih =>
    unfold busOps at h
    cases ho : busOp op s with
    | none => rw [ho] at h; cases h
    | some s2 =>
      rw [ho] at h
      have hop := hw op (List.mem_cons_self _ _)
      have hr2 : Reachable roms s2 := by
        cases op with
        | get a =>
          have ho' : (Mgetto8d a s).map Prod.snd = some s2 := ho
          cases hg : Mgetto8d a s with
          | none => rw [hg] at ho'; cases ho'
          | some r =>
            obtain ⟨v, s3⟩ := r
            rw [hg] at ho'
            simp only [Option.map_some'] at ho'
            cases ho'
            exact ReachableBy.step hr (Step.get a v hop trivial hg)
        | put a c => exact ReachableBy.step hr (Step.put a c hop.1 hop.2 trivial ho)
      exact ih s2 hr2 (fun op h' => hw op (List.mem_cons_of_mem _ h')) h

theorem exBank1_reachable : Reachable exRoms exBank1 :=
  ReachableBy.step exReset_reachable
    (Step.put 0x0001 0x00 (by decide) (by decide) trivial (rfl : _ = some exBank1))

theorem exTo7A_reachable : Reachable exRoms exTo7A :=
  ReachableBy.step exReset_reachable
    (Step.put 0xe7c9 0x00 (by decide) (by decide) trivial (rfl : _ = some exTo7A))

theorem exTo7B_reachable : Reachable exRoms exTo7B :=
  reachable_busOps exRoms exTo7BOps exReset exTo7B exReset_reachable (by decide) rfl

/-- C5, as stated, fails.  `exReset` and `exBank1` are reachable, of the same
flavor, and agree on the five driving port bytes, yet the resolvers leave
different `rombank` windows (`carflags` differs).  `exTo7A` and `exTo7B` are
reachable, of the same flavor, and agree on the five port bytes and on
`carflags`, yet the resolvers leave different `rambank` windows (in TO7/70 mode
with `port[0x09] & 0xf8` outside the table, `TO8rambank` keeps the window). -/
theorem resolution_from_ports_alone_counterexample :
    (Reachable exRoms exReset ∧ Reachable exRoms exBank1 ∧
      exReset.currentFlavor = exBank1.currentFlavor ∧
      (∀ p ∈ [0x03, 0x09, 0x25, 0x26, 0x27], exReset.port p = exBank1.port p) ∧
      (resolve exReset).rombank ≠ (resolve exBank1).rombank) ∧
    (Reachable exRoms exTo7A ∧ Reachable exRoms exTo7B ∧
      exTo7A.currentFlavor = exTo7B.currentFlavor ∧
      (∀ p ∈ [0x03, 0x09, 0x25, 0x26, 0x27], exTo7A.port p = exTo7B.port p) ∧
      exTo7A.carflags = exTo7B.carflags ∧
      (resolve exTo7A).rambank ≠ (resolve exTo7B).rambank) :=
  ⟨⟨exReset_reachable, exBank1_reachable, by decide, by decide, by decide⟩,
   ⟨exTo7A_reachable, exTo7B_reachable, by decide, by decide, by decide, by decide⟩⟩

theorem TO8rambank_port (s : State) : (TO8rambank s).port = s.port := by
  rw [TO8rambank_frame]

/-- The windows the three resolvers leave. -/
theorem resolve_windows (s : State) :
    (resolve s).ramvideo = ptr .ram (-0x4000 + shl ((s.port 0x03 &&& 1 : Nat) : Int) 13) ∧
    (resolve s).romsys =
      ptr s.moniteur (-0xe000 + shl (((s.port 0x03 &&& 0x10) >>> 4 : Nat) : Int) 13) ∧
    (resolve s).rombank =
      (if s.port 0x26 &&& 0x20 ≠ 0 then ptr .ram (shl ((s.port 0x26 &&& 0x1f : Nat) : Int) 14)
       else if s.port 0x03 &&& 0x04 ≠ 0 then ptr s.basic (shl (iand s.carflags 3) 14)
       else ptr .car (shl (iand s.carflags 3) 14)) ∧
    (resolve s).ramuser = s.ramuser ∧
    (resolve s).pagevideo = s.pagevideo ∧
    (resolve s).rambank = (TO8rambank (TO8videoram s)).rambank := by
  unfold resolve
  refine ⟨?_, ?_, ?_, ?_, ?_, ?_⟩
  · rw [TO8rombank_frame, TO8rambank_frame]; rfl
  · rw [TO8rombank_frame, TO8rambank_frame]; rfl
  · rw [TO8rombank_rombank, TO8rambank_frame]; rfl
  · rw [TO8rombank_frame, TO8rambank_frame]; rfl
  · rw [TO8rombank_frame, TO8rambank_frame]; rfl
  · rw [TO8rombank_frame]

/-- C5, amended: bank resolution is a function of the five driving port bytes
and of `carflags & 3`, except for `rambank` in TO7/70 mode when
`port[0x09] & 0xf8` is none of the six table values.  For two reachable states of
the same flavor that agree on `port[0x03]`, `port[0x09]`, `port[0x25]`,
`port[0x26]`, `port[0x27]` and on `carflags & 3`, the resolvers leave `ramvideo`,
`ramuser`, `rombank` and `romsys` identical, and `rambank` identical whenever
`port[0x27] & 0x10` is set or `port[0x09] & 0xf8` is in the table. -/
theorem resolution_from_ports_and_carflags (roms : RomHeaders) (s t : State)
    (hs : Reachable roms s) (ht : Reachable roms t)
    (hf : s.currentFlavor = t.currentFlavor)
    (hp : ∀ p ∈ [0x03, 0x09, 0x25, 0x26, 0x27], s.port p = t.port p)
    (hc : iand s.carflags 3 = iand t.carflags 3) :
    (resolve s).ramvideo = (resolve t).ramvideo ∧
    (resolve s).ramuser = (resolve t).ramuser ∧
    (resolve s).rombank = (resolve t).rombank ∧
    (resolve s).romsys = (resolve t).romsys ∧
    ((s.port 0x27 &&& 0x10 ≠ 0 ∨ TO8rambankSwitch (s.port 0x09 &&& 0xf8) ≠ none) →
      (resolve s).rambank = (resolve t).rambank) := by
  have is := inv_reachable roms _ s hs
  have it := inv_reachable roms _ t ht
  have h03 : s.port 0x03 = t.port 0x03 := hp 0x03 (by decide)
  have h09 : s.port 0x09 = t.port 0x09 := hp 0x09 (by decide)
  have h25 : s.port 0x25 = t.port 0x25 := hp 0x25 (by decide)
  have h26 : s.port 0x26 = t.port 0x26 := hp 0x26 (by decide)
  have h27 : s.port 0x27 = t.port 0x27 := hp 0x27 (by decide)
  have hmon : s.moniteur = t.moniteur := by
    rw [is.flavor.2.2.1, it.flavor.2.2.1, hf]
  have hbas : s.basic = t.basic := by
    rw [is.flavor.1, it.flavor.1]
  obtain ⟨s1, s2, s3, s4, _, s6⟩ := resolve_windows s
  obtain ⟨t1, t2, t3, t4, _, t6⟩ := resolve_windows t
  refine ⟨?_, ?_, ?_, ?_, ?_⟩
  · rw [s1, t1, h03]
  · rw [s4, t4, is.ramuser, it.ramuser]
  · rw [s3, t3, h03, h26, hc, hbas]
  · rw [s2, t2, h03, hmon]
  · intro hsel
    rw [s6, t6]
    by_cases hm : s.port 0x27 &&& 0x10 ≠ 0
    · have a := TO8rambank_to8 (TO8videoram s) hm
      have hm' : t.port 0x27 &&& 0x10 ≠ 0 := by rw [← h27]; exact hm
      have b := TO8rambank_to8 (TO8videoram t) hm'
      rw [a.2, b.2]
      show ptr .ram (-0xa000 + shl ((s.port 0x25 &&& 0x1f : Nat) : Int) 14) =
        ptr .ram (-0xa000 + shl ((t.port 0x25 &&& 0x1f : Nat) : Int) 14)
      rw [h25]
    · have hm0 : s.port 0x27 &&& 0x10 = 0 := not_not.mp hm
      have hsw : TO8rambankSwitch (s.port 0x09 &&& 0xf8) ≠ none := by
        rcases hsel with h | h
        · exact absurd h hm
        · exact h
      obtain ⟨n, hn⟩ := Option.ne_none_iff_exists'.mp hsw
      have a := TO8rambank_to7 (TO8videoram s) hm0 n hn
      have hm0' : t.port 0x27 &&& 0x10 = 0 := by rw [← h27]; exact hm0
      have hn' : TO8rambankSwitch (t.port 0x09 &&& 0xf8) = some n := by rw [← h09]; exact hn
      have b := TO8rambank_to7 (TO8videoram t) hm0' n hn'
      rw [a.2, b.2]

theorem resolution_from_ports_and_carflags_witness :
    Reachable exRoms exTo7A ∧ Reachable exRoms exTo7B ∧
    exTo7A.currentFlavor = exTo7B.currentFlavor ∧
    (∀ p ∈ [0x03, 0x09, 0x25, 0x26, 0x27], exTo7A.port p = exTo7B.port p) ∧
    iand exTo7A.carflags 3 = iand exTo7B.carflags 3 ∧
    ((resolve exTo7A).ramvideo = (resolve exTo7B).ramvideo ∧
    (resolve exTo7A).ramuser = (resolve exTo7B).ramuser ∧
    (resolve exTo7A).rombank = (resolve exTo7B).rombank ∧
    (resolve exTo7A).romsys = (resolve exTo7B).romsys ∧
    ((exTo7A.port 0x27 &&& 0x10 ≠ 0 ∨ TO8rambankSwitch (exTo7A.port 0x09 &&& 0xf8) ≠ none) →
      (resolve exTo7A).rambank = (resolve exTo7B).rambank)) :=
  ⟨exTo7A_reachable, exTo7B_reachable, by decide, by decide, by decide,
    resolution_from_ports_and_carflags exRoms exTo7A exTo7B exTo7A_reachable exTo7B_reachable
      (by decide) (by decide) (by decide)⟩

/-! ## Registers that bus accesses leave alone -/

theorem Timercontrol_csr (s : State) (c : Nat) :
    (MputE7C5 c s).port 0x00 = s.port 0x00 := by
  unfold MputE7C5 Timercontrol
  by_cases c5 : (setAt s.port 0x05 c) 0x05 &&& 0x01 ≠ 0
  · rw [if_pos c5] <;> exact rfl
  · rw [if_neg c5] <;> exact rfl

theorem MputE7CD_csr (s : State) (c : Nat) :
    (MputE7CD c s).port 0x00 = s.port 0x00 := by
  unfold MputE7CD
  by_cases c4 : s.port 0x0f &&& 4 ≠ 0
  · rw [if_pos c4] <;> exact rfl
  · rw [if_neg c4] <;> exact rfl

theorem Palettecolor_csr (c : Nat) (s s1 : State) (h : Palettecolor c s = some s1) :
    s1.port 0x00 = s.port 0x00 := by
  unfold Palettecolor at h
  by_cases hr : 0 ≤ charToInt (s.port 0x1b) ∧ charToInt (s.port 0x1b) < (PALETTE_SIZE : Int)
  · rw [if_pos hr] at h
    by_cases ho : iand (charToInt (s.port 0x1b)) 1 ≠ 0
    · rw [if_pos ho] at h; cases h; exact rfl
    · rw [if_neg ho] at h; cases h; exact rfl
  · rw [if_neg hr] at h; cases h

/-- A bus write on the I/O page other than to `E7C0` leaves `port[0x00]`. -/
theorem MputPage_csr (a c : Nat) (s s1 : State) (h : MputPage a c s = some s1)
    (n0 : a ≠ 0xe7c0) :
    s1.port 0x00 = s.port 0x00 := by
  revert h
  apply MputPage_cases a c s (fun r => r = some s1 → s1.port 0x00 = s.port 0x00)
  case h0 => intro e; exact absurd e n0
  case h1 => intro _ h; cases h; exact rfl
  case h2 =>
    intro _ h; cases h
    unfold MputE7C3
    rw [TO8rombank_frame] <;> exact rfl
  case h3 => intro _ h; cases h; exact Timercontrol_csr s c
  case h4 => intro _ h; cases h; exact rfl
  case h5 => intro _ h; cases h; exact rfl
  case h6 =>
    intro _ h; cases h
    unfold MputE7C9
    rw [TO8rambank_frame] <;> exact rfl
  case h7 => intro _ h; cases h; exact rfl
  case h8 => intro _ h; cases h; exact MputE7CD_csr s c
  case h9 => intro _ h; cases h; exact rfl
  case h10 => intro _ h; cases h; exact rfl
  case h11 => intro _ h; cases h; exact rfl
  case h12 => intro _ h; exact Palettecolor_csr c s s1 h
  case h13 => intro _ h; cases h; exact rfl
  case h14 => intro _ h; cases h; exact rfl
  case h15 => intro _ h; cases h; exact rfl
  case h16 => intro _ h; cases h; exact rfl
  case h17 =>
    intro _ h; cases h
    unfold MputE7E5
    rw [TO8rambank_frame] <;> exact rfl
  case h18 =>
    intro _ h; cases h
    unfold MputE7E6
    rw [TO8rombank_frame] <;> exact rfl
  case h19 =>
    intro _ h; cases h
    unfold MputE7E7
    rw [TO8rambank_frame] <;> exact rfl
  case hd => intros; rename_i h; cases h; exact rfl

theorem Mputto8d_csr (a c : Nat) (s s1 : State) (h : Mputto8d a c s = some s1)
    (n0 : a ≠ 0xe7c0) :
    s1.port 0x00 = s.port 0x00 := by
  rcases Mputto8d_shape a c s s1 h with ⟨_, hio⟩ | ⟨_, t, ht, hs⟩
  · exact MputPage_csr a c s s1 hio n0
  · have e1 : t.port 0x00 = s.port 0x00 := by
      rcases ht with rfl | rfl
      · exact rfl
      · unfold MputBankSwitch
        rw [TO8rombank_frame] <;> exact rfl
    rcases hs with rfl | ⟨r, i, rfl⟩
    · exact e1
    · cases r <;> exact e1

theorem Mgetto8d_csr (a v : Nat) (s s1 : State) (h : Mgetto8d a s = some (v, s1)) :
    s1.port 0x00 = s.port 0x00 := by
  rcases Mgetto8d_state a v s s1 h with rfl | ⟨_, rfl⟩ | ⟨_, rfl⟩
  · exact rfl
  · exact rfl
  · exact rfl

theorem MputE7CD_timer (s : State) (c : Nat) :
    (MputE7CD c s).port 0x05 = s.port 0x05 ∧ (MputE7CD c s).latch6846 = s.latch6846 ∧ (MputE7CD c s).timer6846 = s.timer6846 := by
  unfold MputE7CD
  by_cases c4 : s.port 0x0f &&& 4 ≠ 0
  · rw [if_pos c4] <;> exact ⟨rfl, rfl, rfl⟩
  · rw [if_neg c4] <;> exact ⟨rfl, rfl, rfl⟩

theorem Palettecolor_timer (c : Nat) (s s1 : State) (h : Palettecolor c s = some s1) :
    s1.port 0x05 = s.port 0x05 ∧ s1.latch6846 = s.latch6846 ∧ s1.timer6846 = s.timer6846 := by
  unfold Palettecolor at h
  by_cases hr : 0 ≤ charToInt (s.port 0x1b) ∧ charToInt (s.port 0x1b) < (PALETTE_SIZE : Int)
  · rw [if_pos hr] at h
    by_cases ho : iand (charToInt (s.port 0x1b)) 1 ≠ 0
    · rw [if_pos ho] at h; cases h; exact ⟨rfl, rfl, rfl⟩
    · rw [if_neg ho] at h; cases h; exact ⟨rfl, rfl, rfl⟩
  · rw [if_neg hr] at h; cases h

/-- A bus write on the I/O page other than to `E7C5`, `E7C6`, `E7C7` leaves the timer registers. -/
theorem MputPage_timer (a c : Nat) (s s1 : State) (h : MputPage a c s = some s1)
    (n3 : a ≠ 0xe7c5) (n4 : a ≠ 0xe7c6) (n5 : a ≠ 0xe7c7) :
    s1.port 0x05 = s.port 0x05 ∧ s1.latch6846 = s.latch6846 ∧ s1.timer6846 = s.timer6846 := by
  revert h
  apply MputPage_cases a c s (fun r => r = some s1 → s1.port 0x05 = s.port 0x05 ∧ s1.latch6846 = s.latch6846 ∧ s1.timer6846 = s.timer6846)
  case h0 => intro _ h; cases h; exact ⟨rfl, rfl, rfl⟩
  case h1 => intro _ h; cases h; exact ⟨rfl, rfl, rfl⟩
  case h2 =>
    intro _ h; cases h
    unfold MputE7C3
    rw [TO8rombank_frame] <;> exact ⟨rfl, rfl, rfl⟩
  case h3 => intro e; exact absurd e n3
  case h4 => intro e; exact absurd e n4
  case h5 => intro e; exact absurd e n5
  case h6 =>
    intro _ h; cases h
    unfold MputE7C9
    rw [TO8rambank_frame] <;> exact ⟨rfl, rfl, rfl⟩
  case h7 => intro _ h; cases h; exact ⟨rfl, rfl, rfl⟩
  case h8 => intro _ h; cases h; exact MputE7CD_timer s c
  case h9 => intro _ h; cases h; exact ⟨rfl, rfl, rfl⟩
  case h10 => intro _ h; cases h; exact ⟨rfl, rfl, rfl⟩
  case h11 => intro _ h; cases h; exact ⟨rfl, rfl, rfl⟩
  case h12 => intro _ h; exact Palettecolor_timer c s s1 h
  case h13 => intro _ h; cases h; exact ⟨rfl, rfl, rfl⟩
  case h14 => intro _ h; cases h; exact ⟨rfl, rfl, rfl⟩
  case h15 => intro _ h; cases h; exact ⟨rfl, rfl, rfl⟩
  case h16 => intro _ h; cases h; exact ⟨rfl, rfl, rfl⟩
  case h17 =>
    intro _ h; cases h
    unfold MputE7E5
    rw [TO8rambank_frame] <;> exact ⟨rfl, rfl, rfl⟩
  case h18 =>
    intro _ h; cases h
    unfold MputE7E6
    rw [TO8rombank_frame] <;> exact ⟨rfl, rfl, rfl⟩
  case h19 =>
    intro _ h; cases h
    unfold MputE7E7
    rw [TO8rambank_frame] <;> exact ⟨rfl, rfl, rfl⟩
  case hd => intros; rename_i h; cases h; exact ⟨rfl, rfl, rfl⟩

theorem Mputto8d_timer (a c : Nat) (s s1 : State) (h : Mputto8d a c s = some s1)
    (n3 : a ≠ 0xe7c5) (n4 : a ≠ 0xe7c6) (n5 : a ≠ 0xe7c7) :
    s1.port 0x05 = s.port 0x05 ∧ s1.latch6846 = s.latch6846 ∧ s1.timer6846 = s.timer6846 := by
  rcases Mputto8d_shape a c s s1 h with ⟨_, hio⟩ | ⟨_, t, ht, hs⟩
  · exact MputPage_timer a c s s1 hio n3 n4 n5
  · have e1 : t.port 0x05 = s.port 0x05 ∧ t.latch6846 = s.latch6846 ∧ t.timer6846 = s.timer6846 := by
      rcases ht with rfl | rfl
      · exact ⟨rfl, rfl, rfl⟩
      · unfold MputBankSwitch
        rw [TO8rombank_frame] <;> exact ⟨rfl, rfl, rfl⟩
    rcases hs with rfl | ⟨r, i, rfl⟩
    · exact e1
    · cases r <;> exact e1

theorem Mgetto8d_timer (a v : Nat) (s s1 : State) (h : Mgetto8d a s = some (v, s1)) :
    s1.port 0x05 = s.port 0x05 ∧ s1.latch6846 = s.latch6846 ∧ s1.timer6846 = s.timer6846 := by
  rcases Mgetto8d_state a v s s1 h with rfl | ⟨_, rfl⟩ | ⟨_, rfl⟩
  · exact ⟨rfl, rfl, rfl⟩
  · exact ⟨rfl, rfl, rfl⟩
  · exact ⟨rfl, rfl, rfl⟩

/-! ## The composite interrupt flag -/

theorem testBit_mod256 (x i : Nat) : (x % 256).testBit i = (decide (i < 8) && x.testBit i) := by
  have := Nat.testBit_mod_two_pow x 8 i
  simpa using this

theorem and_mod256 (x y : Nat) : (x &&& y) % 256 = (x % 256) &&& (y % 256) := by
  apply Nat.eq_of_testBit_eq
  intro i
  rw [testBit_mod256, Nat.testBit_and, Nat.testBit_and, testBit_mod256, testBit_mod256]
  cases decide (i < 8) <;> cases x.testBit i <;> cases y.testBit i <;> rfl

theorem or_mod256 (x y : Nat) : (x ||| y) % 256 = (x % 256) ||| (y % 256) := by
  apply Nat.eq_of_testBit_eq
  intro i
  rw [testBit_mod256, Nat.testBit_or, Nat.testBit_or, testBit_mod256, testBit_mod256]
  cases decide (i < 8) <;> cases x.testBit i <;> cases y.testBit i <;> rfl

theorem irqClear_mod (p : Nat) (c1 c2 : Bool) :
    irqClear p c1 c2 % 256 = irqClear (p % 256) c1 c2 := by
  cases c1 <;> cases c2 <;> simp [irqClear, and_mod256]

theorem irqClear_and (p : Nat) (c1 c2 : Bool) (m : Nat) (hm : m < 256) :
    irqClear p c1 c2 &&& m = irqClear (p % 256) c1 c2 &&& m := by
  rw [and_mask_mod _ m hm, irqClear_mod]

set_option maxRecDepth 100000 in
theorem byte_irq : ∀ b < 256, ∀ c1 c2 : Bool,
    (b &&& 0x80 ≠ 0 ↔ b &&& 0x07 ≠ 0) →
      irqClear b c1 c2 &&& 0x07 ≠ 0 → irqClear b c1 c2 &&& 0x80 ≠ 0 := by decide

/-- Lines 455 and 458 of `Run` keep the relation of the composite flag, in the
direction that line 460 does not restore. -/
theorem irq_keeps (p : Nat) (c1 c2 : Bool) (h : p &&& 0x80 ≠ 0 ↔ p &&& 0x07 ≠ 0)
    (h7 : irqClear p c1 c2 &&& 0x07 ≠ 0) : irqClear p c1 c2 &&& 0x80 ≠ 0 := by
  rw [irqClear_and p c1 c2 0x07 (by norm_num)] at h7
  rw [irqClear_and p c1 c2 0x80 (by norm_num)]
  rw [and_mask_mod p 0x80 (by norm_num), and_mask_mod p 0x07 (by norm_num)] at h
  exact byte_irq (p % 256) (Nat.mod_lt _ (by norm_num)) c1 c2 h h7

set_option maxRecDepth 100000 in
theorem byte_or_81 : ∀ b < 256, (b ||| 0x81) &&& 0x80 ≠ 0 ∧ (b ||| 0x81) &&& 0x07 ≠ 0 ∧
    (b ||| 0x82) &&& 0x80 ≠ 0 ∧ (b ||| 0x82) &&& 0x07 ≠ 0 := by decide

theorem or_81 (p : Nat) : (p ||| 0x81) &&& 0x80 ≠ 0 ∧ (p ||| 0x81) &&& 0x07 ≠ 0 := by
  have h := byte_or_81 (p % 256) (Nat.mod_lt _ (by norm_num))
  rw [and_mask_mod _ 0x80 (by norm_num), and_mask_mod _ 0x07 (by norm_num), or_mod256]
  exact ⟨h.1, h.2.1⟩

theorem or_82 (p : Nat) : (p ||| 0x82) &&& 0x80 ≠ 0 ∧ (p ||| 0x82) &&& 0x07 ≠ 0 := by
  have h := byte_or_81 (p % 256) (Nat.mod_lt _ (by norm_num))
  rw [and_mask_mod _ 0x80 (by norm_num), and_mask_mod _ 0x07 (by norm_num), or_mod256]
  exact ⟨h.2.2.1, h.2.2.2⟩

theorem and_7f_80 (p : Nat) : (p &&& 0x7f) &&& 0x80 = 0 := by
  rw [Nat.and_assoc]
  have : (0x7f &&& 0x80 : Nat) = 0 := by decide
  rw [this, Nat.and_zero]

theorem and_7f_07 (p : Nat) : (p &&& 0x7f) &&& 0x07 = p &&& 0x07 := by
  rw [Nat.and_assoc]
  have : (0x7f &&& 0x07 : Nat) = 0x07 := by decide
  rw [this]

/-! ### The byte `port[0x00]` through the loop body of `Run` -/

theorem RunVideo_port (o : Int) (s : State) : (RunVideo o s).port = s.port := by
  unfold RunVideo
  by_cases c : (RunVideoCycle o s).videolinecycle ≥ 64
  · rw [if_pos c]
    unfold RunVideoFlag RunVideoNextLine
    by_cases c2 : (RunVideoEndLine (RunVideoCycle o s)).videolinenumber + 1 > 311
    · rw [if_pos c2]; rfl
    · rw [if_neg c2]; rfl
  · rw [if_neg c]; rfl

theorem RunIrq_port0 (o : Int) (s : State) : ∃ c1 c2 : Bool,
    (RunIrq o s).port 0x00 =
      if irqClear (s.port 0x00) c1 c2 &&& 0x07 = 0 then irqClear (s.port 0x00) c1 c2 &&& 0x7f
      else irqClear (s.port 0x00) c1 c2 := by
  have e1 : (RunTimerIrqCount o s).port = s.port := by
    unfold RunTimerIrqCount
    by_cases c : s.timer_irqcount > 0
    · rw [if_pos c]
    · rw [if_neg c]
  have e2 : ∀ t : State, (RunTimerIrqClear t).port 0x00 =
      if t.timer_irqcount ≤ 0 then t.port 0x00 &&& 0xfe else t.port 0x00 := by
    intro t
    unfold RunTimerIrqClear
    by_cases c : t.timer_irqcount ≤ 0
    · rw [if_pos c, if_pos c]; rfl
    · rw [if_neg c, if_neg c]
  have e3 : ∀ t : State, (RunKeybIrqCount o t).port = t.port := by
    intro t
    unfold RunKeybIrqCount
    by_cases c : t.keyb_irqcount > 0
    · rw [if_pos c]
    · rw [if_neg c]
  have e4 : ∀ t : State, (RunKeybIrqClear t).port 0x00 =
      if t.keyb_irqcount ≤ 0 then t.port 0x00 &&& 0xfd else t.port 0x00 := by
    intro t
    unfold RunKeybIrqClear
    by_cases c : t.keyb_irqcount ≤ 0
    · rw [if_pos c, if_pos c]; rfl
    · rw [if_neg c, if_neg c]
  have e5 : ∀ t : State, (RunIrqComposite t).port 0x00 =
      if t.port 0x00 &&& 0x07 = 0 then t.port 0x00 &&& 0x7f else t.port 0x00 := by
    intro t
    unfold RunIrqComposite
    by_cases c : t.port 0x00 &&& 0x07 = 0
    · rw [if_pos c, if_pos c]; rfl
    · rw [if_neg c, if_neg c]
  refine ⟨decide ((RunTimerIrqCount o s).timer_irqcount ≤ 0),
    decide ((RunKeybIrqCount o (RunTimerIrqClear (RunTimerIrqCount o s))).keyb_irqcount ≤ 0), ?_⟩
  have e6 : (RunKeybIrqClear (RunKeybIrqCount o (RunTimerIrqClear (RunTimerIrqCount o s)))).port 0x00
      = irqClear (s.port 0x00) (decide ((RunTimerIrqCount o s).timer_irqcount ≤ 0))
        (decide ((RunKeybIrqCount o (RunTimerIrqClear (RunTimerIrqCount o s))).keyb_irqcount ≤ 0)) := by
    rw [e4, e3, e2, e1]
    unfold irqClear
    simp only [decide_eq_true_eq]
  unfold RunIrq
  rw [e5, e6]

theorem RunCountdown_port (o : Int) (s : State) : (RunCountdown o s).port = s.port := by
  unfold RunCountdown
  by_cases c : s.port 0x05 &&& 0x01 = 0
  · rw [if_pos c]
  · rw [if_neg c]

theorem RunTimeout_port0 (s : State) :
    (RunTimeout s).port 0x00 = if s.timer6846 ≤ 5 then s.port 0x00 ||| 0x81 else s.port 0x00 := by
  unfold RunTimeout
  by_cases c : s.timer6846 ≤ 5
  · rw [if_pos c, if_pos c]; rfl
  · rw [if_neg c, if_neg c]

/-- At the end of the loop body of `Run`, bit 7 of `port[0x00]` implies one of
the three low bits; the converse holds if it held before the body. -/
theorem RunAfterStep_csr (o : Int) (s : State) :
    ((RunAfterStep o s).port 0x00 &&& 0x80 ≠ 0 → (RunAfterStep o s).port 0x00 &&& 0x07 ≠ 0) ∧
    (CsrOK s → (RunAfterStep o s).port 0x00 &&& 0x07 ≠ 0 →
      (RunAfterStep o s).port 0x00 &&& 0x80 ≠ 0) := by
  obtain ⟨c1, c2, hq⟩ := RunIrq_port0 o (RunVideo o s)
  rw [RunVideo_port] at hq
  have hp : (RunAfterStep o s).port 0x00 =
      if (RunCountdown o (RunIrq o (RunVideo o s))).timer6846 ≤ 5 then
        (RunIrq o (RunVideo o s)).port 0x00 ||| 0x81
      else (RunIrq o (RunVideo o s)).port 0x00 := by
    unfold RunAfterStep
    rw [RunTimeout_port0, RunCountdown_port]
  rw [hp]
  by_cases cf : (RunCountdown o (RunIrq o (RunVideo o s))).timer6846 ≤ 5
  · rw [if_pos cf]
    exact ⟨fun _ => (or_81 _).2, fun _ _ => (or_81 _).1⟩
  · rw [if_neg cf, hq]
    by_cases c7 : irqClear (s.port 0x00) c1 c2 &&& 0x07 = 0
    · rw [if_pos c7]
      refine ⟨fun h => absurd (and_7f_80 _) h, fun _ h => ?_⟩
      rw [and_7f_07] at h
      exact absurd c7 h
    · rw [if_neg c7]
      exact ⟨fun _ => c7, fun hJ _ => irq_keeps _ c1 c2 hJ c7⟩

theorem busOps_csr (ops : List BusOp) (s s1 : State) (hok : ∀ op ∈ ops, notCsrWrite op)
    (h : busOps ops s = some s1) : s1.port 0x00 = s.port 0x00 := by
  induction ops generalizing s with
  | nil => cases h; rfl
  | cons op rest ih =>
    unfold busOps at h
    cases ho : busOp op s with
    | none => rw [ho] at h; cases h
    | some s2 =>
      rw [ho] at h
      rw [ih s2 (fun op h' => hok op (List.mem_cons_of_mem _ h')) h]
      have hop := hok op (List.mem_cons_self _ _)
      cases op with
      | get a =>
        have ho' : (Mgetto8d a s).map Prod.snd = some s2 := ho
        cases hg : Mgetto8d a s with
        | none => rw [hg] at ho'; cases ho'
        | some r =>
          obtain ⟨v, s3⟩ := r
          rw [hg] at ho'
          simp only [Option.map_some'] at ho'
          cases ho'
          exact Mgetto8d_csr a v s _ hg
      | put a c =>
        exact Mputto8d_csr a c s s2 ho (fun e => hop c (by rw [e]))

theorem Joysemul_port (axis : Nat) (isOn : Bool) (s : State) :
    (Joysemul axis isOn s).port = s.port := by
  unfold Joysemul
  by_cases c8 : axis = 8
  · rw [if_pos c8]
    cases isOn <;> rfl
  rw [if_neg c8]
  by_cases c9 : axis = 9
  · rw [if_pos c9]
    cases isOn <;> rfl
  rw [if_neg c9]
  by_cases cn : JoysemulBit axis s > 0
  · rw [if_pos cn]
    cases isOn <;> rfl
  · rw [if_neg cn]

/-- A key event leaves `port[0x00]`, or sets its bits `0x82`. -/
theorem TO8key_port0 (scancode : Int) (down : Bool) (s s1 : State)
    (h : TO8key scancode down s = some s1) :
    s1.port 0x00 = s.port 0x00 ∨ s1.port 0x00 = s.port 0x00 ||| 0x82 := by
  unfold TO8key at h
  by_cases c : 0 ≤ scancode ∧ scancode < (KEYBOARDKEY_MAX : Int)
  · rw [if_pos c] at h
    by_cases c2 : (TO8keyTouche scancode down s).touche scancode.toNat ≠ 0
    · rw [if_pos c2] at h
      cases h
      left
      unfold TO8keyRelease
      by_cases c3 : (List.range 0x50).any
          (fun i => (TO8keyTouche scancode down s).touche i == 0) = true
      · rw [if_pos c3]; rfl
      · rw [if_neg c3]; rfl
    · rw [if_neg c2] at h
      unfold TO8keyPress at h
      by_cases c3 : scancode > 0x4f
      · rw [if_pos c3] at h
        cases h
        exact Or.inl rfl
      · rw [if_neg c3] at h
        unfold TO8keyCode at h
        cases h1 : store (TO8keyCapslock scancode (TO8keyTouche scancode down s))
            (ptr (TO8keyCapslock scancode (TO8keyTouche scancode down s)).moniteur 0) 0x30f8
            (toChar (ior scancode
              (TO8keyShift scancode (TO8keyCapslock scancode (TO8keyTouche scancode down s))))) with
        | none => rw [h1] at h; cases h
        | some t1 =>
          rw [h1] at h
          have p1 : t1.port = s.port :=
            (congrArg State.port (regs_store _ _ _ _ _ h1) : t1.regs.port = _)
          cases h2 : store t1 (ptr t1.moniteur 0) 0x3125 (if t1.touche 0x53 ≠ 0 then 0 else 1) with
          | none =>
            have h' : (match store t1 (ptr t1.moniteur 0) 0x3125
                (if t1.touche 0x53 ≠ 0 then 0 else 1) with
              | none => none
              | some s2 => some (TO8keyIrq s2)) = some s1 := h
            rw [h2] at h'; cases h'
          | some t2 =>
            have h' : (match store t1 (ptr t1.moniteur 0) 0x3125
                (if t1.touche 0x53 ≠ 0 then 0 else 1) with
              | none => none
              | some s2 => some (TO8keyIrq s2)) = some s1 := h
            rw [h2] at h'
            have p2 : t2.port = t1.port :=
              (congrArg State.port (regs_store _ _ _ _ _ h2) : t2.regs.port = _)
            cases h'
            right
            show t2.port 0x00 ||| 0x82 = s.port 0x00 ||| 0x82
            rw [p2, p1]
  · rw [if_neg c] at h
    cases h

theorem Initprog_port (s : State) (i : Nat) : (Initprog s).port i = s.port i := by
  unfold Initprog Reset6809
  rw [TO8rombank_port, TO8rambank_port]
  show setAt s.port 0x1d (s.port 0x1d) i = s.port i
  rw [setAt_self]

theorem Hardreset_port (roms : RomHeaders) (date : Nat → Nat) (s s1 : State)
    (h : Hardreset roms date s = some s1) (i : Nat) :
    s1.port i = (HardresetMemory s).port i := by
  obtain ⟨m, hm, rfl⟩ := Hardreset_eq roms date s s1 h
  have hport : m.port = (HardresetMemory s).port :=
    (congrArg State.port hm : m.regs.port = (HardresetMemory s).regs.port)
  show (Initprog (HardresetCounters m)).port i = _
  rw [Initprog_port]
  show m.port i = _
  rw [hport]

theorem csr_Hardreset (roms : RomHeaders) (date : Nat → Nat) (s s1 : State)
    (h : Hardreset roms date s = some s1) : CsrOK s1 := by
  have : s1.port 0x00 = 0 := by
    rw [Hardreset_port roms date s s1 h]; rfl
  unfold CsrOK
  rw [this]
  decide

theorem csr_step (roms : RomHeaders) (s s1 : State) (hi : CsrOK s)
    (h : Step roms notCsrWrite s s1) : CsrOK s1 := by
  cases h with
  | put a c _ _ hok hm =>
    unfold CsrOK
    rw [Mputto8d_csr a c s s1 hm (fun e => hok c (by rw [e]))]
    exact hi
  | get a v _ _ hm =>
    unfold CsrOK
    rw [Mgetto8d_csr a v s s1 hm]
    exact hi
  | run st hok hm =>
    unfold RunIteration at hm
    cases hb : busOps st.ops s with
    | none => rw [hb] at hm; cases hm
    | some s2 =>
      rw [hb] at hm
      cases hm
      have hp := busOps_csr st.ops s s2 (fun op h' => (hok op h').2) hb
      have h2 : CsrOK s2 := by
        unfold CsrOK
        rw [hp]; exact hi
      have := RunAfterStep_csr st.opcycles s2
      exact ⟨this.1, this.2 h2⟩
  | key sc down hm =>
    unfold CsrOK
    rcases TO8key_port0 sc down s s1 hm with e | e
    · rw [e]; exact hi
    · rw [e]
      exact ⟨fun _ => (or_82 _).2, fun _ => (or_82 _).1⟩
  | joy axis isOn _ =>
    unfold CsrOK
    rw [Joysemul_port]
    exact hi
  | reset date hm => exact csr_Hardreset roms date s s1 hm
  | flavor date f hm =>
    unfold SetThomsonFlavor at hm
    by_cases c : f ≠ s.currentFlavor
    · rw [if_pos c] at hm
      exact csr_Hardreset roms date _ s1 hm
    · rw [if_neg c] at hm
      cases hm
      exact hi

/-- Without bus writes to `E7C0`, the relation of the composite flag holds in
every reachable state. -/
theorem csr_reachable (roms : RomHeaders) (s : State)
    (h : ReachableBy roms notCsrWrite s) : CsrOK s := by
  induction h with
  | start basic m8 m8d date hm => exact csr_Hardreset roms date _ _ hm
  | step _ hs ih => exact csr_step roms _ _ ih hs

theorem exCsr_eq : RunIteration exCsrStep exReset = some exCsr := rfl

theorem exCsr_reachable : Reachable exRoms exCsr :=
  ReachableBy.step exReset_reachable (Step.run exCsrStep (by decide) exCsr_eq)

/-- C6, as stated, fails: after the hard reset and one iteration of `Run` whose
instruction writes `0x04` to `E7C0`, `port[0x00]` is `0x04`: its three low bits
are not all zero and its bit 7 is clear. -/
theorem composite_irq_iff_counterexample :
    Reachable exRoms exCsr ∧ RunIteration exCsrStep exReset = some exCsr ∧
    exCsr.port 0x00 = 0x04 ∧ exCsr.port 0x00 &&& 0x07 ≠ 0 ∧ exCsr.port 0x00 &&& 0x80 = 0 ∧
    ¬ (exCsr.port 0x00 &&& 0x80 ≠ 0 ↔ exCsr.port 0x00 &&& 0x07 ≠ 0) :=
  ⟨exCsr_reachable, rfl, by decide, by decide, by decide, by decide⟩

/-- C6, amended: at the end of every iteration of the loop of `Run`, if bit 7
of `port[0x00]` is set then `port[0x00] & 0x07` is non-zero; and if the
iteration starts in a state reachable from hard reset by `Run` iterations, key
events and bus accesses that never write `E7C0`, and its own instruction does
not write `E7C0`, then conversely bit 7 is set when `port[0x00] & 0x07` is
non-zero. -/
theorem composite_irq_after_iteration (roms : RomHeaders) (s s1 : State) (st : CpuStep)
    (h : RunIteration st s = some s1) :
    (s1.port 0x00 &&& 0x80 ≠ 0 → s1.port 0x00 &&& 0x07 ≠ 0) ∧
    (ReachableBy roms notCsrWrite s → (∀ op ∈ st.ops, notCsrWrite op) →
      (s1.port 0x00 &&& 0x07 ≠ 0 → s1.port 0x00 &&& 0x80 ≠ 0)) := by
  unfold RunIteration at h
  cases hb : busOps st.ops s with
  | none => rw [hb] at h; cases h
  | some s2 =>
    rw [hb] at h
    cases h
    have := RunAfterStep_csr st.opcycles s2
    refine ⟨this.1, fun hr hok => this.2 ?_⟩
    have hp := busOps_csr st.ops s s2 hok hb
    have hs := csr_reachable roms s hr
    unfold CsrOK at hs ⊢
    rw [hp]; exact hs

theorem exKey_reachable : ReachableBy exRoms notCsrWrite exKey :=
  ReachableBy.step (ReachableBy.start _ _ _ _ exReset_eq)
    (Step.key 0x10 true (rfl : _ = some exKey))

theorem composite_irq_after_iteration_witness :
    RunIteration exKeyStep exKey = some exKeyRun ∧
    ((exKeyRun.port 0x00 &&& 0x80 ≠ 0 → exKeyRun.port 0x00 &&& 0x07 ≠ 0) ∧
    (ReachableBy exRoms notCsrWrite exKey → (∀ op ∈ exKeyStep.ops, notCsrWrite op) →
      (exKeyRun.port 0x00 &&& 0x07 ≠ 0 → exKeyRun.port 0x00 &&& 0x80 ≠ 0))) ∧
    ReachableBy exRoms notCsrWrite exKey ∧ (∀ op ∈ exKeyStep.ops, notCsrWrite op) ∧
    exKeyRun.port 0x00 = 0x82 :=
  ⟨rfl, composite_irq_after_iteration exRoms exKey exKeyRun exKeyStep rfl, exKey_reachable,
    by
      intro op hop c
      simp only [exKeyStep, List.mem_singleton] at hop
      subst hop
      exact fun e => BusOp.noConfusion e,
    by decide⟩

theorem busOps_timer (ops : List BusOp) (s s1 : State) (hok : ∀ op ∈ ops, notTimerWrite op)
    (h : busOps ops s = some s1) :
    s1.port 0x05 = s.port 0x05 ∧ s1.latch6846 = s.latch6846 ∧ s1.timer6846 = s.timer6846 := by
  induction ops generalizing s with
  | nil => cases h; exact ⟨rfl, rfl, rfl⟩
  | cons op rest ih =>
    unfold busOps at h
    cases ho : busOp op s with
    | none => rw [ho] at h; cases h
    | some s2 =>
      rw [ho] at h
      obtain ⟨r1, r2, r3⟩ := ih s2 (fun op h' => hok op (List.mem_cons_of_mem _ h')) h
      rw [r1, r2, r3]
      have hop := hok op (List.mem_cons_self _ _)
      cases op with
      | get a =>
        have ho' : (Mgetto8d a s).map Prod.snd = some s2 := ho
        cases hg : Mgetto8d a s with
        | none => rw [hg] at ho'; cases ho'
        | some r =>
          obtain ⟨v, s3⟩ := r
          rw [hg] at ho'
          simp only [Option.map_some'] at ho'
          cases ho'
          exact Mgetto8d_timer a v s _ hg
      | put a c =>
        exact Mputto8d_timer a c s s2 ho (fun e => (hop c).1 (by rw [e]))
          (fun e => (hop c).2.1 (by rw [e])) (fun e => (hop c).2.2 (by rw [e]))

theorem setAt_05 (f : Nat → Nat) (v : Nat) : setAt f 0x00 v 0x05 = f 0x05 :=
  setAt_ne f 0x00 0x05 v (by decide)

theorem RunVideo_timer (o : Int) (s : State) :
    (RunVideo o s).latch6846 = s.latch6846 ∧ (RunVideo o s).timer6846 = s.timer6846 := by
  unfold RunVideo
  by_cases c : (RunVideoCycle o s).videolinecycle ≥ 64
  · rw [if_pos c]
    unfold RunVideoFlag RunVideoNextLine
    by_cases c2 : (RunVideoEndLine (RunVideoCycle o s)).videolinenumber + 1 > 311
    · rw [if_pos c2]; exact ⟨rfl, rfl⟩
    · rw [if_neg c2]; exact ⟨rfl, rfl⟩
  · rw [if_neg c]; exact ⟨rfl, rfl⟩

theorem RunIrq_timer (o : Int) (s : State) :
    (RunIrq o s).port 0x05 = s.port 0x05 ∧ (RunIrq o s).latch6846 = s.latch6846 ∧
    (RunIrq o s).timer6846 = s.timer6846 := by
  have e1 : ∀ t : State, (RunTimerIrqCount o t).port 0x05 = t.port 0x05 ∧
      (RunTimerIrqCount o t).latch6846 = t.latch6846 ∧
      (RunTimerIrqCount o t).timer6846 = t.timer6846 := by
    intro t
    unfold RunTimerIrqCount
    by_cases c : t.timer_irqcount > 0
    · rw [if_pos c]; exact ⟨rfl, rfl, rfl⟩
    · rw [if_neg c]; exact ⟨rfl, rfl, rfl⟩
  have e2 : ∀ t : State, (RunTimerIrqClear t).port 0x05 = t.port 0x05 ∧
      (RunTimerIrqClear t).latch6846 = t.latch6846 ∧
      (RunTimerIrqClear t).timer6846 = t.timer6846 := by
    intro t
    unfold RunTimerIrqClear
    by_cases c : t.timer_irqcount ≤ 0
    · rw [if_pos c]; exact ⟨setAt_05 t.port (t.port 0x00 &&& 0xfe), rfl, rfl⟩
    · rw [if_neg c]; exact ⟨rfl, rfl, rfl⟩
  have e3 : ∀ t : State, (RunKeybIrqCount o t).port 0x05 = t.port 0x05 ∧
      (RunKeybIrqCount o t).latch6846 = t.latch6846 ∧
      (RunKeybIrqCount o t).timer6846 = t.timer6846 := by
    intro t
    unfold RunKeybIrqCount
    by_cases c : t.keyb_irqcount > 0
    · rw [if_pos c]; exact ⟨rfl, rfl, rfl⟩
    · rw [if_neg c]; exact ⟨rfl, rfl, rfl⟩
  have e4 : ∀ t : State, (RunKeybIrqClear t).port 0x05 = t.port 0x05 ∧
      (RunKeybIrqClear t).latch6846 = t.latch6846 ∧
      (RunKeybIrqClear t).timer6846 = t.timer6846 := by
    intro t
    unfold RunKeybIrqClear
    by_cases c : t.keyb_irqcount ≤ 0
    · rw [if_pos c]; exact ⟨setAt_05 t.port (t.port 0x00 &&& 0xfd), rfl, rfl⟩
    · rw [if_neg c]; exact ⟨rfl, rfl, rfl⟩
  have e5 : ∀ t : State, (RunIrqComposite t).port 0x05 = t.port 0x05 ∧
      (RunIrqComposite t).latch6846 = t.latch6846 ∧
      (RunIrqComposite t).timer6846 = t.timer6846 := by
    intro t
    unfold RunIrqComposite
    by_cases c : t.port 0x00 &&& 0x07 = 0
    · rw [if_pos c]; exact ⟨setAt_05 t.port (t.port 0x00 &&& 0x7f), rfl, rfl⟩
    · rw [if_neg c]; exact ⟨rfl, rfl, rfl⟩
  unfold RunIrq
  obtain ⟨a1, a2, a3⟩ := e1 s
  obtain ⟨b1, b2, b3⟩ := e2 (RunTimerIrqCount o s)
  obtain ⟨c1, c2, c3⟩ := e3 (RunTimerIrqClear (RunTimerIrqCount o s))
  obtain ⟨d1, d2, d3⟩ := e4 (RunKeybIrqCount o (RunTimerIrqClear (RunTimerIrqCount o s)))
  obtain ⟨f1, f2, f3⟩ := e5 (RunKeybIrqClear (RunKeybIrqCount o
    (RunTimerIrqClear (RunTimerIrqCount o s))))
  exact ⟨by rw [f1, d1, c1, b1, a1], by rw [f2, d2, c2, b2, a2], by rw [f3, d3, c3, b3, a3]⟩

/-- With `port[0x05] = 0` the countdown of one iteration takes eight units per
cycle from `timer6846`. -/
theorem RunCountdown_timer (o : Int) (s : State) (hp : s.port 0x05 = 0) :
    (RunCountdown o (RunIrq o (RunVideo o s))).port 0x05 = 0 ∧
    (RunCountdown o (RunIrq o (RunVideo o s))).latch6846 = s.latch6846 ∧
    (RunCountdown o (RunIrq o (RunVideo o s))).timer6846 = s.timer6846 - 8 * o := by
  obtain ⟨a1, a2, a3⟩ := RunIrq_timer o (RunVideo o s)
  obtain ⟨b2, b3⟩ := RunVideo_timer o s
  have p5 : (RunIrq o (RunVideo o s)).port 0x05 = 0 := by
    rw [a1, RunVideo_port, hp]
  have c1 : (RunIrq o (RunVideo o s)).port 0x05 &&& 0x01 = 0 := by rw [p5]; decide
  have c2 : ¬ ((RunIrq o (RunVideo o s)).port 0x05 &&& 0x04 ≠ 0) := by rw [p5]; decide
  unfold RunCountdown
  rw [if_pos c1, if_neg c2]
  refine ⟨p5, by rw [← b2, ← a2], ?_⟩
  show (RunIrq o (RunVideo o s)).timer6846 - shl o 3 = _
  rw [a3, b3]
  unfold shl
  ring

theorem or_and_self (p m : Nat) : (p ||| m) &&& m = m := by
  apply Nat.eq_of_testBit_eq
  intro i
  rw [Nat.testBit_and, Nat.testBit_or]
  cases p.testBit i <;> cases m.testBit i <;> rfl

theorem opcycles_nonneg (st : CpuStep) : 0 ≤ st.opcycles := by
  unfold CpuStep.opcycles
  by_cases c : st.cycles < 0
  · rw [if_pos c]; decide
  · rw [if_neg c]; omega

/-- The timer fires in the first iteration at which the cycles accumulated reach
the count `R` left in the counter (`timer6846 = 8 * R`), and the counter is then
reloaded from the latch. -/
theorem RunUntilFire_cadence (L : Int) (steps : List CpuStep) :
    ∀ (n0 R : Int) (s : State), 1 ≤ R → s.latch6846 = L → s.timer6846 = 8 * R →
    s.port 0x05 = 0 → (∀ st ∈ steps, ∀ op ∈ st.ops, notTimerWrite op) →
    (∀ n o s1, RunUntilFire steps n0 s = some (n, o, s1) →
      R ≤ n - n0 ∧ n - n0 - o < R ∧ s1.latch6846 = L ∧ s1.timer6846 = shl L 3 ∧
      s1.port 0x05 = 0 ∧ s1.timer_irqcount = 100 ∧ s1.port 0x00 &&& 0x81 = 0x81) ∧
    ((RunIterations steps s).isSome → R ≤ (steps.map CpuStep.opcycles).sum →
      (RunUntilFire steps n0 s).isSome) := by
  induction steps with
  | nil =>
    intro n0 R s hR _ _ _ _
    refine ⟨fun n o s1 h => ?_, fun _ hsum => ?_⟩
    · cases h
    · simp only [List.map_nil, List.sum_nil] at hsum
      omega
  | cons st rest ih =>
    intro n0 R s hR hl ht hp hok
    have hok1 : ∀ op ∈ st.ops, notTimerWrite op := hok st (List.mem_cons_self _ _)
    have hok2 : ∀ st ∈ rest, ∀ op ∈ st.ops, notTimerWrite op :=
      fun st h' => hok st (List.mem_cons_of_mem _ h')
    have ho := opcycles_nonneg st
    cases hb : busOps st.ops s with
    | none =>
      refine ⟨fun n o s1 h => ?_, fun hi _ => ?_⟩
      · unfold RunUntilFire at h
        rw [hb] at h
        cases h
      · unfold RunIterations RunIteration at hi
        rw [hb] at hi
        cases hi
    | some s2 =>
      obtain ⟨q1, q2, q3⟩ := busOps_timer st.ops s s2 hok1 hb
      obtain ⟨t1, t2, t3⟩ := RunCountdown_timer st.opcycles s2 (by rw [q1, hp])
      rw [q2, hl] at t2
      rw [q3, ht] at t3
      by_cases hf : (RunCountdown st.opcycles (RunIrq st.opcycles
          (RunVideo st.opcycles s2))).timer6846 ≤ 5
      · have hfire : RunFires st.opcycles s2 = true := by
          unfold RunFires
          exact decide_eq_true hf
        have hstep : RunUntilFire (st :: rest) n0 s =
            some (n0 + st.opcycles, st.opcycles, RunAfterStep st.opcycles s2) := by
          unfold RunUntilFire
          rw [hb]
          show (if RunFires st.opcycles s2 = true then _ else _) = _
          rw [if_pos hfire]
        refine ⟨fun n o s1 h => ?_, fun _ _ => ?_⟩
        · rw [hstep] at h
          cases h
          rw [t3] at hf
          refine ⟨by omega, by omega, ?_⟩
          unfold RunAfterStep RunTimeout
          rw [if_pos (by rw [t3]; exact hf)]
          refine ⟨t2, ?_, ?_, rfl, ?_⟩
          · show shl (RunCountdown st.opcycles (RunIrq st.opcycles
              (RunVideo st.opcycles s2))).latch6846 3 = shl L 3
            rw [t2]
          · exact (setAt_05 (RunCountdown st.opcycles (RunIrq st.opcycles
              (RunVideo st.opcycles s2))).port ((RunCountdown st.opcycles (RunIrq st.opcycles
              (RunVideo st.opcycles s2))).port 0x00 ||| 0x81)).trans t1
          · exact (congrArg (fun x => x &&& 0x81) (setAt_same (RunCountdown st.opcycles
              (RunIrq st.opcycles (RunVideo st.opcycles s2))).port 0x00
              ((RunCountdown st.opcycles (RunIrq st.opcycles
              (RunVideo st.opcycles s2))).port 0x00 ||| 0x81))).trans (or_and_self _ _)
        · rw [hstep]; rfl
      · have hfire : ¬ (RunFires st.opcycles s2 = true) := by
          unfold RunFires
          intro h
          exact hf (of_decide_eq_true h)
        have hafter : RunAfterStep st.opcycles s2 =
            RunCountdown st.opcycles (RunIrq st.opcycles (RunVideo st.opcycles s2)) := by
          unfold RunAfterStep RunTimeout
          rw [if_neg hf]
        have hstep : RunUntilFire (st :: rest) n0 s =
            RunUntilFire rest (n0 + st.opcycles) (RunAfterStep st.opcycles s2) := by
          show (match busOps st.ops s with
            | none => none
            | some s1 =>
              if RunFires st.opcycles s1 = true then
                some (n0 + st.opcycles, st.opcycles, RunAfterStep st.opcycles s1)
              else RunUntilFire rest (n0 + st.opcycles) (RunAfterStep st.opcycles s1)) = _
          rw [hb]
          show (if RunFires st.opcycles s2 = true then _ else _) = _
          rw [if_neg hfire]
        rw [t3] at hf
        obtain ⟨ihA, ihB⟩ := ih (n0 + st.opcycles) (R - st.opcycles)
          (RunAfterStep st.opcycles s2) (by omega) (by rw [hafter]; exact t2)
          (by rw [hafter, t3]; ring) (by rw [hafter]; exact t1) hok2
        refine ⟨fun n o s1 h => ?_, fun hi hsum => ?_⟩
        · rw [hstep] at h
          obtain ⟨r1, r2, r3⟩ := ihA n o s1 h
          exact ⟨by omega, by omega, r3⟩
        · rw [hstep]
          apply ihB
          · have hi' : (match RunIteration st s with
                | none => none
                | some s1 => RunIterations rest s1).isSome = true := hi
            have e : RunIteration st s = some (RunAfterStep st.opcycles s2) := by
              unfold RunIteration
              rw [hb]
            rw [e] at hi'
            exact hi'
          · simp only [List.map_cons, List.sum_cons] at hsum
            omega

theorem reachable_RunUntilFire (roms : RomHeaders) (steps : List CpuStep) :
    ∀ (n0 : Int) (s : State), Reachable roms s → (∀ st ∈ steps, ∀ op ∈ st.ops, op.wf) →
    ∀ n o s1, RunUntilFire steps n0 s = some (n, o, s1) → Reachable roms s1 := by
  induction steps with
  | nil => intro n0 s _ _ n o s1 h; cases h
  | cons st rest ih =>
    intro n0 s hr hw n o s1 h
    have hw1 : ∀ op ∈ st.ops, op.wf ∧ True :=
      fun op h' => ⟨hw st (List.mem_cons_self _ _) op h', trivial⟩
    unfold RunUntilFire at h
    cases hb : busOps st.ops s with
    | none => rw [hb] at h; cases h
    | some s2 =>
      rw [hb] at h
      have hi : RunIteration st s = some (RunAfterStep st.opcycles s2) := by
        unfold RunIteration
        rw [hb]
      have hr2 : Reachable roms (RunAfterStep st.opcycles s2) :=
        ReachableBy.step hr (Step.run st hw1 hi)
      by_cases hf : RunFires st.opcycles s2 = true
      · have h' : (if RunFires st.opcycles s2 = true then
            some (n0 + st.opcycles, st.opcycles, RunAfterStep st.opcycles s2)
            else RunUntilFire rest (n0 + st.opcycles) (RunAfterStep st.opcycles s2)) =
            some (n, o, s1) := h
        rw [if_pos hf] at h'
        cases h'
        exact hr2
      · have h' : (if RunFires st.opcycles s2 = true then
            some (n0 + st.opcycles, st.opcycles, RunAfterStep st.opcycles s2)
            else RunUntilFire rest (n0 + st.opcycles) (RunAfterStep st.opcycles s2)) =
            some (n, o, s1) := h
        rw [if_neg hf] at h'
        exact ih _ _ hr2 (fun st h' => hw st (List.mem_cons_of_mem _ h')) n o s1 h'

theorem exTimer_reachable : Reachable exRoms exTimer :=
  reachable_busOps exRoms exTimerOps exReset exTimer exReset_reachable (by decide) rfl

theorem exTimerSteps_ok : ∀ st ∈ exTimerSteps, ∀ op ∈ st.ops, notTimerWrite op := by
  intro st hst op hop c
  rw [List.eq_of_mem_replicate hst] at hop
  simp only [exTimerStep, List.mem_singleton] at hop
  subst hop
  exact ⟨fun e => BusOp.noConfusion e, fun e => BusOp.noConfusion e,
    fun e => BusOp.noConfusion e⟩

theorem exTimerSteps_wf : ∀ st ∈ exTimerSteps, ∀ op ∈ st.ops, op.wf := by
  intro st hst op hop
  rw [List.eq_of_mem_replicate hst] at hop
  simp only [exTimerStep, List.mem_singleton] at hop
  subst hop
  decide

theorem exTimerFired_eq :
    (RunUntilFire exTimerSteps 0 exTimer).map (fun r => r.2.2) = some exTimerFired := rfl

theorem exTimerFired_reachable : Reachable exRoms exTimerFired := by
  cases h : RunUntilFire exTimerSteps 0 exTimer with
  | none =>
    have e := exTimerFired_eq
    rw [h] at e
    cases e
  | some r =>
    obtain ⟨n, o, s1⟩ := r
    have e := exTimerFired_eq
    rw [h] at e
    simp only [Option.map_some', Option.some.injEq] at e
    rw [← e]
    exact reachable_RunUntilFire exRoms exTimerSteps 0 exTimer exTimer_reachable
      exTimerSteps_wf n o s1 h

/-- C7, as stated, fails: in the reachable state `exTimerFired`, in which the
timer has just fired with `latch6846 = 100` and `port[0x05] = 0x00`, running
instructions of 4 cycles that do not write the timer registers, the next fire
comes when `Run` has accumulated 100 cycles, not `64 * 100` cycles give or take
the 4 cycles of an instruction. -/
theorem timer_cadence_64L_counterexample :
    Reachable exRoms exTimerFired ∧
    exTimerFired.latch6846 = 100 ∧ exTimerFired.port 0x05 = 0x00 ∧
    exTimerFired.timer_irqcount = 100 ∧ exTimerFired.port 0x00 &&& 0x81 = 0x81 ∧
    (∀ st ∈ exTimerSteps, ∀ op ∈ st.ops, notTimerWrite op) ∧
    (RunUntilFire exTimerSteps 0 exTimerFired).map (fun r => (r.1, r.2.1)) = some (100, 4) ∧
    ¬ (64 * 100 - 4 ≤ (100 : Int) ∧ (100 : Int) ≤ 64 * 100 + 4) :=
  ⟨exTimerFired_reachable, by decide, by decide, by decide, by decide, exTimerSteps_ok,
    by decide, by decide⟩

/-- C7, amended: with `latch6846 = L` (`1 ≤ L ≤ 65535`), `port[0x05] = 0x00`,
the counter just reloaded (`timer6846 = L << 3`, as the firing branch leaves
it) and no bus write to `E7C5`, `E7C6`, `E7C7` in between, the number of CPU
cycles that `Run` accumulates up to the next timer fire is `L`, up to one
instruction: the fire happens at the end of the first iteration at which the
accumulated cycles reach `L`, so they are at least `L` and less than `L` plus
the cycles of the last instruction; the firing branch sets `timer_irqcount` to
100, bits `0x81` of `port[0x00]`, and reloads the counter, so the same holds for
the next period.  The fire does happen when the instructions run without fault
and their cycles add up to `L` or more. -/
theorem timer_fire_cadence (steps : List CpuStep) (n0 L : Int) (s : State)
    (hL : 1 ≤ L ∧ L ≤ 65535) (hl : s.latch6846 = L) (ht : s.timer6846 = shl L 3)
    (hp : s.port 0x05 = 0x00) (hok : ∀ st ∈ steps, ∀ op ∈ st.ops, notTimerWrite op) :
    (∀ n o s1, RunUntilFire steps n0 s = some (n, o, s1) →
      L ≤ n - n0 ∧ n - n0 - o < L ∧ s1.latch6846 = L ∧ s1.timer6846 = shl L 3 ∧
      s1.port 0x05 = 0x00 ∧ s1.timer_irqcount = 100 ∧ s1.port 0x00 &&& 0x81 = 0x81) ∧
    ((RunIterations steps s).isSome → L ≤ (steps.map CpuStep.opcycles).sum →
      (RunUntilFire steps n0 s).isSome) :=
  RunUntilFire_cadence L steps n0 L s hL.1 hl
    (by rw [ht]; unfold shl; ring) hp hok

theorem timer_fire_cadence_witness :
    ((1 : Int) ≤ 100 ∧ (100 : Int) ≤ 65535) ∧ exTimerFired.latch6846 = 100 ∧
    exTimerFired.timer6846 = shl 100 3 ∧ exTimerFired.port 0x05 = 0x00 ∧
    (∀ st ∈ exTimerSteps, ∀ op ∈ st.ops, notTimerWrite op) ∧
    ((∀ n o s1, RunUntilFire exTimerSteps 0 exTimerFired = some (n, o, s1) →
      100 ≤ n - 0 ∧ n - 0 - o < 100 ∧ s1.latch6846 = 100 ∧ s1.timer6846 = shl 100 3 ∧
      s1.port 0x05 = 0x00 ∧ s1.timer_irqcount = 100 ∧ s1.port 0x00 &&& 0x81 = 0x81) ∧
    ((RunIterations exTimerSteps exTimerFired).isSome →
      100 ≤ (exTimerSteps.map CpuStep.opcycles).sum →
      (RunUntilFire exTimerSteps 0 exTimerFired).isSome)) ∧
    (RunIterations exTimerSteps exTimerFired).isSome ∧
    100 ≤ (exTimerSteps.map CpuStep.opcycles).sum :=
  ⟨by decide, by decide, by decide, by decide, exTimerSteps_ok,
    timer_fire_cadence exTimerSteps 0 100 exTimerFired (by decide) (by decide) (by decide)
      (by decide) exTimerSteps_ok, rfl, by decide⟩

theorem copyOut_copyIn {α : Type} (n : Nat) (a t : Nat → α) (z : α) :
    copyOut n (copyIn n (copyOut n a z) t) z = copyOut n a z := by
  funext i
  unfold copyOut copyIn
  by_cases c : i < n
  · simp only [if_pos c]
  · simp only [if_neg c]

theorem copyOut_setAt_self (n : Nat) (f : Nat → Nat) (i : Nat) :
    copyOut n (setAt f i (f i)) 0 = copyOut n f 0 := by
  funext j
  unfold copyOut
  rw [setAt_self]

theorem copyOut_eq {α : Type} (n : Nat) (a b : Nat → α) (z : α)
    (h : copyOut n a z = copyOut n b z) (i : Nat) (hi : i < n) : a i = b i := by
  have := congrFun h i
  unfold copyOut at this
  rw [if_pos hi, if_pos hi] at this
  exact this

theorem Initprog_flavor (s : State) : (Initprog s).currentFlavor = s.currentFlavor := by
  unfold Initprog Reset6809
  rw [TO8rombank_frame, TO8rambank_frame]
  rfl

theorem SetThomsonFlavor_flavor (roms : RomHeaders) (date : Nat → Nat) (f : ThomsonFlavor)
    (s s1 : State) (h : SetThomsonFlavor roms date f s = some s1) : s1.currentFlavor = f := by
  unfold SetThomsonFlavor at h
  by_cases c : f ≠ s.currentFlavor
  · rw [if_pos c] at h
    obtain ⟨m, hm, rfl⟩ := Hardreset_eq roms date _ s1 h
    have hfl : m.currentFlavor = f :=
      (congrArg State.currentFlavor hm : m.regs.currentFlavor = _)
    show (Initprog (HardresetCounters m)).currentFlavor = f
    rw [Initprog_flavor]
    exact hfl
  · rw [if_neg c] at h
    cases h
    exact (not_not.mp c).symm

/-- Restoring the fields of a snapshot and serialising again gives the snapshot. -/
theorem serialize_unserializeFields (cpu videoBlock : List Nat) (S T : State)
    (h : T.currentFlavor = S.currentFlavor) :
    to8d_serialize cpu videoBlock (unserializeFields (to8d_serialize cpu videoBlock S) T) =
      to8d_serialize cpu videoBlock S := by
  have e1 := copyOut_copyIn RAM_SIZE S.ram T.ram 0
  have e2 := copyOut_copyIn IO_MEM_SIZE S.port T.port 0
  have e3 := copyOut_copyIn PALETTE_SIZE S.x7da T.x7da 0
  have e4 := copyOut_copyIn KEYBOARDKEY_MAX S.touche T.touche 0
  unfold to8d_serialize unserializeFields
  simp only [e1, e2, e3, e4, h]

theorem TO8rambank_nrambank (s : State) : (TO8rambank s).nrambank =
    if s.port 0x27 &&& 0x10 ≠ 0 then ((s.port 0x25 &&& 0x1f : Nat) : Int)
    else (TO8rambankSwitch (s.port 0x09 &&& 0xf8)).getD s.nrambank := by
  unfold TO8rambank
  by_cases c : s.port 0x27 &&& 0x10 ≠ 0
  · rw [if_pos c, if_pos c]
  · rw [if_neg c, if_neg c]
    cases TO8rambankSwitch (s.port 0x09 &&& 0xf8) <;> rfl

theorem TO8rambank_others (s : State) :
    (TO8rambank s).carflags = s.carflags ∧ (TO8rambank s).nrombank = s.nrombank := by
  rw [TO8rambank_frame]
  exact ⟨rfl, rfl⟩

theorem Videopage_bordercolor_self (s : State) :
    Videopage_bordercolor (s.port 0x1d) s =
      { s with pagevideo := ptr .ram (shl ((s.port 0x1d &&& 0xc0 : Nat) : Int) 8)
               bordercolor := ((s.port 0x1d &&& 0x0f : Nat) : Int) } := by
  have e : setAt s.port 0x1d (s.port 0x1d) = s.port := setAt_self _ _
  unfold Videopage_bordercolor
  rw [e]

theorem serialize_TO8rombank (cpu videoBlock : List Nat) (s : State)
    (h : (TO8rombank s).nrombank = s.nrombank) :
    to8d_serialize cpu videoBlock (TO8rombank s) = to8d_serialize cpu videoBlock s := by
  rw [congrArg (to8d_serialize cpu videoBlock) (TO8rombank_frame s)]
  unfold to8d_serialize
  simp only [h]

theorem serialize_TO8rambank (cpu videoBlock : List Nat) (s : State)
    (h : (TO8rambank s).nrambank = s.nrambank) :
    to8d_serialize cpu videoBlock (TO8rambank s) = to8d_serialize cpu videoBlock s := by
  rw [congrArg (to8d_serialize cpu videoBlock) (TO8rambank_frame s)]
  unfold to8d_serialize
  simp only [h]

theorem serialize_TO8videoram (cpu videoBlock : List Nat) (s : State)
    (h1 : s.nvideopage = ((s.port 0x03 &&& 1 : Nat) : Int))
    (h2 : s.nsystbank = (((s.port 0x03 &&& 0x10) >>> 4 : Nat) : Int)) :
    to8d_serialize cpu videoBlock (TO8videoram s) = to8d_serialize cpu videoBlock s := by
  unfold to8d_serialize TO8videoram
  simp only [← h1, ← h2]

theorem serialize_Videopage_bordercolor (cpu videoBlock : List Nat) (s : State)
    (h : s.bordercolor = ((s.port 0x1d &&& 0x0f : Nat) : Int)) :
    to8d_serialize cpu videoBlock (Videopage_bordercolor (s.port 0x1d) s) =
      to8d_serialize cpu videoBlock s := by
  rw [Videopage_bordercolor_self]
  unfold to8d_serialize
  simp only [← h]

/-- The calls that end `to8d_unserialize` change no serialized field of a state
whose bank indices and border colour agree with its ports. -/
theorem serialize_unserializeResolve (cpu videoBlock : List Nat) (s : State)
    (h : Resolved s) :
    to8d_serialize cpu videoBlock (unserializeResolve s) = to8d_serialize cpu videoBlock s := by
  have hv : Videopage_bordercolor (s.port 0x1d) s =
      { s with pagevideo := ptr .ram (shl ((s.port 0x1d &&& 0xc0 : Nat) : Int) 8)
               bordercolor := ((s.port 0x1d &&& 0x0f : Nat) : Int) } :=
    Videopage_bordercolor_self s
  unfold unserializeResolve
  have h3 : (TO8rambank (TO8videoram (Videopage_bordercolor (s.port 0x1d) s))).nrambank =
      (TO8videoram (Videopage_bordercolor (s.port 0x1d) s)).nrambank := by
    rw [hv, TO8rambank_nrambank]
    have := h.nrambank
    rw [TO8rambank_nrambank] at this
    exact this
  have h4 : (TO8rombank (TO8rambank (TO8videoram
      (Videopage_bordercolor (s.port 0x1d) s)))).nrombank =
      (TO8rambank (TO8videoram (Videopage_bordercolor (s.port 0x1d) s))).nrombank := by
    rw [TO8rombank_nrombank, TO8rambank_port, (TO8rambank_others _).1, (TO8rambank_others _).2,
      hv]
    have := h.nrombank
    rw [TO8rombank_nrombank] at this
    exact this
  rw [serialize_TO8rombank _ _ _ h4, serialize_TO8rambank _ _ _ h3,
    serialize_TO8videoram _ _ _ (by rw [hv]; exact h.nvideopage)
      (by rw [hv]; exact h.nsystbank),
    serialize_Videopage_bordercolor _ _ _ h.bordercolor]

/-- The bank indices of a state that satisfies the invariant are those the
resolvers compute. -/
theorem resolved_of_inv (s : State) (h : Inv s) : Resolved s := by
  refine ⟨h.page.1, h.video.1, ?_, ?_, ?_⟩
  · rw [h.video.2.2.1, and10_shr4]
  · rw [TO8rambank_nrambank]
    by_cases c : s.port 0x27 &&& 0x10 ≠ 0
    · rw [if_pos c]
      exact (h.ram.1 c).1.symm
    · rw [if_neg c]
      cases hs : TO8rambankSwitch (s.port 0x09 &&& 0xf8) with
      | none => rfl
      | some n => exact (h.ram.2.2 (not_not.mp c) n hs).1.symm
  · rw [TO8rombank_nrombank]
    by_cases c : s.port 0x26 &&& 0x20 ≠ 0
    · rw [if_pos c]
    · rw [if_neg c]
      exact (h.rom.2 (not_not.mp c)).symm

theorem resolved_unserializeFields (cpu videoBlock : List Nat) (S T : State)
    (h : Resolved S) : Resolved (unserializeFields (to8d_serialize cpu videoBlock S) T) := by
  refine ⟨h.bordercolor, h.nvideopage, h.nsystbank, ?_, ?_⟩
  · have := h.nrambank
    rw [TO8rambank_nrambank] at this ⊢
    exact this
  · have := h.nrombank
    rw [TO8rombank_nrombank] at this ⊢
    exact this

/-- C8: for every state `S` reachable from hard reset and every machine state
`T` in which the restore is invoked (the hard reset of a flavor change, if any,
succeeding), `to8d_unserialize` of the buffer written by `to8d_serialize` in `S`
returns a state `T2` in which every serialized field has its value in `S`, so
that serialising again yields the same buffer; the resolvers re-run at the end
of the restore alter no restored field (the snapshot taken before them is the
same). -/
theorem snapshot_round_trip (roms : RomHeaders) (date : Nat → Nat)
    (cpu videoBlock : List Nat) (S T : State) (hS : Reachable roms S)
    (hT : (SetThomsonFlavor roms date S.currentFlavor T).isSome) :
    ∃ T1 T2, SetThomsonFlavor roms date S.currentFlavor T = some T1 ∧
      to8d_unserialize roms date (to8d_serialize cpu videoBlock S) T = some T2 ∧
      to8d_serialize cpu videoBlock T2 = to8d_serialize cpu videoBlock S ∧
      to8d_serialize cpu videoBlock
        (unserializeFields (to8d_serialize cpu videoBlock S) T1) =
        to8d_serialize cpu videoBlock T2 ∧
      T2.currentFlavor = S.currentFlavor ∧
      (∀ i < RAM_SIZE, T2.ram i = S.ram i) ∧
      (∀ i < IO_MEM_SIZE, T2.port i = S.port i) ∧
      (∀ i < PALETTE_SIZE, T2.x7da i = S.x7da i) ∧
      T2.nvideopage = S.nvideopage ∧ T2.nvideobank = S.nvideobank ∧
      T2.nrambank = S.nrambank ∧ T2.nrombank = S.nrombank ∧
      T2.nsystbank = S.nsystbank ∧ T2.nctrlbank = S.nctrlbank ∧
      T2.carflags = S.carflags ∧
      (∀ i < KEYBOARDKEY_MAX, T2.touche i = S.touche i) ∧
      T2.capslock = S.capslock ∧ T2.joysposition = S.joysposition ∧
      T2.joysaction = S.joysaction ∧ T2.xpen = S.xpen ∧ T2.ypen = S.ypen ∧
      T2.penbutton = S.penbutton ∧ T2.videolinecycle = S.videolinecycle ∧
      T2.videolinenumber = S.videolinenumber ∧ T2.vblnumber = S.vblnumber ∧
      T2.displayflag = S.displayflag ∧ T2.bordercolor = S.bordercolor ∧
      T2.sound = S.sound ∧ T2.mute = S.mute ∧ T2.timer6846 = S.timer6846 ∧
      T2.latch6846 = S.latch6846 ∧ T2.keyb_irqcount = S.keyb_irqcount ∧
      T2.timer_irqcount = S.timer_irqcount := by
  cases h1 : SetThomsonFlavor roms date S.currentFlavor T with
  | none => rw [h1] at hT; cases hT
  | some T1 =>
    have hfl := SetThomsonFlavor_flavor roms date _ T T1 h1
    have hres := resolved_unserializeFields cpu videoBlock S T1
      (resolved_of_inv S (inv_reachable roms _ S hS))
    have e1 := serialize_unserializeResolve cpu videoBlock _ hres
    have e2 := serialize_unserializeFields cpu videoBlock S T1 hfl
    have e := e1.trans e2
    have hu : to8d_unserialize roms date (to8d_serialize cpu videoBlock S) T =
        some (unserializeResolve (unserializeFields (to8d_serialize cpu videoBlock S) T1)) := by
      unfold to8d_unserialize
      have h1' : SetThomsonFlavor roms date (to8d_serialize cpu videoBlock S).currentFlavor T =
          some T1 := h1
      rw [h1']
    refine ⟨T1, _, rfl, hu, e, e1.symm, ?_⟩
    exact ⟨congrArg Snapshot.currentFlavor e,
      copyOut_eq _ _ _ _ (congrArg Snapshot.ram e),
      copyOut_eq _ _ _ _ (congrArg Snapshot.port e),
      copyOut_eq _ _ _ _ (congrArg Snapshot.x7da e),
      congrArg Snapshot.nvideopage e, congrArg Snapshot.nvideobank e,
      congrArg Snapshot.nrambank e, congrArg Snapshot.nrombank e,
      congrArg Snapshot.nsystbank e, congrArg Snapshot.nctrlbank e,
      congrArg Snapshot.carflags e,
      copyOut_eq _ _ _ _ (congrArg Snapshot.touche e),
      congrArg Snapshot.capslock e, congrArg Snapshot.joysposition e,
      congrArg Snapshot.joysaction e, congrArg Snapshot.xpen e, congrArg Snapshot.ypen e,
      congrArg Snapshot.penbutton e, congrArg Snapshot.videolinecycle e,
      congrArg Snapshot.videolinenumber e, congrArg Snapshot.vblnumber e,
      congrArg Snapshot.displayflag e, congrArg Snapshot.bordercolor e,
      congrArg Snapshot.sound e, congrArg Snapshot.mute e, congrArg Snapshot.timer6846 e,
      congrArg Snapshot.latch6846 e, congrArg Snapshot.keyb_irqcount e,
      congrArg Snapshot.timer_irqcount e⟩

theorem exKeyRun_reachable : Reachable exRoms exKeyRun :=
  ReachableBy.step
    (ReachableBy.step exReset_reachable (Step.key 0x10 true (rfl : _ = some exKey)))
    (Step.run exKeyStep (by decide) (rfl : _ = some exKeyRun))

theorem exRestored_eq :
    to8d_unserialize exRoms exDate exSnapshot exTO8D = some exRestored := rfl

theorem snapshot_round_trip_witness :
    Reachable exRoms exKeyRun ∧
    (SetThomsonFlavor exRoms exDate exKeyRun.currentFlavor exTO8D).isSome ∧
    exTO8D.currentFlavor ≠ exKeyRun.currentFlavor ∧ exRestored.port 0x00 = 0x82 ∧
    to8d_serialize [1, 2, 3] [4, 5] exRestored = exSnapshot ∧
    (∀ i < RAM_SIZE, exRestored.ram i = exKeyRun.ram i) := by
  obtain ⟨T1, T2, _, h2, h3, _, _, h6, _⟩ :=
    snapshot_round_trip exRoms exDate [1, 2, 3] [4, 5] exKeyRun exTO8D exKeyRun_reachable rfl
  have h2' : to8d_unserialize exRoms exDate exSnapshot exTO8D = some T2 := h2
  rw [exRestored_eq] at h2'
  cases h2'
  exact ⟨exKeyRun_reachable, rfl, by decide, by decide, h3, h6⟩

theorem exSaved_reachable : Reachable exRoms exSaved :=
  reachable_busOps exRoms exSavedOps exReset exSaved exReset_reachable (by decide) rfl

theorem exBank3_reachable : Reachable exRoms exBank3 :=
  reachable_busOps exRoms exBank3Ops exReset exBank3 exReset_reachable (by decide) rfl

/-- C9 fails in the code: `TO8rambank` returns on the `default` case of its
switch without assigning `rambank`, so the restore keeps the `rambank` of the
machine it is invoked in.  The snapshot of the reachable state `exSaved`
(`port[0x27] = 0`, `port[0x09] = 0`, `0x55` stored at CPU address `0xA000`),
restored into the reachable state `exBank3` of the same flavor (RAM bank 3
selected in TO8 mode), leaves `rambank` at bank 3: a bus read of `0xA000`
returns `0x00` where it returns `0x55` in `exSaved`. -/
theorem restore_keeps_stale_rambank :
    Reachable exRoms exSaved ∧ Reachable exRoms exBank3 ∧
    exBank3.currentFlavor = exSaved.currentFlavor ∧
    to8d_unserialize exRoms exDate (to8d_serialize [] [] exSaved) exBank3 =
      some exSavedRestored ∧
    exSaved.port 0x27 &&& 0x10 = 0 ∧ TO8rambankSwitch (exSaved.port 0x09 &&& 0xf8) = none ∧
    exSaved.rambank = ptr .ram (-0x2000) ∧
    exBank3.rambank = ptr .ram (-0xa000 + shl 3 14) ∧
    exSavedRestored.rambank = exBank3.rambank ∧
    (Mgetto8d 0xa000 exSaved).map Prod.fst = some 0x55 ∧
    (Mgetto8d 0xa000 exSavedRestored).map Prod.fst = some 0x00 :=
  ⟨exSaved_reachable, exBank3_reachable, by decide, rfl, by decide, by decide, by decide,
    by decide, by decide, by decide, by decide⟩

theorem Mputto8d_e7da (c : Nat) (s : State) : Mputto8d 0xe7da c s = Palettecolor c s := rfl

set_option maxRecDepth 100000 in
theorem palette_index : ∀ k < 16,
    charToInt (2 * k) = ((2 * k : Nat) : Int) ∧
    charToInt (2 * k + 1) = ((2 * k + 1 : Nat) : Int) ∧
    iand ((2 * k : Nat) : Int) 1 = 0 ∧
    iand ((2 * k + 1 : Nat) : Int) 1 ≠ 0 ∧
    shr ((2 * k + 1 : Nat) : Int) 1 = (k : Int) ∧
    (iand ((2 * k + 1 : Nat) : Int) 0x1e).toNat = 2 * k ∧
    (2 * k + 1) &&& 0x1f = 2 * k + 1 ∧
    (2 * k + 1 + 1) &&& 0x1f = (2 * k + 2) &&& 0x1f := by
  decide

set_option maxRecDepth 100000 in
theorem byte_f0_shr4 : ∀ b < 256, (b &&& 0xf0) >>> 4 = b >>> 4 := by decide

/-- C10: palette writes commit in pairs.  With `port[0x1B] = 2k` (`k ≤ 15`) and
bytes `CL`, `CH`, the bus write of `CL` to `E7DA` returns and commits no palette
entry (the renderer is not called), and the following bus write of `CH` to
`E7DA` returns and commits exactly entry `k`, by one call
`Palette(k, CL & 0x0F, CL >> 4, CH & 0x0F)`; it leaves `x7da[2k] = CL`,
`x7da[2k+1] = CH`, the other bytes of `x7da` unchanged, and
`port[0x1B] = (2k + 2) & 0x1F`. -/
theorem palette_pair_commit (s : State) (k CL CH : Nat) (hk : k ≤ 15) (hCL : CL < 256)
    (_hCH : CH < 256) (hp : s.port 0x1b = 2 * k) :
    ∃ s1 s2, Mputto8d 0xe7da CL s = some s1 ∧ s1.video = s.video ∧
      Mputto8d 0xe7da CH s1 = some s2 ∧
      s2.video = s.video ++ [VideoCall.Palette (k : Int) (CL &&& 0x0f) (CL >>> 4) (CH &&& 0x0f)] ∧
      s2.x7da (2 * k) = CL ∧ s2.x7da (2 * k + 1) = CH ∧
      (∀ j, j ≠ 2 * k → j ≠ 2 * k + 1 → s2.x7da j = s.x7da j) ∧
      s2.port 0x1b = (2 * k + 2) &&& 0x1f := by
  obtain ⟨i1, i2, i3, i4, i5, i6, i7, i8⟩ := palette_index k (by omega)
  have hr1 : 0 ≤ charToInt (s.port 0x1b) ∧ charToInt (s.port 0x1b) < (PALETTE_SIZE : Int) := by
    rw [hp, i1]
    unfold PALETTE_SIZE
    constructor <;> omega
  have he1 : ¬ (iand (charToInt (s.port 0x1b)) 1 ≠ 0) := by
    rw [hp, i1, i3]
    decide
  have h1 : Mputto8d 0xe7da CL s = some (PalettecolorLatch CL s) := by
    rw [Mputto8d_e7da]
    unfold Palettecolor
    rw [if_pos hr1, if_neg he1]
  have hx1 : (PalettecolorLatch CL s).x7da = setAt s.x7da (2 * k) CL := by
    show setAt s.x7da (charToInt (s.port 0x1b)).toNat CL = _
    rw [hp, i1, Int.toNat_ofNat]
  have hp1 : (PalettecolorLatch CL s).port 0x1b = 2 * k + 1 := by
    show setAt s.port 0x1b ((s.port 0x1b + 1) &&& 0x1f) 0x1b = _
    rw [setAt_same, hp, i7]
  have hr2 : 0 ≤ charToInt ((PalettecolorLatch CL s).port 0x1b) ∧
      charToInt ((PalettecolorLatch CL s).port 0x1b) < (PALETTE_SIZE : Int) := by
    rw [hp1, i2]
    unfold PALETTE_SIZE
    constructor <;> omega
  have he2 : iand (charToInt ((PalettecolorLatch CL s).port 0x1b)) 1 ≠ 0 := by
    rw [hp1, i2]
    exact i4
  have h2 : Mputto8d 0xe7da CH (PalettecolorLatch CL s) =
      some (PalettecolorCommit (charToInt ((PalettecolorLatch CL s).port 0x1b)) CH
        (PalettecolorLatch CH (PalettecolorLatch CL s))) := by
    rw [Mputto8d_e7da]
    unfold Palettecolor
    rw [if_pos hr2, if_pos he2]
  have hx2 : (PalettecolorLatch CH (PalettecolorLatch CL s)).x7da =
      setAt (setAt s.x7da (2 * k) CL) (2 * k + 1) CH := by
    show setAt (PalettecolorLatch CL s).x7da
      (charToInt ((PalettecolorLatch CL s).port 0x1b)).toNat CH = _
    rw [hx1, hp1, i2, Int.toNat_ofNat]
  have hp2 : (PalettecolorLatch CH (PalettecolorLatch CL s)).port 0x1b =
      (2 * k + 2) &&& 0x1f := by
    show setAt (PalettecolorLatch CL s).port 0x1b
      (((PalettecolorLatch CL s).port 0x1b + 1) &&& 0x1f) 0x1b = _
    rw [setAt_same, hp1, i8]
  have hlo : setAt (setAt s.x7da (2 * k) CL) (2 * k + 1) CH (2 * k) = CL := by
    rw [setAt_ne _ _ _ _ (by omega), setAt_same]
  refine ⟨_, _, h1, rfl, h2, ?_, ?_, ?_, ?_, hp2⟩
  · show (PalettecolorLatch CL s).video ++
      [VideoCall.Palette (shr (charToInt ((PalettecolorLatch CL s).port 0x1b)) 1)
        ((PalettecolorLatch CH (PalettecolorLatch CL s)).x7da
          (iand (charToInt ((PalettecolorLatch CL s).port 0x1b)) 0x1e).toNat &&& 0x0f)
        (((PalettecolorLatch CH (PalettecolorLatch CL s)).x7da
          (iand (charToInt ((PalettecolorLatch CL s).port 0x1b)) 0x1e).toNat &&& 0xf0) >>> 4)
        (CH &&& 0x0f)] = _
    rw [hp1, i2, i5, i6, hx2, hlo, byte_f0_shr4 CL hCL]
    rfl
  · show (PalettecolorLatch CH (PalettecolorLatch CL s)).x7da (2 * k) = CL
    rw [hx2, hlo]
  · show (PalettecolorLatch CH (PalettecolorLatch CL s)).x7da (2 * k + 1) = CH
    rw [hx2, setAt_same]
  · intro j j1 j2
    show (PalettecolorLatch CH (PalettecolorLatch CL s)).x7da j = s.x7da j
    rw [hx2, setAt_ne _ _ _ _ j2, setAt_ne _ _ _ _ j1]

theorem exPalette_eq : Mputto8d 0xe7db 0x02 exReset = some exPalette := rfl

theorem palette_pair_commit_witness :
    (1 : Nat) ≤ 15 ∧ (0x2b : Nat) < 256 ∧ (0x0c : Nat) < 256 ∧ exPalette.port 0x1b = 2 * 1 ∧
    ∃ s1 s2, Mputto8d 0xe7da 0x2b exPalette = some s1 ∧ s1.video = exPalette.video ∧
      Mputto8d 0xe7da 0x0c s1 = some s2 ∧
      s2.video = exPalette.video ++
        [VideoCall.Palette ((1 : Nat) : Int) (0x2b &&& 0x0f) (0x2b >>> 4) (0x0c &&& 0x0f)] ∧
      s2.x7da (2 * 1) = 0x2b ∧ s2.x7da (2 * 1 + 1) = 0x0c ∧
      (∀ j, j ≠ 2 * 1 → j ≠ 2 * 1 + 1 → s2.x7da j = exPalette.x7da j) ∧
      s2.port 0x1b = (2 * 1 + 2) &&& 0x1f :=
  ⟨by decide, by decide, by decide, by decide,
    palette_pair_commit exPalette 1 0x2b 0x0c (by decide) (by decide) (by decide) (by decide)⟩

/-! ## The video counters and bus accesses -/

theorem Timercontrol_video (s : State) (c : Nat) :
    (MputE7C5 c s).videolinecycle = s.videolinecycle ∧ (MputE7C5 c s).videolinenumber = s.videolinenumber ∧ (MputE7C5 c s).vblnumber = s.vblnumber ∧ (MputE7C5 c s).displayflag = s.displayflag := by
  unfold MputE7C5 Timercontrol
  by_cases c5 : (setAt s.port 0x05 c) 0x05 &&& 0x01 ≠ 0
  · rw [if_pos c5] <;> exact ⟨rfl, rfl, rfl, rfl⟩
  · rw [if_neg c5] <;> exact ⟨rfl, rfl, rfl, rfl⟩

theorem MputE7CD_video (s : State) (c : Nat) :
    (MputE7CD c s).videolinecycle = s.videolinecycle ∧ (MputE7CD c s).videolinenumber = s.videolinenumber ∧ (MputE7CD c s).vblnumber = s.vblnumber ∧ (MputE7CD c s).displayflag = s.displayflag := by
  unfold MputE7CD
  by_cases c4 : s.port 0x0f &&& 4 ≠ 0
  · rw [if_pos c4] <;> exact ⟨rfl, rfl, rfl, rfl⟩
  · rw [if_neg c4] <;> exact ⟨rfl, rfl, rfl, rfl⟩

theorem Palettecolor_video (c : Nat) (s s1 : State) (h : Palettecolor c s = some s1) :
    s1.videolinecycle = s.videolinecycle ∧ s1.videolinenumber = s.videolinenumber ∧ s1.vblnumber = s.vblnumber ∧ s1.displayflag = s.displayflag := by
  unfold Palettecolor at h
  by_cases hr : 0 ≤ charToInt (s.port 0x1b) ∧ charToInt (s.port 0x1b) < (PALETTE_SIZE : Int)
  · rw [if_pos hr] at h
    by_cases ho : iand (charToInt (s.port 0x1b)) 1 ≠ 0
    · rw [if_pos ho] at h; cases h; exact ⟨rfl, rfl, rfl, rfl⟩
    · rw [if_neg ho] at h; cases h; exact ⟨rfl, rfl, rfl, rfl⟩
  · rw [if_neg hr] at h; cases h

/-- A bus write on the I/O page leaves the video counters. -/
theorem MputPage_video (a c : Nat) (s s1 : State) (h : MputPage a c s = some s1)
     :
    s1.videolinecycle = s.videolinecycle ∧ s1.videolinenumber = s.videolinenumber ∧ s1.vblnumber = s.vblnumber ∧ s1.displayflag = s.displayflag := by
  revert h
  apply MputPage_cases a c s (fun r => r = some s1 → s1.videolinecycle = s.videolinecycle ∧ s1.videolinenumber = s.videolinenumber ∧ s1.vblnumber = s.vblnumber ∧ s1.displayflag = s.displayflag)
  case h0 => intro _ h; cases h; exact ⟨rfl, rfl, rfl, rfl⟩
  case h1 => intro _ h; cases h; exact ⟨rfl, rfl, rfl, rfl⟩
  case h2 =>
    intro _ h; cases h
    unfold MputE7C3
    rw [TO8rombank_frame] <;> exact ⟨rfl, rfl, rfl, rfl⟩
  case h3 => intro _ h; cases h; exact Timercontrol_video s c
  case h4 => intro _ h; cases h; exact ⟨rfl, rfl, rfl, rfl⟩
  case h5 => intro _ h; cases h; exact ⟨rfl, rfl, rfl, rfl⟩
  case h6 =>
    intro _ h; cases h
    unfold MputE7C9
    rw [TO8rambank_frame] <;> exact ⟨rfl, rfl, rfl, rfl⟩
  case h7 => intro _ h; cases h; exact ⟨rfl, rfl, rfl, rfl⟩
  case h8 => intro _ h; cases h; exact MputE7CD_video s c
  case h9 => intro _ h; cases h; exact ⟨rfl, rfl, rfl, rfl⟩
  case h10 => intro _ h; cases h; exact ⟨rfl, rfl, rfl, rfl⟩
  case h11 => intro _ h; cases h; exact ⟨rfl, rfl, rfl, rfl⟩
  case h12 => intro _ h; exact Palettecolor_video c s s1 h
  case h13 => intro _ h; cases h; exact ⟨rfl, rfl, rfl, rfl⟩
  case h14 => intro _ h; cases h; exact ⟨rfl, rfl, rfl, rfl⟩
  case h15 => intro _ h; cases h; exact ⟨rfl, rfl, rfl, rfl⟩
  case h16 => intro _ h; cases h; exact ⟨rfl, rfl, rfl, rfl⟩
  case h17 =>
    intro _ h; cases h
    unfold MputE7E5
    rw [TO8rambank_frame] <;> exact ⟨rfl, rfl, rfl, rfl⟩
  case h18 =>
    intro _ h; cases h
    unfold MputE7E6
    rw [TO8rombank_frame] <;> exact ⟨rfl, rfl, rfl, rfl⟩
  case h19 =>
    intro _ h; cases h
    unfold MputE7E7
    rw [TO8rambank_frame] <;> exact ⟨rfl, rfl, rfl, rfl⟩
  case hd => intros; rename_i h; cases h; exact ⟨rfl, rfl, rfl, rfl⟩

theorem Mputto8d_video (a c : Nat) (s s1 : State) (h : Mputto8d a c s = some s1)
     :
    s1.videolinecycle = s.videolinecycle ∧ s1.videolinenumber = s.videolinenumber ∧ s1.vblnumber = s.vblnumber ∧ s1.displayflag = s.displayflag := by
  rcases Mputto8d_shape a c s s1 h with ⟨_, hio⟩ | ⟨_, t, ht, hs⟩
  · exact MputPage_video a c s s1 hio 
  · have e1 : t.videolinecycle = s.videolinecycle ∧ t.videolinenumber = s.videolinenumber ∧ t.vblnumber = s.vblnumber ∧ t.displayflag = s.displayflag := by
      rcases ht with rfl | rfl
      · exact ⟨rfl, rfl, rfl, rfl⟩
      · unfold MputBankSwitch
        rw [TO8rombank_frame] <;> exact ⟨rfl, rfl, rfl, rfl⟩
    rcases hs with rfl | ⟨r, i, rfl⟩
    · exact e1
    · cases r <;> exact e1

theorem Mgetto8d_video (a v : Nat) (s s1 : State) (h : Mgetto8d a s = some (v, s1)) :
    s1.videolinecycle = s.videolinecycle ∧ s1.videolinenumber = s.videolinenumber ∧ s1.vblnumber = s.vblnumber ∧ s1.displayflag = s.displayflag := by
  rcases Mgetto8d_state a v s s1 h with rfl | ⟨_, rfl⟩ | ⟨_, rfl⟩
  · exact ⟨rfl, rfl, rfl, rfl⟩
  · exact ⟨rfl, rfl, rfl, rfl⟩
  · exact ⟨rfl, rfl, rfl, rfl⟩

theorem busOps_video (ops : List BusOp) (s s1 : State) (h : busOps ops s = some s1) :
    s1.videolinecycle = s.videolinecycle ∧ s1.videolinenumber = s.videolinenumber ∧ s1.vblnumber = s.vblnumber ∧ s1.displayflag = s.displayflag := by
  induction ops generalizing s with
  | nil => cases h; exact ⟨rfl, rfl, rfl, rfl⟩
  | cons op rest ih =>
    unfold busOps at h
    cases ho : busOp op s with
    | none => rw [ho] at h; cases h
    | some s2 =>
      rw [ho] at h
      have e2 := ih s2 h
      have e1 : s2.videolinecycle = s.videolinecycle ∧ s2.videolinenumber = s.videolinenumber ∧ s2.vblnumber = s.vblnumber ∧ s2.displayflag = s.displayflag := by

        cases op with
        | get a =>
          have ho' : (Mgetto8d a s).map Prod.snd = some s2 := ho
          cases hg : Mgetto8d a s with
          | none => rw [hg] at ho'; cases ho'
          | some r =>
            obtain ⟨v, s3⟩ := r
            rw [hg] at ho'
            simp only [Option.map_some'] at ho'
            cases ho'
            exact Mgetto8d_video a v s _ hg
        | put a c =>
          exact Mputto8d_video a c s s2 ho 
      exact ⟨e2.1.trans e1.1, e2.2.1.trans e1.2.1, e2.2.2.1.trans e1.2.2.1, e2.2.2.2.trans e1.2.2.2⟩

theorem RunTimerIrqCount_video (o : Int) (s : State) :
    (RunTimerIrqCount o s).videolinecycle = s.videolinecycle ∧ (RunTimerIrqCount o s).videolinenumber = s.videolinenumber ∧ (RunTimerIrqCount o s).vblnumber = s.vblnumber ∧ (RunTimerIrqCount o s).displayflag = s.displayflag := by
  unfold RunTimerIrqCount
  by_cases c : s.timer_irqcount > 0
  · rw [if_pos c] <;> exact ⟨rfl, rfl, rfl, rfl⟩
  · rw [if_neg c] <;> exact ⟨rfl, rfl, rfl, rfl⟩

theorem RunTimerIrqClear_video (_o : Int) (s : State) :
    (RunTimerIrqClear s).videolinecycle = s.videolinecycle ∧ (RunTimerIrqClear s).videolinenumber = s.videolinenumber ∧ (RunTimerIrqClear s).vblnumber = s.vblnumber ∧ (RunTimerIrqClear s).displayflag = s.displayflag := by
  unfold RunTimerIrqClear
  by_cases c : s.timer_irqcount ≤ 0
  · rw [if_pos c] <;> exact ⟨rfl, rfl, rfl, rfl⟩
  · rw [if_neg c] <;> exact ⟨rfl, rfl, rfl, rfl⟩

theorem RunKeybIrqCount_video (o : Int) (s : State) :
    (RunKeybIrqCount o s).videolinecycle = s.videolinecycle ∧ (RunKeybIrqCount o s).videolinenumber = s.videolinenumber ∧ (RunKeybIrqCount o s).vblnumber = s.vblnumber ∧ (RunKeybIrqCount o s).displayflag = s.displayflag := by
  unfold RunKeybIrqCount
  by_cases c : s.keyb_irqcount > 0
  · rw [if_pos c] <;> exact ⟨rfl, rfl, rfl, rfl⟩
  · rw [if_neg c] <;> exact ⟨rfl, rfl, rfl, rfl⟩

theorem RunKeybIrqClear_video (_o : Int) (s : State) :
    (RunKeybIrqClear s).videolinecycle = s.videolinecycle ∧ (RunKeybIrqClear s).videolinenumber = s.videolinenumber ∧ (RunKeybIrqClear s).vblnumber = s.vblnumber ∧ (RunKeybIrqClear s).displayflag = s.displayflag := by
  unfold RunKeybIrqClear
  by_cases c : s.keyb_irqcount ≤ 0
  · rw [if_pos c] <;> exact ⟨rfl, rfl, rfl, rfl⟩
  · rw [if_neg c] <;> exact ⟨rfl, rfl, rfl, rfl⟩

theorem RunIrqComposite_video (_o : Int) (s : State) :
    (RunIrqComposite s).videolinecycle = s.videolinecycle ∧ (RunIrqComposite s).videolinenumber = s.videolinenumber ∧ (RunIrqComposite s).vblnumber = s.vblnumber ∧ (RunIrqComposite s).displayflag = s.displayflag := by
  unfold RunIrqComposite
  by_cases c : s.port 0x00 &&& 0x07 = 0
  · rw [if_pos c] <;> exact ⟨rfl, rfl, rfl, rfl⟩
  · rw [if_neg c] <;> exact ⟨rfl, rfl, rfl, rfl⟩

theorem RunCountdown_video (o : Int) (s : State) :
    (RunCountdown o s).videolinecycle = s.videolinecycle ∧ (RunCountdown o s).videolinenumber = s.videolinenumber ∧ (RunCountdown o s).vblnumber = s.vblnumber ∧ (RunCountdown o s).displayflag = s.displayflag := by
  unfold RunCountdown
  by_cases c : s.port 0x05 &&& 0x01 = 0
  · rw [if_pos c] <;> exact ⟨rfl, rfl, rfl, rfl⟩
  · rw [if_neg c] <;> exact ⟨rfl, rfl, rfl, rfl⟩

theorem RunTimeout_video (_o : Int) (s : State) :
    (RunTimeout s).videolinecycle = s.videolinecycle ∧ (RunTimeout s).videolinenumber = s.videolinenumber ∧ (RunTimeout s).vblnumber = s.vblnumber ∧ (RunTimeout s).displayflag = s.displayflag := by
  unfold RunTimeout
  by_cases c : s.timer6846 ≤ 5
  · rw [if_pos c] <;> exact ⟨rfl, rfl, rfl, rfl⟩
  · rw [if_neg c] <;> exact ⟨rfl, rfl, rfl, rfl⟩

theorem RunTail_video (o : Int) (s : State) :
    (RunTimeout (RunCountdown o (RunIrq o s))).videolinecycle = s.videolinecycle ∧ (RunTimeout (RunCountdown o (RunIrq o s))).videolinenumber = s.videolinenumber ∧ (RunTimeout (RunCountdown o (RunIrq o s))).vblnumber = s.vblnumber ∧ (RunTimeout (RunCountdown o (RunIrq o s))).displayflag = s.displayflag := by
  unfold RunIrq
  have e0 := RunTimerIrqCount_video o s
  have e1 := RunTimerIrqClear_video o (RunTimerIrqCount o s)
  have e2 := RunKeybIrqCount_video o (RunTimerIrqClear (RunTimerIrqCount o s))
  have e3 := RunKeybIrqClear_video o (RunKeybIrqCount o (RunTimerIrqClear (RunTimerIrqCount o s)))
  have e4 := RunIrqComposite_video o (RunKeybIrqClear (RunKeybIrqCount o (RunTimerIrqClear (RunTimerIrqCount o s))))
  have e5 := RunCountdown_video o (RunIrqComposite (RunKeybIrqClear (RunKeybIrqCount o (RunTimerIrqClear (RunTimerIrqCount o s)))))
  have e6 := RunTimeout_video o (RunCountdown o (RunIrqComposite (RunKeybIrqClear (RunKeybIrqCount o (RunTimerIrqClear (RunTimerIrqCount o s))))))
  exact ⟨(e6.1.trans (e5.1.trans (e4.1.trans (e3.1.trans (e2.1.trans (e1.1.trans e0.1)))))), (e6.2.1.trans (e5.2.1.trans (e4.2.1.trans (e3.2.1.trans (e2.2.1.trans (e1.2.1.trans e0.2.1)))))), (e6.2.2.1.trans (e5.2.2.1.trans (e4.2.2.1.trans (e3.2.2.1.trans (e2.2.2.1.trans (e1.2.2.1.trans e0.2.2.1)))))), (e6.2.2.2.trans (e5.2.2.2.trans (e4.2.2.2.trans (e3.2.2.2.trans (e2.2.2.2.trans (e1.2.2.2.trans e0.2.2.2))))))⟩

/-- The video counters after lines 432-452 of `Run`, in the three cases: no end
of line, end of a line other than the last, end of line 311. -/
theorem RunVideo_counters (o : Int) (s : State) :
    (s.videolinecycle + o < 64 →
      (RunVideo o s).videolinecycle = s.videolinecycle + o ∧
      (RunVideo o s).videolinenumber = s.videolinenumber ∧
      (RunVideo o s).vblnumber = s.vblnumber ∧
      (RunVideo o s).displayflag = s.displayflag) ∧
    (s.videolinecycle + o ≥ 64 → ¬ (s.videolinenumber + 1 > 311) →
      (RunVideo o s).videolinecycle = s.videolinecycle + o - 64 ∧
      (RunVideo o s).videolinenumber = s.videolinenumber + 1 ∧
      (RunVideo o s).vblnumber = s.vblnumber ∧
      (RunVideo o s).displayflag =
        (if s.vblnumber = 0 ∧ s.videolinenumber + 1 > 47 ∧ s.videolinenumber + 1 < 264
          then 1 else 0)) ∧
    (s.videolinecycle + o ≥ 64 → s.videolinenumber + 1 > 311 →
      (RunVideo o s).videolinecycle = s.videolinecycle + o - 64 ∧
      (RunVideo o s).videolinenumber = s.videolinenumber + 1 - 312 ∧
      (RunVideo o s).vblnumber =
        (if s.vblnumber + 1 ≥ VBL_NUMBER_MAX then 0 else s.vblnumber + 1) ∧
      (RunVideo o s).displayflag =
        (if (if s.vblnumber + 1 ≥ VBL_NUMBER_MAX then 0 else s.vblnumber + 1) = 0 ∧
            s.videolinenumber + 1 - 312 > 47 ∧ s.videolinenumber + 1 - 312 < 264
          then 1 else 0)) := by
  refine ⟨fun h => ?_, fun h h2 => ?_, fun h h2 => ?_⟩
  · have c : ¬ ((RunVideoCycle o s).videolinecycle ≥ 64) := fun c => absurd h (not_lt.mpr c)
    unfold RunVideo
    rw [if_neg c]
    exact ⟨rfl, rfl, rfl, rfl⟩
  · have c : (RunVideoCycle o s).videolinecycle ≥ 64 := h
    have c2 : ¬ ((RunVideoEndLine (RunVideoCycle o s)).videolinenumber + 1 > 311) := h2
    unfold RunVideo
    rw [if_pos c]
    unfold RunVideoFlag RunVideoNextLine
    rw [if_neg c2]
    exact ⟨rfl, rfl, rfl, rfl⟩
  · have c : (RunVideoCycle o s).videolinecycle ≥ 64 := h
    have c2 : (RunVideoEndLine (RunVideoCycle o s)).videolinenumber + 1 > 311 := h2
    unfold RunVideo
    rw [if_pos c]
    unfold RunVideoFlag RunVideoNextLine
    rw [if_pos c2]
    exact ⟨rfl, rfl, rfl, rfl⟩

/-- The video counters after one iteration of `Run` are those `RunVideo`
computes from the counters before the iteration. -/
theorem RunIteration_video (st : CpuStep) (s s1 : State) (h : RunIteration st s = some s1) :
    ∃ s2, s2.videolinecycle = s.videolinecycle ∧ s2.videolinenumber = s.videolinenumber ∧
      s2.vblnumber = s.vblnumber ∧ s2.displayflag = s.displayflag ∧
      s1.videolinecycle = (RunVideo st.opcycles s2).videolinecycle ∧
      s1.videolinenumber = (RunVideo st.opcycles s2).videolinenumber ∧
      s1.vblnumber = (RunVideo st.opcycles s2).vblnumber ∧
      s1.displayflag = (RunVideo st.opcycles s2).displayflag := by
  unfold RunIteration at h
  cases hb : busOps st.ops s with
  | none => rw [hb] at h; cases h
  | some s2 =>
    rw [hb] at h
    cases h
    obtain ⟨b1, b2, b3, b4⟩ := busOps_video st.ops s s2 hb
    obtain ⟨t1, t2, t3, t4⟩ := RunTail_video st.opcycles (RunVideo st.opcycles s2)
    exact ⟨s2, b1, b2, b3, b4, t1, t2, t3, t4⟩

/-- C12: provided the CPU step costs between 1 and 64 cycles (`opcycles`, which
counts a special opcode as 64), an iteration of the loop of `Run` started with
`0 ≤ videolinecycle ≤ 63`, `0 ≤ videolinenumber ≤ 311` and `vblnumber` in
`{0, 1}` ends with the same bounds; when `videolinecycle + opcycles` reaches 64
the line cycle loses 64 and `videolinenumber` advances by one (modulo 312),
otherwise the line and frame counters are unchanged; and `vblnumber` changes
exactly when `videolinenumber` wraps from 311 to 0, to `(vblnumber + 1) mod 2`. -/
theorem video_counters_step (st : CpuStep) (s s1 : State)
    (h : RunIteration st s = some s1)
    (ho : 1 ≤ st.opcycles ∧ st.opcycles ≤ 64)
    (hc : 0 ≤ s.videolinecycle ∧ s.videolinecycle ≤ 63)
    (hl : 0 ≤ s.videolinenumber ∧ s.videolinenumber ≤ 311)
    (hv : s.vblnumber = 0 ∨ s.vblnumber = 1) :
    (0 ≤ s1.videolinecycle ∧ s1.videolinecycle ≤ 63) ∧
    (0 ≤ s1.videolinenumber ∧ s1.videolinenumber ≤ 311) ∧
    (s1.vblnumber = 0 ∨ s1.vblnumber = 1) ∧
    (s.videolinecycle + st.opcycles ≥ 64 →
      s1.videolinecycle = s.videolinecycle + st.opcycles - 64 ∧
      s1.videolinenumber = (s.videolinenumber + 1) % 312) ∧
    (s.videolinecycle + st.opcycles < 64 →
      s1.videolinecycle = s.videolinecycle + st.opcycles ∧
      s1.videolinenumber = s.videolinenumber ∧ s1.vblnumber = s.vblnumber) ∧
    (s1.vblnumber ≠ s.vblnumber ↔ s.videolinenumber = 311 ∧ s1.videolinenumber = 0) ∧
    (s1.vblnumber ≠ s.vblnumber → s1.vblnumber = (s.vblnumber + 1) % 2) := by
  obtain ⟨s2, b1, b2, b3, _, t1, t2, t3, _⟩ := RunIteration_video st s s1 h
  obtain ⟨k1, k2, k3⟩ := RunVideo_counters st.opcycles s2
  rw [b1, b2, b3] at k1 k2 k3
  rw [t1, t2, t3]
  have hmax : VBL_NUMBER_MAX = 2 := rfl
  by_cases c : s.videolinecycle + st.opcycles < 64
  · obtain ⟨r1, r2, r3, _⟩ := k1 c
    rw [r1, r2, r3]
    refine ⟨by omega, by omega, hv, by omega, by omega, by omega, by omega⟩
  · have c' : s.videolinecycle + st.opcycles ≥ 64 := not_lt.mp c
    by_cases c2 : s.videolinenumber + 1 > 311
    · obtain ⟨r1, r2, r3, _⟩ := k3 c' c2
      rw [r1, r2, r3, hmax]
      rcases hv with hv | hv
      · rw [hv]
        refine ⟨by omega, by omega, by decide, by omega, by omega, ?_, by decide⟩
        constructor
        · intro _; omega
        · intro _; decide
      · rw [hv]
        refine ⟨by omega, by omega, by decide, by omega, by omega, ?_, by decide⟩
        constructor
        · intro _; omega
        · intro _; decide
    · obtain ⟨r1, r2, r3, _⟩ := k2 c' c2
      rw [r1, r2, r3]
      refine ⟨by omega, by omega, hv, by omega, by omega, by omega, by omega⟩

theorem video_counters_step_witness :
    RunIteration exLineStep exReset = some exLine1 ∧
    (1 ≤ exLineStep.opcycles ∧ exLineStep.opcycles ≤ 64) ∧
    (0 ≤ exReset.videolinecycle ∧ exReset.videolinecycle ≤ 63) ∧
    (0 ≤ exReset.videolinenumber ∧ exReset.videolinenumber ≤ 311) ∧
    (exReset.vblnumber = 0 ∨ exReset.vblnumber = 1) ∧
    ((0 ≤ exLine1.videolinecycle ∧ exLine1.videolinecycle ≤ 63) ∧
    (0 ≤ exLine1.videolinenumber ∧ exLine1.videolinenumber ≤ 311) ∧
    (exLine1.vblnumber = 0 ∨ exLine1.vblnumber = 1) ∧
    (exReset.videolinecycle + exLineStep.opcycles ≥ 64 →
      exLine1.videolinecycle = exReset.videolinecycle + exLineStep.opcycles - 64 ∧
      exLine1.videolinenumber = (exReset.videolinenumber + 1) % 312) ∧
    (exReset.videolinecycle + exLineStep.opcycles < 64 →
      exLine1.videolinecycle = exReset.videolinecycle + exLineStep.opcycles ∧
      exLine1.videolinenumber = exReset.videolinenumber ∧
      exLine1.vblnumber = exReset.vblnumber) ∧
    (exLine1.vblnumber ≠ exReset.vblnumber ↔
      exReset.videolinenumber = 311 ∧ exLine1.videolinenumber = 0) ∧
    (exLine1.vblnumber ≠ exReset.vblnumber →
      exLine1.vblnumber = (exReset.vblnumber + 1) % 2)) ∧
    exLine1.videolinenumber = 1 :=
  ⟨rfl, by decide, by decide, by decide, by decide,
    video_counters_step exLineStep exReset exLine1 rfl (by decide) (by decide) (by decide)
      (by decide), by decide⟩

/-! ## Whether a hard reset returns depends on the ROM pointers only -/

theorem store_indep (s t : State) (p : Option Ptr) (a : Int) (c d : Nat) :
    (store s p a c).isSome = (store t p a d).isSome := by
  unfold store
  cases index p a with
  | none => rfl
  | some ri => rfl

theorem TO8dpatchBytes_indep (rom : Option Ptr) (n : Nat) :
    ∀ (a : Int) (s t : State) (l : List Int),
    (TO8dpatchBytes rom n a s l).map Prod.snd = (TO8dpatchBytes rom n a t l).map Prod.snd := by
  induction n with
  | zero =>
    intro a s t l
    unfold TO8dpatchBytes
    rfl
  | succ n ih =>
    intro a s t l
    cases l with
    | nil => unfold TO8dpatchBytes; rfl
    | cons b rest =>
      unfold TO8dpatchBytes
      have hi := store_indep s t rom a (toChar b) (toChar b)
      cases hs : store s rom a (toChar b) with
      | none =>
        rw [hs] at hi
        cases ht : store t rom a (toChar b) with
        | none => rfl
        | some t1 => rw [ht] at hi; cases hi
      | some s1 =>
        rw [hs] at hi
        cases ht : store t rom a (toChar b) with
        | none => rw [ht] at hi; cases hi
        | some t1 => exact ih (a + 1) s1 t1 rest

theorem TO8dpatchLoop_indep (rom : Option Ptr) (fuel : Nat) :
    ∀ (s t : State) (l : List Int),
    (TO8dpatchLoop rom fuel s l).isSome = (TO8dpatchLoop rom fuel t l).isSome := by
  induction fuel with
  | zero => intro s t l; unfold TO8dpatchLoop; rfl
  | succ fuel ih =>
    intro s t l
    cases l with
    | nil => unfold TO8dpatchLoop; rfl
    | cons n rest =>
      unfold TO8dpatchLoop
      by_cases hn : n = 0
      · rw [if_pos hn, if_pos hn]; rfl
      · rw [if_neg hn, if_neg hn]
        match rest with
        | [] => rfl
        | [_] => rfl
        | a0 :: a1 :: rest2 =>
          simp only []
          have hb := TO8dpatchBytes_indep rom n.toNat (a0 + a1) s t rest2
          cases hs : TO8dpatchBytes rom n.toNat (a0 + a1) s rest2 with
          | none =>
            rw [hs] at hb
            cases ht : TO8dpatchBytes rom n.toNat (a0 + a1) t rest2 with
            | none => rfl
            | some r => rw [ht] at hb; cases hb
          | some r =>
            obtain ⟨s1, l1⟩ := r
            rw [hs] at hb
            cases ht : TO8dpatchBytes rom n.toNat (a0 + a1) t rest2 with
            | none => rw [ht] at hb; cases hb
            | some r2 =>
              obtain ⟨t1, l2⟩ := r2
              rw [ht] at hb
              simp only [Option.map_some', Option.some.injEq] at hb
              rw [hb]
              exact ih s1 t1 l2

theorem storeAll_indep (p : Option Ptr) (l1 l2 : List (Int × Nat))
    (hl : l1.map Prod.fst = l2.map Prod.fst) :
    ∀ s t : State, (storeAll p l1 s).isSome = (storeAll p l2 t).isSome := by
  induction l1 generalizing l2 with
  | nil =>
    intro s t
    cases l2 with
    | nil => rfl
    | cons _ _ => cases hl
  | cons ac rest ih =>
    intro s t
    cases l2 with
    | nil => cases hl
    | cons bd rest2 =>
      obtain ⟨a, c⟩ := ac
      obtain ⟨b, d⟩ := bd
      simp only [List.map_cons, List.cons.injEq] at hl
      obtain ⟨hab, hrest⟩ := hl
      subst hab
      unfold storeAll
      have hi := store_indep s t p a c d
      cases hs : store s p a c with
      | none =>
        rw [hs] at hi
        cases ht : store t p a d with
        | none => rfl
        | some t1 => rw [ht] at hi; cases hi
      | some s1 =>
        rw [hs] at hi
        cases ht : store t p a d with
        | none => rw [ht] at hi; cases hi
        | some t1 => exact ih rest2 hrest s1 t1

theorem HardresetDate_indep (date1 date2 : Nat → Nat) (s t : State) (hb : s.basic = t.basic) :
    (HardresetDate date1 s).isSome = (HardresetDate date2 t).isSome := by
  unfold HardresetDate
  have hi := storeAll_indep (ptr s.basic 0xeb90)
    [(0, date1 0), (1, date1 1), (2, date1 2), (3, date1 3), (4, date1 4), (5, date1 5),
     (6, date1 6), (7, date1 7), (8, 0)]
    [(0, date2 0), (1, date2 1), (2, date2 2), (3, date2 3), (4, date2 4), (5, date2 5),
     (6, date2 6), (7, date2 7), (8, 0)] rfl s t
  rw [← hb]
  cases hs : storeAll (ptr s.basic 0xeb90)
      [(0, date1 0), (1, date1 1), (2, date1 2), (3, date1 3), (4, date1 4), (5, date1 5),
       (6, date1 6), (7, date1 7), (8, 0)] s with
  | none =>
    rw [hs] at hi
    cases ht : storeAll (ptr s.basic 0xeb90)
        [(0, date2 0), (1, date2 1), (2, date2 2), (3, date2 3), (4, date2 4), (5, date2 5),
         (6, date2 6), (7, date2 7), (8, 0)] t with
    | none => rfl
    | some t1 => rw [ht] at hi; cases hi
  | some s1 =>
    rw [hs] at hi
    cases ht : storeAll (ptr s.basic 0xeb90)
        [(0, date2 0), (1, date2 1), (2, date2 2), (3, date2 3), (4, date2 4), (5, date2 5),
         (6, date2 6), (7, date2 7), (8, 0)] t with
    | none => rw [ht] at hi; cases hi
    | some t1 =>
      have e1 : s1.basic = s.basic :=
        (congrArg State.basic (regs_storeAll _ _ s s1 hs) : s1.regs.basic = s.regs.basic)
      have e2 : t1.basic = t.basic :=
        (congrArg State.basic (regs_storeAll _ _ t t1 ht) : t1.regs.basic = t.regs.basic)
      show (storeAll (ptr s1.basic 0) _ s1).isSome = (storeAll (ptr t1.basic 0) _ t1).isSome
      rw [e1, e2, ← hb]
      exact storeAll_indep _ _ _ rfl s1 t1

/-- Whether `Hardreset` returns depends only on the ROM pointers and patch
tables of the state it is called in. -/
theorem Hardreset_indep (roms : RomHeaders) (date1 date2 : Nat → Nat) (s t : State)
    (hb : s.basic = t.basic) (hbp : s.basicpatch = t.basicpatch)
    (hm : s.moniteur = t.moniteur) (hmp : s.moniteurpatch = t.moniteurpatch) :
    (Hardreset roms date1 s).isSome = (Hardreset roms date2 t).isSome := by
  have hi := TO8dpatchLoop_indep (ptr s.basic 0) (roms.table s.basicpatch).length
    (HardresetMemory s) (HardresetMemory t) (roms.table s.basicpatch)
  have hs0 : Hardreset roms date1 s =
      match TO8dpatch (ptr s.basic 0) (roms.table s.basicpatch) (HardresetMemory s) with
      | none => none
      | some s =>
        match TO8dpatch (ptr s.moniteur (-0xe000)) (roms.table s.moniteurpatch) s with
        | none => none
        | some s =>
          match HardresetDate date1 s with
          | none => none
          | some s => some (HardresetTail (Initprog (HardresetCounters s))) := rfl
  have ht0 : Hardreset roms date2 t =
      match TO8dpatch (ptr s.basic 0) (roms.table s.basicpatch) (HardresetMemory t) with
      | none => none
      | some s =>
        match TO8dpatch (ptr s.moniteur (-0xe000)) (roms.table s.moniteurpatch) s with
        | none => none
        | some s =>
          match HardresetDate date2 s with
          | none => none
          | some s => some (HardresetTail (Initprog (HardresetCounters s))) := by
    rw [hb, hbp]; rfl
  rw [hs0, ht0]
  cases h1 : TO8dpatch (ptr s.basic 0) (roms.table s.basicpatch) (HardresetMemory s) with
  | none =>
    have hi' : (TO8dpatch (ptr s.basic 0) (roms.table s.basicpatch) (HardresetMemory s)).isSome =
      (TO8dpatch (ptr s.basic 0) (roms.table s.basicpatch) (HardresetMemory t)).isSome := hi
    rw [h1] at hi'
    cases g1 : TO8dpatch (ptr s.basic 0) (roms.table s.basicpatch) (HardresetMemory t) with
    | none => rfl
    | some t1 => rw [g1] at hi'; cases hi'
  | some s1 =>
    have hi' : (TO8dpatch (ptr s.basic 0) (roms.table s.basicpatch) (HardresetMemory s)).isSome =
      (TO8dpatch (ptr s.basic 0) (roms.table s.basicpatch) (HardresetMemory t)).isSome := hi
    rw [h1] at hi'
    cases g1 : TO8dpatch (ptr s.basic 0) (roms.table s.basicpatch) (HardresetMemory t) with
    | none => rw [g1] at hi'; cases hi'
    | some t1 =>
      have rs := regs_TO8dpatch _ _ _ s1 h1
      have rt := regs_TO8dpatch _ _ _ t1 g1
      have m1 : s1.moniteur = s.moniteur := (congrArg State.moniteur rs : s1.regs.moniteur = _)
      have m2 : t1.moniteur = t.moniteur := (congrArg State.moniteur rt : t1.regs.moniteur = _)
      have p1 : s1.moniteurpatch = s.moniteurpatch :=
        (congrArg State.moniteurpatch rs : s1.regs.moniteurpatch = _)
      have p2 : t1.moniteurpatch = t.moniteurpatch :=
        (congrArg State.moniteurpatch rt : t1.regs.moniteurpatch = _)
      have b1 : s1.basic = s.basic := (congrArg State.basic rs : s1.regs.basic = _)
      have b2 : t1.basic = t.basic := (congrArg State.basic rt : t1.regs.basic = _)
      show (match TO8dpatch (ptr s1.moniteur (-0xe000)) (roms.table s1.moniteurpatch) s1 with
        | none => none
        | some s =>
          match HardresetDate date1 s with
          | none => none
          | some s => some (HardresetTail (Initprog (HardresetCounters s)))).isSome =
        (match TO8dpatch (ptr t1.moniteur (-0xe000)) (roms.table t1.moniteurpatch) t1 with
        | none => none
        | some s =>
          match HardresetDate date2 s with
          | none => none
          | some s => some (HardresetTail (Initprog (HardresetCounters s)))).isSome
      rw [m1, m2, p1, p2, ← hm, ← hmp]
      have hj := TO8dpatchLoop_indep (ptr s.moniteur (-0xe000))
        (roms.table s.moniteurpatch).length s1 t1 (roms.table s.moniteurpatch)
      have hj' : (TO8dpatch (ptr s.moniteur (-0xe000)) (roms.table s.moniteurpatch) s1).isSome =
        (TO8dpatch (ptr s.moniteur (-0xe000)) (roms.table s.moniteurpatch) t1).isSome := hj
      cases h2 : TO8dpatch (ptr s.moniteur (-0xe000)) (roms.table s.moniteurpatch) s1 with
      | none =>
        rw [h2] at hj'
        cases g2 : TO8dpatch (ptr s.moniteur (-0xe000)) (roms.table s.moniteurpatch) t1 with
        | none => rfl
        | some t2 => rw [g2] at hj'; cases hj'
      | some s2 =>
        rw [h2] at hj'
        cases g2 : TO8dpatch (ptr s.moniteur (-0xe000)) (roms.table s.moniteurpatch) t1 with
        | none => rw [g2] at hj'; cases hj'
        | some t2 =>
          have c1 : s2.basic = s1.basic :=
            (congrArg State.basic (regs_TO8dpatch _ _ _ s2 h2) : s2.regs.basic = _)
          have c2 : t2.basic = t1.basic :=
            (congrArg State.basic (regs_TO8dpatch _ _ _ t2 g2) : t2.regs.basic = _)
          have hk := HardresetDate_indep date1 date2 s2 t2 (by rw [c1, c2, b1, b2, hb])
          show (match HardresetDate date1 s2 with
            | none => none
            | some s => some (HardresetTail (Initprog (HardresetCounters s)))).isSome =
            (match HardresetDate date2 t2 with
            | none => none
            | some s => some (HardresetTail (Initprog (HardresetCounters s)))).isSome
          cases h3 : HardresetDate date1 s2 with
          | none =>
            rw [h3] at hk
            cases g3 : HardresetDate date2 t2 with
            | none => rfl
            | some t3 => rw [g3] at hk; cases hk
          | some s3 =>
            rw [h3] at hk
            cases g3 : HardresetDate date2 t2 with
            | none => rw [g3] at hk; cases hk
            | some t3 => rfl

theorem some_getD_of_isSome {α : Type} (o : Option α) (d : α) (h : o.isSome = true) :
    o = some (o.getD d) := by
  cases o with
  | none => cases h
  | some v => rfl

/-- With the patch tables `exRoms`, the hard reset returns from every state
whose ROM pointers are those of its flavor. -/
theorem Hardreset_exRoms (date : Nat → Nat) (s : State) (hf : FlavorOK s) :
    (Hardreset exRoms date s).isSome = true := by
  obtain ⟨h1, h2, h3, h4⟩ := hf
  cases hc : s.currentFlavor with
  | TO8 =>
    rw [hc] at h3 h4
    rw [Hardreset_indep exRoms date exDate s exStart h1 h2 h3 h4]
    rfl
  | TO8D =>
    rw [hc] at h3 h4
    rw [Hardreset_indep exRoms date exDate s
      { exStart with moniteur := .to8dmoniteur, moniteurpatch := .to8dmoniteurpatch }
      h1 h2 h3 h4]
    rfl

theorem Initprog_video (s : State) :
    (Initprog s).videolinecycle = s.videolinecycle ∧
    (Initprog s).videolinenumber = s.videolinenumber ∧
    (Initprog s).vblnumber = s.vblnumber ∧ (Initprog s).displayflag = s.displayflag := by
  unfold Initprog Reset6809
  rw [TO8rombank_frame, TO8rambank_frame]
  exact ⟨rfl, rfl, rfl, rfl⟩

/-- The hard reset zeroes the three video counters and leaves `displayflag`. -/
theorem Hardreset_video (roms : RomHeaders) (date : Nat → Nat) (s s1 : State)
    (h : Hardreset roms date s = some s1) :
    s1.videolinecycle = 0 ∧ s1.videolinenumber = 0 ∧ s1.vblnumber = 0 ∧
    s1.displayflag = s.displayflag := by
  obtain ⟨m, hm, rfl⟩ := Hardreset_eq roms date s s1 h
  have hd : m.displayflag = s.displayflag :=
    (congrArg State.displayflag hm : m.regs.displayflag = (HardresetMemory s).regs.displayflag)
  obtain ⟨i1, i2, i3, i4⟩ := Initprog_video (HardresetCounters m)
  exact ⟨i1, i2, i3, i4.trans hd⟩

theorem reachable_RunIterations (roms : RomHeaders) (steps : List CpuStep) :
    ∀ s : State, Reachable roms s → (∀ st ∈ steps, ∀ op ∈ st.ops, op.wf) →
    ∀ s1, RunIterations steps s = some s1 → Reachable roms s1 := by
  induction steps with
  | nil => intro s hr _ s1 h; cases h; exact hr
  | cons st rest ih =>
    intro s hr hw s1 h
    unfold RunIterations at h
    cases hi : RunIteration st s with
    | none => rw [hi] at h; cases h
    | some s2 =>
      rw [hi] at h
      have hw1 : ∀ op ∈ st.ops, op.wf ∧ True :=
        fun op h' => ⟨hw st (List.mem_cons_self _ _) op h', trivial⟩
      exact ih s2 (ReachableBy.step hr (Step.run st hw1 hi))
        (fun st h' => hw st (List.mem_cons_of_mem _ h')) s1 h

/-- Instructions of 64 cycles advance the raster by one line each. -/
theorem line_steps (k : Nat) : ∀ s s1 : State,
    RunIterations (List.replicate k exLineStep) s = some s1 →
    s.vblnumber = 0 → 0 ≤ s.videolinecycle → 0 ≤ s.videolinenumber →
    s.videolinenumber + k ≤ 311 →
    s1.vblnumber = 0 ∧ s1.videolinenumber = s.videolinenumber + k ∧
    s1.videolinecycle = s.videolinecycle ∧
    (1 ≤ k → s1.displayflag =
      (if s.videolinenumber + k > 47 ∧ s.videolinenumber + k < 264 then 1 else 0)) := by
  induction k with
  | zero =>
    intro s s1 h hv _ _ _
    cases h
    exact ⟨hv, by simp, rfl, fun h => absurd h (by decide)⟩
  | succ k ih =>
    intro s s1 h hv hc hl hk
    have h' : (match RunIteration exLineStep s with
      | none => none
      | some s2 => RunIterations (List.replicate k exLineStep) s2) = some s1 := h
    cases hi : RunIteration exLineStep s with
    | none => rw [hi] at h'; cases h'
    | some s2 =>
      rw [hi] at h'
      obtain ⟨s3, b1, b2, b3, _, t1, t2, t3, t4⟩ := RunIteration_video exLineStep s s2 hi
      have ho : exLineStep.opcycles = 64 := rfl
      obtain ⟨_, k2, _⟩ := RunVideo_counters exLineStep.opcycles s3
      rw [b1, b2, b3, ho] at k2
      push_cast at hk
      obtain ⟨r1, r2, r3, r4⟩ := k2 (by omega) (by omega)
      rw [ho] at t1 t2 t3 t4
      rw [r1] at t1
      rw [r2] at t2
      rw [r3] at t3
      rw [r4] at t4
      obtain ⟨q1, q2, q3, q4⟩ := ih s2 s1 h' (by rw [t3, hv]) (by omega) (by omega) (by omega)
      refine ⟨q1, by rw [q2, t2]; push_cast; ring, by rw [q3, t1]; ring, fun _ => ?_⟩
      by_cases hk0 : 1 ≤ k
      · rw [q4 hk0, t2]
        push_cast
        have e : s.videolinenumber + 1 + (k : Int) = s.videolinenumber + ((k : Int) + 1) := by
          ring
        rw [e]
      · have hk0' : k = 0 := by omega
        subst hk0'
        cases h'
        have e0 : ((0 + 1 : Nat) : Int) = 1 := rfl
        rw [e0, t4, hv]
        simp

set_option maxRecDepth 10000 in
theorem exLine48_eq :
    RunIterations (List.replicate 48 exLineStep) exReset = some exLine48 :=
  some_getD_of_isSome _ _ (by decide)

theorem exLine48_reachable : Reachable exRoms exLine48 := by
  refine reachable_RunIterations exRoms (List.replicate 48 exLineStep) exReset
    exReset_reachable ?_ exLine48 exLine48_eq
  intro st hst op hop
  rw [List.eq_of_mem_replicate hst] at hop
  cases hop

theorem exLine48_video :
    exLine48.vblnumber = 0 ∧ exLine48.videolinenumber = 48 ∧ exLine48.displayflag = 1 := by
  obtain ⟨h1, h2, _, h4⟩ := line_steps 48 exReset exLine48 exLine48_eq (by decide) (by decide)
    (by decide) (by decide)
  have e : exReset.videolinenumber = 0 := by decide
  rw [e] at h2 h4
  exact ⟨h1, by rw [h2]; rfl, by rw [h4 (by decide)]; rfl⟩

theorem exLine48Reset_eq : Hardreset exRoms exDate exLine48 = some exLine48Reset :=
  some_getD_of_isSome _ _
    (Hardreset_exRoms exDate exLine48 (inv_reachable exRoms _ exLine48 exLine48_reachable).flavor)

/-- C11 fails in the code: `Hardreset` sets `videolinenumber` and `vblnumber`
to 0 but does not assign `displayflag`.  After the first hard reset and 48
instructions of 64 cycles the raster is on line 48 with `displayflag = 1`; a
second hard reset then leaves `displayflag = 1` on line 0, outside the lines
48..263. -/
theorem hardreset_keeps_displayflag :
    Reachable exRoms exLine48 ∧ exLine48.displayflag = 1 ∧ exLine48.vblnumber = 0 ∧
    exLine48.videolinenumber = 48 ∧
    Hardreset exRoms exDate exLine48 = some exLine48Reset ∧
    Reachable exRoms exLine48Reset ∧
    exLine48Reset.displayflag = 1 ∧ exLine48Reset.videolinenumber = 0 ∧
    ¬ (exLine48Reset.displayflag ≠ 0 → exLine48Reset.vblnumber = 0 ∧
        48 ≤ exLine48Reset.videolinenumber ∧ exLine48Reset.videolinenumber < 264) := by
  obtain ⟨v1, v2, v3⟩ := exLine48_video
  obtain ⟨_, r2, _, r4⟩ := Hardreset_video exRoms exDate exLine48 exLine48Reset exLine48Reset_eq
  have hr : Reachable exRoms exLine48Reset :=
    ReachableBy.step exLine48_reachable (Step.reset exDate exLine48Reset_eq)
  refine ⟨exLine48_reachable, v3, v1, v2, exLine48Reset_eq, hr, by rw [r4, v3], r2, ?_⟩
  intro h
  have := (h (by rw [r4, v3]; decide)).2.1
  rw [r2] at this
  exact absurd this (by decide)

theorem RunLoop_spec (B : Int) (steps : List CpuStep) :
    ∀ (n : Int) (s : State) (r : Int) (s1 : State) (rest : List CpuStep),
    RunLoop B steps n s = some (r, s1, rest) →
    ∃ done, steps = done ++ rest ∧ RunIterations done s = some s1 ∧
      r = n + (done.map CpuStep.opcycles).sum - B ∧ 0 ≤ r ∧
      (∀ k < done.length, n + ((done.take k).map CpuStep.opcycles).sum < B) ∧
      (n < B → ∃ init last, done = init ++ [last] ∧ r < last.opcycles) := by
  induction steps with
  | nil =>
    intro n s r s1 rest h
    unfold RunLoop at h
    by_cases c : n < B
    · rw [if_pos c] at h; cases h
    · rw [if_neg c] at h
      cases h
      exact ⟨[], rfl, rfl, by simp, by omega, fun k hk => absurd hk (by simp),
        fun h => absurd h c⟩
  | cons st rest0 ih =>
    intro n s r s1 rest h
    unfold RunLoop at h
    by_cases c : n < B
    · rw [if_pos c] at h
      cases hi : RunIteration st s with
      | none => rw [hi] at h; cases h
      | some s2 =>
        rw [hi] at h
        obtain ⟨done, e1, e2, e3, e4, e5, e6⟩ := ih (n + st.opcycles) s2 r s1 rest h
        refine ⟨st :: done, by rw [e1]; rfl, ?_, ?_, e4, ?_, fun _ => ?_⟩
        · unfold RunIterations
          rw [hi]
          exact e2
        · rw [e3]
          simp only [List.map_cons, List.sum_cons]
          ring
        · intro k hk
          cases k with
          | zero => simpa using c
          | succ k =>
            have := e5 k (by simpa using hk)
            simp only [List.take_succ_cons, List.map_cons, List.sum_cons]
            omega
        · by_cases c2 : n + st.opcycles < B
          · obtain ⟨init, last, f1, f2⟩ := e6 c2
            exact ⟨st :: init, last, by rw [f1]; rfl, f2⟩
          · have hd : done = [] := by
              cases done with
              | nil => rfl
              | cons d ds =>
                have := e5 0 (by simp)
                simp at this
                exact absurd this c2
            subst hd
            refine ⟨[], st, rfl, ?_⟩
            rw [e3]
            simp only [List.map_nil, List.sum_nil]
            omega
    · rw [if_neg c] at h
      cases h
      exact ⟨[], rfl, rfl, by simp, by omega, fun k hk => absurd hk (by simp),
        fun h => absurd h c⟩

theorem RunLoop_total (B : Int) (steps : List CpuStep) :
    ∀ (n : Int) (s : State), (RunIterations steps s).isSome →
    B ≤ n + (steps.map CpuStep.opcycles).sum → (RunLoop B steps n s).isSome := by
  induction steps with
  | nil =>
    intro n s _ hs
    unfold RunLoop
    simp only [List.map_nil, List.sum_nil, add_zero] at hs
    rw [if_neg (by omega)]
    rfl
  | cons st rest ih =>
    intro n s hi hs
    unfold RunLoop
    by_cases c : n < B
    · rw [if_pos c]
      have hi' : (match RunIteration st s with
        | none => none
        | some s1 => RunIterations rest s1).isSome = true := hi
      cases hr : RunIteration st s with
      | none => rw [hr] at hi'; cases hi'
      | some s2 =>
        rw [hr] at hi'
        simp only [List.map_cons, List.sum_cons] at hs
        exact ih (n + st.opcycles) s2 hi' (by omega)
    · rw [if_neg c]
      rfl

/-- C13: `Run(budget)` returns `ncycles - budget`, where `ncycles` is the sum of
the cycle counts (`opcycles`, a special opcode counting 64) of the instructions
it executed, the state being that after their iterations.  It executes the
least number of instructions whose cycle sum reaches `budget`, so the result
`r` is not negative and, for `budget > 0`, less than the cycle count of the last
instruction executed.  For `budget ≤ 0` it executes no instruction, leaves the
state unchanged and returns `-budget`.  `Run` does return when the
instructions run without fault and their cycles add up to `budget` or more. -/
theorem run_returns_overshoot (steps : List CpuStep) (budget : Int) (s : State) :
    (∀ r s1 rest, Run steps budget s = some (r, s1, rest) →
      ∃ done, steps = done ++ rest ∧ RunIterations done s = some s1 ∧
        r = (done.map CpuStep.opcycles).sum - budget ∧ 0 ≤ r ∧
        (∀ k < done.length, ((done.take k).map CpuStep.opcycles).sum < budget) ∧
        (budget > 0 → ∃ init last, done = init ++ [last] ∧ r < last.opcycles)) ∧
    (budget ≤ 0 → Run steps budget s = some (-budget, s, steps)) ∧
    ((RunIterations steps s).isSome → budget ≤ (steps.map CpuStep.opcycles).sum →
      (Run steps budget s).isSome) := by
  refine ⟨fun r s1 rest h => ?_, fun hb => ?_, fun hi hs => ?_⟩
  · obtain ⟨done, e1, e2, e3, e4, e5, e6⟩ := RunLoop_spec budget steps 0 s r s1 rest h
    refine ⟨done, e1, e2, by rw [e3]; ring, e4, fun k hk => ?_, fun hb => e6 hb⟩
    have := e5 k hk
    omega
  · unfold Run
    cases steps with
    | nil =>
      unfold RunLoop
      rw [if_neg (by omega)]
      simp
    | cons st rest =>
      unfold RunLoop
      rw [if_neg (by omega)]
      simp
  · exact RunLoop_total budget steps 0 s hi (by omega)

set_option maxRecDepth 10000 in
theorem run_returns_overshoot_witness :
    (Run exTimerSteps 10 exReset).map Prod.fst = some 2 ∧
    (Run exTimerSteps 10 exReset).map (fun r => r.2.2.length) = some 27 ∧
    (RunIterations exTimerSteps exReset).isSome ∧
    (10 : Int) ≤ (exTimerSteps.map CpuStep.opcycles).sum ∧
    ((∀ r s1 rest, Run exTimerSteps 10 exReset = some (r, s1, rest) →
      ∃ done, exTimerSteps = done ++ rest ∧ RunIterations done exReset = some s1 ∧
        r = (done.map CpuStep.opcycles).sum - 10 ∧ 0 ≤ r ∧
        (∀ k < done.length, ((done.take k).map CpuStep.opcycles).sum < 10) ∧
        ((10 : Int) > 0 → ∃ init last, done = init ++ [last] ∧ r < last.opcycles)) ∧
    ((10 : Int) ≤ 0 → Run exTimerSteps 10 exReset = some (-10, exReset, exTimerSteps)) ∧
    ((RunIterations exTimerSteps exReset).isSome →
      (10 : Int) ≤ (exTimerSteps.map CpuStep.opcycles).sum →
      (Run exTimerSteps 10 exReset).isSome)) :=
  ⟨by decide, by decide, by decide, by decide, run_returns_overshoot exTimerSteps 10 exReset⟩

theorem Iniln_eq (s : State) :
    Iniln s = if 11 ≤ s.videolinecycle ∧ s.videolinecycle ≤ 51 then 0x20 else 0 := by
  unfold Iniln
  split_ifs <;> first | rfl | omega

theorem Initn_eq (s : State) :
    Initn s = if 56 ≤ s.videolinenumber ∧ s.videolinenumber ≤ 255 ∧
        ¬ (s.videolinenumber = 56 ∧ s.videolinecycle < 12) ∧
        ¬ (s.videolinenumber = 255 ∧ s.videolinecycle > 50) then 0x80 else 0 := by
  unfold Initn
  split_ifs <;> first | rfl | omega | tauto

theorem sync_byte : ∀ b < 2, ∀ x ∈ [0, 0x80], ∀ y ∈ [0, 0x20],
    toChar (ior (ior ((b : Nat) : Int) ((x : Nat) : Int)) ((y : Nat) : Int)) = b ||| x ||| y := by
  decide

/-- C14: a bus read of `E7E7` returns the byte
`(port[0x24] & 0x01) | initn | iniln`, where `iniln` is `0x20` iff
`11 ≤ videolinecycle ≤ 51` and `initn` is `0x80` iff `56 ≤ videolinenumber ≤ 255`,
not (`videolinenumber = 56` and `videolinecycle < 12`) and not
(`videolinenumber = 255` and `videolinecycle > 50`); the read changes no state.
On line 100, cycle 11 gives bit `0x20` and cycle 10 does not; on line 56, cycle
12 gives bit `0x80` and cycle 11 does not. -/
theorem e7e7_read_sync_bits (s : State) :
    Mgetto8d 0xe7e7 s = some
      ((s.port 0x24 &&& 0x01) |||
        (if 56 ≤ s.videolinenumber ∧ s.videolinenumber ≤ 255 ∧
            ¬ (s.videolinenumber = 56 ∧ s.videolinecycle < 12) ∧
            ¬ (s.videolinenumber = 255 ∧ s.videolinecycle > 50) then 0x80 else 0) |||
        (if 11 ≤ s.videolinecycle ∧ s.videolinecycle ≤ 51 then 0x20 else 0), s) ∧
    (Mgetto8d 0xe7e7 { s with videolinenumber := 100, videolinecycle := 11 }).map
      (fun r => r.1 &&& 0x20) = some 0x20 ∧
    (Mgetto8d 0xe7e7 { s with videolinenumber := 100, videolinecycle := 10 }).map
      (fun r => r.1 &&& 0x20) = some 0 ∧
    (Mgetto8d 0xe7e7 { s with videolinenumber := 56, videolinecycle := 11 }).map
      (fun r => r.1 &&& 0x80) = some 0 ∧
    (Mgetto8d 0xe7e7 { s with videolinenumber := 56, videolinecycle := 12 }).map
      (fun r => r.1 &&& 0x80) = some 0x80 := by
  have key : ∀ t : State, Mgetto8d 0xe7e7 t = some
      ((t.port 0x24 &&& 0x01) |||
        (if 56 ≤ t.videolinenumber ∧ t.videolinenumber ≤ 255 ∧
            ¬ (t.videolinenumber = 56 ∧ t.videolinecycle < 12) ∧
            ¬ (t.videolinenumber = 255 ∧ t.videolinecycle > 50) then 0x80 else 0) |||
        (if 11 ≤ t.videolinecycle ∧ t.videolinecycle ≤ 51 then 0x20 else 0), t) := by
    intro t
    have h0 : Mgetto8d 0xe7e7 t = some
        (toChar (ior (ior ((t.port 0x24 &&& 0x01 : Nat) : Int) (Initn t)) (Iniln t)), t) := rfl
    rw [h0, Initn_eq, Iniln_eq]
    have hb : t.port 0x24 &&& 0x01 < 2 := by
      rw [Nat.and_one_is_mod]; omega
    congr 2
    by_cases c1 : 56 ≤ t.videolinenumber ∧ t.videolinenumber ≤ 255 ∧
        ¬ (t.videolinenumber = 56 ∧ t.videolinecycle < 12) ∧
        ¬ (t.videolinenumber = 255 ∧ t.videolinecycle > 50)
    · rw [if_pos c1, if_pos c1]
      by_cases c2 : 11 ≤ t.videolinecycle ∧ t.videolinecycle ≤ 51
      · rw [if_pos c2, if_pos c2]
        exact sync_byte _ hb 0x80 (by decide) 0x20 (by decide)
      · rw [if_neg c2, if_neg c2]
        exact sync_byte _ hb 0x80 (by decide) 0 (by decide)
    · rw [if_neg c1, if_neg c1]
      by_cases c2 : 11 ≤ t.videolinecycle ∧ t.videolinecycle ≤ 51
      · rw [if_pos c2, if_pos c2]
        exact sync_byte _ hb 0 (by decide) 0x20 (by decide)
      · rw [if_neg c2, if_neg c2]
        exact sync_byte _ hb 0 (by decide) 0 (by decide)
  have key2 : ∀ (t : State) (l c : Int), t.videolinenumber = l → t.videolinecycle = c →
      Mgetto8d 0xe7e7 t = some
      ((t.port 0x24 &&& 0x01) |||
        (if 56 ≤ l ∧ l ≤ 255 ∧ ¬ (l = 56 ∧ c < 12) ∧ ¬ (l = 255 ∧ c > 50) then 0x80 else 0) |||
        (if 11 ≤ c ∧ c ≤ 51 then 0x20 else 0), t) := by
    intro t l c hl hc
    rw [← hl, ← hc]
    exact key t
  have hb : s.port 0x24 &&& 0x01 = 0 ∨ s.port 0x24 &&& 0x01 = 1 := by
    rw [Nat.and_one_is_mod]; omega
  refine ⟨key s, ?_, ?_, ?_, ?_⟩
  · rw [key2 _ 100 11 rfl rfl, if_pos (by decide), if_pos (by decide)]
    show some (((s.port 0x24 &&& 0x01) ||| 0x80 ||| 0x20) &&& 0x20) = some 0x20
    rcases hb with hb | hb <;> rw [hb] <;> rfl
  · rw [key2 _ 100 10 rfl rfl, if_pos (by decide), if_neg (by decide)]
    show some (((s.port 0x24 &&& 0x01) ||| 0x80 ||| 0) &&& 0x20) = some 0
    rcases hb with hb | hb <;> rw [hb] <;> rfl
  · rw [key2 _ 56 11 rfl rfl, if_neg (by decide), if_pos (by decide)]
    show some (((s.port 0x24 &&& 0x01) ||| 0 ||| 0x20) &&& 0x80) = some 0
    rcases hb with hb | hb <;> rw [hb] <;> rfl
  · rw [key2 _ 56 12 rfl rfl, if_pos (by decide), if_pos (by decide)]
    show some (((s.port 0x24 &&& 0x01) ||| 0x80 ||| 0x20) &&& 0x80) = some 0x80
    rcases hb with hb | hb <;> rw [hb] <;> rfl

theorem index_30f8 (r : Region) : index (ptr r 0) 0x30f8 = some (r, 0x30f8) := by
  cases r <;> rfl

theorem index_3125 (r : Region) : index (ptr r 0) 0x3125 = some (r, 0x3125) := by
  cases r <;> rfl

theorem mem_setMem_same (s : State) (r : Region) (i c : Nat) : (s.setMem r i c).mem r i = c := by
  cases r <;> exact setAt_same _ _ _

theorem mem_setMem_ne (s : State) (r : Region) (i j c : Nat) (h : j ≠ i) :
    (s.setMem r i c).mem r j = s.mem r j := by
  cases r <;> exact setAt_ne _ _ _ _ h

theorem TO8keyIrq_mem (s : State) (r : Region) (i : Nat) : (TO8keyIrq s).mem r i = s.mem r i := by
  cases r <;> rfl

set_option maxRecDepth 100000 in
theorem scancode_byte : ∀ k < 0x50,
    toChar (ior ((k : Nat) : Int) 0x80) = k ||| 0x80 ∧ toChar (ior ((k : Nat) : Int) 0) = k ∧
    capslockCase ((k : Nat) : Int) = decide (k ∈
      [0x02, 0x03, 0x07, 0x0a, 0x0b, 0x0f, 0x12, 0x13, 0x17, 0x1a, 0x1b, 0x1f, 0x22, 0x23,
       0x27, 0x2a, 0x2b, 0x2f, 0x32, 0x33, 0x3a, 0x3b, 0x42, 0x43, 0x4a, 0x4b]) := by
  decide

/-- The state a key press leaves for a scancode in `0..0x4F`: the two bytes
stored in the monitor ROM array and the assignments of `TO8keyIrq`. -/
theorem TO8key_press (k : Nat) (hk : k ≤ 0x4f) (s : State) :
    TO8key (k : Int) true s = some (TO8keyIrq
      (((TO8keyCapslock (k : Int) (TO8keyTouche (k : Int) true s)).setMem s.moniteur 0x30f8
        (toChar (ior (k : Int)
          (TO8keyShift (k : Int) (TO8keyCapslock (k : Int) (TO8keyTouche (k : Int) true s)))))).setMem
        s.moniteur 0x3125 (if s.touche 0x53 ≠ 0 then 0 else 1))) := by
  have hr : 0 ≤ (k : Int) ∧ (k : Int) < (KEYBOARDKEY_MAX : Int) := by
    unfold KEYBOARDKEY_MAX
    constructor <;> omega
  have ht : (TO8keyTouche (k : Int) true s).touche = setAt s.touche k 0 := by
    show setAt s.touche (k : Int).toNat (if true = true then 0x00 else 0x80) = _
    rw [Int.toNat_ofNat]
    rfl
  have h1 : ¬ ((TO8keyTouche (k : Int) true s).touche (k : Int).toNat ≠ 0) := by
    rw [ht, Int.toNat_ofNat, setAt_same]
    exact fun h => h rfl
  have h2 : ¬ ((k : Int) > 0x4f) := by omega
  have e1 := store_of_index (TO8keyCapslock (k : Int) (TO8keyTouche (k : Int) true s))
    (ptr s.moniteur 0) 0x30f8
    (toChar (ior (k : Int)
      (TO8keyShift (k : Int) (TO8keyCapslock (k : Int) (TO8keyTouche (k : Int) true s)))))
    s.moniteur 0x30f8 (index_30f8 s.moniteur)
  have hm : ∀ (t : State) (i c : Nat), (t.setMem s.moniteur i c).moniteur = t.moniteur :=
    fun t i c => (congrArg State.moniteur (regs_setMem t s.moniteur i c) :
      (t.setMem s.moniteur i c).regs.moniteur = t.regs.moniteur)
  have hto : ∀ (t : State) (i c : Nat), (t.setMem s.moniteur i c).touche = t.touche :=
    fun t i c => (congrArg State.touche (regs_setMem t s.moniteur i c) :
      (t.setMem s.moniteur i c).regs.touche = t.regs.touche)
  have h53 : ∀ c : Nat, ((TO8keyCapslock (k : Int) (TO8keyTouche (k : Int) true s)).setMem
      s.moniteur 0x30f8 c).touche 0x53 = s.touche 0x53 := by
    intro c
    rw [hto]
    show (TO8keyTouche (k : Int) true s).touche 0x53 = _
    rw [ht, setAt_ne _ _ _ _ (by omega)]
  unfold TO8key
  rw [if_pos hr, if_neg h1]
  unfold TO8keyPress
  rw [if_neg h2]
  unfold TO8keyCode
  have e1' : store (TO8keyCapslock (k : Int) (TO8keyTouche (k : Int) true s))
      (ptr (TO8keyCapslock (k : Int) (TO8keyTouche (k : Int) true s)).moniteur 0) 0x30f8
      (toChar (ior (k : Int)
        (TO8keyShift (k : Int) (TO8keyCapslock (k : Int) (TO8keyTouche (k : Int) true s))))) =
      some ((TO8keyCapslock (k : Int) (TO8keyTouche (k : Int) true s)).setMem s.moniteur 0x30f8
        (toChar (ior (k : Int)
          (TO8keyShift (k : Int) (TO8keyCapslock (k : Int) (TO8keyTouche (k : Int) true s)))))) :=
    e1
  rw [e1']
  simp only []
  rw [hm, h53]
  have e2 := store_of_index ((TO8keyCapslock (k : Int) (TO8keyTouche (k : Int) true s)).setMem
      s.moniteur 0x30f8 (toChar (ior (k : Int)
        (TO8keyShift (k : Int) (TO8keyCapslock (k : Int) (TO8keyTouche (k : Int) true s))))))
    (ptr s.moniteur 0) 0x3125 (if s.touche 0x53 ≠ 0 then 0 else 1) s.moniteur 0x3125
    (index_3125 s.moniteur)
  have e2' : store ((TO8keyCapslock (k : Int) (TO8keyTouche (k : Int) true s)).setMem
      s.moniteur 0x30f8 (toChar (ior (k : Int)
        (TO8keyShift (k : Int) (TO8keyCapslock (k : Int) (TO8keyTouche (k : Int) true s))))))
      (ptr (TO8keyCapslock (k : Int) (TO8keyTouche (k : Int) true s)).moniteur 0) 0x3125
      (if s.touche 0x53 ≠ 0 then 0 else 1) = _ := e2
  rw [e2']

/-- The shift indicator of `TO8key` for a scancode in `0..0x4F`, in terms of the
state in which `TO8key` is called. -/
theorem TO8keyShift_press (k : Nat) (hk : k ≤ 0x4f) (s : State) :
    TO8keyShift (k : Int) (TO8keyCapslock (k : Int) (TO8keyTouche (k : Int) true s)) =
      if s.touche 0x51 = 0 ∨ s.touche 0x52 = 0 ∨ (s.capslock ≠ 0 ∧ k ∈
        [0x02, 0x03, 0x07, 0x0a, 0x0b, 0x0f, 0x12, 0x13, 0x17, 0x1a, 0x1b, 0x1f, 0x22, 0x23,
         0x27, 0x2a, 0x2b, 0x2f, 0x32, 0x33, 0x3a, 0x3b, 0x42, 0x43, 0x4a, 0x4b])
      then 0x80 else 0 := by
  have ht : (TO8keyTouche (k : Int) true s).touche = setAt s.touche k 0 := by
    show setAt s.touche (k : Int).toNat (if true = true then 0x00 else 0x80) = _
    rw [Int.toNat_ofNat]
    rfl
  have h51 : (TO8keyCapslock (k : Int) (TO8keyTouche (k : Int) true s)).touche 0x51 =
      s.touche 0x51 := by
    show (TO8keyTouche (k : Int) true s).touche 0x51 = _
    rw [ht, setAt_ne _ _ _ _ (by omega)]
  have h52 : (TO8keyCapslock (k : Int) (TO8keyTouche (k : Int) true s)).touche 0x52 =
      s.touche 0x52 := by
    show (TO8keyTouche (k : Int) true s).touche 0x52 = _
    rw [ht, setAt_ne _ _ _ _ (by omega)]
  have hcap : (TO8keyCapslock (k : Int) (TO8keyTouche (k : Int) true s)).capslock =
      s.capslock := by
    show (if (k : Int) = 0x50 then 1 - s.capslock else s.capslock) = _
    rw [if_neg (by omega)]
  have hcase := (scancode_byte k (by omega)).2.2
  unfold TO8keyShift
  simp only []
  rw [h51, h52, hcap, hcase]
  by_cases c1 : s.capslock ≠ 0 ∧ k ∈
      [0x02, 0x03, 0x07, 0x0a, 0x0b, 0x0f, 0x12, 0x13, 0x17, 0x1a, 0x1b, 0x1f, 0x22, 0x23,
       0x27, 0x2a, 0x2b, 0x2f, 0x32, 0x33, 0x3a, 0x3b, 0x42, 0x43, 0x4a, 0x4b]
  · rw [if_pos ⟨c1.1, decide_eq_true c1.2⟩, if_pos (Or.inr (Or.inr c1))]
  · have c1' : ¬ (s.capslock ≠ 0 ∧ decide (k ∈
        [0x02, 0x03, 0x07, 0x0a, 0x0b, 0x0f, 0x12, 0x13, 0x17, 0x1a, 0x1b, 0x1f, 0x22, 0x23,
         0x27, 0x2a, 0x2b, 0x2f, 0x32, 0x33, 0x3a, 0x3b, 0x42, 0x43, 0x4a, 0x4b]) = true) :=
      fun h => c1 ⟨h.1, of_decide_eq_true h.2⟩
    rw [if_neg c1']
    by_cases c2 : s.touche 0x52 = 0
    · rw [if_pos c2, if_pos (Or.inr (Or.inl c2))]
    · rw [if_neg c2]
      by_cases c3 : s.touche 0x51 = 0
      · rw [if_pos c3, if_pos (Or.inl c3)]
      · rw [if_neg c3, if_neg]
        rintro (h | h | h)
        · exact c3 h
        · exact c2 h
        · exact c1 h

theorem TO8keyIrq_port (t : State) :
    (TO8keyIrq t).port 0x08 = t.port 0x08 ||| 0x01 ∧
    (TO8keyIrq t).port 0x00 = t.port 0x00 ||| 0x82 :=
  ⟨rfl, rfl⟩

/-- C15: for a scancode `sc` in `0..0x4F`, `TO8key(sc, true)` returns, marks
`touche[sc] = 0`, writes `moniteur[0x30F8] = sc | i` where `i = 0x80` iff the
left shift (`touche[0x51] == 0`) or the right shift (`touche[0x52] == 0`) is
held or capslock is on and `sc` is in the list of the `switch`, and `i = 0`
otherwise; it sets bit 0 of `port[0x08]`, ORs `0x82` into `port[0x00]`, sets
`keyb_irqcount = 500000` and asserts the IRQ line.  For `sc` in `0x50..0x53` a
press returns and changes none of the memory arrays, `port`, `keyb_irqcount`
or the IRQ line; it marks `touche[sc] = 0`, and toggles `capslock` for
`sc = 0x50` only. -/
theorem key_press_effects (k : Nat) (s : State) :
    (k ≤ 0x4f → ∃ s1, TO8key (k : Int) true s = some s1 ∧ s1.touche k = 0 ∧
      s1.mem s.moniteur 0x30f8 = k |||
        (if s.touche 0x51 = 0 ∨ s.touche 0x52 = 0 ∨ (s.capslock ≠ 0 ∧ k ∈
          [0x02, 0x03, 0x07, 0x0a, 0x0b, 0x0f, 0x12, 0x13, 0x17, 0x1a, 0x1b, 0x1f, 0x22, 0x23,
           0x27, 0x2a, 0x2b, 0x2f, 0x32, 0x33, 0x3a, 0x3b, 0x42, 0x43, 0x4a, 0x4b])
        then 0x80 else 0) ∧
      s1.port 0x08 = s.port 0x08 ||| 0x01 ∧ s1.port 0x00 = s.port 0x00 ||| 0x82 ∧
      s1.keyb_irqcount = 500000 ∧ s1.dc6809_irq = 1 ∧ s1.capslock = s.capslock) ∧
    (0x50 ≤ k → k ≤ 0x53 → ∃ s1, TO8key (k : Int) true s = some s1 ∧ s1.touche k = 0 ∧
      s1.memory = s.memory ∧ s1.port = s.port ∧ s1.keyb_irqcount = s.keyb_irqcount ∧
      s1.dc6809_irq = s.dc6809_irq ∧
      s1.capslock = (if k = 0x50 then 1 - s.capslock else s.capslock)) := by
  have ht : (TO8keyTouche (k : Int) true s).touche = setAt s.touche k 0 := by
    show setAt s.touche (k : Int).toNat (if true = true then 0x00 else 0x80) = _
    rw [Int.toNat_ofNat]
    rfl
  constructor
  · intro hk
    refine ⟨_, TO8key_press k hk s, ?_, ?_, ?_, ?_, rfl, rfl, ?_⟩
    · have h1 : ∀ (t : State) (i c : Nat), (t.setMem s.moniteur i c).touche = t.touche :=
        fun t i c => (congrArg State.touche (regs_setMem t s.moniteur i c) :
          (t.setMem s.moniteur i c).regs.touche = t.regs.touche)
      show (((TO8keyCapslock (k : Int) (TO8keyTouche (k : Int) true s)).setMem s.moniteur 0x30f8
        _).setMem s.moniteur 0x3125 _).touche k = 0
      rw [h1, h1]
      show (TO8keyTouche (k : Int) true s).touche k = 0
      rw [ht, setAt_same]
    · rw [TO8keyIrq_mem, mem_setMem_ne _ _ _ _ _ (by decide), mem_setMem_same,
        TO8keyShift_press k hk s]
      by_cases c : s.touche 0x51 = 0 ∨ s.touche 0x52 = 0 ∨ (s.capslock ≠ 0 ∧ k ∈
          [0x02, 0x03, 0x07, 0x0a, 0x0b, 0x0f, 0x12, 0x13, 0x17, 0x1a, 0x1b, 0x1f, 0x22, 0x23,
           0x27, 0x2a, 0x2b, 0x2f, 0x32, 0x33, 0x3a, 0x3b, 0x42, 0x43, 0x4a, 0x4b])
      · rw [if_pos c, if_pos c]
        exact (scancode_byte k (by omega)).1
      · rw [if_neg c, if_neg c]
        exact (scancode_byte k (by omega)).2.1.trans (Nat.or_zero k).symm
    · have h1 : ∀ (t : State) (i c : Nat), (t.setMem s.moniteur i c).port = t.port :=
        fun t i c => (congrArg State.port (regs_setMem t s.moniteur i c) :
          (t.setMem s.moniteur i c).regs.port = t.regs.port)
      rw [(TO8keyIrq_port _).1, h1, h1]
      rfl
    · have h1 : ∀ (t : State) (i c : Nat), (t.setMem s.moniteur i c).port = t.port :=
        fun t i c => (congrArg State.port (regs_setMem t s.moniteur i c) :
          (t.setMem s.moniteur i c).regs.port = t.regs.port)
      rw [(TO8keyIrq_port _).2, h1, h1]
      rfl
    · have h1 : ∀ (t : State) (i c : Nat), (t.setMem s.moniteur i c).capslock = t.capslock :=
        fun t i c => (congrArg State.capslock (regs_setMem t s.moniteur i c) :
          (t.setMem s.moniteur i c).regs.capslock = t.regs.capslock)
      show (((TO8keyCapslock (k : Int) (TO8keyTouche (k : Int) true s)).setMem s.moniteur 0x30f8
        _).setMem s.moniteur 0x3125 _).capslock = _
      rw [h1, h1]
      show (if (k : Int) = 0x50 then 1 - s.capslock else s.capslock) = _
      rw [if_neg (by omega)]
  · intro hk1 hk2
    have hr : 0 ≤ (k : Int) ∧ (k : Int) < (KEYBOARDKEY_MAX : Int) := by
      unfold KEYBOARDKEY_MAX
      constructor <;> omega
    have h1 : ¬ ((TO8keyTouche (k : Int) true s).touche (k : Int).toNat ≠ 0) := by
      rw [ht, Int.toNat_ofNat, setAt_same]
      exact fun h => h rfl
    have h2 : (k : Int) > 0x4f := by omega
    have e : TO8key (k : Int) true s =
        some (TO8keyCapslock (k : Int) (TO8keyTouche (k : Int) true s)) := by
      unfold TO8key
      rw [if_pos hr, if_neg h1]
      unfold TO8keyPress
      rw [if_pos h2]
    refine ⟨_, e, ?_, rfl, rfl, rfl, rfl, ?_⟩
    · show (TO8keyTouche (k : Int) true s).touche k = 0
      rw [ht, setAt_same]
    · show (if (k : Int) = 0x50 then 1 - s.capslock else s.capslock) = _
      by_cases c : k = 0x50
      · rw [if_pos c, if_pos (by omega)]
      · rw [if_neg c, if_neg (by omega)]

theorem key_press_effects_witness :
    ((0x10 : Nat) ≤ 0x4f ∧ ∃ s1, TO8key ((0x10 : Nat) : Int) true exReset = some s1 ∧
      s1.touche 0x10 = 0 ∧
      s1.mem exReset.moniteur 0x30f8 = 0x10 |||
        (if exReset.touche 0x51 = 0 ∨ exReset.touche 0x52 = 0 ∨ (exReset.capslock ≠ 0 ∧ 0x10 ∈
          [0x02, 0x03, 0x07, 0x0a, 0x0b, 0x0f, 0x12, 0x13, 0x17, 0x1a, 0x1b, 0x1f, 0x22, 0x23,
           0x27, 0x2a, 0x2b, 0x2f, 0x32, 0x33, 0x3a, 0x3b, 0x42, 0x43, 0x4a, 0x4b])
        then 0x80 else 0) ∧
      s1.port 0x08 = exReset.port 0x08 ||| 0x01 ∧ s1.port 0x00 = exReset.port 0x00 ||| 0x82 ∧
      s1.keyb_irqcount = 500000 ∧ s1.dc6809_irq = 1 ∧ s1.capslock = exReset.capslock) ∧
    ((0x50 : Nat) ≤ 0x50 ∧ (0x50 : Nat) ≤ 0x53 ∧
      ∃ s1, TO8key ((0x50 : Nat) : Int) true exReset = some s1 ∧ s1.touche 0x50 = 0 ∧
      s1.memory = exReset.memory ∧ s1.port = exReset.port ∧
      s1.keyb_irqcount = exReset.keyb_irqcount ∧ s1.dc6809_irq = exReset.dc6809_irq ∧
      s1.capslock = (if (0x50 : Nat) = 0x50 then 1 - exReset.capslock else exReset.capslock)) :=
  ⟨⟨by decide, (key_press_effects 0x10 exReset).1 (by decide)⟩,
    ⟨by decide, by decide, (key_press_effects 0x50 exReset).2 (by decide) (by decide)⟩⟩

/-- C16, as stated, fails: after the hard reset no key is held, so
`touche[0x53]` is `0x80`, not 0, and the press of the key of scancode `0x10`
writes `moniteur[0x3125] = 0`, where the claim expects 1. -/
theorem ctrl_indicator_counterexample :
    exReset.touche 0x53 ≠ 0 ∧ TO8key 0x10 true exReset = some exKey ∧
    exKey.mem exReset.moniteur 0x3125 = 0 ∧
    ¬ (exKey.mem exReset.moniteur 0x3125 = (if exReset.touche 0x53 = 0 then 0 else 1)) :=
  ⟨by decide, rfl, by decide, by decide⟩

/-- C16, amended: for every scancode `sc` in `0..0x4F`, `TO8key(sc, true)`
returns and leaves the CTRL indicator byte `moniteur[0x3125]` equal to 1 if
`touche[0x53] == 0` (CTRL held) and to 0 otherwise. -/
theorem ctrl_indicator_after_press (k : Nat) (s : State) (hk : k ≤ 0x4f) :
    ∃ s1, TO8key (k : Int) true s = some s1 ∧
      s1.mem s.moniteur 0x3125 = (if s.touche 0x53 = 0 then 1 else 0) := by
  refine ⟨_, TO8key_press k hk s, ?_⟩
  rw [TO8keyIrq_mem, mem_setMem_same]
  by_cases c : s.touche 0x53 = 0
  · rw [if_pos c, if_neg (fun h => h c)]
  · rw [if_neg c, if_pos c]

theorem ctrl_indicator_after_press_witness :
    (0x10 : Nat) ≤ 0x4f ∧ ∃ s1, TO8key ((0x10 : Nat) : Int) true exReset = some s1 ∧
      s1.mem exReset.moniteur 0x3125 = (if exReset.touche 0x53 = 0 then 1 else 0) :=
  ⟨by decide, ctrl_indicator_after_press 0x10 exReset (by decide)⟩

/-! ## The keyboard flag and bus accesses -/

theorem Timercontrol_keyb (s : State) (c : Nat) :
    (MputE7C5 c s).port 0x00 = s.port 0x00 ∧ (MputE7C5 c s).keyb_irqcount = s.keyb_irqcount := by
  unfold MputE7C5 Timercontrol
  by_cases c5 : (setAt s.port 0x05 c) 0x05 &&& 0x01 ≠ 0
  · rw [if_pos c5] <;> exact ⟨rfl, rfl⟩
  · rw [if_neg c5] <;> exact ⟨rfl, rfl⟩

theorem MputE7CD_keyb (s : State) (c : Nat) :
    (MputE7CD c s).port 0x00 = s.port 0x00 ∧ (MputE7CD c s).keyb_irqcount = s.keyb_irqcount := by
  unfold MputE7CD
  by_cases c4 : s.port 0x0f &&& 4 ≠ 0
  · rw [if_pos c4] <;> exact ⟨rfl, rfl⟩
  · rw [if_neg c4] <;> exact ⟨rfl, rfl⟩

theorem Palettecolor_keyb (c : Nat) (s s1 : State) (h : Palettecolor c s = some s1) :
    s1.port 0x00 = s.port 0x00 ∧ s1.keyb_irqcount = s.keyb_irqcount := by
  unfold Palettecolor at h
  by_cases hr : 0 ≤ charToInt (s.port 0x1b) ∧ charToInt (s.port 0x1b) < (PALETTE_SIZE : Int)
  · rw [if_pos hr] at h
    by_cases ho : iand (charToInt (s.port 0x1b)) 1 ≠ 0
    · rw [if_pos ho] at h; cases h; exact ⟨rfl, rfl⟩
    · rw [if_neg ho] at h; cases h; exact ⟨rfl, rfl⟩
  · rw [if_neg hr] at h; cases h

/-- A bus write on the I/O page other than to `E7C0`, `E7C3` leaves `port[0x00]` and `keyb_irqcount`. -/
theorem MputPage_keyb (a c : Nat) (s s1 : State) (h : MputPage a c s = some s1)
    (n0 : a ≠ 0xe7c0) (n2 : a ≠ 0xe7c3) :
    s1.port 0x00 = s.port 0x00 ∧ s1.keyb_irqcount = s.keyb_irqcount := by
  revert h
  apply MputPage_cases a c s (fun r => r = some s1 → s1.port 0x00 = s.port 0x00 ∧ s1.keyb_irqcount = s.keyb_irqcount)
  case h0 => intro e; exact absurd e n0
  case h1 => intro _ h; cases h; exact ⟨rfl, rfl⟩
  case h2 => intro e; exact absurd e n2
  case h3 => intro _ h; cases h; exact Timercontrol_keyb s c
  case h4 => intro _ h; cases h; exact ⟨rfl, rfl⟩
  case h5 => intro _ h; cases h; exact ⟨rfl, rfl⟩
  case h6 =>
    intro _ h; cases h
    unfold MputE7C9
    rw [TO8rambank_frame] <;> exact ⟨rfl, rfl⟩
  case h7 => intro _ h; cases h; exact ⟨rfl, rfl⟩
  case h8 => intro _ h; cases h; exact MputE7CD_keyb s c
  case h9 => intro _ h; cases h; exact ⟨rfl, rfl⟩
  case h10 => intro _ h; cases h; exact ⟨rfl, rfl⟩
  case h11 => intro _ h; cases h; exact ⟨rfl, rfl⟩
  case h12 => intro _ h; exact Palettecolor_keyb c s s1 h
  case h13 => intro _ h; cases h; exact ⟨rfl, rfl⟩
  case h14 => intro _ h; cases h; exact ⟨rfl, rfl⟩
  case h15 => intro _ h; cases h; exact ⟨rfl, rfl⟩
  case h16 => intro _ h; cases h; exact ⟨rfl, rfl⟩
  case h17 =>
    intro _ h; cases h
    unfold MputE7E5
    rw [TO8rambank_frame] <;> exact ⟨rfl, rfl⟩
  case h18 =>
    intro _ h; cases h
    unfold MputE7E6
    rw [TO8rombank_frame] <;> exact ⟨rfl, rfl⟩
  case h19 =>
    intro _ h; cases h
    unfold MputE7E7
    rw [TO8rambank_frame] <;> exact ⟨rfl, rfl⟩
  case hd => intros; rename_i h; cases h; exact ⟨rfl, rfl⟩

theorem Mputto8d_keyb (a c : Nat) (s s1 : State) (h : Mputto8d a c s = some s1)
    (n0 : a ≠ 0xe7c0) (n2 : a ≠ 0xe7c3) :
    s1.port 0x00 = s.port 0x00 ∧ s1.keyb_irqcount = s.keyb_irqcount := by
  rcases Mputto8d_shape a c s s1 h with ⟨_, hio⟩ | ⟨_, t, ht, hs⟩
  · exact MputPage_keyb a c s s1 hio n0 n2
  · have e1 : t.port 0x00 = s.port 0x00 ∧ t.keyb_irqcount = s.keyb_irqcount := by
      rcases ht with rfl | rfl
      · exact ⟨rfl, rfl⟩
      · unfold MputBankSwitch
        rw [TO8rombank_frame] <;> exact ⟨rfl, rfl⟩
    rcases hs with rfl | ⟨r, i, rfl⟩
    · exact e1
    · cases r <;> exact e1

theorem Mgetto8d_keyb (a v : Nat) (s s1 : State) (h : Mgetto8d a s = some (v, s1)) :
    s1.port 0x00 = s.port 0x00 ∧ s1.keyb_irqcount = s.keyb_irqcount := by
  rcases Mgetto8d_state a v s s1 h with rfl | ⟨_, rfl⟩ | ⟨_, rfl⟩
  · exact ⟨rfl, rfl⟩
  · exact ⟨rfl, rfl⟩
  · exact ⟨rfl, rfl⟩

theorem busOps_keyb (ops : List BusOp) (s s1 : State) (hok : ∀ op ∈ ops, notKeybWrite op) (h : busOps ops s = some s1) :
    s1.port 0x00 = s.port 0x00 ∧ s1.keyb_irqcount = s.keyb_irqcount := by
  induction ops generalizing s with
  | nil => cases h; exact ⟨rfl, rfl⟩
  | cons op rest ih =>
    unfold busOps at h
    cases ho : busOp op s with
    | none => rw [ho] at h; cases h
    | some s2 =>
      rw [ho] at h
      have e2 := ih s2 (fun op h' => hok op (List.mem_cons_of_mem _ h')) h
      have e1 : s2.port 0x00 = s.port 0x00 ∧ s2.keyb_irqcount = s.keyb_irqcount := by
        have hop := hok op (List.mem_cons_self _ _)
        cases op with
        | get a =>
          have ho' : (Mgetto8d a s).map Prod.snd = some s2 := ho
          cases hg : Mgetto8d a s with
          | none => rw [hg] at ho'; cases ho'
          | some r =>
            obtain ⟨v, s3⟩ := r
            rw [hg] at ho'
            simp only [Option.map_some'] at ho'
            cases ho'
            exact Mgetto8d_keyb a v s _ hg
        | put a c =>
          exact Mputto8d_keyb a c s s2 ho (fun e => (hop c).1 (by rw [e])) (fun e => (hop c).2 (by rw [e]))
      exact ⟨e2.1.trans e1.1, e2.2.trans e1.2⟩

theorem or_and_distrib (p a b : Nat) : (p ||| a) &&& b = (p &&& b) ||| (a &&& b) := by
  apply Nat.eq_of_testBit_eq
  intro i
  simp only [Nat.testBit_and, Nat.testBit_or]
  cases p.testBit i <;> cases a.testBit i <;> cases b.testBit i <;> rfl

theorem and_fe_02 (p : Nat) : (p &&& 0xfe) &&& 0x02 = p &&& 0x02 := Nat.land_assoc p 0xfe 0x02

theorem and_fd_02 (p : Nat) : (p &&& 0xfd) &&& 0x02 = 0 :=
  (Nat.land_assoc p 0xfd 0x02).trans (Nat.and_zero p)

theorem and_7f_02 (p : Nat) : (p &&& 0x7f) &&& 0x02 = p &&& 0x02 := Nat.land_assoc p 0x7f 0x02

theorem or_81_02 (p : Nat) : (p ||| 0x81) &&& 0x02 = p &&& 0x02 :=
  (or_and_distrib p 0x81 0x02).trans (Nat.or_zero _)

theorem or_82_02 (p : Nat) : (p ||| 0x82) &&& 0x02 ≠ 0 := by
  intro h
  have h1 : ((p ||| 0x82) &&& 0x02).testBit 1 = true := by
    rw [Nat.testBit_and, Nat.testBit_or]
    cases p.testBit 1 <;> rfl
  rw [h] at h1
  exact absurd h1 (by decide)

/-- The keyboard countdown and bit 1 of `port[0x00]` after the part of an
iteration of `Run` that follows the CPU step. -/
theorem RunAfterStep_keyb (o : Int) (s : State) :
    (RunAfterStep o s).keyb_irqcount =
      (if s.keyb_irqcount > 0 then s.keyb_irqcount - o else s.keyb_irqcount) ∧
    (RunAfterStep o s).port 0x00 &&& 0x02 =
      (if (if s.keyb_irqcount > 0 then s.keyb_irqcount - o else s.keyb_irqcount) ≤ 0 then 0
        else s.port 0x00 &&& 0x02) := by
  have a1 : ∀ t : State, (RunTimerIrqCount o t).keyb_irqcount = t.keyb_irqcount ∧
      (RunTimerIrqCount o t).port 0x00 &&& 0x02 = t.port 0x00 &&& 0x02 := by
    intro t
    unfold RunTimerIrqCount
    by_cases c : t.timer_irqcount > 0
    · rw [if_pos c]; exact ⟨rfl, rfl⟩
    · rw [if_neg c]; exact ⟨rfl, rfl⟩
  have a2 : ∀ t : State, (RunTimerIrqClear t).keyb_irqcount = t.keyb_irqcount ∧
      (RunTimerIrqClear t).port 0x00 &&& 0x02 = t.port 0x00 &&& 0x02 := by
    intro t
    unfold RunTimerIrqClear
    by_cases c : t.timer_irqcount ≤ 0
    · rw [if_pos c]; exact ⟨rfl, and_fe_02 (t.port 0x00)⟩
    · rw [if_neg c]; exact ⟨rfl, rfl⟩
  have a3 : ∀ t : State, (RunKeybIrqCount o t).keyb_irqcount =
        (if t.keyb_irqcount > 0 then t.keyb_irqcount - o else t.keyb_irqcount) ∧
      (RunKeybIrqCount o t).port 0x00 &&& 0x02 = t.port 0x00 &&& 0x02 := by
    intro t
    unfold RunKeybIrqCount
    by_cases c : t.keyb_irqcount > 0
    · rw [if_pos c, if_pos c]; exact ⟨rfl, rfl⟩
    · rw [if_neg c, if_neg c]; exact ⟨rfl, rfl⟩
  have a4 : ∀ t : State, (RunKeybIrqClear t).keyb_irqcount = t.keyb_irqcount ∧
      (RunKeybIrqClear t).port 0x00 &&& 0x02 =
        (if t.keyb_irqcount ≤ 0 then 0 else t.port 0x00 &&& 0x02) := by
    intro t
    unfold RunKeybIrqClear
    by_cases c : t.keyb_irqcount ≤ 0
    · rw [if_pos c, if_pos c]; exact ⟨rfl, and_fd_02 (t.port 0x00)⟩
    · rw [if_neg c, if_neg c]; exact ⟨rfl, rfl⟩
  have a5 : ∀ t : State, (RunIrqComposite t).keyb_irqcount = t.keyb_irqcount ∧
      (RunIrqComposite t).port 0x00 &&& 0x02 = t.port 0x00 &&& 0x02 := by
    intro t
    unfold RunIrqComposite
    by_cases c : t.port 0x00 &&& 0x07 = 0
    · rw [if_pos c]; exact ⟨rfl, and_7f_02 (t.port 0x00)⟩
    · rw [if_neg c]; exact ⟨rfl, rfl⟩
  have a6 : ∀ t : State, (RunCountdown o t).keyb_irqcount = t.keyb_irqcount ∧
      (RunCountdown o t).port 0x00 &&& 0x02 = t.port 0x00 &&& 0x02 := by
    intro t
    unfold RunCountdown
    by_cases c : t.port 0x05 &&& 0x01 = 0
    · rw [if_pos c]; exact ⟨rfl, rfl⟩
    · rw [if_neg c]; exact ⟨rfl, rfl⟩
  have a7 : ∀ t : State, (RunTimeout t).keyb_irqcount = t.keyb_irqcount ∧
      (RunTimeout t).port 0x00 &&& 0x02 = t.port 0x00 &&& 0x02 := by
    intro t
    unfold RunTimeout
    by_cases c : t.timer6846 ≤ 5
    · rw [if_pos c]; exact ⟨rfl, or_81_02 (t.port 0x00)⟩
    · rw [if_neg c]; exact ⟨rfl, rfl⟩
  have a0 : (RunVideo o s).keyb_irqcount = s.keyb_irqcount := by
    unfold RunVideo
    by_cases c : (RunVideoCycle o s).videolinecycle ≥ 64
    · rw [if_pos c]
      unfold RunVideoFlag RunVideoNextLine
      by_cases c2 : (RunVideoEndLine (RunVideoCycle o s)).videolinenumber + 1 > 311
      · rw [if_pos c2]; rfl
      · rw [if_neg c2]; rfl
    · rw [if_neg c]; rfl
  have p0 : (RunVideo o s).port = s.port := RunVideo_port o s
  unfold RunAfterStep RunIrq
  obtain ⟨k1, q1⟩ := a1 (RunVideo o s)
  obtain ⟨k2, q2⟩ := a2 (RunTimerIrqCount o (RunVideo o s))
  obtain ⟨k3, q3⟩ := a3 (RunTimerIrqClear (RunTimerIrqCount o (RunVideo o s)))
  obtain ⟨k4, q4⟩ := a4 (RunKeybIrqCount o (RunTimerIrqClear (RunTimerIrqCount o (RunVideo o s))))
  obtain ⟨k5, q5⟩ := a5 (RunKeybIrqClear (RunKeybIrqCount o
    (RunTimerIrqClear (RunTimerIrqCount o (RunVideo o s)))))
  obtain ⟨k6, q6⟩ := a6 (RunIrqComposite (RunKeybIrqClear (RunKeybIrqCount o
    (RunTimerIrqClear (RunTimerIrqCount o (RunVideo o s))))))
  obtain ⟨k7, q7⟩ := a7 (RunCountdown o (RunIrqComposite (RunKeybIrqClear (RunKeybIrqCount o
    (RunTimerIrqClear (RunTimerIrqCount o (RunVideo o s)))))))
  rw [k2, k1, a0] at k3
  rw [k3] at k4
  rw [k3] at q4
  rw [q3, q2, q1, p0] at q4
  exact ⟨by rw [k7, k6, k5, k4], by rw [q7, q6, q5, q4]⟩

/-- While no key event and no write to `E7C0`, `E7C3` occurs, the keyboard
countdown is `500000 - n` and bit 1 of `port[0x00]` is set as long as the
cycles `n` accumulated since the press are below 500000; from then on the
countdown is exhausted and bit 1 is clear. -/
theorem keyb_irq_steps (steps : List CpuStep) :
    ∀ (n : Int) (s s1 : State), RunIterations steps s = some s1 →
    (∀ st ∈ steps, ∀ op ∈ st.ops, notKeybWrite op) →
    ((n < 500000 ∧ s.keyb_irqcount = 500000 - n ∧ s.port 0x00 &&& 0x02 ≠ 0) ∨
      (500000 ≤ n ∧ s.keyb_irqcount ≤ 0 ∧ s.port 0x00 &&& 0x02 = 0)) →
    ((n + (steps.map CpuStep.opcycles).sum < 500000 ∧
        s1.keyb_irqcount = 500000 - (n + (steps.map CpuStep.opcycles).sum) ∧
        s1.port 0x00 &&& 0x02 ≠ 0) ∨
      (500000 ≤ n + (steps.map CpuStep.opcycles).sum ∧ s1.keyb_irqcount ≤ 0 ∧
        s1.port 0x00 &&& 0x02 = 0)) := by
  induction steps with
  | nil =>
    intro n s s1 h _ hi
    cases h
    simpa using hi
  | cons st rest ih =>
    intro n s s1 h hok hi
    have h' : (match RunIteration st s with
      | none => none
      | some s2 => RunIterations rest s2) = some s1 := h
    cases hr : RunIteration st s with
    | none => rw [hr] at h'; cases h'
    | some s2 =>
      rw [hr] at h'
      have ho := opcycles_nonneg st
      have hstep : (n + st.opcycles < 500000 ∧ s2.keyb_irqcount = 500000 - (n + st.opcycles) ∧
            s2.port 0x00 &&& 0x02 ≠ 0) ∨
          (500000 ≤ n + st.opcycles ∧ s2.keyb_irqcount ≤ 0 ∧ s2.port 0x00 &&& 0x02 = 0) := by
        unfold RunIteration at hr
        cases hb : busOps st.ops s with
        | none => rw [hb] at hr; cases hr
        | some s3 =>
          rw [hb] at hr
          cases hr
          obtain ⟨b1, b2⟩ := busOps_keyb st.ops s s3 (hok st (List.mem_cons_self _ _)) hb
          obtain ⟨r1, r2⟩ := RunAfterStep_keyb st.opcycles s3
          rw [b2] at r1 r2
          rw [b1] at r2
          rw [r1, r2]
          rcases hi with ⟨i1, i2, i3⟩ | ⟨i1, i2, i3⟩
          · rw [i2, if_pos (by omega)]
            by_cases c : n + st.opcycles < 500000
            · left
              rw [if_neg (by omega)]
              exact ⟨c, by ring, i3⟩
            · right
              rw [if_pos (by omega)]
              exact ⟨by omega, by omega, rfl⟩
          · right
            rw [if_neg (by omega), if_pos i2]
            exact ⟨by omega, i2, rfl⟩
      have := ih (n + st.opcycles) s2 s1 h'
        (fun st h' => hok st (List.mem_cons_of_mem _ h')) hstep
      simp only [List.map_cons, List.sum_cons]
      rw [← add_assoc]
      exact this

theorem TO8key_press_irq (k : Nat) (hk : k ≤ 0x4f) (s : State) :
    ∃ s0, TO8key (k : Int) true s = some s0 ∧ s0.port 0x00 = s.port 0x00 ||| 0x82 ∧
      s0.keyb_irqcount = 500000 ∧ s0.dc6809_irq = 1 := by
  refine ⟨_, TO8key_press k hk s, ?_, rfl, rfl⟩
  have h1 : ∀ (t : State) (i c : Nat), (t.setMem s.moniteur i c).port = t.port :=
    fun t i c => (congrArg State.port (regs_setMem t s.moniteur i c) :
      (t.setMem s.moniteur i c).regs.port = t.regs.port)
  rw [(TO8keyIrq_port _).2, h1, h1]
  rfl

/-- C17: `TO8key(sc, true)` with `sc` in `0..0x4F` returns with the IRQ line
asserted and bit 1 of `port[0x00]` set; and if no further key event and no bus
write to `E7C0` or `E7C3` occurs, then at the end of every later iteration of
`Run` bit 1 of `port[0x00]` is set iff the cycles accumulated since the press
are below 500000: it is set while they are below 500000, clear at the first
boundary where they reach 500000, and clear at every boundary after it. -/
theorem keyboard_irq_window (k : Nat) (s : State) (hk : k ≤ 0x4f) :
    ∃ s0, TO8key (k : Int) true s = some s0 ∧ s0.dc6809_irq = 1 ∧
      s0.port 0x00 &&& 0x02 ≠ 0 ∧ s0.keyb_irqcount = 500000 ∧
      ∀ steps s1, (∀ st ∈ steps, ∀ op ∈ st.ops, notKeybWrite op) →
        RunIterations steps s0 = some s1 →
        (s1.port 0x00 &&& 0x02 ≠ 0 ↔ (steps.map CpuStep.opcycles).sum < 500000) := by
  obtain ⟨s0, h0, h4, h5, h6⟩ := TO8key_press_irq k hk s
  have hb : s0.port 0x00 &&& 0x02 ≠ 0 := by rw [h4]; exact or_82_02 _
  refine ⟨s0, h0, h6, hb, h5, fun steps s1 hok hr => ?_⟩
  have := keyb_irq_steps steps 0 s0 s1 hr hok (Or.inl ⟨by decide, by rw [h5]; rfl, hb⟩)
  rw [zero_add] at this
  rcases this with ⟨t1, _, t3⟩ | ⟨t1, _, t3⟩
  · exact ⟨fun _ => t1, fun _ => t3⟩
  · exact ⟨fun h => absurd t3 h, fun h => absurd h (by omega)⟩

theorem exKeyStep_keyb : ∀ st ∈ [exKeyStep], ∀ op ∈ st.ops, notKeybWrite op := by
  intro st hst op hop c
  rw [List.mem_singleton] at hst
  subst hst
  simp only [exKeyStep, List.mem_singleton] at hop
  subst hop
  exact ⟨fun e => BusOp.noConfusion e, fun e => BusOp.noConfusion e⟩

theorem keyboard_irq_window_witness :
    (0x10 : Nat) ≤ 0x4f ∧
    (∃ s0, TO8key ((0x10 : Nat) : Int) true exReset = some s0 ∧ s0.dc6809_irq = 1 ∧
      s0.port 0x00 &&& 0x02 ≠ 0 ∧ s0.keyb_irqcount = 500000 ∧
      ∀ steps s1, (∀ st ∈ steps, ∀ op ∈ st.ops, notKeybWrite op) →
        RunIterations steps s0 = some s1 →
        (s1.port 0x00 &&& 0x02 ≠ 0 ↔ (steps.map CpuStep.opcycles).sum < 500000)) ∧
    TO8key ((0x10 : Nat) : Int) true exReset = some exKey ∧
    (∀ st ∈ [exKeyStep], ∀ op ∈ st.ops, notKeybWrite op) ∧
    RunIterations [exKeyStep] exKey = some exKeyRun ∧
    exKeyRun.port 0x00 &&& 0x02 ≠ 0 ∧ ([exKeyStep].map CpuStep.opcycles).sum < 500000 :=
  ⟨by decide, keyboard_irq_window 0x10 exReset (by decide), rfl, exKeyStep_keyb, rfl,
    by decide, by decide⟩

set_option maxRecDepth 1000000 in
theorem byte_and_inot : ∀ m ∈ [0x01, 0x02, 0x04, 0x08, 0x10, 0x20, 0x40, 0x80], ∀ p < 256,
    iand ((p : Nat) : Int) (inot ((m : Nat) : Int)) = ((p &&& (0xff ^^^ m) : Nat) : Int) := by
  decide

set_option maxRecDepth 1000000 in
theorem byte_axis_bit : ∀ k < 8, ∀ p < 256,
    (p &&& (0xff ^^^ (1 <<< k))) &&& (1 <<< k) = 0 ∧ (p ||| (1 <<< k)) &&& (1 <<< k) = 1 <<< k := by
  decide

theorem axis_mask_mem : ∀ k < 8,
    (1 <<< k) ∈ [0x01, 0x02, 0x04, 0x08, 0x10, 0x20, 0x40, 0x80] ∧ 1 <<< k < 256 ∧
    0 < 1 <<< k ∧ 1 <<< (k ^^^ 1) < 256 := by
  decide

theorem JoysemulBit_eq (k : Nat) (hk : k < 8) (s : State) :
    JoysemulBit k s =
      if iand s.joysposition ((1 <<< (k ^^^ 1) : Nat) : Int) ≠ 0 then ((1 <<< k : Nat) : Int)
      else 0 := by
  interval_cases k <;> rfl

theorem exJoySouth_reachable : Reachable exRoms exJoySouth :=
  ReachableBy.step exReset_reachable (Step.joy 1 true (by decide))

/-- C18, as stated, fails: with the joystick pushed south (axis 1 on, bit
`0x02` of `joysposition` clear), `Joysemul(0, true)` changes nothing, so bit
`1 << 0` of `joysposition` stays set. -/
theorem joystick_axis_counterexample :
    Reachable exRoms exJoySouth ∧ exJoySouth.joysposition = 0xfd ∧
    (Joysemul 0 true exJoySouth).joysposition = 0xfd ∧
    iand (Joysemul 0 true exJoySouth).joysposition 0x01 ≠ 0 :=
  ⟨exJoySouth_reachable, by decide, by decide, by decide⟩

/-- C18, amended: for joystick bytes `joysposition = p` and `joysaction = a`
and every direction axis `k` in `0..7`: when the bit of the opposite direction
(`1 << (k xor 1)`) is set in `p`, `Joysemul(k, true)` clears bit `1 << k` of
`joysposition` and `Joysemul(k, false)` sets it, no other bit changing; when
the opposite bit is clear, `Joysemul(k, ·)` changes nothing.  For the button
axes 8 and 9, `Joysemul(axis, true)` clears and `Joysemul(axis, false)` sets
bit `0x40` respectively `0x80` of `joysaction`, no other bit changing.  A
direction axis leaves `joysaction`, a button axis leaves `joysposition`. -/
theorem joystick_axis_bits (s : State) (p a : Nat) (hp : s.joysposition = (p : Int))
    (hpl : p < 256) (ha : s.joysaction = (a : Int)) (hal : a < 256) :
    (∀ k < 8,
      (p &&& (1 <<< (k ^^^ 1)) ≠ 0 →
        (Joysemul k true s).joysposition = ((p &&& (0xff ^^^ (1 <<< k)) : Nat) : Int) ∧
        (p &&& (0xff ^^^ (1 <<< k))) &&& (1 <<< k) = 0 ∧
        (Joysemul k false s).joysposition = ((p ||| (1 <<< k) : Nat) : Int) ∧
        (p ||| (1 <<< k)) &&& (1 <<< k) = 1 <<< k) ∧
      (p &&& (1 <<< (k ^^^ 1)) = 0 → Joysemul k true s = s ∧ Joysemul k false s = s) ∧
      (Joysemul k true s).joysaction = s.joysaction ∧
      (Joysemul k false s).joysaction = s.joysaction) ∧
    (Joysemul 8 true s).joysaction = ((a &&& 0xbf : Nat) : Int) ∧
    (Joysemul 8 false s).joysaction = ((a ||| 0x40 : Nat) : Int) ∧
    (Joysemul 9 true s).joysaction = ((a &&& 0x7f : Nat) : Int) ∧
    (Joysemul 9 false s).joysaction = ((a ||| 0x80 : Nat) : Int) ∧
    (∀ b, (Joysemul 8 b s).joysposition = s.joysposition ∧
      (Joysemul 9 b s).joysposition = s.joysposition) := by
  refine ⟨fun k hk => ?_, ?_, ?_, ?_, ?_, ?_⟩
  · obtain ⟨m1, m2, m3, m4⟩ := axis_mask_mem k hk
    have hbit := JoysemulBit_eq k hk s
    have hopp : iand s.joysposition ((1 <<< (k ^^^ 1) : Nat) : Int) =
        ((p &&& (1 <<< (k ^^^ 1)) : Nat) : Int) := by
      rw [hp, iand_natCast p _ (by omega) (by omega)]
    rw [hopp] at hbit
    have k8 : ¬ (k = 8) := by omega
    have k9 : ¬ (k = 9) := by omega
    refine ⟨fun h => ?_, fun h => ?_, ?_, ?_⟩
    · have hn : ((p &&& (1 <<< (k ^^^ 1)) : Nat) : Int) ≠ 0 := by
        intro e; exact h (by exact_mod_cast e)
      rw [if_pos hn] at hbit
      have hpos : JoysemulBit k s > 0 := by rw [hbit]; exact_mod_cast m3
      refine ⟨?_, (byte_axis_bit k hk p hpl).1, ?_, (byte_axis_bit k hk p hpl).2⟩
      · unfold Joysemul
        rw [if_neg k8, if_neg k9, if_pos hpos]
        show iand s.joysposition (inot (JoysemulBit k s)) = _
        rw [hbit, hp]
        exact byte_and_inot _ m1 p hpl
      · unfold Joysemul
        rw [if_neg k8, if_neg k9, if_pos hpos]
        show ior s.joysposition (JoysemulBit k s) = _
        rw [hbit, hp]
        exact ior_natCast p _ (by omega) (by omega)
    · have hn : ¬ (((p &&& (1 <<< (k ^^^ 1)) : Nat) : Int) ≠ 0) := by
        rw [h]; exact fun e => e rfl
      rw [if_neg hn] at hbit
      have hpos : ¬ (JoysemulBit k s > 0) := by rw [hbit]; decide
      constructor
      · unfold Joysemul
        rw [if_neg k8, if_neg k9, if_neg hpos]
      · unfold Joysemul
        rw [if_neg k8, if_neg k9, if_neg hpos]
    · unfold Joysemul
      rw [if_neg k8, if_neg k9]
      by_cases hpos : JoysemulBit k s > 0
      · rw [if_pos hpos]; rfl
      · rw [if_neg hpos]
    · unfold Joysemul
      rw [if_neg k8, if_neg k9]
      by_cases hpos : JoysemulBit k s > 0
      · rw [if_pos hpos]; rfl
      · rw [if_neg hpos]
  · show iand s.joysaction 0xbf = _
    rw [ha]
    exact iand_natCast a 0xbf (by omega) (by norm_num)
  · show ior s.joysaction 0x40 = _
    rw [ha]
    exact ior_natCast a 0x40 (by omega) (by norm_num)
  · show iand s.joysaction 0x7f = _
    rw [ha]
    exact iand_natCast a 0x7f (by omega) (by norm_num)
  · show ior s.joysaction 0x80 = _
    rw [ha]
    exact ior_natCast a 0x80 (by omega) (by norm_num)
  · intro b
    cases b <;> exact ⟨rfl, rfl⟩

theorem joystick_axis_bits_witness :
    exReset.joysposition = ((0xff : Nat) : Int) ∧ (0xff : Nat) < 256 ∧
    exReset.joysaction = ((0xc0 : Nat) : Int) ∧ (0xc0 : Nat) < 256 ∧
    (0xff : Nat) &&& (1 <<< (1 ^^^ 1)) ≠ 0 ∧
    ((Joysemul 1 true exReset).joysposition = ((0xff &&& (0xff ^^^ (1 <<< 1)) : Nat) : Int) ∧
      (0xff &&& (0xff ^^^ (1 <<< 1))) &&& (1 <<< 1) = 0 ∧
      (Joysemul 1 false exReset).joysposition = ((0xff ||| (1 <<< 1) : Nat) : Int) ∧
      (0xff ||| (1 <<< 1)) &&& (1 <<< 1) = 1 <<< 1) ∧
    (Joysemul 8 true exReset).joysaction = ((0xc0 &&& 0xbf : Nat) : Int) :=
  ⟨by decide, by decide, by decide, by decide, by decide,
    ((joystick_axis_bits exReset 0xff 0xc0 (by decide) (by decide) (by decide)
      (by decide)).1 1 (by decide)).1 (by decide),
    (joystick_axis_bits exReset 0xff 0xc0 (by decide) (by decide) (by decide)
      (by decide)).2.1⟩

/-! ## The sound level and the operations of the core -/

theorem Timercontrol_sound (s : State) (c : Nat) :
    (MputE7C5 c s).sound = s.sound := by
  unfold MputE7C5 Timercontrol
  by_cases c5 : (setAt s.port 0x05 c) 0x05 &&& 0x01 ≠ 0
  · rw [if_pos c5] <;> exact rfl
  · rw [if_neg c5] <;> exact rfl

theorem Palettecolor_sound (c : Nat) (s s1 : State) (h : Palettecolor c s = some s1) :
    s1.sound = s.sound := by
  unfold Palettecolor at h
  by_cases hr : 0 ≤ charToInt (s.port 0x1b) ∧ charToInt (s.port 0x1b) < (PALETTE_SIZE : Int)
  · rw [if_pos hr] at h
    by_cases ho : iand (charToInt (s.port 0x1b)) 1 ≠ 0
    · rw [if_pos ho] at h; cases h; exact rfl
    · rw [if_neg ho] at h; cases h; exact rfl
  · rw [if_neg hr] at h; cases h

/-- A bus write on the I/O page other than to `E7CD` leaves `sound`. -/
theorem MputPage_sound (a c : Nat) (s s1 : State) (h : MputPage a c s = some s1)
    (n8 : a ≠ 0xe7cd) :
    s1.sound = s.sound := by
  revert h
  apply MputPage_cases a c s (fun r => r = some s1 → s1.sound = s.sound)
  case h0 => intro _ h; cases h; exact rfl
  case h1 => intro _ h; cases h; exact rfl
  case h2 =>
    intro _ h; cases h
    unfold MputE7C3
    rw [TO8rombank_frame] <;> exact rfl
  case h3 => intro _ h; cases h; exact Timercontrol_sound s c
  case h4 => intro _ h; cases h; exact rfl
  case h5 => intro _ h; cases h; exact rfl
  case h6 =>
    intro _ h; cases h
    unfold MputE7C9
    rw [TO8rambank_frame] <;> exact rfl
  case h7 => intro _ h; cases h; exact rfl
  case h8 => intro e; exact absurd e n8
  case h9 => intro _ h; cases h; exact rfl
  case h10 => intro _ h; cases h; exact rfl
  case h11 => intro _ h; cases h; exact rfl
  case h12 => intro _ h; exact Palettecolor_sound c s s1 h
  case h13 => intro _ h; cases h; exact rfl
  case h14 => intro _ h; cases h; exact rfl
  case h15 => intro _ h; cases h; exact rfl
  case h16 => intro _ h; cases h; exact rfl
  case h17 =>
    intro _ h; cases h
    unfold MputE7E5
    rw [TO8rambank_frame] <;> exact rfl
  case h18 =>
    intro _ h; cases h
    unfold MputE7E6
    rw [TO8rombank_frame] <;> exact rfl
  case h19 =>
    intro _ h; cases h
    unfold MputE7E7
    rw [TO8rambank_frame] <;> exact rfl
  case hd => intros; rename_i h; cases h; exact rfl

theorem Mputto8d_sound (a c : Nat) (s s1 : State) (h : Mputto8d a c s = some s1)
    (n8 : a ≠ 0xe7cd) :
    s1.sound = s.sound := by
  rcases Mputto8d_shape a c s s1 h with ⟨_, hio⟩ | ⟨_, t, ht, hs⟩
  · exact MputPage_sound a c s s1 hio n8
  · have e1 : t.sound = s.sound := by
      rcases ht with rfl | rfl
      · exact rfl
      · unfold MputBankSwitch
        rw [TO8rombank_frame] <;> exact rfl
    rcases hs with rfl | ⟨r, i, rfl⟩
    · exact e1
    · cases r <;> exact e1

theorem Mgetto8d_sound (a v : Nat) (s s1 : State) (h : Mgetto8d a s = some (v, s1)) :
    s1.sound = s.sound := by
  rcases Mgetto8d_state a v s s1 h with rfl | ⟨_, rfl⟩ | ⟨_, rfl⟩
  · exact rfl
  · exact rfl
  · exact rfl

theorem RunTimerIrqCount_sound (o : Int) (s : State) :
    (RunTimerIrqCount o s).sound = s.sound := by
  unfold RunTimerIrqCount
  by_cases c : s.timer_irqcount > 0
  · rw [if_pos c] <;> exact rfl
  · rw [if_neg c] <;> exact rfl

theorem RunTimerIrqClear_sound (_o : Int) (s : State) :
    (RunTimerIrqClear s).sound = s.sound := by
  unfold RunTimerIrqClear
  by_cases c : s.timer_irqcount ≤ 0
  · rw [if_pos c] <;> exact rfl
  · rw [if_neg c] <;> exact rfl

theorem RunKeybIrqCount_sound (o : Int) (s : State) :
    (RunKeybIrqCount o s).sound = s.sound := by
  unfold RunKeybIrqCount
  by_cases c : s.keyb_irqcount > 0
  · rw [if_pos c] <;> exact rfl
  · rw [if_neg c] <;> exact rfl

theorem RunKeybIrqClear_sound (_o : Int) (s : State) :
    (RunKeybIrqClear s).sound = s.sound := by
  unfold RunKeybIrqClear
  by_cases c : s.keyb_irqcount ≤ 0
  · rw [if_pos c] <;> exact rfl
  · rw [if_neg c] <;> exact rfl

theorem RunIrqComposite_sound (_o : Int) (s : State) :
    (RunIrqComposite s).sound = s.sound := by
  unfold RunIrqComposite
  by_cases c : s.port 0x00 &&& 0x07 = 0
  · rw [if_pos c] <;> exact rfl
  · rw [if_neg c] <;> exact rfl

theorem RunCountdown_sound (o : Int) (s : State) :
    (RunCountdown o s).sound = s.sound := by
  unfold RunCountdown
  by_cases c : s.port 0x05 &&& 0x01 = 0
  · rw [if_pos c] <;> exact rfl
  · rw [if_neg c] <;> exact rfl

theorem RunTimeout_sound (_o : Int) (s : State) :
    (RunTimeout s).sound = s.sound := by
  unfold RunTimeout
  by_cases c : s.timer6846 ≤ 5
  · rw [if_pos c] <;> exact rfl
  · rw [if_neg c] <;> exact rfl

theorem RunTail_sound (o : Int) (s : State) :
    (RunTimeout (RunCountdown o (RunIrq o s))).sound = s.sound := by
  unfold RunIrq
  have e0 := RunTimerIrqCount_sound o s
  have e1 := RunTimerIrqClear_sound o (RunTimerIrqCount o s)
  have e2 := RunKeybIrqCount_sound o (RunTimerIrqClear (RunTimerIrqCount o s))
  have e3 := RunKeybIrqClear_sound o (RunKeybIrqCount o (RunTimerIrqClear (RunTimerIrqCount o s)))
  have e4 := RunIrqComposite_sound o (RunKeybIrqClear (RunKeybIrqCount o (RunTimerIrqClear (RunTimerIrqCount o s))))
  have e5 := RunCountdown_sound o (RunIrqComposite (RunKeybIrqClear (RunKeybIrqCount o (RunTimerIrqClear (RunTimerIrqCount o s)))))
  have e6 := RunTimeout_sound o (RunCountdown o (RunIrqComposite (RunKeybIrqClear (RunKeybIrqCount o (RunTimerIrqClear (RunTimerIrqCount o s))))))
  exact (e6.trans (e5.trans (e4.trans (e3.trans (e2.trans (e1.trans e0))))))

theorem RunVideo_sound (o : Int) (s : State) :
    (RunVideo o s).sound = s.sound := by
  unfold RunVideo
  by_cases c : (RunVideoCycle o s).videolinecycle ≥ 64
  · rw [if_pos c]
    unfold RunVideoFlag RunVideoNextLine
    by_cases c2 : (RunVideoEndLine (RunVideoCycle o s)).videolinenumber + 1 > 311
    · rw [if_pos c2] <;> exact rfl
    · rw [if_neg c2] <;> exact rfl
  · rw [if_neg c] <;> exact rfl

theorem RunAfterStep_sound (o : Int) (s : State) :
    (RunAfterStep o s).sound = s.sound := by
  have e1 := RunTail_sound o (RunVideo o s)
  have e2 := RunVideo_sound o s
  exact e1.trans e2

theorem MputPage_e7cd (c : Nat) (s : State) : MputPage 0xe7cd c s = some (MputE7CD c s) := rfl

theorem Mputto8d_e7cd (c : Nat) (s : State) : Mputto8d 0xe7cd c s = some (MputE7CD c s) := rfl

/-- A bus write keeps `sound` within `0..63`. -/
theorem Mputto8d_sound_ok (a c : Nat) (s s1 : State) (h : Mputto8d a c s = some s1)
    (hs : 0 ≤ s.sound ∧ s.sound ≤ 63) : 0 ≤ s1.sound ∧ s1.sound ≤ 63 := by
  by_cases ha : a = 0xe7cd
  · subst ha
    rw [Mputto8d_e7cd] at h
    cases h
    unfold MputE7CD
    by_cases c4 : s.port 0x0f &&& 4 ≠ 0
    · rw [if_pos c4]
      show 0 ≤ ((c &&& MAX_SOUND_LEVEL : Nat) : Int) ∧ ((c &&& MAX_SOUND_LEVEL : Nat) : Int) ≤ 63
      have : c &&& MAX_SOUND_LEVEL ≤ 63 := Nat.and_le_right
      omega
    · rw [if_neg c4]
      exact hs
  · rw [Mputto8d_sound a c s s1 h ha]
    exact hs

theorem busOps_sound_ok (ops : List BusOp) (s s1 : State) (h : busOps ops s = some s1)
    (hs : 0 ≤ s.sound ∧ s.sound ≤ 63) : 0 ≤ s1.sound ∧ s1.sound ≤ 63 := by
  induction ops generalizing s with
  | nil => cases h; exact hs
  | cons op rest ih =>
    unfold busOps at h
    cases ho : busOp op s with
    | none => rw [ho] at h; cases h
    | some s2 =>
      rw [ho] at h
      refine ih s2 h ?_
      cases op with
      | get a =>
        have ho' : (Mgetto8d a s).map Prod.snd = some s2 := ho
        cases hg : Mgetto8d a s with
        | none => rw [hg] at ho'; cases ho'
        | some r =>
          obtain ⟨v, s3⟩ := r
          rw [hg] at ho'
          simp only [Option.map_some'] at ho'
          cases ho'
          rw [Mgetto8d_sound a v s _ hg]
          exact hs
      | put a c => exact Mputto8d_sound_ok a c s s2 ho hs

theorem TO8key_sound (scancode : Int) (down : Bool) (s s1 : State)
    (h : TO8key scancode down s = some s1) : s1.sound = s.sound := by
  unfold TO8key at h
  by_cases c : 0 ≤ scancode ∧ scancode < (KEYBOARDKEY_MAX : Int)
  · rw [if_pos c] at h
    by_cases c2 : (TO8keyTouche scancode down s).touche scancode.toNat ≠ 0
    · rw [if_pos c2] at h
      cases h
      unfold TO8keyRelease
      by_cases c3 : (List.range 0x50).any
          (fun i => (TO8keyTouche scancode down s).touche i == 0) = true
      · rw [if_pos c3]; rfl
      · rw [if_neg c3]; rfl
    · rw [if_neg c2] at h
      unfold TO8keyPress at h
      by_cases c3 : scancode > 0x4f
      · rw [if_pos c3] at h
        cases h
        rfl
      · rw [if_neg c3] at h
        unfold TO8keyCode at h
        cases h1 : store (TO8keyCapslock scancode (TO8keyTouche scancode down s))
            (ptr (TO8keyCapslock scancode (TO8keyTouche scancode down s)).moniteur 0) 0x30f8
            (toChar (ior scancode
              (TO8keyShift scancode (TO8keyCapslock scancode (TO8keyTouche scancode down s))))) with
        | none => rw [h1] at h; cases h
        | some t1 =>
          rw [h1] at h
          have p1 : t1.sound = s.sound :=
            (congrArg State.sound (regs_store _ _ _ _ _ h1) : t1.regs.sound = _)
          cases h2 : store t1 (ptr t1.moniteur 0) 0x3125 (if t1.touche 0x53 ≠ 0 then 0 else 1) with
          | none =>
            have h' : (match store t1 (ptr t1.moniteur 0) 0x3125
                (if t1.touche 0x53 ≠ 0 then 0 else 1) with
              | none => none
              | some s2 => some (TO8keyIrq s2)) = some s1 := h
            rw [h2] at h'; cases h'
          | some t2 =>
            have h' : (match store t1 (ptr t1.moniteur 0) 0x3125
                (if t1.touche 0x53 ≠ 0 then 0 else 1) with
              | none => none
              | some s2 => some (TO8keyIrq s2)) = some s1 := h
            rw [h2] at h'
            have p2 : t2.sound = t1.sound :=
              (congrArg State.sound (regs_store _ _ _ _ _ h2) : t2.regs.sound = _)
            cases h'
            show t2.sound = s.sound
            rw [p2, p1]
  · rw [if_neg c] at h
    cases h

theorem Joysemul_sound (axis : Nat) (isOn : Bool) (s : State) :
    (Joysemul axis isOn s).sound = s.sound := by
  unfold Joysemul
  by_cases c8 : axis = 8
  · rw [if_pos c8]
    cases isOn <;> rfl
  rw [if_neg c8]
  by_cases c9 : axis = 9
  · rw [if_pos c9]
    cases isOn <;> rfl
  rw [if_neg c9]
  by_cases cn : JoysemulBit axis s > 0
  · rw [if_pos cn]
    cases isOn <;> rfl
  · rw [if_neg cn]

theorem Hardreset_sound (roms : RomHeaders) (date : Nat → Nat) (s s1 : State)
    (h : Hardreset roms date s = some s1) : s1.sound = 0 := by
  obtain ⟨m, _, rfl⟩ := Hardreset_eq roms date s s1 h
  rfl

theorem sound_step (roms : RomHeaders) (s s1 : State) (hs : 0 ≤ s.sound ∧ s.sound ≤ 63)
    (h : Step roms (fun _ => True) s s1) : 0 ≤ s1.sound ∧ s1.sound ≤ 63 := by
  cases h with
  | put a c _ _ _ hm => exact Mputto8d_sound_ok a c s s1 hm hs
  | get a v _ _ hm => rw [Mgetto8d_sound a v s s1 hm]; exact hs
  | run st _ hm =>
    unfold RunIteration at hm
    cases hb : busOps st.ops s with
    | none => rw [hb] at hm; cases hm
    | some s2 =>
      rw [hb] at hm
      cases hm
      rw [RunAfterStep_sound]
      exact busOps_sound_ok st.ops s s2 hb hs
  | key sc down hm => rw [TO8key_sound sc down s s1 hm]; exact hs
  | joy axis isOn _ => rw [Joysemul_sound]; exact hs
  | reset date hm => rw [Hardreset_sound roms date s s1 hm]; decide
  | flavor date f hm =>
    unfold SetThomsonFlavor at hm
    by_cases c : f ≠ s.currentFlavor
    · rw [if_pos c] at hm
      rw [Hardreset_sound roms date _ s1 hm]; decide
    · rw [if_neg c] at hm
      cases hm
      exact hs

/-- In every reachable state `sound` is within `0..63`. -/
theorem sound_reachable (roms : RomHeaders) (s : State) (h : Reachable roms s) :
    0 ≤ s.sound ∧ s.sound ≤ 63 := by
  induction h with
  | start basic m8 m8d date hm => rw [Hardreset_sound roms date _ _ hm]; decide
  | step _ hs ih => exact sound_step roms _ _ ih hs

/-- C19: for every sound level in `0..63`, `GetAudioSample` returns exactly
`(sound * 65535) / 63 - 32768` (integer division); the value lies in
`[-32768, 32767]`, so the conversion to `int16_t` changes nothing; it is
`-32768` at `sound = 0` and `32767` at `sound = 63`, and it is strictly
increasing in `sound`.  In every state reachable from hard reset `sound` is
within `0..63`. -/
theorem audio_sample_value (roms : RomHeaders) (s t : State)
    (hs : 0 ≤ s.sound ∧ s.sound ≤ 63) (ht : 0 ≤ t.sound ∧ t.sound ≤ 63) :
    GetAudioSample s = s.sound * 65535 / 63 - 32768 ∧
    GetAudioSample s = GetAudioSampleInt s ∧
    -32768 ≤ GetAudioSample s ∧ GetAudioSample s ≤ 32767 ∧
    (s.sound = 0 → GetAudioSample s = -32768) ∧
    (s.sound = 63 → GetAudioSample s = 32767) ∧
    (s.sound < t.sound → GetAudioSample s < GetAudioSample t) ∧
    (∀ r, Reachable roms r → 0 ≤ r.sound ∧ r.sound ≤ 63) := by
  have key : ∀ u : State, 0 ≤ u.sound ∧ u.sound ≤ 63 →
      GetAudioSampleInt u = u.sound * 65535 / 63 - 32768 ∧
      GetAudioSample u = u.sound * 65535 / 63 - 32768 := by
    intro u hu
    have e1 : GetAudioSampleInt u = u.sound * 65535 / 63 - 32768 := by
      unfold GetAudioSampleInt MAX_SOUND_LEVEL
      rw [Int.tdiv_eq_ediv (by omega) (by decide)]
      rfl
    refine ⟨e1, ?_⟩
    unfold GetAudioSample toInt16
    rw [e1]
    omega
  obtain ⟨a1, a2⟩ := key s hs
  obtain ⟨_, b2⟩ := key t ht
  refine ⟨a2, by rw [a1, a2], by rw [a2]; omega, by rw [a2]; omega, fun h => ?_, fun h => ?_,
    fun h => ?_, fun r hr => sound_reachable roms r hr⟩
  · rw [a2, h]; rfl
  · rw [a2, h]; rfl
  · rw [a2, b2]; omega

theorem audio_sample_value_witness :
    (0 ≤ exReset.sound ∧ exReset.sound ≤ 63) ∧ (0 ≤ exSound.sound ∧ exSound.sound ≤ 63) ∧
    exReset.sound = 0 ∧ exSound.sound = 63 ∧ exReset.sound < exSound.sound ∧
    GetAudioSample exReset = -32768 ∧ GetAudioSample exSound = 32767 ∧
    GetAudioSample exReset < GetAudioSample exSound :=
  ⟨by decide, by decide, by decide, by decide, by decide,
    (audio_sample_value exRoms exReset exSound (by decide) (by decide)).2.2.2.2.1 (by decide),
    (audio_sample_value exRoms exSound exReset (by decide) (by decide)).2.2.2.2.2.1 (by decide),
    (audio_sample_value exRoms exReset exSound (by decide) (by decide)).2.2.2.2.2.2.1
      (by decide)⟩

/-! ## Hard reset and the RAM and cartridge arrays -/

theorem store_rom (s s1 : State) (r : Region) (k a : Int) (c : Nat)
    (h : store s (ptr r k) a c = some s1) (hr : r ≠ .ram) (hc : r ≠ .car) :
    s1.ram = s.ram ∧ s1.car = s.car := by
  obtain ⟨r1, i, hi, e⟩ := store_eq s s1 _ a c h
  have := index_base _ _ _ _ _ hi
  subst this
  subst e
  cases r1 with
  | ram => exact absurd rfl hr
  | car => exact absurd rfl hc
  | to8dbasic => exact ⟨rfl, rfl⟩
  | to8moniteur => exact ⟨rfl, rfl⟩
  | to8dmoniteur => exact ⟨rfl, rfl⟩

theorem storeAll_rom (r : Region) (k : Int) (hr : r ≠ .ram) (hc : r ≠ .car)
    (l : List (Int × Nat)) (s s1 : State) (h : storeAll (ptr r k) l s = some s1) :
    s1.ram = s.ram ∧ s1.car = s.car := by
  induction l generalizing s with
  | nil => cases h; exact ⟨rfl, rfl⟩
  | cons ac rest ih =>
    obtain ⟨a, c⟩ := ac
    unfold storeAll at h
    cases hs : store s (ptr r k) a c with
    | none => rw [hs] at h; cases h
    | some s2 =>
      rw [hs] at h
      obtain ⟨e1, e2⟩ := store_rom s s2 r k a c hs hr hc
      obtain ⟨f1, f2⟩ := ih s2 h
      exact ⟨f1.trans e1, f2.trans e2⟩

theorem TO8dpatchBytes_rom (r : Region) (k : Int) (hr : r ≠ .ram) (hc : r ≠ .car) (n : Nat)
    (a : Int) (s : State) (l : List Int) (s1 : State) (l1 : List Int)
    (h : TO8dpatchBytes (ptr r k) n a s l = some (s1, l1)) :
    s1.ram = s.ram ∧ s1.car = s.car := by
  induction n generalizing a s l with
  | zero =>
    unfold TO8dpatchBytes at h
    cases h; exact ⟨rfl, rfl⟩
  | succ n ih =>
    cases l with
    | nil => unfold TO8dpatchBytes at h; cases h
    | cons b rest =>
      unfold TO8dpatchBytes at h
      cases hs : store s (ptr r k) a (toChar b) with
      | none => rw [hs] at h; cases h
      | some s2 =>
        rw [hs] at h
        obtain ⟨e1, e2⟩ := store_rom s s2 r k a _ hs hr hc
        obtain ⟨f1, f2⟩ := ih (a + 1) s2 rest h
        exact ⟨f1.trans e1, f2.trans e2⟩

theorem TO8dpatchLoop_rom (r : Region) (k : Int) (hr : r ≠ .ram) (hc : r ≠ .car) (fuel : Nat)
    (s : State) (l : List Int) (s1 : State) (h : TO8dpatchLoop (ptr r k) fuel s l = some s1) :
    s1.ram = s.ram ∧ s1.car = s.car := by
  induction fuel generalizing s l with
  | zero => unfold TO8dpatchLoop at h; cases h
  | succ fuel ih =>
    cases l with
    | nil => unfold TO8dpatchLoop at h; cases h
    | cons n rest =>
      unfold TO8dpatchLoop at h
      by_cases hn : n = 0
      · rw [if_pos hn] at h; cases h; exact ⟨rfl, rfl⟩
      · rw [if_neg hn] at h
        match rest, h with
        | a0 :: a1 :: rest2, h =>
          simp only [] at h
          cases hb : TO8dpatchBytes (ptr r k) n.toNat (a0 + a1) s rest2 with
          | none => rw [hb] at h; cases h
          | some q =>
            obtain ⟨s2, rest3⟩ := q
            rw [hb] at h
            obtain ⟨e1, e2⟩ := TO8dpatchBytes_rom r k hr hc _ _ s rest2 s2 rest3 hb
            obtain ⟨f1, f2⟩ := ih s2 rest3 h
            exact ⟨f1.trans e1, f2.trans e2⟩
        | [], h => cases h
        | [_], h => cases h

theorem Initprog_memory (s : State) : (Initprog s).ram = s.ram ∧ (Initprog s).car = s.car := by
  unfold Initprog Reset6809
  rw [TO8rombank_frame, TO8rambank_frame]
  exact ⟨rfl, rfl⟩

/-- The hard reset leaves in `ram` and `car` what its clearing loops wrote: the
ROM patches and the date go to the ROM arrays. -/
theorem Hardreset_memory (roms : RomHeaders) (date : Nat → Nat) (s s1 : State)
    (hf : FlavorOK s) (h : Hardreset roms date s = some s1) :
    s1.ram = (HardresetMemory s).ram ∧ s1.car = (HardresetMemory s).car := by
  obtain ⟨hb, _, hm, _⟩ := hf
  have hmon : s.moniteur ≠ .ram ∧ s.moniteur ≠ .car := by
    rw [hm]
    cases s.currentFlavor <;> exact ⟨by decide, by decide⟩
  have h0 : (match TO8dpatch (ptr s.basic 0) (roms.table s.basicpatch) (HardresetMemory s) with
      | none => none
      | some s =>
        match TO8dpatch (ptr s.moniteur (-0xe000)) (roms.table s.moniteurpatch) s with
        | none => none
        | some s =>
          match HardresetDate date s with
          | none => none
          | some s => some (HardresetTail (Initprog (HardresetCounters s)))) = some s1 := h
  cases h1 : TO8dpatch (ptr s.basic 0) (roms.table s.basicpatch) (HardresetMemory s) with
  | none => rw [h1] at h0; cases h0
  | some s2 =>
    rw [h1] at h0
    have r2 := regs_TO8dpatch _ _ _ s2 h1
    have m2 : s2.moniteur = s.moniteur := (congrArg State.moniteur r2 : s2.regs.moniteur = _)
    have b2 : s2.basic = s.basic := (congrArg State.basic r2 : s2.regs.basic = _)
    obtain ⟨e1, e2⟩ := TO8dpatchLoop_rom s.basic 0 (by rw [hb]; decide) (by rw [hb]; decide)
      _ _ _ s2 h1
    have h0' : (match TO8dpatch (ptr s2.moniteur (-0xe000)) (roms.table s2.moniteurpatch) s2 with
        | none => none
        | some s =>
          match HardresetDate date s with
          | none => none
          | some s => some (HardresetTail (Initprog (HardresetCounters s)))) = some s1 := h0
    cases h2 : TO8dpatch (ptr s2.moniteur (-0xe000)) (roms.table s2.moniteurpatch) s2 with
    | none => rw [h2] at h0'; cases h0'
    | some s3 =>
      rw [h2] at h0'
      have r3 := regs_TO8dpatch _ _ _ s3 h2
      have b3 : s3.basic = s2.basic := (congrArg State.basic r3 : s3.regs.basic = _)
      obtain ⟨f1, f2⟩ := TO8dpatchLoop_rom s2.moniteur (-0xe000) (by rw [m2]; exact hmon.1)
        (by rw [m2]; exact hmon.2) _ _ _ s3 h2
      have h0'' : (match HardresetDate date s3 with
          | none => none
          | some s => some (HardresetTail (Initprog (HardresetCounters s)))) = some s1 := h0'
      cases h3 : HardresetDate date s3 with
      | none => rw [h3] at h0''; cases h0''
      | some s4 =>
        rw [h3] at h0''
        cases h0''
        have hb3 : s3.basic ≠ .ram ∧ s3.basic ≠ .car := by
          rw [b3, b2, hb]; exact ⟨by decide, by decide⟩
        have g : s4.ram = s3.ram ∧ s4.car = s3.car := by
          unfold HardresetDate at h3
          cases h4 : storeAll (ptr s3.basic 0xeb90)
              [(0, date 0), (1, date 1), (2, date 2), (3, date 3), (4, date 4), (5, date 5),
               (6, date 6), (7, date 7), (8, 0)] s3 with
          | none => rw [h4] at h3; cases h3
          | some s5 =>
            rw [h4] at h3
            have b5 : s5.basic = s3.basic :=
              (congrArg State.basic (regs_storeAll _ _ s3 s5 h4) : s5.regs.basic = _)
            obtain ⟨g1, g2⟩ := storeAll_rom s3.basic 0xeb90 hb3.1 hb3.2 _ s3 s5 h4
            obtain ⟨g3, g4⟩ := storeAll_rom s5.basic 0 (by rw [b5]; exact hb3.1)
              (by rw [b5]; exact hb3.2) _ s5 s4 h3
            exact ⟨g3.trans g1, g4.trans g2⟩
        obtain ⟨i1, i2⟩ := Initprog_memory (HardresetCounters s4)
        refine ⟨?_, ?_⟩
        · show (Initprog (HardresetCounters s4)).ram = _
          rw [i1]
          show s4.ram = _
          rw [g.1, f1, e1]
        · show (Initprog (HardresetCounters s4)).car = _
          rw [i2]
          show s4.car = _
          rw [g.2, f2, e2]

set_option maxRecDepth 100000 in
theorem byte_and_80 : ∀ b < 256, b &&& 0x80 = 0 ∨ b &&& 0x80 = 0x80 := by decide

theorem and_80_cases (i : Nat) : i &&& 0x80 = 0 ∨ i &&& 0x80 = 0x80 := by
  rw [and_mask_mod i 0x80 (by norm_num)]
  exact byte_and_80 _ (Nat.mod_lt _ (by norm_num))

/-- The byte the first loop of `Hardreset` writes at index `i`. -/
theorem reset_byte (i : Nat) :
    toChar (-(((i &&& 0x80) >>> 7 : Nat) : Int)) = if i &&& 0x80 = 0 then 0x00 else 0xff := by
  rcases and_80_cases i with h | h
  · rw [h, if_pos rfl]; rfl
  · rw [h, if_neg (by decide)]; rfl

/-- C20: after `Hardreset`, from any prior state whose ROM pointers are those
of its flavor, for every index `i` in `0..524287` the byte `ram[i]` is `0x00`
if bit 7 of `i` is 0 and `0xFF` if bit 7 of `i` is 1 (so `ram[0x007F] == 0x00`
and `ram[0x0080] == 0xFF`), and every byte of `car[0..65535]` is 0. -/
theorem hardreset_ram_pattern (roms : RomHeaders) (date : Nat → Nat) (s s1 : State)
    (hf : FlavorOK s) (h : Hardreset roms date s = some s1) :
    (∀ i < RAM_SIZE, s1.ram i = if i &&& 0x80 = 0 then 0x00 else 0xff) ∧
    s1.ram 0x007f = 0x00 ∧ s1.ram 0x0080 = 0xff ∧
    (∀ i < CARTRIDGE_MEM_SIZE, s1.car i = 0) := by
  obtain ⟨e1, e2⟩ := Hardreset_memory roms date s s1 hf h
  have hram : ∀ i < RAM_SIZE, s1.ram i = if i &&& 0x80 = 0 then 0x00 else 0xff := by
    intro i hi
    rw [e1]
    show (if i < RAM_SIZE then toChar (-(((i &&& 0x80) >>> 7 : Nat) : Int)) else s.ram i) = _
    rw [if_pos hi, reset_byte]
  refine ⟨hram, ?_, ?_, ?_⟩
  · rw [hram 0x007f (by decide)]; rfl
  · rw [hram 0x0080 (by decide)]; rfl
  · intro i hi
    rw [e2]
    show (if i < CARTRIDGE_MEM_SIZE then 0 else s.car i) = 0
    rw [if_pos hi]

theorem hardreset_ram_pattern_witness :
    FlavorOK exStart ∧ Hardreset exRoms exDate exStart = some exReset ∧
    ((∀ i < RAM_SIZE, exReset.ram i = if i &&& 0x80 = 0 then 0x00 else 0xff) ∧
    exReset.ram 0x007f = 0x00 ∧ exReset.ram 0x0080 = 0xff ∧
    (∀ i < CARTRIDGE_MEM_SIZE, exReset.car i = 0)) :=
  ⟨⟨rfl, rfl, rfl, rfl⟩, rfl,
    hardreset_ram_pattern exRoms exDate exStart exReset ⟨rfl, rfl, rfl, rfl⟩ rfl⟩
/-! ## The palette index -/


theorem exPalIdx_reachable : Reachable exRoms exPalIdx :=
  ReachableBy.step exReset_reachable
    (Step.put 0xe7db 0x20 (by decide) (by decide) trivial (rfl : _ = some exPalIdx))

theorem exPalRead_reachable : Reachable exRoms exPalRead :=
  reachable_busOps exRoms exPalReadOps exReset exPalRead exReset_reachable (by decide) rfl

/-- C21 fails in the code: a bus write to `E7DB` stores any byte in
`port[0x1B]`, and the read of `E7DA` increments `port[0x1B]` without a mask, so
`Palettecolor` can find an index `i = port[0x1B]` of 32 and execute
`x7da[32] = c`, outside the 32 bytes of `x7da`.  Both after the write of `0x20`
to `E7DB` and after the write of `0x1F` to `E7DB` followed by one read of
`E7DA`, `port[0x1B]` is `0x20` and the bus write to `E7DA` leaves the array. -/
theorem palette_write_index_out_of_range :
    (Reachable exRoms exPalIdx ∧ exPalIdx.port 0x1b = 0x20 ∧
      charToInt (exPalIdx.port 0x1b) = 32 ∧
      ¬ (charToInt (exPalIdx.port 0x1b) < (PALETTE_SIZE : Int)) ∧
      Palettecolor 0x55 exPalIdx = none ∧ Mputto8d 0xe7da 0x55 exPalIdx = none) ∧
    (Reachable exRoms exPalRead ∧ busOps exPalReadOps exReset = some exPalRead ∧
      exPalRead.port 0x1b = 0x20 ∧
      ¬ (charToInt (exPalRead.port 0x1b) < (PALETTE_SIZE : Int)) ∧
      Palettecolor 0x55 exPalRead = none ∧ Mputto8d 0xe7da 0x55 exPalRead = none) :=
  ⟨⟨exPalIdx_reachable, by decide, by decide, by decide, rfl, rfl⟩,
    ⟨exPalRead_reachable, rfl, by decide, by decide, rfl, rfl⟩⟩

/-! ## The ROM patcher -/

theorem index_in (r : Region) (k a : Int) (n : Nat) (hn : r.size = n) (h0 : 0 ≤ k + a)
    (h1 : k + a < (n : Int)) : ∃ i, index (ptr r k) a = some (r, i) ∧ i < n := by
  refine ⟨(k + a).toNat, ?_, by omega⟩
  unfold index ptr
  simp only []
  rw [if_pos ⟨h0, by rw [hn]; exact h1⟩]

theorem mem_setMem_region (s : State) (r r2 : Region) (i c : Nat) (h : r2 ≠ r) :
    (s.setMem r i c).mem r2 = s.mem r2 := by
  cases r <;> cases r2 <;> first | exact absurd rfl h | rfl

theorem store_in (s : State) (r : Region) (k a : Int) (c : Nat) (h0 : 0 ≤ k + a)
    (h1 : k + a < (r.size : Int)) :
    store s (ptr r k) a c = some (s.setMem r (k + a).toNat c) := by
  obtain ⟨i, e, _⟩ := index_in r k a r.size rfl h0 h1
  have e2 : i = (k + a).toNat := by
    unfold index ptr at e
    simp only [] at e
    rw [if_pos ⟨h0, h1⟩] at e
    cases e
    rfl
  rw [store_of_index s _ _ c r i e, e2]

/-- The inner loop of `TO8dpatch` on a run of bytes whose targets lie inside the
array: it consumes exactly these bytes, stores each at its position and changes
nothing else. -/
theorem TO8dpatchBytes_spec (r : Region) (k : Int) (bytes : List Int) (a : Int) (s : State)
    (h0 : 0 ≤ k + a) (h1 : k + a + (bytes.length : Int) ≤ (r.size : Int)) :
    ∃ s1, (∀ rest, TO8dpatchBytes (ptr r k) bytes.length a s (bytes ++ rest) = some (s1, rest)) ∧
      s1.regs = s.regs ∧ (∀ r2, r2 ≠ r → s1.mem r2 = s.mem r2) ∧
      (∀ x : Nat, ¬ (k + a ≤ (x : Int) ∧ (x : Int) < k + a + (bytes.length : Int)) →
        s1.mem r x = s.mem r x) ∧
      (∀ (j : Nat) (hj : j < bytes.length),
        s1.mem r (k + a + (j : Int)).toNat = toChar (bytes.get ⟨j, hj⟩)) := by
  induction bytes generalizing a s with
  | nil =>
    refine ⟨s, fun rest => ?_, rfl, fun _ _ => rfl, fun _ _ => rfl, fun j hj => ?_⟩
    · rfl
    · exact absurd hj (Nat.not_lt_zero j)
  | cons b bs ih =>
    have hl : ((b :: bs).length : Int) = (bs.length : Int) + 1 := by
      rw [List.length_cons]; push_cast; rfl
    rw [hl] at h1
    have hst := store_in s r k a (toChar b) h0 (by omega)
    obtain ⟨s1, e1, g1, g2, g3, g4⟩ := ih (a + 1) (s.setMem r (k + a).toNat (toChar b))
      (by omega) (by omega)
    refine ⟨s1, fun rest => ?_, ?_, fun r2 h2 => ?_, fun x hx => ?_, fun j hj => ?_⟩
    · show TO8dpatchBytes (ptr r k) (bs.length + 1) a s (b :: (bs ++ rest)) = _
      unfold TO8dpatchBytes
      rw [hst]
      exact e1 rest
    · rw [g1, regs_setMem]
    · rw [g2 r2 h2, mem_setMem_region s r r2 _ _ h2]
    · rw [hl] at hx
      rw [g3 x (by omega), mem_setMem_ne s r _ x _ (by omega)]
    · cases j with
      | zero =>
        have e0 : (k + a + ((0 : Nat) : Int)).toNat = (k + a).toNat := by
          rw [Nat.cast_zero, add_zero]
        rw [e0, g3 (k + a).toNat (by omega), mem_setMem_same]
        rfl
      | succ j =>
        have hj2 : j < bs.length := by
          rw [List.length_cons] at hj; omega
        have e0 : k + a + ((j + 1 : Nat) : Int) = k + (a + 1) + (j : Int) := by
          push_cast; omega
        rw [e0, g4 j hj2]
        rfl

theorem patchTable_length (recs : List PatchRecord) (tail : List Int) :
    recs.length + 1 ≤ (patchTable recs tail).length := by
  induction recs with
  | nil => exact Nat.succ_le_succ (Nat.zero_le _)
  | cons q rest ih =>
    unfold patchTable
    simp only [List.length_cons, List.length_append]
    omega

theorem TO8dpatchLoop_stop (rom : Option Ptr) (fuel : Nat) (s : State) (tail : List Int) :
    TO8dpatchLoop rom (fuel + 1) s (0 :: tail) = some s := by
  unfold TO8dpatchLoop
  rw [if_pos rfl]

theorem TO8dpatchLoop_record (rom : Option Ptr) (fuel : Nat) (s s1 : State) (n a0 a1 : Int)
    (l rest : List Int) (hn : n ≠ 0)
    (hb : TO8dpatchBytes rom n.toNat (a0 + a1) s l = some (s1, rest)) :
    TO8dpatchLoop rom (fuel + 1) s (n :: a0 :: a1 :: l) = TO8dpatchLoop rom fuel s1 rest := by
  rw [TO8dpatchLoop, if_neg hn, hb]

/-- The outer loop of `TO8dpatch` on a table of records with `n > 0` whose
target ranges lie inside the array. -/
theorem TO8dpatchLoop_spec (r : Region) (k : Int) (recs : List PatchRecord) (s : State)
    (hn : ∀ q ∈ recs, 0 < q.bytes.length)
    (hin : ∀ q ∈ recs, 0 ≤ k + q.base + q.offset ∧
      k + q.base + q.offset + (q.bytes.length : Int) ≤ (r.size : Int)) :
    ∃ s1, (∀ tail fuel, recs.length + 1 ≤ fuel →
        TO8dpatchLoop (ptr r k) fuel s (patchTable recs tail) = some s1) ∧
      (∀ tail, TO8dpatchLoop (ptr r k) recs.length s (patchTable recs tail) = none) ∧
      s1.regs = s.regs ∧ (∀ r2, r2 ≠ r → s1.mem r2 = s.mem r2) ∧
      (∀ x : Nat, (∀ q ∈ recs, ¬ q.covers k x) → s1.mem r x = s.mem r x) ∧
      (∀ pre q post, recs = pre ++ q :: post → ∀ (j : Nat) (hj : j < q.bytes.length),
        (∀ q2 ∈ post, ¬ q2.covers k (k + q.base + q.offset + (j : Int)).toNat) →
        s1.mem r (k + q.base + q.offset + (j : Int)).toNat = toChar (q.bytes.get ⟨j, hj⟩)) := by
  induction recs generalizing s with
  | nil =>
    refine ⟨s, fun tail fuel hf => ?_, fun tail => rfl, rfl, fun _ _ => rfl, fun _ _ => rfl,
      fun pre q post e => ?_⟩
    · obtain ⟨f, rfl⟩ : ∃ f, fuel = f + 1 := ⟨fuel - 1, by simp at hf; omega⟩
      exact TO8dpatchLoop_stop _ f s tail
    · exact absurd e (by simp)
  | cons q0 rest ih =>
    have hq0 := hin q0 (List.mem_cons_self _ _)
    have hl0 := hn q0 (List.mem_cons_self _ _)
    have hne : (q0.bytes.length : Int) ≠ 0 := by omega
    obtain ⟨t, b1, b2, b3, b4, b5⟩ := TO8dpatchBytes_spec r k q0.bytes (q0.base + q0.offset) s
      (by omega) (by omega)
    obtain ⟨s1, c1, c2, c3, c4, c5, c6⟩ := ih t
      (fun q hq => hn q (List.mem_cons_of_mem _ hq))
      (fun q hq => hin q (List.mem_cons_of_mem _ hq))
    have hb : ∀ tail, TO8dpatchBytes (ptr r k) (q0.bytes.length : Int).toNat
        (q0.base + q0.offset) s (q0.bytes ++ patchTable rest tail) =
        some (t, patchTable rest tail) := by
      intro tail
      rw [Int.toNat_ofNat]
      exact b1 _
    refine ⟨s1, fun tail fuel hf => ?_, fun tail => ?_, ?_, fun r2 h2 => ?_, fun x hx => ?_,
      fun pre q post e j hj hp => ?_⟩
    · obtain ⟨f, rfl⟩ : ∃ f, fuel = f + 1 := ⟨fuel - 1, by simp at hf; omega⟩
      show TO8dpatchLoop (ptr r k) (f + 1) s
        ((q0.bytes.length : Int) :: q0.base :: q0.offset ::
          (q0.bytes ++ patchTable rest tail)) = _
      rw [TO8dpatchLoop_record _ f s t _ _ _ _ _ hne (hb tail)]
      exact c1 tail f (by simp at hf; omega)
    · show TO8dpatchLoop (ptr r k) (rest.length + 1) s
        ((q0.bytes.length : Int) :: q0.base :: q0.offset ::
          (q0.bytes ++ patchTable rest tail)) = _
      rw [TO8dpatchLoop_record _ rest.length s t _ _ _ _ _ hne (hb tail)]
      exact c2 tail
    · rw [c3, b2]
    · rw [c4 r2 h2, b3 r2 h2]
    · rw [c5 x (fun q hq => hx q (List.mem_cons_of_mem _ hq))]
      have h0 := hx q0 (List.mem_cons_self _ _)
      unfold PatchRecord.covers at h0
      exact b4 x (by omega)
    · cases pre with
      | nil =>
        simp only [List.nil_append, List.cons.injEq] at e
        obtain ⟨rfl, rfl⟩ := e
        rw [c5 _ hp]
        have := b5 j hj
        have e0 : k + (q0.base + q0.offset) + (j : Int) = k + q0.base + q0.offset + (j : Int) := by
          omega
        rw [e0] at this
        exact this
      | cons p0 pre2 =>
        simp only [List.cons_append, List.cons.injEq] at e
        obtain ⟨rfl, e2⟩ := e
        exact c6 pre2 q post e2 j hj hp

theorem toChar_byte (b : Nat) (hb : b < 256) : toChar (b : Int) = b := by
  unfold toChar
  omega

/-- C22: for a patch table made of records `n, base, offset, b0, ..., b(n-1)`
with `n > 0`, closed by the terminator `0` (and followed by anything), whose
target ranges lie inside the array behind `rom`, `TO8dpatch` returns.  It
consumes exactly the records before the terminator: the result does not depend
on what follows the terminator, the outer loop ends with one iteration per
record plus the read of the terminator, and not with fewer.  Afterwards, for
each record and each `j < n`, `rom[base + offset + j]` holds `b_j` converted to
`char` (which is `b_j` for a byte `0..255`) unless a later record covers that
position; every byte of the array outside all target ranges is unchanged, and
so are the other arrays and all module variables. -/
theorem patch_last_record_wins (r : Region) (k : Int) (recs : List PatchRecord)
    (tail : List Int) (s : State)
    (hn : ∀ q ∈ recs, 0 < q.bytes.length)
    (hin : ∀ q ∈ recs, 0 ≤ k + q.base + q.offset ∧
      k + q.base + q.offset + (q.bytes.length : Int) ≤ (Region.size r : Int)) :
    ∃ s1, TO8dpatch (ptr r k) (patchTable recs tail) s = some s1 ∧
      (∀ tail2, TO8dpatch (ptr r k) (patchTable recs tail2) s = some s1) ∧
      (∀ fuel, List.length recs + 1 ≤ fuel →
        TO8dpatchLoop (ptr r k) fuel s (patchTable recs tail) = some s1) ∧
      TO8dpatchLoop (ptr r k) (List.length recs) s (patchTable recs tail) = none ∧
      s1.regs = State.regs s ∧ (∀ r2, r2 ≠ r → s1.mem r2 = State.mem s r2) ∧
      (∀ x : Nat, (∀ q ∈ recs, ¬ q.covers k x) → s1.mem r x = State.mem s r x) ∧
      (∀ pre q post, recs = pre ++ q :: post → ∀ (j : Nat) (hj : j < q.bytes.length),
        (∀ q2 ∈ post, ¬ q2.covers k (k + q.base + q.offset + (j : Int)).toNat) →
        s1.mem r (k + q.base + q.offset + (j : Int)).toNat = toChar (q.bytes.get ⟨j, hj⟩)) ∧
      (∀ b : Nat, b < 256 → toChar (b : Int) = b) := by
  obtain ⟨s1, c1, c2, c3, c4, c5, c6⟩ := TO8dpatchLoop_spec r k recs s hn hin
  exact ⟨s1, c1 tail _ (patchTable_length recs tail),
    fun tail2 => c1 tail2 _ (patchTable_length recs tail2),
    fun fuel hf => c1 tail fuel hf, c2 tail, c3, c4, c5, c6, toChar_byte⟩

theorem patch_last_record_wins_witness :
    (∀ q ∈ exPatchRecords, 0 < q.bytes.length) ∧
    (∀ q ∈ exPatchRecords, 0 ≤ 0 + q.base + q.offset ∧
      0 + q.base + q.offset + (q.bytes.length : Int) ≤ (Region.size Region.to8dbasic : Int)) ∧
    (∃ s1, TO8dpatch (ptr Region.to8dbasic 0) (patchTable exPatchRecords [7]) exStart = some s1 ∧
      (∀ tail2, TO8dpatch (ptr Region.to8dbasic 0) (patchTable exPatchRecords tail2) exStart = some s1) ∧
      (∀ fuel, List.length exPatchRecords + 1 ≤ fuel →
        TO8dpatchLoop (ptr Region.to8dbasic 0) fuel exStart (patchTable exPatchRecords [7]) = some s1) ∧
      TO8dpatchLoop (ptr Region.to8dbasic 0) (List.length exPatchRecords) exStart (patchTable exPatchRecords [7]) = none ∧
      s1.regs = State.regs exStart ∧ (∀ r2, r2 ≠ Region.to8dbasic → s1.mem r2 = State.mem exStart r2) ∧
      (∀ x : Nat, (∀ q ∈ exPatchRecords, ¬ q.covers 0 x) → s1.mem Region.to8dbasic x = State.mem exStart Region.to8dbasic x) ∧
      (∀ pre q post, exPatchRecords = pre ++ q :: post → ∀ (j : Nat) (hj : j < q.bytes.length),
        (∀ q2 ∈ post, ¬ q2.covers 0 (0 + q.base + q.offset + (j : Int)).toNat) →
        s1.mem Region.to8dbasic (0 + q.base + q.offset + (j : Int)).toNat = toChar (q.bytes.get ⟨j, hj⟩)) ∧
      (∀ b : Nat, b < 256 → toChar (b : Int) = b)) ∧
    patchTable exPatchRecords [7] = [2, 0x4000, 0x10, 0xaa, 0xbb, 1, 0x4000, 0x11, 0xcc, 0, 7] ∧
    (TO8dpatch (ptr Region.to8dbasic 0) (patchTable exPatchRecords [7]) exStart).map
      (fun t => (t.to8dbasic 0x400f, t.to8dbasic 0x4010, t.to8dbasic 0x4011,
        t.to8dbasic 0x4012)) = some (0, 0xaa, 0xcc, 0) :=
  ⟨by decide, by decide,
    patch_last_record_wins Region.to8dbasic 0 exPatchRecords [7] exStart (by decide) (by decide),
    by decide, by decide⟩

/-! ## The windows stay inside their arrays -/

/-- The video window: `ramvideo[a]` for `a` in `0x4000..0x5fff`. -/
theorem index_ramvideo (s : State) (hi : Inv s) (a : Nat) (ha : 0x4000 ≤ a) (hb : a < 0x6000) :
    ∃ i, index s.ramvideo (a : Int) = some (.ram, i) ∧ i < 524288 := by
  obtain ⟨h1, h2, _, _⟩ := hi.video
  rw [h2, h1]
  have hk : s.port 0x03 &&& 1 ≤ 1 := Nat.and_le_right
  refine index_in .ram _ _ 524288 rfl ?_ ?_
  · unfold shl; omega
  · unfold shl; omega

/-- The user window: `ramuser[a]` for `a` in `0x6000..0x9fff`. -/
theorem index_ramuser (s : State) (hi : Inv s) (a : Nat) (ha : 0x6000 ≤ a) (hb : a < 0xa000) :
    ∃ i, index s.ramuser (a : Int) = some (.ram, i) ∧ i < 524288 := by
  rw [hi.ramuser]
  exact index_in .ram _ _ 524288 rfl (by omega) (by omega)

/-- The bank window: `rambank[a]` for `a` in `0xa000..0xdfff`, in TO8 mode and
in TO7/70 compatibility mode. -/
theorem index_rambank (s : State) (hi : Inv s) (a : Nat) (ha : 0xa000 ≤ a) (hb : a < 0xe000) :
    ∃ i, index s.rambank (a : Int) = some (.ram, i) ∧ i < 524288 := by
  obtain ⟨n, h0, h1, h | ⟨h6, h⟩⟩ := hi.ram.2.1
  · rw [h]
    refine index_in .ram _ _ 524288 rfl ?_ ?_
    · unfold shl; omega
    · unfold shl; omega
  · rw [h]
    refine index_in .ram _ _ 524288 rfl ?_ ?_
    · unfold shl; omega
    · unfold shl; omega

/-- The ROM window while a RAM bank overlays it: `rombank[x]` for `x` below
`0x4000`. -/
theorem index_rombank_overlay (s : State) (hi : Inv s) (ho : s.port 0x26 &&& 0x20 ≠ 0)
    (x : Nat) (hx : x < 0x4000) :
    ∃ i, index s.rombank (x : Int) = some (.ram, i) ∧ i < 524288 := by
  rw [overlay_rombank s hi ho]
  have hk : s.port 0x26 &&& 0x1f ≤ 0x1f := Nat.and_le_right
  refine index_in .ram _ _ 524288 rfl ?_ ?_
  · unfold shl; omega
  · unfold shl; omega

/-- The ROM window while it shows the BASIC ROM or the cartridge: `rombank[x]`
for `x` below `0x4000`. -/
theorem index_rombank_rom (s : State) (hi : Inv s) (ho : s.port 0x26 &&& 0x20 = 0)
    (x : Nat) (hx : x < 0x4000) :
    ∃ r i, index s.rombank (x : Int) = some (r, i) ∧ (r = .to8dbasic ∨ r = .car) ∧
      i < 65536 := by
  have hrb := hi.rom.1
  rw [if_neg (not_not.mpr ho)] at hrb
  have hc : 0 ≤ iand s.carflags 3 ∧ iand s.carflags 3 ≤ 3 :=
    iand_nonneg_lt s.carflags 3 (by norm_num)
  by_cases h4 : s.port 0x03 &&& 0x04 ≠ 0
  · rw [if_pos h4, hi.flavor.1] at hrb
    rw [hrb]
    obtain ⟨i, e, hl⟩ := index_in .to8dbasic (shl (iand s.carflags 3) 14) (x : Int) 65536 rfl
      (by unfold shl; omega) (by unfold shl; omega)
    exact ⟨_, i, e, Or.inl rfl, hl⟩
  · rw [if_neg h4] at hrb
    rw [hrb]
    obtain ⟨i, e, hl⟩ := index_in .car (shl (iand s.carflags 3) 14) (x : Int) 65536 rfl
      (by unfold shl; omega) (by unfold shl; omega)
    exact ⟨_, i, e, Or.inr rfl, hl⟩

theorem Mgetto8d_lo (a : Nat) (s : State) (ha : a < 0x2000) :
    Mgetto8d a s = (if s.port 0x26 &&& 0x20 ≠ 0 then load s s.rombank ((a : Int) + 0x2000)
      else load s s.rombank (a : Int)).map (fun v => (v, s)) := by
  have hn : a >>> 12 = 0x0 ∨ a >>> 12 = 0x1 := by rw [shr12]; omega
  unfold Mgetto8d
  simp only []
  rw [if_pos hn]

theorem Mgetto8d_hi (a : Nat) (s : State) (ha : 0x2000 ≤ a) (hb : a < 0x4000) :
    Mgetto8d a s = (if s.port 0x26 &&& 0x20 ≠ 0 then load s s.rombank ((a : Int) - 0x2000)
      else load s s.rombank (a : Int)).map (fun v => (v, s)) := by
  have hn : ¬ (a >>> 12 = 0x0 ∨ a >>> 12 = 0x1) := by rw [shr12]; omega
  have hn2 : a >>> 12 = 0x2 ∨ a >>> 12 = 0x3 := by rw [shr12]; omega
  unfold Mgetto8d
  simp only []
  rw [if_neg hn, if_pos hn2]

theorem Mgetto8d_ramvideo (a : Nat) (s : State) (ha : 0x4000 ≤ a) (hb : a < 0x6000) :
    Mgetto8d a s = (load s s.ramvideo (a : Int)).map (fun v => (v, s)) := by
  have h1 : ¬ (a >>> 12 = 0x0 ∨ a >>> 12 = 0x1) := by rw [shr12]; omega
  have h2 : ¬ (a >>> 12 = 0x2 ∨ a >>> 12 = 0x3) := by rw [shr12]; omega
  have h3 : a >>> 12 = 0x4 ∨ a >>> 12 = 0x5 := by rw [shr12]; omega
  unfold Mgetto8d
  simp only []
  rw [if_neg h1, if_neg h2, if_pos h3]

theorem Mgetto8d_ramuser (a : Nat) (s : State) (ha : 0x6000 ≤ a) (hb : a < 0xa000) :
    Mgetto8d a s = (load s s.ramuser (a : Int)).map (fun v => (v, s)) := by
  have h1 : ¬ (a >>> 12 = 0x0 ∨ a >>> 12 = 0x1) := by rw [shr12]; omega
  have h2 : ¬ (a >>> 12 = 0x2 ∨ a >>> 12 = 0x3) := by rw [shr12]; omega
  have h3 : ¬ (a >>> 12 = 0x4 ∨ a >>> 12 = 0x5) := by rw [shr12]; omega
  have h4 : a >>> 12 = 0x6 ∨ a >>> 12 = 0x7 ∨ a >>> 12 = 0x8 ∨ a >>> 12 = 0x9 := by
    rw [shr12]; omega
  unfold Mgetto8d
  simp only []
  rw [if_neg h1, if_neg h2, if_neg h3, if_pos h4]

theorem Mgetto8d_rambank (a : Nat) (s : State) (ha : 0xa000 ≤ a) (hb : a < 0xe000) :
    Mgetto8d a s = (load s s.rambank (a : Int)).map (fun v => (v, s)) := by
  have h1 : ¬ (a >>> 12 = 0x0 ∨ a >>> 12 = 0x1) := by rw [shr12]; omega
  have h2 : ¬ (a >>> 12 = 0x2 ∨ a >>> 12 = 0x3) := by rw [shr12]; omega
  have h3 : ¬ (a >>> 12 = 0x4 ∨ a >>> 12 = 0x5) := by rw [shr12]; omega
  have h4 : ¬ (a >>> 12 = 0x6 ∨ a >>> 12 = 0x7 ∨ a >>> 12 = 0x8 ∨ a >>> 12 = 0x9) := by
    rw [shr12]; omega
  have h5 : a >>> 12 = 0xa ∨ a >>> 12 = 0xb ∨ a >>> 12 = 0xc ∨ a >>> 12 = 0xd := by
    rw [shr12]; omega
  unfold Mgetto8d
  simp only []
  rw [if_neg h1, if_neg h2, if_neg h3, if_neg h4, if_pos h5]

/-- The byte that a bus access below `0xe000` selects: the window pointer and
the biased address are those of the `switch` of `Mgetto8d` and `Mputto8d`. -/
theorem window_byte (s : State) (hi : Inv s) (a : Nat) (ha : a < 0xe000) :
    (a < 0x2000 →
      (s.port 0x26 &&& 0x20 ≠ 0 →
        ∃ i, index s.rombank ((a : Int) + 0x2000) = some (.ram, i) ∧ i < 524288) ∧
      (s.port 0x26 &&& 0x20 = 0 →
        ∃ r i, index s.rombank (a : Int) = some (r, i) ∧ (r = .to8dbasic ∨ r = .car) ∧
          i < 65536)) ∧
    (0x2000 ≤ a → a < 0x4000 →
      (s.port 0x26 &&& 0x20 ≠ 0 →
        ∃ i, index s.rombank ((a : Int) - 0x2000) = some (.ram, i) ∧ i < 524288) ∧
      (s.port 0x26 &&& 0x20 = 0 →
        ∃ r i, index s.rombank (a : Int) = some (r, i) ∧ (r = .to8dbasic ∨ r = .car) ∧
          i < 65536)) ∧
    (0x4000 ≤ a → a < 0x6000 →
      ∃ i, index s.ramvideo (a : Int) = some (.ram, i) ∧ i < 524288) ∧
    (0x6000 ≤ a → a < 0xa000 →
      ∃ i, index s.ramuser (a : Int) = some (.ram, i) ∧ i < 524288) ∧
    (0xa000 ≤ a → ∃ i, index s.rambank (a : Int) = some (.ram, i) ∧ i < 524288) := by
  refine ⟨fun h => ⟨fun ho => ?_, fun ho => ?_⟩, fun h1 h2 => ⟨fun ho => ?_, fun ho => ?_⟩,
    fun h1 h2 => index_ramvideo s hi a h1 h2, fun h1 h2 => index_ramuser s hi a h1 h2,
    fun h1 => index_rambank s hi a h1 ha⟩
  · have e : (a : Int) + 0x2000 = ((a + 0x2000 : Nat) : Int) := by push_cast; rfl
    rw [e]
    exact index_rombank_overlay s hi ho _ (by omega)
  · exact index_rombank_rom s hi ho a (by omega)
  · have e : (a : Int) - 0x2000 = ((a - 0x2000 : Nat) : Int) := by omega
    rw [e]
    exact index_rombank_overlay s hi ho _ (by omega)
  · exact index_rombank_rom s hi ho a (by omega)

theorem load_map_of_index (s : State) (p : Option Ptr) (a : Int) (r : Region) (i : Nat)
    (h : index p a = some (r, i)) :
    (load s p a).map (fun v => (v, s)) = some (s.mem r i, s) := by
  rw [load_of_index s p a r i h]
  rfl

/-- A bus read below `0xe000` returns a byte and leaves the state. -/
theorem Mgetto8d_window (s : State) (hi : Inv s) (a : Nat) (ha : a < 0xe000) :
    ∃ v, Mgetto8d a s = some (v, s) := by
  obtain ⟨w1, w2, w3, w4, w5⟩ := window_byte s hi a ha
  by_cases c1 : a < 0x2000
  · rw [Mgetto8d_lo a s c1]
    by_cases ho : s.port 0x26 &&& 0x20 ≠ 0
    · obtain ⟨i, e, _⟩ := (w1 c1).1 ho
      rw [if_pos ho]
      exact ⟨_, load_map_of_index s _ _ _ _ e⟩
    · obtain ⟨r, i, e, _⟩ := (w1 c1).2 (not_not.mp ho)
      rw [if_neg ho]
      exact ⟨_, load_map_of_index s _ _ _ _ e⟩
  by_cases c2 : a < 0x4000
  · rw [Mgetto8d_hi a s (by omega) c2]
    by_cases ho : s.port 0x26 &&& 0x20 ≠ 0
    · obtain ⟨i, e, _⟩ := (w2 (by omega) c2).1 ho
      rw [if_pos ho]
      exact ⟨_, load_map_of_index s _ _ _ _ e⟩
    · obtain ⟨r, i, e, _⟩ := (w2 (by omega) c2).2 (not_not.mp ho)
      rw [if_neg ho]
      exact ⟨_, load_map_of_index s _ _ _ _ e⟩
  by_cases c3 : a < 0x6000
  · obtain ⟨i, e, _⟩ := w3 (by omega) c3
    rw [Mgetto8d_ramvideo a s (by omega) c3]
    exact ⟨_, load_map_of_index s _ _ _ _ e⟩
  by_cases c4 : a < 0xa000
  · obtain ⟨i, e, _⟩ := w4 (by omega) c4
    rw [Mgetto8d_ramuser a s (by omega) c4]
    exact ⟨_, load_map_of_index s _ _ _ _ e⟩
  · obtain ⟨i, e, _⟩ := w5 (by omega)
    rw [Mgetto8d_rambank a s (by omega) ha]
    exact ⟨_, load_map_of_index s _ _ _ _ e⟩

/-- A bus write below `0xe000` succeeds. -/
theorem Mputto8d_window (s : State) (hi : Inv s) (a c : Nat) (ha : a < 0xe000) :
    ∃ s1, Mputto8d a c s = some s1 := by
  obtain ⟨w1, w2, w3, w4, w5⟩ := window_byte s hi a ha
  by_cases c1 : a < 0x2000
  · by_cases ho : s.port 0x26 &&& 0x60 = 0x60
    · obtain ⟨i, e, _⟩ := (w1 c1).1 (and_60_20 _ ho)
      rw [Mputto8d_overlay_lo a c s c1 ho]
      exact ⟨_, store_of_index s _ _ c _ _ e⟩
    · by_cases h20 : s.port 0x26 &&& 0x20 = 0
      · exact ⟨_, Mputto8d_bankswitch a c s c1 h20⟩
      · exact ⟨_, Mputto8d_readonly_lo a c s c1 h20 ho⟩
  by_cases c2 : a < 0x4000
  · by_cases ho : s.port 0x26 &&& 0x60 = 0x60
    · obtain ⟨i, e, _⟩ := (w2 (by omega) c2).1 (and_60_20 _ ho)
      rw [Mputto8d_overlay_hi a c s (by omega) c2 ho]
      exact ⟨_, store_of_index s _ _ c _ _ e⟩
    · exact ⟨_, Mputto8d_readonly_hi a c s (by omega) c2 ho⟩
  by_cases c3 : a < 0x6000
  · obtain ⟨i, e, _⟩ := w3 (by omega) c3
    rw [Mputto8d_ramvideo a c s (by omega) c3]
    exact ⟨_, store_of_index s _ _ c _ _ e⟩
  by_cases c4 : a < 0xa000
  · obtain ⟨i, e, _⟩ := w4 (by omega) c4
    rw [Mputto8d_ramuser a c s (by omega) c4]
    exact ⟨_, store_of_index s _ _ c _ _ e⟩
  · obtain ⟨i, e, _⟩ := w5 (by omega)
    rw [Mputto8d_rambank a c s (by omega) ha]
    exact ⟨_, store_of_index s _ _ c _ _ e⟩

/-- C23: in every reachable state, for every CPU address `a` below `0xe000`,
the byte that a bus read or write selects lies inside its backing array.  With
`index p x` the position of `p[x]` in the array behind `p` (defined only inside
the array): `rombank[a + 0x2000]` (for `a < 0x2000`) and `rombank[a - 0x2000]`
(for `0x2000 <= a < 0x4000`) lie in `ram` at a position below 524288 while the
overlay bit `port[0x26] & 0x20` is set; `rombank[a]` lies in the BASIC ROM or in
the cartridge image at a position below 65536 while it is clear; `ramvideo[a]`
(`0x4000..0x5fff`), `ramuser[a]` (`0x6000..0x9fff`) and `rambank[a]`
(`0xa000..0xdfff`, in TO8 mode and in TO7/70 compatibility mode) lie in `ram` at
a position below 524288.  So the read returns a byte and leaves the state, and
the write of any byte succeeds. -/
theorem window_index_in_bounds (roms : RomHeaders) (s : State) (hr : Reachable roms s)
    (a : Nat) (ha : a < 0xe000) :
    (∃ v, Mgetto8d a s = some (v, s)) ∧ (∀ c, ∃ s1, Mputto8d a c s = some s1) ∧
    (a < 0x2000 →
      (s.port 0x26 &&& 0x20 ≠ 0 →
        ∃ i, index s.rombank ((a : Int) + 0x2000) = some (.ram, i) ∧ i < 524288) ∧
      (s.port 0x26 &&& 0x20 = 0 →
        ∃ r i, index s.rombank (a : Int) = some (r, i) ∧ (r = .to8dbasic ∨ r = .car) ∧
          i < 65536)) ∧
    (0x2000 ≤ a → a < 0x4000 →
      (s.port 0x26 &&& 0x20 ≠ 0 →
        ∃ i, index s.rombank ((a : Int) - 0x2000) = some (.ram, i) ∧ i < 524288) ∧
      (s.port 0x26 &&& 0x20 = 0 →
        ∃ r i, index s.rombank (a : Int) = some (r, i) ∧ (r = .to8dbasic ∨ r = .car) ∧
          i < 65536)) ∧
    (0x4000 ≤ a → a < 0x6000 →
      ∃ i, index s.ramvideo (a : Int) = some (.ram, i) ∧ i < 524288) ∧
    (0x6000 ≤ a → a < 0xa000 →
      ∃ i, index s.ramuser (a : Int) = some (.ram, i) ∧ i < 524288) ∧
    (0xa000 ≤ a → ∃ i, index s.rambank (a : Int) = some (.ram, i) ∧ i < 524288) :=
  ⟨Mgetto8d_window s (inv_reachable roms _ s hr) a ha,
    fun c => Mputto8d_window s (inv_reachable roms _ s hr) a c ha,
    window_byte s (inv_reachable roms _ s hr) a ha⟩

theorem window_index_in_bounds_witness :
    Reachable exRoms exOverlay ∧ 0x1234 < 0xe000 ∧
    ((∃ v, Mgetto8d 0x1234 exOverlay = some (v, exOverlay)) ∧ (∀ c, ∃ s1, Mputto8d 0x1234 c exOverlay = some s1) ∧
    (0x1234 < 0x2000 →
      (exOverlay.port 0x26 &&& 0x20 ≠ 0 →
        ∃ i, index exOverlay.rombank ((0x1234 : Int) + 0x2000) = some (.ram, i) ∧ i < 524288) ∧
      (exOverlay.port 0x26 &&& 0x20 = 0 →
        ∃ r i, index exOverlay.rombank (0x1234 : Int) = some (r, i) ∧ (r = .to8dbasic ∨ r = .car) ∧
          i < 65536)) ∧
    (0x2000 ≤ 0x1234 → 0x1234 < 0x4000 →
      (exOverlay.port 0x26 &&& 0x20 ≠ 0 →
        ∃ i, index exOverlay.rombank ((0x1234 : Int) - 0x2000) = some (.ram, i) ∧ i < 524288) ∧
      (exOverlay.port 0x26 &&& 0x20 = 0 →
        ∃ r i, index exOverlay.rombank (0x1234 : Int) = some (r, i) ∧ (r = .to8dbasic ∨ r = .car) ∧
          i < 65536)) ∧
    (0x4000 ≤ 0x1234 → 0x1234 < 0x6000 →
      ∃ i, index exOverlay.ramvideo (0x1234 : Int) = some (.ram, i) ∧ i < 524288) ∧
    (0x6000 ≤ 0x1234 → 0x1234 < 0xa000 →
      ∃ i, index exOverlay.ramuser (0x1234 : Int) = some (.ram, i) ∧ i < 524288) ∧
    (0xa000 ≤ 0x1234 → ∃ i, index exOverlay.rambank (0x1234 : Int) = some (.ram, i) ∧ i < 524288)) :=
  ⟨exOverlay_reachable, by decide,
    window_index_in_bounds exRoms exOverlay exOverlay_reachable 0x1234 (by decide)⟩

/-! ## The joystick position and the operations of the core -/

theorem Timercontrol_joy (s : State) (c : Nat) :
    (MputE7C5 c s).joysposition = s.joysposition := by
  unfold MputE7C5 Timercontrol
  by_cases c5 : (setAt s.port 0x05 c) 0x05 &&& 0x01 ≠ 0
  · rw [if_pos c5] <;> exact rfl
  · rw [if_neg c5] <;> exact rfl

theorem MputE7CD_joy (s : State) (c : Nat) :
    (MputE7CD c s).joysposition = s.joysposition := by
  unfold MputE7CD
  by_cases c4 : s.port 0x0f &&& 4 ≠ 0
  · rw [if_pos c4] <;> exact rfl
  · rw [if_neg c4] <;> exact rfl

theorem Palettecolor_joy (c : Nat) (s s1 : State) (h : Palettecolor c s = some s1) :
    s1.joysposition = s.joysposition := by
  unfold Palettecolor at h
  by_cases hr : 0 ≤ charToInt (s.port 0x1b) ∧ charToInt (s.port 0x1b) < (PALETTE_SIZE : Int)
  · rw [if_pos hr] at h
    by_cases ho : iand (charToInt (s.port 0x1b)) 1 ≠ 0
    · rw [if_pos ho] at h; cases h; exact rfl
    · rw [if_neg ho] at h; cases h; exact rfl
  · rw [if_neg hr] at h; cases h

/-- A bus write on the I/O page leaves `joysposition`. -/
theorem MputPage_joy (a c : Nat) (s s1 : State) (h : MputPage a c s = some s1)
     :
    s1.joysposition = s.joysposition := by
  revert h
  apply MputPage_cases a c s (fun r => r = some s1 → s1.joysposition = s.joysposition)
  case h0 => intro _ h; cases h; exact rfl
  case h1 => intro _ h; cases h; exact rfl
  case h2 =>
    intro _ h; cases h
    unfold MputE7C3
    rw [TO8rombank_frame] <;> exact rfl
  case h3 => intro _ h; cases h; exact Timercontrol_joy s c
  case h4 => intro _ h; cases h; exact rfl
  case h5 => intro _ h; cases h; exact rfl
  case h6 =>
    intro _ h; cases h
    unfold MputE7C9
    rw [TO8rambank_frame] <;> exact rfl
  case h7 => intro _ h; cases h; exact rfl
  case h8 => intro _ h; cases h; exact MputE7CD_joy s c
  case h9 => intro _ h; cases h; exact rfl
  case h10 => intro _ h; cases h; exact rfl
  case h11 => intro _ h; cases h; exact rfl
  case h12 => intro _ h; exact Palettecolor_joy c s s1 h
  case h13 => intro _ h; cases h; exact rfl
  case h14 => intro _ h; cases h; exact rfl
  case h15 => intro _ h; cases h; exact rfl
  case h16 => intro _ h; cases h; exact rfl
  case h17 =>
    intro _ h; cases h
    unfold MputE7E5
    rw [TO8rambank_frame] <;> exact rfl
  case h18 =>
    intro _ h; cases h
    unfold MputE7E6
    rw [TO8rombank_frame] <;> exact rfl
  case h19 =>
    intro _ h; cases h
    unfold MputE7E7
    rw [TO8rambank_frame] <;> exact rfl
  case hd => intros; rename_i h; cases h; exact rfl

theorem Mputto8d_joy (a c : Nat) (s s1 : State) (h : Mputto8d a c s = some s1)
     :
    s1.joysposition = s.joysposition := by
  rcases Mputto8d_shape a c s s1 h with ⟨_, hio⟩ | ⟨_, t, ht, hs⟩
  · exact MputPage_joy a c s s1 hio 
  · have e1 : t.joysposition = s.joysposition := by
      rcases ht with rfl | rfl
      · exact rfl
      · unfold MputBankSwitch
        rw [TO8rombank_frame] <;> exact rfl
    rcases hs with rfl | ⟨r, i, rfl⟩
    · exact e1
    · cases r <;> exact e1

theorem Mgetto8d_joy (a v : Nat) (s s1 : State) (h : Mgetto8d a s = some (v, s1)) :
    s1.joysposition = s.joysposition := by
  rcases Mgetto8d_state a v s s1 h with rfl | ⟨_, rfl⟩ | ⟨_, rfl⟩
  · exact rfl
  · exact rfl
  · exact rfl

theorem busOps_joy (ops : List BusOp) (s s1 : State) (h : busOps ops s = some s1) :
    s1.joysposition = s.joysposition := by
  induction ops generalizing s with
  | nil => cases h; exact rfl
  | cons op rest ih =>
    unfold busOps at h
    cases ho : busOp op s with
    | none => rw [ho] at h; cases h
    | some s2 =>
      rw [ho] at h
      have e2 := ih s2 h
      have e1 : s2.joysposition = s.joysposition := by

        cases op with
        | get a =>
          have ho' : (Mgetto8d a s).map Prod.snd = some s2 := ho
          cases hg : Mgetto8d a s with
          | none => rw [hg] at ho'; cases ho'
          | some r =>
            obtain ⟨v, s3⟩ := r
            rw [hg] at ho'
            simp only [Option.map_some'] at ho'
            cases ho'
            exact Mgetto8d_joy a v s _ hg
        | put a c =>
          exact Mputto8d_joy a c s s2 ho 
      exact e2.trans e1

theorem RunTimerIrqCount_joy (o : Int) (s : State) :
    (RunTimerIrqCount o s).joysposition = s.joysposition := by
  unfold RunTimerIrqCount
  by_cases c : s.timer_irqcount > 0
  · rw [if_pos c] <;> exact rfl
  · rw [if_neg c] <;> exact rfl

theorem RunTimerIrqClear_joy (_o : Int) (s : State) :
    (RunTimerIrqClear s).joysposition = s.joysposition := by
  unfold RunTimerIrqClear
  by_cases c : s.timer_irqcount ≤ 0
  · rw [if_pos c] <;> exact rfl
  · rw [if_neg c] <;> exact rfl

theorem RunKeybIrqCount_joy (o : Int) (s : State) :
    (RunKeybIrqCount o s).joysposition = s.joysposition := by
  unfold RunKeybIrqCount
  by_cases c : s.keyb_irqcount > 0
  · rw [if_pos c] <;> exact rfl
  · rw [if_neg c] <;> exact rfl

theorem RunKeybIrqClear_joy (_o : Int) (s : State) :
    (RunKeybIrqClear s).joysposition = s.joysposition := by
  unfold RunKeybIrqClear
  by_cases c : s.keyb_irqcount ≤ 0
  · rw [if_pos c] <;> exact rfl
  · rw [if_neg c] <;> exact rfl

theorem RunIrqComposite_joy (_o : Int) (s : State) :
    (RunIrqComposite s).joysposition = s.joysposition := by
  unfold RunIrqComposite
  by_cases c : s.port 0x00 &&& 0x07 = 0
  · rw [if_pos c] <;> exact rfl
  · rw [if_neg c] <;> exact rfl

theorem RunCountdown_joy (o : Int) (s : State) :
    (RunCountdown o s).joysposition = s.joysposition := by
  unfold RunCountdown
  by_cases c : s.port 0x05 &&& 0x01 = 0
  · rw [if_pos c] <;> exact rfl
  · rw [if_neg c] <;> exact rfl

theorem RunTimeout_joy (_o : Int) (s : State) :
    (RunTimeout s).joysposition = s.joysposition := by
  unfold RunTimeout
  by_cases c : s.timer6846 ≤ 5
  · rw [if_pos c] <;> exact rfl
  · rw [if_neg c] <;> exact rfl

theorem RunTail_joy (o : Int) (s : State) :
    (RunTimeout (RunCountdown o (RunIrq o s))).joysposition = s.joysposition := by
  unfold RunIrq
  have e0 := RunTimerIrqCount_joy o s
  have e1 := RunTimerIrqClear_joy o (RunTimerIrqCount o s)
  have e2 := RunKeybIrqCount_joy o (RunTimerIrqClear (RunTimerIrqCount o s))
  have e3 := RunKeybIrqClear_joy o (RunKeybIrqCount o (RunTimerIrqClear (RunTimerIrqCount o s)))
  have e4 := RunIrqComposite_joy o (RunKeybIrqClear (RunKeybIrqCount o (RunTimerIrqClear (RunTimerIrqCount o s))))
  have e5 := RunCountdown_joy o (RunIrqComposite (RunKeybIrqClear (RunKeybIrqCount o (RunTimerIrqClear (RunTimerIrqCount o s)))))
  have e6 := RunTimeout_joy o (RunCountdown o (RunIrqComposite (RunKeybIrqClear (RunKeybIrqCount o (RunTimerIrqClear (RunTimerIrqCount o s))))))
  exact (e6.trans (e5.trans (e4.trans (e3.trans (e2.trans (e1.trans e0))))))

theorem RunVideo_joy (o : Int) (s : State) :
    (RunVideo o s).joysposition = s.joysposition := by
  unfold RunVideo
  by_cases c : (RunVideoCycle o s).videolinecycle ≥ 64
  · rw [if_pos c]
    unfold RunVideoFlag RunVideoNextLine
    by_cases c2 : (RunVideoEndLine (RunVideoCycle o s)).videolinenumber + 1 > 311
    · rw [if_pos c2] <;> exact rfl
    · rw [if_neg c2] <;> exact rfl
  · rw [if_neg c] <;> exact rfl

theorem RunAfterStep_joy (o : Int) (s : State) :
    (RunAfterStep o s).joysposition = s.joysposition := by
  have e1 := RunTail_joy o (RunVideo o s)
  have e2 := RunVideo_joy o s
  exact e1.trans e2

theorem TO8key_joy (scancode : Int) (down : Bool) (s s1 : State)
    (h : TO8key scancode down s = some s1) : s1.joysposition = s.joysposition := by
  unfold TO8key at h
  by_cases c : 0 ≤ scancode ∧ scancode < (KEYBOARDKEY_MAX : Int)
  · rw [if_pos c] at h
    by_cases c2 : (TO8keyTouche scancode down s).touche scancode.toNat ≠ 0
    · rw [if_pos c2] at h
      cases h
      unfold TO8keyRelease
      by_cases c3 : (List.range 0x50).any
          (fun i => (TO8keyTouche scancode down s).touche i == 0) = true
      · rw [if_pos c3]; rfl
      · rw [if_neg c3]; rfl
    · rw [if_neg c2] at h
      unfold TO8keyPress at h
      by_cases c3 : scancode > 0x4f
      · rw [if_pos c3] at h
        cases h
        rfl
      · rw [if_neg c3] at h
        unfold TO8keyCode at h
        cases h1 : store (TO8keyCapslock scancode (TO8keyTouche scancode down s))
            (ptr (TO8keyCapslock scancode (TO8keyTouche scancode down s)).moniteur 0) 0x30f8
            (toChar (ior scancode
              (TO8keyShift scancode (TO8keyCapslock scancode (TO8keyTouche scancode down s))))) with
        | none => rw [h1] at h; cases h
        | some t1 =>
          rw [h1] at h
          have p1 : t1.joysposition = s.joysposition :=
            (congrArg State.joysposition (regs_store _ _ _ _ _ h1) : t1.regs.joysposition = _)
          cases h2 : store t1 (ptr t1.moniteur 0) 0x3125 (if t1.touche 0x53 ≠ 0 then 0 else 1) with
          | none =>
            have h' : (match store t1 (ptr t1.moniteur 0) 0x3125
                (if t1.touche 0x53 ≠ 0 then 0 else 1) with
              | none => none
              | some s2 => some (TO8keyIrq s2)) = some s1 := h
            rw [h2] at h'; cases h'
          | some t2 =>
            have h' : (match store t1 (ptr t1.moniteur 0) 0x3125
                (if t1.touche 0x53 ≠ 0 then 0 else 1) with
              | none => none
              | some s2 => some (TO8keyIrq s2)) = some s1 := h
            rw [h2] at h'
            have p2 : t2.joysposition = t1.joysposition :=
              (congrArg State.joysposition (regs_store _ _ _ _ _ h2) : t2.regs.joysposition = _)
            cases h'
            show t2.joysposition = s.joysposition
            rw [p2, p1]
  · rw [if_neg c] at h
    cases h

theorem Initprog_joy (s : State) : (Initprog s).joysposition = 0xff := by
  unfold Initprog Reset6809
  rw [TO8rombank_frame, TO8rambank_frame]
  rfl

theorem Hardreset_joy (roms : RomHeaders) (date : Nat → Nat) (s s1 : State)
    (h : Hardreset roms date s = some s1) : s1.joysposition = 0xff := by
  obtain ⟨m, _, rfl⟩ := Hardreset_eq roms date s s1 h
  exact Initprog_joy (HardresetCounters m)

/-- The pairs of opposite direction bits of a byte. -/
theorem joyPairs_natCast (s : State) (p : Nat) (hp : s.joysposition = (p : Int)) (hl : p < 256) :
    JoyPairs s ↔ joyPairsByte p = true := by
  have e : ∀ m : Nat, m < 256 → (iand s.joysposition (m : Int) ≠ 0 ↔ p &&& m ≠ 0) := by
    intro m hm
    rw [hp, iand_natCast p m (by omega) (by omega)]
    exact not_congr Nat.cast_eq_zero
  have e1 := e 0x01 (by norm_num)
  have e2 := e 0x02 (by norm_num)
  have e3 := e 0x04 (by norm_num)
  have e4 := e 0x08 (by norm_num)
  have e5 := e 0x10 (by norm_num)
  have e6 := e 0x20 (by norm_num)
  have e7 := e 0x40 (by norm_num)
  have e8 := e 0x80 (by norm_num)
  simp only [Nat.cast_ofNat, Nat.cast_one] at e1 e2 e3 e4 e5 e6 e7 e8
  unfold JoyPairs joyPairsByte
  rw [e1, e2, e3, e4, e5, e6, e7, e8]
  simp only [Bool.and_eq_true, Bool.or_eq_true, bne_iff_ne, ne_eq, and_assoc]

set_option maxRecDepth 1000000 in
theorem byte_joy_pairs : ∀ k < 8, ∀ p < 256,
    (joyPairsByte p = true ∧ p &&& (1 <<< (k ^^^ 1)) ≠ 0) →
    (p &&& (0xff ^^^ (1 <<< k)) < 256 ∧ joyPairsByte (p &&& (0xff ^^^ (1 <<< k))) = true) ∧
    (p ||| (1 <<< k) < 256 ∧ joyPairsByte (p ||| (1 <<< k)) = true) := by
  decide

theorem joyOK_of_position (s t : State) (h : t.joysposition = s.joysposition) (hs : JoyOK s) :
    JoyOK t := by
  unfold JoyOK JoyPairs at hs ⊢
  rw [h]
  exact hs

theorem joyOK_ff (s : State) (h : s.joysposition = 0xff) : JoyOK s := by
  unfold JoyOK JoyPairs
  rw [h]
  decide

theorem JoysemulBit_high (k : Nat) (hk : ¬ (k < 8)) (s : State) : JoysemulBit k s = 0 := by
  have n0 : ¬ (k = 0) := fun e => hk (by rw [e]; decide)
  have n1 : ¬ (k = 1) := fun e => hk (by rw [e]; decide)
  have n2 : ¬ (k = 2) := fun e => hk (by rw [e]; decide)
  have n3 : ¬ (k = 3) := fun e => hk (by rw [e]; decide)
  have n4 : ¬ (k = 4) := fun e => hk (by rw [e]; decide)
  have n5 : ¬ (k = 5) := fun e => hk (by rw [e]; decide)
  have n6 : ¬ (k = 6) := fun e => hk (by rw [e]; decide)
  have n7 : ¬ (k = 7) := fun e => hk (by rw [e]; decide)
  unfold JoysemulBit
  rw [if_neg n0, if_neg n1, if_neg n2, if_neg n3, if_neg n4, if_neg n5, if_neg n6, if_neg n7]

/-- Every call of `Joysemul` keeps the joystick position a byte in which no
two opposite directions are engaged. -/
theorem Joysemul_joyOK (axis : Nat) (isOn : Bool) (s : State) (h : JoyOK s) :
    JoyOK (Joysemul axis isOn s) := by
  by_cases k8 : axis = 8
  · refine joyOK_of_position s _ ?_ h
    unfold Joysemul
    rw [if_pos k8]
    cases isOn <;> rfl
  by_cases k9 : axis = 9
  · refine joyOK_of_position s _ ?_ h
    unfold Joysemul
    rw [if_neg k8, if_pos k9]
    cases isOn <;> rfl
  by_cases hpos : JoysemulBit axis s > 0
  · have hk : axis < 8 := by
      by_contra c
      rw [JoysemulBit_high axis c s] at hpos
      exact absurd hpos (by decide)
    obtain ⟨⟨h0, h1⟩, hpairs⟩ := h
    obtain ⟨p, hp⟩ := Int.eq_ofNat_of_zero_le h0
    have hpl : p < 256 := by omega
    obtain ⟨m1, m2, m3, m4⟩ := axis_mask_mem axis hk
    have hbit := JoysemulBit_eq axis hk s
    have hopp : iand s.joysposition ((1 <<< (axis ^^^ 1) : Nat) : Int) =
        ((p &&& (1 <<< (axis ^^^ 1)) : Nat) : Int) := by
      rw [hp, iand_natCast p _ (by omega) (by omega)]
    rw [hopp] at hbit
    have hn : p &&& (1 <<< (axis ^^^ 1)) ≠ 0 := by
      intro e
      rw [e] at hbit
      rw [if_neg (fun c => c rfl)] at hbit
      rw [hbit] at hpos
      exact absurd hpos (by decide)
    have hn2 : ((p &&& (1 <<< (axis ^^^ 1)) : Nat) : Int) ≠ 0 := by
      intro e; exact hn (by exact_mod_cast e)
    rw [if_pos hn2] at hbit
    have hb := byte_joy_pairs axis hk p hpl ⟨(joyPairs_natCast s p hp hpl).1 hpairs, hn⟩
    cases isOn with
    | true =>
      have e : (Joysemul axis true s).joysposition =
          ((p &&& (0xff ^^^ (1 <<< axis)) : Nat) : Int) := by
        unfold Joysemul
        rw [if_neg k8, if_neg k9, if_pos hpos]
        show iand s.joysposition (inot (JoysemulBit axis s)) = _
        rw [hbit, hp]
        exact byte_and_inot _ m1 p hpl
      refine ⟨⟨?_, ?_⟩, (joyPairs_natCast _ _ e hb.1.1).2 hb.1.2⟩
      · rw [e]; exact Int.ofNat_nonneg _
      · rw [e]; exact_mod_cast hb.1.1
    | false =>
      have e : (Joysemul axis false s).joysposition = ((p ||| (1 <<< axis) : Nat) : Int) := by
        unfold Joysemul
        rw [if_neg k8, if_neg k9, if_pos hpos]
        show ior s.joysposition (JoysemulBit axis s) = _
        rw [hbit, hp]
        exact ior_natCast p _ (by omega) (by omega)
      refine ⟨⟨?_, ?_⟩, (joyPairs_natCast _ _ e hb.2.1).2 hb.2.2⟩
      · rw [e]; exact Int.ofNat_nonneg _
      · rw [e]; exact_mod_cast hb.2.1
  · have e : Joysemul axis isOn s = s := by
      unfold Joysemul
      rw [if_neg k8, if_neg k9, if_neg hpos]
    rw [e]
    exact h

theorem Joysemuls_joyOK (calls : List (Nat × Bool)) (s : State) (h : JoyOK s) :
    JoyOK (Joysemuls calls s) := by
  induction calls generalizing s with
  | nil => exact h
  | cons c rest ih => exact ih (Joysemul c.1 c.2 s) (Joysemul_joyOK c.1 c.2 s h)

theorem joyOK_step (roms : RomHeaders) (ok : BusOp → Prop) (s s1 : State) (hi : JoyOK s)
    (h : Step roms ok s s1) : JoyOK s1 := by
  cases h with
  | put a c _ _ _ hm => exact joyOK_of_position s s1 (Mputto8d_joy a c s s1 hm) hi
  | get a v _ _ hm => exact joyOK_of_position s s1 (Mgetto8d_joy a v s s1 hm) hi
  | run st _ hm =>
    unfold RunIteration at hm
    cases hb : busOps st.ops s with
    | none => rw [hb] at hm; cases hm
    | some t =>
      rw [hb] at hm
      cases hm
      exact joyOK_of_position s _
        ((RunAfterStep_joy st.opcycles t).trans (busOps_joy st.ops s t hb)) hi
  | key sc down hm => exact joyOK_of_position s s1 (TO8key_joy sc down s s1 hm) hi
  | joy axis isOn _ => exact Joysemul_joyOK axis isOn s hi
  | reset date hm => exact joyOK_ff s1 (Hardreset_joy roms date s s1 hm)
  | flavor date f hm =>
    unfold SetThomsonFlavor at hm
    by_cases c : f ≠ s.currentFlavor
    · rw [if_pos c] at hm
      exact joyOK_ff s1 (Hardreset_joy roms date _ s1 hm)
    · rw [if_neg c] at hm
      cases hm
      exact hi

/-- In every reachable state the joystick position is a byte in which no two
opposite directions are engaged. -/
theorem joyOK_reachable (roms : RomHeaders) (ok : BusOp → Prop) (s : State)
    (h : ReachableBy roms ok s) : JoyOK s := by
  induction h with
  | start basic m8 m8d date hm => exact joyOK_ff _ (Hardreset_joy roms date _ _ hm)
  | step _ hs ih => exact joyOK_step roms ok _ _ ih hs

/-- C24: opposite joystick directions are never active together.  After
`Initprog` (which sets `joysposition = 0xff`) followed by any sequence of
`Joysemul` calls, with any axis numbers and any `isOn` arguments, `joysposition`
is a byte, and in each of the four pairs of opposite direction bits
`0x01/0x02`, `0x04/0x08`, `0x10/0x20`, `0x40/0x80` at least one bit is set.  The
same holds in every state reachable from hard reset by bus accesses, `Run`
iterations, key events, `Joysemul` calls, hard resets and flavor changes. -/
theorem opposite_directions_never_together (roms : RomHeaders) (s0 : State) :
    (Initprog s0).joysposition = 0xff ∧
    (∀ calls : List (Nat × Bool),
      (0 ≤ (Joysemuls calls (Initprog s0)).joysposition ∧
        (Joysemuls calls (Initprog s0)).joysposition < 256) ∧
      (iand (Joysemuls calls (Initprog s0)).joysposition 0x01 ≠ 0 ∨
        iand (Joysemuls calls (Initprog s0)).joysposition 0x02 ≠ 0) ∧
      (iand (Joysemuls calls (Initprog s0)).joysposition 0x04 ≠ 0 ∨
        iand (Joysemuls calls (Initprog s0)).joysposition 0x08 ≠ 0) ∧
      (iand (Joysemuls calls (Initprog s0)).joysposition 0x10 ≠ 0 ∨
        iand (Joysemuls calls (Initprog s0)).joysposition 0x20 ≠ 0) ∧
      (iand (Joysemuls calls (Initprog s0)).joysposition 0x40 ≠ 0 ∨
        iand (Joysemuls calls (Initprog s0)).joysposition 0x80 ≠ 0)) ∧
    (∀ s, Reachable roms s → JoyOK s) :=
  ⟨Initprog_joy s0,
    fun calls => Joysemuls_joyOK calls (Initprog s0) (joyOK_ff _ (Initprog_joy s0)),
    fun s h => joyOK_reachable roms _ s h⟩

/-- C24 at a concrete reachable state: with the joystick pushed south, the pairs
of opposite direction bits each keep a bit set. -/
theorem opposite_directions_never_together_witness :
    Reachable exRoms exJoySouth ∧ JoyOK exJoySouth ∧
    (Joysemuls [(1, true), (0, true), (3, true), (2, true)] (Initprog exStart)).joysposition
      = 0xf5 :=
  ⟨exJoySouth_reachable,
    (opposite_directions_never_together exRoms exStart).2.2 exJoySouth exJoySouth_reachable,
    by decide⟩

end Theodore
